import Mathlib

/-!
# event-monitor: a shallow embedding of the orchestration core

The C++ service (`src/service/*.cpp`) is embedded as Lean functions over an explicit
`World` (the heap objects reachable from `main`: the `LunaService` gateway, the
`PluginManager`, the `ServiceMonitor`, the `PluginLoader` and every live `PluginAdapter`).

* C++ exceptions are the error component of the monad `M`; the state written before a
  `throw` is kept, as in C++.
* Pointers are natural numbers handed out by monotone allocators; a dereference of a
  deleted or null pointer is the error `Err.fault`.
* The bus, the dynamic loader and the plugin code are the environment.  The bus is a
  stream of outcomes (`World.bus`), one per bus operation; the plugin code is a tree of
  `Manager` calls (`PluginCode`) chosen by a `PluginBehaviour`.
* `World.trace` is ghost state: the calls into plugin code, the bus operations and the
  two `PluginManager` entry points used by the `ServiceMonitor` are appended to it.
-/

namespace EventMonitor

/-! ## pbnjson values -/

/-- A pbnjson `JValue`.  `invalid` is the value a failed parse returns and the value that
indexing a missing key (or a non-object) yields. -/
inductive JValue where
  | invalid
  | null
  | bool (b : Bool)
  | num (n : Int)
  | str (s : String)
  | arr (items : List JValue)
  | obj (fields : List (String × JValue))
  deriving Inhabited

namespace JValue

/-- The pbnjson test `JValue::isValid`. -/
def isValid : JValue → Bool
  | invalid => false
  | _ => true

/-- The pbnjson test `JValue::isObject` (same as `getType() == JV_OBJECT`). -/
def isObject : JValue → Bool
  | obj _ => true
  | _ => false

/-- The pbnjson test `JValue::isNull`. -/
def isNull : JValue → Bool
  | null => true
  | _ => false

/-- The pbnjson `operator[]` with a string key. -/
def get (v : JValue) (key : String) : JValue :=
  match v with
  | obj fields => (fields.lookup key).getD invalid
  | _ => invalid

/-- The pbnjson `asString`: `none` stands for a non-zero `ConversionResultFlags`. -/
def asString : JValue → Option String
  | str s => some s
  | _ => none

/-- The pbnjson `asBool`: `none` stands for a non-zero `ConversionResultFlags`. -/
def asBool : JValue → Option Bool
  | bool b => some b
  | _ => none

/-- Replace the value stored under `key`, or append the pair. -/
def putField (key : String) (x : JValue) : List (String × JValue) → List (String × JValue)
  | [] => [(key, x)]
  | (k, y) :: rest => if k = key then (key, x) :: rest else (k, y) :: putField key x rest

/-- The pbnjson `JValue::put` on an object; other values are left alone. -/
def put (v : JValue) (key : String) (x : JValue) : JValue :=
  match v with
  | obj fields => obj (putField key x fields)
  | other => other

end JValue

/-- A pbnjson `JSchema`, as the set of values it accepts. -/
structure JSchema where
  validate : JValue → Bool

/-- The schema `JSchema::AllSchema()`. -/
def JSchema.AllSchema : JSchema := ⟨fun _ => true⟩

/-- The result of `JDomParser::fromString(payload, schema)`: the parsed value when it is
valid and accepted by the schema, the invalid value otherwise. -/
def JDomParser.fromString (payload : JValue) (schema : JSchema) : JValue :=
  if payload.isValid && schema.validate payload then payload else JValue.invalid

/-! ## Finite maps (`std::unordered_map`) as association lists -/

namespace Map

variable {κ : Type} [DecidableEq κ] {V : Type}

/-- The C++ `m.count(k) > 0`. -/
def contains (m : List (κ × V)) (k : κ) : Bool :=
  m.any fun e => decide (e.1 = k)

/-- The value stored under `k`. -/
def find? : List (κ × V) → κ → Option V
  | [], _ => none
  | (k', v) :: rest, k => if k' = k then some v else find? rest k

/-- The C++ `m.erase(k)`. -/
def erase : List (κ × V) → κ → List (κ × V)
  | [], _ => []
  | (k', v) :: rest, k => if k' = k then erase rest k else (k', v) :: erase rest k

/-- The C++ `m[k] = v`: overwrite in place, or add a new entry. -/
def insert : List (κ × V) → κ → V → List (κ × V)
  | [], k, v => [(k, v)]
  | (k', v') :: rest, k, v => if k' = k then (k, v) :: rest else (k', v') :: insert rest k v

/-- The keys, in iteration order. -/
def keys (m : List (κ × V)) : List κ := m.map Prod.fst

/-- The C++ `m.erase(k)` on the key set of a map whose values are not modelled. -/
def eraseKey : List κ → κ → List κ
  | [], _ => []
  | k' :: rest, k => if k' = k then eraseKey rest k else k' :: eraseKey rest k

end Map

/-! ## Identities -/

/-- A `PluginAdapter *`. -/
abbrev AdapterPtr := Nat
/-- A `SubscriptionInfo *` (the types `SubscribeHandle` and `CallHandle`). -/
abbrev SubscribeHandle := Nat
/-- A `Plugin *`. -/
abbrev PluginPtr := Nat

/-- The value of `enum UnloadResult` (api.h). -/
inductive UnloadResult where
  | UNLOAD_OK
  | UNLOAD_CANCEL
  deriving DecidableEq, Repr

/-- A `SubscribeCallback`.  The two callbacks bound by the `ServiceMonitor` are code of
the core; every other one is a closure of plugin code, known by a tag. -/
inductive SubscribeCallback where
  | localeCallback
  | serviceStatusCallback
  | plugin (tag : Nat)
  deriving DecidableEq, Repr

/-- A non-empty `LunaCallback`, `TimeoutCallback` or `LunaCallHandler` closure of plugin
code, known by a tag. -/
abbrev PluginCallback := Nat

/-- The descriptor `PluginInfo` (plugininfo.h is not part of the sources; the fields are
the ones the code reads; `dlHandle` is kept by the `PluginLoader` of the model). -/
structure PluginInfo where
  name : String
  path : String
  requiredServices : List String
  deriving DecidableEq, Repr

/-! ## Exceptions -/

/-- What a C++ frame can be left with. -/
inductive Err where
  /-- An `EventMonitor::Error` with its message. -/
  | error (what : String)
  /-- An `LS::Error` of the bus transport. -/
  | lsError
  /-- An exception thrown by plugin code. -/
  | pluginException
  /-- Undefined behaviour: a null or dangling pointer is dereferenced. -/
  | fault (why : String)
  deriving DecidableEq, Repr

/-! ## Plugin code -/

/-- A call of plugin code on its `EventMonitor::Manager` (api.h); the adapter that
receives the call is the one the plugin was constructed with. -/
inductive ManagerCall where
  | setupLogging
  | getUILocale
  | getLocaleInfo
  | unloadPlugin
  | lunaCall (serviceUrl : String) (params : JValue) (timeout : Nat)
  | lunaCallAsync (serviceUrl : String) (params : JValue) (callback : Option PluginCallback)
  | subscribeToMethod (subscriptionId methodPath : String) (params : JValue)
      (callback : Option Nat) (schema : JSchema)
  | unsubscribeFromMethod (subscriptionId : String)
  | subscribeToSignal (subscriptionId category method : String)
      (callback : Option Nat) (schema : JSchema)
  | unsubscribeFromSignal (subscriptionId : String)
  | setTimeout (timeoutId : String) (timeMs : Nat) (repeat_ : Bool) (callback : PluginCallback)
  | cancelTimeout (timeoutId : String)
  | registerMethod (categoryName methodName : String) (handler : Option PluginCallback)
      (schema : JSchema)
  | createToast (message iconUrl : String) (onClickAction : JValue)
  | createAlert (alertId title message : String) (modal : Bool) (iconUrl : String)
      (buttons onClose : JValue)
  | closeAlert (alertId : String)

/-- What a `Manager` call hands back to the plugin code. -/
inductive CallResult where
  | unit
  | bool (b : Bool)
  | string (s : String)
  | value (v : JValue)
  /-- The call threw; the plugin code may catch the exception or let it through. -/
  | raised (e : Err)

/-- One activation of plugin code, as the tree of `Manager` calls it makes: it returns
`r`, or throws, or calls the manager and goes on with what the call handed back. -/
inductive PluginCode (R : Type) where
  | ret (r : R)
  | throw
  | call (c : ManagerCall) (next : CallResult → PluginCode R)

/-- How `PluginLoader::loadPlugin` fares for a descriptor. -/
inductive Instantiation where
  /-- The call `dlopen` returns null. -/
  | dlopenFails
  /-- The symbol `instantiatePlugin` is not found. -/
  | noInstantiateFunc
  /-- The function `instantiatePlugin` runs; it returns an object (`true`) or null. -/
  | runs (code : PluginCode Bool)

/-- The plugin code that the environment runs during one event.  Plugins are known by
their descriptor path, closures by their tag. -/
structure PluginBehaviour where
  instantiatePlugin : String → Instantiation
  startMonitoring : String → PluginCode Unit
  stopMonitoring : String → String → PluginCode UnloadResult
  uiLocaleChanged : String → String → PluginCode Unit
  subscribeCallback : Nat → JValue → JValue → PluginCode Unit
  lunaCallback : PluginCallback → JValue → PluginCode Unit
  timeoutCallback : PluginCallback → String → PluginCode Unit
  lunaCallHandler : PluginCallback → JValue → PluginCode JValue

/-! ## The heap objects -/

/-- The class `MethodInfo` (lunaservice.h). -/
structure MethodInfo where
  plugin : Option AdapterPtr := none
  handler : Option PluginCallback := none
  schema : JSchema := JSchema.AllSchema
  url : String := ""

/-- The class `SubscriptionInfo` (lunaservice.h); the field `service` always points to
the one gateway and the `LS::Call` is the bus stream opened for the record. -/
structure SubscriptionInfo where
  plugin : Option AdapterPtr := none
  subscribeCallback : Option SubscribeCallback := none
  simpleCallback : Option PluginCallback := none
  serviceUrl : String := ""
  previousValue : JValue := JValue.null
  schema : JSchema
  counter : Nat := 0

/-- The class `LunaService`: the map `subscriptions` (its keys), the heap of the
`SubscriptionInfo` objects the keys point to, and `categoryMethods`. -/
structure LunaService where
  servicePath : String
  subscriptions : List SubscribeHandle := []
  subscriptionInfos : List (SubscribeHandle × SubscriptionInfo) := []
  nextSubscription : SubscribeHandle := 1
  categoryMethods : List (String × List (String × MethodInfo)) := []

/-- The class `TimeoutState` (pluginadapter.h); the adapter is the owner of the map. -/
structure TimeoutState where
  timeoutId : String
  repeat_ : Bool
  handle : Nat
  callback : PluginCallback
  deriving DecidableEq, Repr

/-- The class `PluginAdapter` (pluginadapter.h); `manager` always points to the one
manager. -/
structure PluginAdapter where
  needUnload : Bool := false
  info : PluginInfo
  plugin : Option PluginPtr := none
  unloadNotified : Bool := false
  subscriptions : List (String × SubscribeHandle) := []
  timeouts : List (String × TimeoutState) := []
  alerts : List (String × String) := []
  deriving DecidableEq, Repr

/-- The class `PluginManager` (pluginmanager.h). -/
structure PluginManager where
  locale : JValue := JValue.null
  activePlugins : List (String × AdapterPtr) := []

/-- The class `ServiceMonitor` (servicemonitor.h). -/
structure ServiceMonitor where
  plugins : List PluginInfo := []
  serviceStatus : List (String × Bool) := []
  monitorStarted : Bool := false

/-- The class `PluginLoader`: the descriptors whose `dlHandle` is set. -/
structure PluginLoader where
  dlHandle : List String := []

/-- The outcome of one bus operation: a `callOneReply` with `get`, or a `callMultiReply`
(with the first `get` when the first response is checked). -/
inductive BusOutcome where
  /-- The reply payload as parsed by `JDomParser`; `invalid` if it does not parse. -/
  | reply (payload : JValue)
  /-- No reply within the timeout. -/
  | noReply
  /-- The transport throws `LS::Error`. -/
  | lsError

/-- Ghost record of what the core did to the world outside. -/
inductive Event where
  /-- The manager entry point `PluginManager::loadPlugin` is entered. -/
  | loadPlugin (path service : String)
  /-- The manager entry point `PluginManager::notifyPluginShouldUnload` is entered. -/
  | notifyPluginShouldUnload (path service : String)
  | instantiatePlugin (path : String)
  | startMonitoring (path : String)
  | stopMonitoring (path service : String)
  | uiLocaleChanged (path locale : String)
  | deletePlugin (path : String)
  | subscribeCallback (handle : SubscribeHandle) (previous value : JValue)
  | lunaCallback (handle : SubscribeHandle) (value : JValue)
  | lunaCallHandler (category method : String) (value : JValue)
  | timeoutCallback (path timeoutId : String)
  | callOneReply (serviceUrl : String) (params : JValue)
  | callMultiReply (handle : SubscribeHandle) (serviceUrl : String) (params : JValue)
      (checkFirstResponse : Bool)
  | callCancel (handle : SubscribeHandle)
  | respond (payload : JValue)
  | registerCategoryAppend (category method : String)
  | timeoutAdd (handle : Nat) (timeMs : Nat)
  | sourceRemove (handle : Nat)
  | dlclose (path : String)

/-- Everything the process owns, the coming bus outcomes and the ghost trace. -/
structure World where
  service : LunaService
  manager : PluginManager := {}
  monitor : ServiceMonitor := {}
  loader : PluginLoader := {}
  adapters : List (AdapterPtr × PluginAdapter) := []
  nextAdapter : AdapterPtr := 1
  nextPlugin : PluginPtr := 1
  nextTimeout : Nat := 1
  bus : List BusOutcome := []
  trace : List Event := []

/-! ## The monad of C++ code -/

/-- A C++ computation: it ends with a value or an exception, and with a new world. -/
def M (α : Type) : Type := World → Except Err α × World

namespace M

/-- Return. -/
def ret {α : Type} (a : α) : M α := fun w => (Except.ok a, w)

/-- Sequencing; an exception skips the rest and keeps the world it was thrown in. -/
def andThen {α β : Type} (m : M α) (f : α → M β) : M β := fun w =>
  match m w with
  | (Except.ok a, w') => f a w'
  | (Except.error e, w') => (Except.error e, w')

/-- The C++ `throw`. -/
def raise {α : Type} (e : Err) : M α := fun w => (Except.error e, w)

/-- The C++ `try { m } catch (...) { h }`, for the exceptions that `catches` selects. -/
def tryCatch {α : Type} (m : M α) (catches : Err → Bool) (h : Err → M α) : M α := fun w =>
  match m w with
  | (Except.ok a, w') => (Except.ok a, w')
  | (Except.error e, w') => if catches e then h e w' else (Except.error e, w')

/-- Read the world. -/
def get : M World := fun w => (Except.ok w, w)

/-- Update the world. -/
def modify (f : World → World) : M Unit := fun w => (Except.ok (), f w)

end M

instance : Monad M where
  pure := M.ret
  bind := M.andThen

/-- Append an event to the ghost trace. -/
def emit (e : Event) : M Unit :=
  M.modify fun w => { w with trace := w.trace ++ [e] }

/-- A `catch (...)` clause cannot catch undefined behaviour. -/
def Err.isException : Err → Bool
  | Err.fault _ => false
  | _ => true

/-- The clause `catch (const LS::Error &)`. -/
def Err.isLSError : Err → Bool
  | Err.lsError => true
  | _ => false

/-- Take the outcome of the next bus operation; past the end of the stream nothing
answers. -/
def nextBusOutcome : M BusOutcome := fun w =>
  match w.bus with
  | [] => (Except.ok BusOutcome.noReply, w)
  | o :: rest => (Except.ok o, { w with bus := rest })

/-! ## Heap access -/

/-- Dereference a `SubscriptionInfo *`. -/
def derefSubscription (h : SubscribeHandle) : M SubscriptionInfo := fun w =>
  match Map.find? w.service.subscriptionInfos h with
  | some info => (Except.ok info, w)
  | none => (Except.error (Err.fault "SubscriptionInfo used after delete"), w)

/-- Write through a `SubscriptionInfo *`. -/
def updateSubscription (h : SubscribeHandle) (f : SubscriptionInfo → SubscriptionInfo) :
    M Unit := fun w =>
  match Map.find? w.service.subscriptionInfos h with
  | some info =>
      (Except.ok (), { w with service := { w.service with
          subscriptionInfos := Map.insert w.service.subscriptionInfos h (f info) } })
  | none => (Except.error (Err.fault "SubscriptionInfo used after delete"), w)

/-- The C++ `new SubscriptionInfo(schema)`. -/
def newSubscription (schema : JSchema) : M SubscribeHandle := fun w =>
  (Except.ok w.service.nextSubscription, { w with service := { w.service with
      subscriptionInfos :=
        Map.insert w.service.subscriptionInfos w.service.nextSubscription { schema := schema },
      nextSubscription := w.service.nextSubscription + 1 } })

/-- The C++ `delete info`; the destructor of the `LS::Call` inside cancels the stream. -/
def deleteSubscription (h : SubscribeHandle) : M Unit := fun w =>
  match Map.find? w.service.subscriptionInfos h with
  | some _ =>
      (Except.ok (), { w with service := { w.service with
          subscriptionInfos := Map.erase w.service.subscriptionInfos h } })
  | none => (Except.error (Err.fault "SubscriptionInfo deleted twice"), w)

/-- Dereference a `PluginAdapter *`. -/
def derefAdapter (a : AdapterPtr) : M PluginAdapter := fun w =>
  match Map.find? w.adapters a with
  | some adapter => (Except.ok adapter, w)
  | none => (Except.error (Err.fault "PluginAdapter used after delete"), w)

/-- Write through a `PluginAdapter *`. -/
def updateAdapter (a : AdapterPtr) (f : PluginAdapter → PluginAdapter) : M Unit := fun w =>
  match Map.find? w.adapters a with
  | some adapter => (Except.ok (), { w with adapters := Map.insert w.adapters a (f adapter) })
  | none => (Except.error (Err.fault "PluginAdapter used after delete"), w)

/-- Update the fields of the gateway. -/
def updateService (f : LunaService → LunaService) : M Unit :=
  M.modify fun w => { w with service := f w.service }

/-! ## LunaService (lunaservice.cpp) -/

namespace LunaService

/-- The inline `LunaService::findMethod`. -/
def findMethod (s : LunaService) (category name : String) : Option MethodInfo :=
  match Map.find? s.categoryMethods category with
  | some methods => Map.find? methods name
  | none => none

/-- The C++ `this->categoryMethods[category][methodName] = info`, also used for the
writes through the `MethodInfo *` of an existing record. -/
def storeMethod (s : LunaService) (category name : String) (info : MethodInfo) : LunaService :=
  let methods := (Map.find? s.categoryMethods category).getD []
  { s with categoryMethods := Map.insert s.categoryMethods category (Map.insert methods name info) }

/-- The parameters sent on the bus by `call` and `callAsync`. -/
def callParams (params : JValue) : JValue :=
  if params.isObject then params else JValue.obj []

/-- The parameters sent on the bus by `subscribeToMethod`. -/
def subscribeParams (params : JValue) : JValue :=
  if params.isObject then params.put "subscribe" (JValue.bool true)
  else JValue.obj [("subscribe", JValue.bool true)]

/-- The method `LunaService::call`. -/
def call (serviceUrl : String) (params : JValue) (timeout : Nat) : M JValue := do
  let paramsStr := callParams params
  let _ := timeout
  emit (Event.callOneReply serviceUrl paramsStr)
  let reply ← nextBusOutcome
  match reply with
  | BusOutcome.lsError => M.raise Err.lsError
  | BusOutcome.noReply => pure JValue.null
  | BusOutcome.reply payload =>
      let value := JDomParser.fromString payload JSchema.AllSchema
      pure value

/-- The method `LunaService::callAsync`. -/
def callAsync (serviceUrl : String) (params : JValue) (callback : Option PluginCallback)
    (plugin : Option AdapterPtr) : M (Option SubscribeHandle) := do
  let paramsStr := callParams params
  match callback with
  | none =>
      emit (Event.callOneReply serviceUrl paramsStr)
      let reply ← nextBusOutcome
      match reply with
      | BusOutcome.lsError => M.raise Err.lsError
      | _ => pure none
  | some cb =>
      let info ← newSubscription JSchema.AllSchema
      M.tryCatch
        (do
          updateService fun s => { s with subscriptions := s.subscriptions.insert info }
          emit (Event.callMultiReply info serviceUrl paramsStr false)
          let reply ← nextBusOutcome
          match reply with
          | BusOutcome.lsError => M.raise Err.lsError
          | _ =>
              updateSubscription info fun i => { i with
                simpleCallback := some cb, counter := 0, plugin := plugin,
                serviceUrl := serviceUrl, previousValue := JValue.null }
              pure (some info))
        Err.isLSError
        (fun e => do
          deleteSubscription info
          M.raise e)

/-- The method `LunaService::registerMethod`. -/
def registerMethod (plugin : Option AdapterPtr) (category methodName : String)
    (handler : Option PluginCallback) (schema : JSchema) : M MethodInfo := do
  if plugin.isNone then
    M.raise (Err.error "Plugin == null")
  else
    let w ← M.get
    let info := findMethod w.service category methodName
    match info with
    | some i =>
        if i.plugin.isSome && i.plugin != plugin then
          M.raise (Err.error
            "Method already registered for different plugin. Cross-plugin method override not allowed.")
        else
          let i' := { i with plugin := plugin, handler := handler, schema := schema }
          updateService fun s => storeMethod s category methodName i'
          pure i'
    | none =>
        emit (Event.registerCategoryAppend category methodName)
        let i' : MethodInfo :=
          { url := "luna://" ++ w.service.servicePath ++ category ++ "/" ++ methodName
            plugin := plugin, handler := handler, schema := schema }
        updateService fun s => storeMethod s category methodName i'
        pure i'

/-- The checks of `LunaService::subscribeToMethod` on the first response. -/
def checkFirst (info : SubscribeHandle) (reply : BusOutcome) : M Unit :=
  match reply with
  | BusOutcome.reply payload =>
      let value := JDomParser.fromString payload JSchema.AllSchema
      match (value.get "returnValue").asBool with
      | none => do
          deleteSubscription info
          M.raise (Err.error "Failed to parse returnValue in first response")
      | some false => do
          deleteSubscription info
          M.raise (Err.error "First response failed")
      | some true => pure ()
  | _ => do
      deleteSubscription info
      M.raise (Err.error "SubscribeToMethod: No luna call response within 1000 ms")

/-- The method `LunaService::subscribeToMethod`. -/
def subscribeToMethod (serviceUrl : String) (params : JValue)
    (callback : Option SubscribeCallback) (schema : JSchema) (plugin : Option AdapterPtr)
    (checkFirstResponse : Bool) : M SubscribeHandle := do
  let paramsStr := subscribeParams params
  let info ← newSubscription schema
  M.tryCatch
    (do
      updateService fun s => { s with subscriptions := s.subscriptions.insert info }
      emit (Event.callMultiReply info serviceUrl paramsStr checkFirstResponse)
      let reply ← nextBusOutcome
      match reply with
      | BusOutcome.lsError => M.raise Err.lsError
      | _ =>
          if checkFirstResponse then
            checkFirst info reply
          updateSubscription info fun i => { i with
            subscribeCallback := callback, counter := 0, plugin := plugin,
            serviceUrl := serviceUrl, previousValue := JValue.null }
          pure info)
    Err.isLSError
    (fun e => do
      deleteSubscription info
      M.raise e)

/-- The method `LunaService::cancelSubscribe`. -/
def cancelSubscribe (info : SubscribeHandle) : M Unit := do
  let w ← M.get
  if info ∈ w.service.subscriptions then
    let _ ← derefSubscription info
    emit (Event.callCancel info)
    deleteSubscription info
    updateService fun s => { s with subscriptions := Map.eraseKey s.subscriptions info }

/-- The first loop of `LunaService::cleanupPlugin`, over the keys of `subscriptions`. -/
def cleanupSubscriptions (plugin : Option AdapterPtr) : List SubscribeHandle → M Unit
  | [] => pure ()
  | key :: rest => do
      let info ← derefSubscription key
      if info.plugin = plugin then
        emit (Event.callCancel key)
        deleteSubscription key
        updateService fun s => { s with subscriptions := Map.eraseKey s.subscriptions key }
      cleanupSubscriptions plugin rest

/-- The body of the second loop of `LunaService::cleanupPlugin`. -/
def cleanupMethod (plugin : Option AdapterPtr) (info : MethodInfo) : MethodInfo :=
  if info.plugin = plugin then { info with plugin := none, handler := none } else info

/-- The second loop of `LunaService::cleanupPlugin`. -/
def cleanupMethods (plugin : Option AdapterPtr) (s : LunaService) : LunaService :=
  let cleaned := s.categoryMethods.map fun cat =>
    (cat.1, cat.2.map fun m => (m.1, cleanupMethod plugin m.2))
  { s with categoryMethods := cleaned }

/-- The method `LunaService::cleanupPlugin`. -/
def cleanupPlugin (plugin : Option AdapterPtr) : M Unit := do
  let w ← M.get
  cleanupSubscriptions plugin w.service.subscriptions
  updateService fun s => cleanupMethods plugin s

end LunaService

/-! ## PluginInfo (plugininfo.cpp) -/

/-- The loop of `splitString` over the characters of the string; `item` is the segment
read so far, last character first. -/
def splitChars (delim : Char) : List Char → List Char → List String
  | [], item => if item = [] then [] else [String.mk item.reverse]
  | c :: rest, item =>
      if c = delim then String.mk item.reverse :: splitChars delim rest []
      else splitChars delim rest (c :: item)

/-- Modelled from the spec: `splitString(s, delim)` is declared in utils.h and its
definition (utils.cpp) is not part of the sources.  The spec calls the service name
"the second URL path segment" of an address "of the form `luna://<service>/<path>`", so
the function cuts the string at each delimiter; as utils.h pulls in `<sstream>`, the
segments are read the way `std::getline` reads them (an empty segment at the very end
is not produced). -/
def splitString (s : String) (delim : Char) : List String :=
  splitChars delim s.toList []

/-- The method `PluginInfo::containsURI`. -/
def PluginInfo.containsURI (self : PluginInfo) (uri : String) : Except Err Bool :=
  match splitString uri '/' with
  | p0 :: p1 :: p2 :: _ =>
      if p0 != "luna:" || p1 != "" || p2.length == 0 then
        Except.error (Err.error "Bad luna URL")
      else
        let serviceName := p2
        Except.ok (self.requiredServices.any fun s => s == serviceName)
  | _ => Except.error (Err.error "Bad luna URL")

/-- Run a function that may throw inside the monad. -/
def liftExcept {α : Type} : Except Err α → M α
  | Except.ok a => pure a
  | Except.error e => M.raise e

/-! ## PluginManager::getUILocale (pluginmanager.cpp) -/

/-- The method `PluginManager::getUILocale`; a failed `asString` leaves the default. -/
def PluginManager.getUILocale (self : PluginManager) : String :=
  (((self.locale.get "locales").get "UI").asString).getD "en-US"

/-! ## PluginAdapter, the Manager API (pluginadapter.cpp) -/

namespace PluginAdapter

/-- The method `PluginAdapter::closeAlert`. -/
def closeAlert (self : AdapterPtr) (alertId : String) : M Bool := do
  let this ← derefAdapter self
  match Map.find? this.alerts alertId with
  | none => pure false
  | some internalId =>
      let params := JValue.obj [("alertId", JValue.str internalId)]
      updateAdapter self fun a => { a with alerts := Map.erase a.alerts alertId }
      let _ ← LunaService.call "luna://com.webos.notification/closeAlert" params 1000
      pure true

/-- The method `PluginAdapter::cancelTimeout`. -/
def cancelTimeout (self : AdapterPtr) (timeoutId : String) : M Bool := do
  let this ← derefAdapter self
  match Map.find? this.timeouts timeoutId with
  | none => pure false
  | some timeout =>
      updateAdapter self fun a => { a with timeouts := Map.erase a.timeouts timeoutId }
      emit (Event.sourceRemove timeout.handle)
      pure true

/-- The loop `while (!this->alerts.empty()) closeAlert(this->alerts.begin()->first)`;
the fuel is the size of the map, as every turn erases the entry it closes. -/
def closeAlerts (self : AdapterPtr) : Nat → M Unit
  | 0 => pure ()
  | fuel + 1 => do
      let this ← derefAdapter self
      match this.alerts with
      | [] => pure ()
      | first :: _ =>
          let _ ← closeAlert self first.1
          closeAlerts self fuel

/-- The loop `while (!this->timeouts.empty()) cancelTimeout(this->timeouts.cbegin()->first)`;
the fuel is the size of the map. -/
def cancelTimeouts (self : AdapterPtr) : Nat → M Unit
  | 0 => pure ()
  | fuel + 1 => do
      let this ← derefAdapter self
      match this.timeouts with
      | [] => pure ()
      | first :: _ =>
          let _ ← cancelTimeout self first.1
          cancelTimeouts self fuel

/-- The method `PluginAdapter::unloadPlugin`. -/
def unloadPlugin (self : AdapterPtr) : M Unit := do
  let this ← derefAdapter self
  if this.plugin.isNone then
    pure ()
  else
    LunaService.cleanupPlugin (some self)
    closeAlerts self this.alerts.length
    cancelTimeouts self this.timeouts.length
    updateAdapter self fun a => { a with needUnload := true }

/-- The method `PluginAdapter::unsubscribeFromMethod`. -/
def unsubscribeFromMethod (self : AdapterPtr) (subscriptionId : String) : M Bool := do
  let this ← derefAdapter self
  match Map.find? this.subscriptions subscriptionId with
  | none => pure false
  | some handle =>
      LunaService.cancelSubscribe handle
      updateAdapter self fun a =>
        { a with subscriptions := Map.erase a.subscriptions subscriptionId }
      pure true

/-- The method `PluginAdapter::subscribeToMethod`. -/
def subscribeToMethod (self : AdapterPtr) (subscriptionId serviceName : String)
    (params : JValue) (callback : Option SubscribeCallback) (schema : JSchema) : M Unit := do
  let _ ← unsubscribeFromMethod self subscriptionId
  let this ← derefAdapter self
  let allowed ← liftExcept (this.info.containsURI serviceName)
  if !allowed then
    M.raise (Err.error "Can only subscribe to services that are in required list")
  else
    let handle ← LunaService.subscribeToMethod serviceName params callback schema (some self) false
    updateAdapter self fun a =>
      { a with subscriptions := Map.insert a.subscriptions subscriptionId handle }

/-- The method `PluginAdapter::unsubscribeFromSignal`. -/
def unsubscribeFromSignal (self : AdapterPtr) (subscriptionId : String) : M Bool :=
  unsubscribeFromMethod self subscriptionId

/-- The method `PluginAdapter::subscribeToSignal`. -/
def subscribeToSignal (self : AdapterPtr) (subscriptionId category method : String)
    (callback : Option SubscribeCallback) (schema : JSchema) : M Unit := do
  let _ ← unsubscribeFromSignal self subscriptionId
  let base := JValue.obj [("category", JValue.str category)]
  let params := if method.length > 0 then base.put "method" (JValue.str method) else base
  let handle ← LunaService.subscribeToMethod "luna://com.webos.service.bus/signal/addmatch"
    params callback schema (some self) true
  updateAdapter self fun a =>
    { a with subscriptions := Map.insert a.subscriptions subscriptionId handle }

/-- The method `PluginAdapter::lunaCall`. -/
def lunaCall (self : AdapterPtr) (serviceUrl : String) (params : JValue) (timeout : Nat) :
    M JValue :=
  let _ := self
  LunaService.call serviceUrl params timeout

/-- The method `PluginAdapter::lunaCallAsync`. -/
def lunaCallAsync (self : AdapterPtr) (serviceUrl : String) (params : JValue)
    (callback : Option PluginCallback) : M Unit := do
  let _ ← LunaService.callAsync serviceUrl params callback (some self)
  pure ()

/-- The method `PluginAdapter::setTimeout`; `g_timeout_add` hands out a source id greater
than zero, so the branch for a zero handle is never taken. -/
def setTimeout (self : AdapterPtr) (timeoutId : String) (timeMs : Nat) (repeat_ : Bool)
    (callback : PluginCallback) : M Unit := do
  let _ ← cancelTimeout self timeoutId
  let w ← M.get
  let handle := w.nextTimeout
  M.modify fun w => { w with nextTimeout := w.nextTimeout + 1 }
  emit (Event.timeoutAdd handle timeMs)
  let timeout : TimeoutState :=
    { timeoutId := timeoutId, repeat_ := repeat_, handle := handle, callback := callback }
  updateAdapter self fun a => { a with timeouts := Map.insert a.timeouts timeoutId timeout }

/-- The method `PluginAdapter::createToast`. -/
def createToast (self : AdapterPtr) (message iconUrl : String) (onClickAction : JValue) :
    M Unit := do
  let this ← derefAdapter self
  let w ← M.get
  let p0 := JValue.obj [("message", JValue.str message),
    ("sourceId", JValue.str (w.service.servicePath ++ "-" ++ this.info.name))]
  let p1 := if iconUrl.length > 0 then p0.put "iconUrl" (JValue.str iconUrl) else p0
  let p2 := if !onClickAction.isNull then p1.put "onclick" onClickAction else p1
  let _ ← LunaService.callAsync "luna://com.webos.notification/createToast" p2 none (some self)
  pure ()

/-- The method `PluginAdapter::createAlert`. -/
def createAlert (self : AdapterPtr) (alertId title message : String) (modal : Bool)
    (iconUrl : String) (buttons onClose : JValue) : M Unit := do
  let _ ← closeAlert self alertId
  let p0 := JValue.obj [("title", JValue.str title), ("modal", JValue.bool modal),
    ("message", JValue.str message), ("buttons", buttons)]
  let p1 := if !onClose.isNull then p0.put "onclose" onClose else p0
  let p2 := if iconUrl.length > 0 then p1.put "iconUrl" (JValue.str iconUrl) else p1
  let result ← LunaService.call "luna://com.webos.notification/createAlert" p2 1000
  let success := (result.get "returnValue").asBool
  let internalId := (result.get "alertId").asString
  match success, internalId with
  | some true, some id =>
      if id.length == 0 then
        M.raise (Err.error "Failed to create alert")
      else
        updateAdapter self fun a => { a with alerts := Map.insert a.alerts alertId id }
  | _, _ => M.raise (Err.error "Failed to create alert")

/-- The method `PluginAdapter::registerMethod`. -/
def registerMethod (self : AdapterPtr) (category name : String)
    (handler : Option PluginCallback) (schema : JSchema) : M String := do
  if name.length == 0 then
    M.raise (Err.error "Name length = 0")
  else if category.length == 0 || category.get 0 != '/' then
    M.raise (Err.error "Category needs to start with /")
  else
    let method ← LunaService.registerMethod (some self) category name handler schema
    pure method.url

/-- The virtual call through the `Manager *` that the plugin holds. -/
def dispatch (self : AdapterPtr) : ManagerCall → M CallResult
  | ManagerCall.setupLogging => pure CallResult.unit
  | ManagerCall.getUILocale => do
      let w ← M.get
      pure (CallResult.string w.manager.getUILocale)
  | ManagerCall.getLocaleInfo => do
      let w ← M.get
      pure (CallResult.value w.manager.locale)
  | ManagerCall.unloadPlugin => do
      unloadPlugin self
      pure CallResult.unit
  | ManagerCall.lunaCall url params timeout => do
      let v ← lunaCall self url params timeout
      pure (CallResult.value v)
  | ManagerCall.lunaCallAsync url params callback => do
      lunaCallAsync self url params callback
      pure CallResult.unit
  | ManagerCall.subscribeToMethod id url params callback schema => do
      subscribeToMethod self id url params (callback.map SubscribeCallback.plugin) schema
      pure CallResult.unit
  | ManagerCall.unsubscribeFromMethod id => do
      let b ← unsubscribeFromMethod self id
      pure (CallResult.bool b)
  | ManagerCall.subscribeToSignal id category method callback schema => do
      subscribeToSignal self id category method (callback.map SubscribeCallback.plugin) schema
      pure CallResult.unit
  | ManagerCall.unsubscribeFromSignal id => do
      let b ← unsubscribeFromSignal self id
      pure (CallResult.bool b)
  | ManagerCall.setTimeout id timeMs repeat_ callback => do
      setTimeout self id timeMs repeat_ callback
      pure CallResult.unit
  | ManagerCall.cancelTimeout id => do
      let b ← cancelTimeout self id
      pure (CallResult.bool b)
  | ManagerCall.registerMethod category name handler schema => do
      let url ← registerMethod self category name handler schema
      pure (CallResult.string url)
  | ManagerCall.createToast message iconUrl onClickAction => do
      createToast self message iconUrl onClickAction
      pure CallResult.unit
  | ManagerCall.createAlert alertId title message modal iconUrl buttons onClose => do
      createAlert self alertId title message modal iconUrl buttons onClose
      pure CallResult.unit
  | ManagerCall.closeAlert alertId => do
      let b ← closeAlert self alertId
      pure (CallResult.bool b)

/-- Run one activation of the code of the plugin that sits behind the adapter `self`.
An exception of a `Manager` call is handed to the plugin code; a `throw` of the plugin
code leaves as `Err.pluginException`. -/
def runPlugin (self : AdapterPtr) {R : Type} : PluginCode R → M R
  | PluginCode.ret r => pure r
  | PluginCode.throw => M.raise Err.pluginException
  | PluginCode.call c next => do
      let r ← M.tryCatch (dispatch self c) Err.isException (fun e => pure (CallResult.raised e))
      runPlugin self (next r)

/-- The call `this->plugin->...`: the plugin pointer of the adapter is dereferenced. -/
def derefPlugin (self : AdapterPtr) : M PluginAdapter := do
  let this ← derefAdapter self
  if this.plugin.isNone then
    M.raise (Err.fault "null Plugin dereferenced")
  else
    pure this

/-- The second half of `PluginAdapter::pluginLoaded`: the call of `startMonitoring`
inside its `try` block. -/
def callStartMonitoring (beh : PluginBehaviour) (self : AdapterPtr) : M Unit := do
  updateAdapter self fun a => { a with unloadNotified := false }
  let this ← derefPlugin self
  emit (Event.startMonitoring this.info.path)
  M.tryCatch (runPlugin self (beh.startMonitoring this.info.path)) Err.isException
    (fun _ => unloadPlugin self)

/-- The method `PluginAdapter::pluginLoaded`. -/
def pluginLoaded (beh : PluginBehaviour) (self : AdapterPtr) (plugin : Option PluginPtr) :
    M Unit := do
  match plugin with
  | some p =>
      updateAdapter self fun a => { a with plugin := some p, unloadNotified := true }
      callStartMonitoring beh self
  | none =>
      let this ← derefAdapter self
      if !this.unloadNotified then
        pure ()
      else
        callStartMonitoring beh self

/-- The method `PluginAdapter::notifyLocaleChanged`. -/
def notifyLocaleChanged (beh : PluginBehaviour) (self : AdapterPtr) (locale : String) :
    M Unit := do
  let this ← derefAdapter self
  if this.plugin.isNone then
    pure ()
  else
    emit (Event.uiLocaleChanged this.info.path locale)
    M.tryCatch (runPlugin self (beh.uiLocaleChanged this.info.path locale)) Err.isException
      (fun _ => unloadPlugin self)

/-- The method `PluginAdapter::notifyPluginShouldUnload`. -/
def notifyPluginShouldUnload (beh : PluginBehaviour) (self : AdapterPtr) (service : String) :
    M Unit := do
  let this ← derefAdapter self
  if this.plugin.isNone then
    pure ()
  else
    updateAdapter self fun a => { a with unloadNotified := true }
    emit (Event.stopMonitoring this.info.path service)
    let result ← M.tryCatch (runPlugin self (beh.stopMonitoring this.info.path service))
      Err.isException (fun _ => pure UnloadResult.UNLOAD_OK)
    if result = UnloadResult.UNLOAD_OK then
      unloadPlugin self
    else
      pure ()

/-- The C++ `new PluginAdapter(manager, info)`. -/
def new (info : PluginInfo) : M AdapterPtr := fun w =>
  (Except.ok w.nextAdapter, { w with
    adapters := Map.insert w.adapters w.nextAdapter { info := info },
    nextAdapter := w.nextAdapter + 1 })

/-- The C++ `delete adapter`: the destructor deletes the plugin object if there is one. -/
def delete (self : AdapterPtr) : M Unit := do
  let this ← derefAdapter self
  if this.plugin.isSome then
    emit (Event.deletePlugin this.info.path)
  M.modify fun w => { w with adapters := Map.erase w.adapters self }

end PluginAdapter

/-! ## PluginLoader (pluginloader.cpp) -/

namespace PluginLoader

/-- The method `PluginLoader::loadPlugin`. -/
def loadPlugin (beh : PluginBehaviour) (info : PluginInfo) (manager : AdapterPtr) :
    M (Option PluginPtr) := do
  match beh.instantiatePlugin info.path with
  | Instantiation.dlopenFails => M.raise (Err.error "Failed to load plugin")
  | Instantiation.noInstantiateFunc =>
      emit (Event.dlclose info.path)
      M.raise (Err.error "Failed to load plugin")
  | Instantiation.runs code =>
      emit (Event.instantiatePlugin info.path)
      let made ← M.tryCatch (PluginAdapter.runPlugin manager code) Err.isException
        (fun e => do
          emit (Event.dlclose info.path)
          M.raise e)
      M.modify fun w => { w with loader := { dlHandle := w.loader.dlHandle.insert info.path } }
      if made then
        let w ← M.get
        M.modify fun w => { w with nextPlugin := w.nextPlugin + 1 }
        pure (some w.nextPlugin)
      else
        pure none

/-- The method `PluginLoader::unloadPlugin`. -/
def unloadPlugin (info : PluginInfo) : M Unit := do
  let w ← M.get
  if info.path ∈ w.loader.dlHandle then
    emit (Event.dlclose info.path)
    M.modify fun w => { w with loader := { dlHandle := w.loader.dlHandle.erase info.path } }
  else
    pure ()

end PluginLoader

/-! ## PluginManager (pluginmanager.cpp) -/

namespace PluginManager

/-- The method `PluginManager::isPluginLoaded`. -/
def isPluginLoaded (self : PluginManager) (pluginInfo : PluginInfo) : Bool :=
  Map.contains self.activePlugins pluginInfo.path

/-- The method `PluginManager::processUnload`. -/
def processUnload (adapter : AdapterPtr) : M Unit := do
  let this ← derefAdapter adapter
  if !this.needUnload then
    pure ()
  else
    let info := this.info
    M.modify fun w => { w with manager := { w.manager with
      activePlugins := Map.erase w.manager.activePlugins info.path } }
    PluginAdapter.unloadPlugin adapter
    PluginAdapter.delete adapter
    PluginLoader.unloadPlugin info

/-- The method `PluginManager::loadPlugin`; the lookup stands for `isPluginLoaded`
followed by `activePlugins[info->path]`. -/
def loadPlugin (beh : PluginBehaviour) (info : PluginInfo) (service : String) : M Unit := do
  emit (Event.loadPlugin info.path service)
  let w ← M.get
  match Map.find? w.manager.activePlugins info.path with
  | some adapter =>
      PluginAdapter.pluginLoaded beh adapter none
      processUnload adapter
  | none =>
      let adapter ← PluginAdapter.new info
      let plugin ← PluginLoader.loadPlugin beh info adapter
      match plugin with
      | none =>
          PluginLoader.unloadPlugin info
          PluginAdapter.delete adapter
      | some p =>
          M.modify fun w => { w with manager := { w.manager with
            activePlugins := Map.insert w.manager.activePlugins info.path adapter } }
          PluginAdapter.pluginLoaded beh adapter (some p)
          processUnload adapter

/-- The method `PluginManager::notifyPluginShouldUnload`. -/
def notifyPluginShouldUnload (beh : PluginBehaviour) (pluginInfo : PluginInfo)
    (serviceName : String) : M Unit := do
  emit (Event.notifyPluginShouldUnload pluginInfo.path serviceName)
  let w ← M.get
  match Map.find? w.manager.activePlugins pluginInfo.path with
  | none => pure ()
  | some adapter =>
      PluginAdapter.notifyPluginShouldUnload beh adapter serviceName
      processUnload adapter

/-- The loop of `PluginManager::notifyLocaleChanged` over the entries of `activePlugins`;
the iterator is moved on before `processUnload` erases the entry it stood on. -/
def notifyAdapters (beh : PluginBehaviour) (localeStr : String) :
    List (String × AdapterPtr) → M Unit
  | [] => pure ()
  | entry :: rest => do
      PluginAdapter.notifyLocaleChanged beh entry.2 localeStr
      processUnload entry.2
      notifyAdapters beh localeStr rest

/-- The method `PluginManager::notifyLocaleChanged`. -/
def notifyLocaleChanged (beh : PluginBehaviour) (locale : JValue) : M Unit := do
  M.modify fun w => { w with manager := { w.manager with locale := locale } }
  let w ← M.get
  let localeStr := locale.asString.getD w.manager.getUILocale
  notifyAdapters beh localeStr w.manager.activePlugins

/-- The loop of the destructor `PluginManager::~PluginManager`; the fuel is the size of
`activePlugins`. -/
def destroy : Nat → M Unit
  | 0 => pure ()
  | fuel + 1 => do
      let w ← M.get
      match w.manager.activePlugins with
      | [] => pure ()
      | first :: _ =>
          PluginAdapter.unloadPlugin first.2
          processUnload first.2
          destroy fuel

end PluginManager

/-- The static method `PluginAdapter::timeoutCallback`; the `TimeoutState` handed to glib
is the one stored under `timeoutId` in the adapter `self`. -/
def PluginAdapter.timeoutCallback (beh : PluginBehaviour) (self : AdapterPtr)
    (timeoutId : String) : M Bool := do
  let this ← derefAdapter self
  match Map.find? this.timeouts timeoutId with
  | none => M.raise (Err.fault "TimeoutState used after delete")
  | some state =>
      let callback := state.callback
      let continueTimeout := state.repeat_
      if !state.repeat_ then
        let _ ← PluginAdapter.cancelTimeout self timeoutId
      emit (Event.timeoutCallback this.info.path timeoutId)
      M.tryCatch (PluginAdapter.runPlugin self (beh.timeoutCallback callback timeoutId))
        Err.isException (fun _ => PluginAdapter.unloadPlugin self)
      PluginManager.processUnload self
      pure continueTimeout

/-! ## ServiceMonitor (servicemonitor.cpp) -/

namespace ServiceMonitor

/-- Update the fields of the monitor. -/
def update (f : ServiceMonitor → ServiceMonitor) : M Unit :=
  M.modify fun w => { w with monitor := f w.monitor }

/-- The method `ServiceMonitor::startMonitor`. -/
def startMonitor (plugins : List PluginInfo) : M Unit := do
  update fun m => { m with plugins := plugins }
  let params := JValue.obj [("keys", JValue.arr [JValue.str "localeInfo"])]
  let _ ← LunaService.subscribeToMethod "luna://com.webos.settingsservice/getSystemSettings"
    params (some SubscribeCallback.localeCallback) JSchema.AllSchema none false
  pure ()

/-- The loop of `ServiceMonitor::addPlugin` over the required services. -/
def addServices : List String → M Unit
  | [] => pure ()
  | service :: rest => do
      let w ← M.get
      if Map.contains w.monitor.serviceStatus service then
        addServices rest
      else
        update fun m => { m with serviceStatus := Map.insert m.serviceStatus service false }
        let params := JValue.obj [("serviceName", JValue.str service)]
        let _ ← LunaService.subscribeToMethod
          "luna://com.webos.service.bus/signal/registerServerStatus"
          params (some SubscribeCallback.serviceStatusCallback) JSchema.AllSchema none false
        addServices rest

/-- The method `ServiceMonitor::addPlugin`. -/
def addPlugin (info : PluginInfo) : M Unit :=
  addServices info.requiredServices

/-- The loop of `ServiceMonitor::localeCallback` over the descriptors. -/
def addPlugins : List PluginInfo → M Unit
  | [] => pure ()
  | info :: rest => do
      addPlugin info
      addPlugins rest

/-- The method `ServiceMonitor::localeCallback`. -/
def localeCallback (beh : PluginBehaviour) (previousValue value : JValue) : M Unit := do
  let _ := previousValue
  let locale := (value.get "settings").get "localeInfo"
  if !locale.isValid then
    pure ()
  else
    PluginManager.notifyLocaleChanged beh locale
    let w ← M.get
    if !w.monitor.monitorStarted then
      addPlugins w.monitor.plugins
      update fun m => { m with monitorStarted := true }
    else
      pure ()

/-- The C++ `this->serviceStatus[service]` as a read: a missing key is added with the
value `false`. -/
def serviceStatusAt (service : String) : M Bool := do
  let w ← M.get
  match Map.find? w.monitor.serviceStatus service with
  | some up => pure up
  | none =>
      update fun m => { m with serviceStatus := Map.insert m.serviceStatus service false }
      pure false

/-- The inner loop of `ServiceMonitor::updatePlugins`: the value of `dependenciesMet`. -/
def dependenciesMet : List String → M Bool
  | [] => pure true
  | service :: rest => do
      let up ← serviceStatusAt service
      if !up then
        pure false
      else
        dependenciesMet rest

/-- The outer loop of `ServiceMonitor::updatePlugins`. -/
def updateEach (beh : PluginBehaviour) (serviceName : String) : List PluginInfo → M Unit
  | [] => pure ()
  | plugin :: rest => do
      let met ← dependenciesMet plugin.requiredServices
      if met then
        PluginManager.loadPlugin beh plugin serviceName
      else
        PluginManager.notifyPluginShouldUnload beh plugin serviceName
      updateEach beh serviceName rest

/-- The method `ServiceMonitor::updatePlugins`. -/
def updatePlugins (beh : PluginBehaviour) (serviceName : String) : M Unit := do
  let w ← M.get
  updateEach beh serviceName w.monitor.plugins

/-- The method `ServiceMonitor::serviceStatusCallback`. -/
def serviceStatusCallback (beh : PluginBehaviour) (previousValue value : JValue) :
    M Unit := do
  let _ := previousValue
  match (value.get "serviceName").asString, (value.get "connected").asBool with
  | some serviceName, some connected =>
      let w ← M.get
      match Map.find? w.monitor.serviceStatus serviceName with
      | none => pure ()
      | some wasConnected =>
          update fun m =>
            { m with serviceStatus := Map.insert m.serviceStatus serviceName connected }
          if wasConnected != connected then
            updatePlugins beh serviceName
          else
            pure ()
  | _, _ => M.raise (Err.error "Could not parse registerServerStatus response")

end ServiceMonitor

/-! ## LunaService, the reply and request handlers (lunaservice.cpp) -/

/-- A bus message handed to `callResultHandler`. -/
inductive Message where
  /-- The hub reports an error (`isHubError`). -/
  | hubError
  /-- A reply; the payload as parsed by `JDomParser`, `invalid` if it does not parse. -/
  | payload (value : JValue)

namespace LunaService

/-- The call `info->subscribeCallback(previousValue, value)`. -/
def invokeSubscribeCallback (beh : PluginBehaviour) (plugin : Option AdapterPtr)
    (callback : SubscribeCallback) (previousValue value : JValue) : M Unit :=
  match callback with
  | SubscribeCallback.localeCallback => ServiceMonitor.localeCallback beh previousValue value
  | SubscribeCallback.serviceStatusCallback =>
      ServiceMonitor.serviceStatusCallback beh previousValue value
  | SubscribeCallback.plugin tag =>
      match plugin with
      | some adapter =>
          PluginAdapter.runPlugin adapter (beh.subscribeCallback tag previousValue value)
      | none => M.raise (Err.fault "plugin callback without its Manager")

/-- The call `callback(value)` of a `LunaCallback`. -/
def invokeLunaCallback (beh : PluginBehaviour) (plugin : Option AdapterPtr)
    (callback : PluginCallback) (value : JValue) : M Unit :=
  match plugin with
  | some adapter => PluginAdapter.runPlugin adapter (beh.lunaCallback callback value)
  | none => M.raise (Err.fault "plugin callback without its Manager")

/-- The three statements of `callResult` before a subscribe callback is called:
`info->counter += 1`, the copy of `info->previousValue` and its replacement by the new
value; the ghost event records the two arguments that the callback is about to get. -/
def swapPreviousValue (info : SubscribeHandle) (value : JValue) : M JValue := do
  let record ← derefSubscription info
  updateSubscription info fun i => { i with counter := i.counter + 1, previousValue := value }
  emit (Event.subscribeCallback info record.previousValue value)
  pure record.previousValue

/-- The method `LunaService::callResult`. -/
def callResult (beh : PluginBehaviour) (info : SubscribeHandle) (message : Message) :
    M Bool := do
  match message with
  | Message.hubError =>
      cancelSubscribe info
      pure false
  | Message.payload reply =>
      let value := JDomParser.fromString reply JSchema.AllSchema
      let record ← derefSubscription info
      let validation := record.schema.validate value
      if !value.isValid then
        pure true
      else if !value.isObject then
        pure true
      else if !validation then
        pure false
      else
        let plugin := record.plugin
        match record.simpleCallback, record.subscribeCallback with
        | some callback, _ =>
            cancelSubscribe info
            emit (Event.lunaCallback info value)
            invokeLunaCallback beh plugin callback value
        | none, some callback =>
            let previousValue ← swapPreviousValue info value
            invokeSubscribeCallback beh plugin callback previousValue value
        | none, none => pure ()
        match plugin with
        | some adapter => PluginManager.processUnload adapter
        | none => pure ()
        pure true

/-- The static method `LunaService::callResultHandler`.  It reads `info->service` through
the record before the membership test, also when the record has been deleted. -/
def callResultHandler (beh : PluginBehaviour) (info : SubscribeHandle) (message : Message) :
    M Bool := do
  let _ ← derefSubscription info
  let w ← M.get
  if info ∈ w.service.subscriptions then
    callResult beh info message
  else
    pure false

/-- The response sent when the method has no live owner. -/
def methodRemoved : JValue :=
  JValue.obj [("returnValue", JValue.bool false), ("errorCode", JValue.num 1),
    ("errorMessage", JValue.str "Method removed.")]

/-- The response sent when the request does not pass the schema of the method. -/
def validationFailed : JValue :=
  JValue.obj [("returnValue", JValue.bool false), ("errorCode", JValue.num 2),
    ("errorMessage", JValue.str "Failed to validate request against schema")]

/-- The method `LunaService::methodHandler`.  The handler returns a `JValue` that is
sent back as it is. -/
def methodHandler (beh : PluginBehaviour) (categoryName methodName : String)
    (payload : JValue) : M Bool := do
  let w ← M.get
  match findMethod w.service categoryName methodName with
  | none =>
      emit (Event.respond methodRemoved)
      pure true
  | some method =>
      match method.plugin, method.handler with
      | some owner, some handler =>
          let value := JDomParser.fromString payload method.schema
          if !value.isValid then
            emit (Event.respond validationFailed)
            pure true
          else
            emit (Event.lunaCallHandler categoryName methodName value)
            let result ← PluginAdapter.runPlugin owner (beh.lunaCallHandler handler value)
            emit (Event.respond result)
            let w' ← M.get
            match (findMethod w'.service categoryName methodName).bind (fun m => m.plugin) with
            | none => M.raise (Err.fault "null PluginAdapter dereferenced")
            | some adapter =>
                PluginManager.processUnload adapter
                pure true
      | _, _ =>
          emit (Event.respond methodRemoved)
          pure true

end LunaService

/-! ## The process -/

/-- The world built by `main` before `startMonitor`: the gateway for the bus name, no
adapter, and the bus outcomes to come. -/
def World.init (servicePath : String) (bus : List BusOutcome) : World :=
  { service := { servicePath := servicePath }, bus := bus }

/-- The value of a computation. -/
def M.result {α : Type} (m : M α) (w : World) : Except Err α := (m w).1

/-- The world a computation ends in, whether it returned or threw. -/
def M.exec {α : Type} (m : M α) (w : World) : World := (m w).2

end EventMonitor

/-! # Predicates used in the statements -/

namespace EventMonitor

/-- A relation between the world before and the world after that is closed under
sequencing. -/
structure Frame where
  rel : World → World → Prop
  refl : ∀ w, rel w w
  trans : ∀ a b c, rel a b → rel b c → rel a c

/-- Every run of `m`, whether it returns or throws, relates its two worlds by `F`. -/
structure Keeps (F : Frame) {α : Type} (m : M α) : Prop where
  run : ∀ w, F.rel w (m w).2

/-- The fields of an adapter that only the manager-side methods write. -/
def PluginAdapter.core (a : PluginAdapter) : PluginInfo × Option PluginPtr × Bool :=
  (a.info, a.plugin, a.unloadNotified)

/-- The events of the bus and of the timer sources. -/
def Event.isBusOp : Event → Bool
  | Event.callOneReply _ _ => true
  | Event.callMultiReply _ _ _ _ => true
  | Event.callCancel _ => true
  | Event.registerCategoryAppend _ _ => true
  | Event.timeoutAdd _ _ => true
  | Event.sourceRemove _ => true
  | _ => false

/-- The trace without the events of the bus and of the timer sources. -/
def lifecycle (t : List Event) : List Event :=
  t.filter fun e => !e.isBusOp

/-- Every `SubscriptionInfo` object of `w'` is an untouched object of `w`, or was made
since and has a null `previousValue`. -/
structure SubsKept (w w' : World) : Prop where
  next_le : w.service.nextSubscription ≤ w'.service.nextSubscription
  records : ∀ h r, Map.find? w'.service.subscriptionInfos h = some r →
    Map.find? w.service.subscriptionInfos h = some r ∨
    (w.service.nextSubscription ≤ h ∧ h < w'.service.nextSubscription ∧
      r.previousValue = JValue.null)

/-- The relation `SubsKept` is transitive. -/
def SubsKept.trans {a b c : World} (hab : SubsKept a b) (hbc : SubsKept b c) :
    SubsKept a c := by
  refine ⟨le_trans hab.next_le hbc.next_le, ?_⟩
  intro h r hr
  rcases hbc.records h r hr with h1 | ⟨h1, h2, h3⟩
  · rcases hab.records h r h1 with h4 | ⟨h4, h5, h6⟩
    · exact Or.inl h4
    · exact Or.inr ⟨h4, lt_of_lt_of_le h5 hbc.next_le, h6⟩
  · exact Or.inr ⟨le_trans hab.next_le h1, h2, h3⟩

/-- Like `SubsKept`, but the object `h0` may have been written, to a null
`previousValue`. -/
structure SubsKeptBut (h0 : SubscribeHandle) (w w' : World) : Prop where
  next_le : w.service.nextSubscription ≤ w'.service.nextSubscription
  records : ∀ h r, Map.find? w'.service.subscriptionInfos h = some r →
    Map.find? w.service.subscriptionInfos h = some r ∨
    (w.service.nextSubscription ≤ h ∧ h < w'.service.nextSubscription ∧
      r.previousValue = JValue.null) ∨
    (h = h0 ∧ r.previousValue = JValue.null)

/-- What the code below the manager leaves alone, the gateway apart: the monitor, the
manager, the loader, the events other than bus operations and the manager-side fields of
every adapter.  With `strict`, the flag `needUnload` as well. -/
structure CoreKept (strict : Bool) (w w' : World) : Prop where
  monitor : w'.monitor = w.monitor
  manager : w'.manager = w.manager
  loader : w'.loader = w.loader
  nextAdapter : w'.nextAdapter = w.nextAdapter
  nextPlugin : w'.nextPlugin = w.nextPlugin
  events : lifecycle w'.trace = lifecycle w.trace
  adapters : ∀ a, (Map.find? w'.adapters a).map PluginAdapter.core =
    (Map.find? w.adapters a).map PluginAdapter.core
  needUnload : strict = true → ∀ a,
    (Map.find? w'.adapters a).map (fun x => x.needUnload) =
    (Map.find? w.adapters a).map (fun x => x.needUnload)

/-- What the code below the manager leaves alone. -/
structure ApiRel (strict : Bool) (w w' : World) : Prop where
  core : CoreKept strict w w'
  subs : SubsKept w w'

/-- The relation `ApiRel`, with `SubsKeptBut` for the subscription records. -/
structure FreshRel (h0 : SubscribeHandle) (strict : Bool) (w w' : World) : Prop where
  core : CoreKept strict w w'
  subs : SubsKeptBut h0 w w'

/-- The relation `CoreKept` is reflexive. -/
def CoreKept.rfl (strict : Bool) (w : World) : CoreKept strict w w :=
  { monitor := Eq.refl _, manager := Eq.refl _, loader := Eq.refl _, nextAdapter := Eq.refl _,
    nextPlugin := Eq.refl _, events := Eq.refl _, adapters := fun _ => Eq.refl _,
    needUnload := fun _ _ => Eq.refl _ }

/-- The relation `CoreKept` is transitive. -/
def CoreKept.trans {strict : Bool} {a b c : World} (hab : CoreKept strict a b)
    (hbc : CoreKept strict b c) : CoreKept strict a c :=
  { monitor := hbc.monitor.trans hab.monitor
    manager := hbc.manager.trans hab.manager
    loader := hbc.loader.trans hab.loader
    nextAdapter := hbc.nextAdapter.trans hab.nextAdapter
    nextPlugin := hbc.nextPlugin.trans hab.nextPlugin
    events := hbc.events.trans hab.events
    adapters := fun x => (hbc.adapters x).trans (hab.adapters x)
    needUnload := fun hs x => (hbc.needUnload hs x).trans (hab.needUnload hs x) }

/-- The frame of the code below the manager. -/
def apiFrame (strict : Bool) : Frame where
  rel := ApiRel strict
  refl := fun w => ⟨CoreKept.rfl strict w, le_refl _, fun _ _ h => Or.inl h⟩
  trans := fun _ _ _ hab hbc =>
    { core := hab.core.trans hbc.core
      subs := hab.subs.trans hbc.subs }

/-- The frame of the code of the gateway that fills in the fresh object `h0`. -/
def freshFrame (h0 : SubscribeHandle) (strict : Bool) : Frame where
  rel := FreshRel h0 strict
  refl := fun w => ⟨CoreKept.rfl strict w, le_refl _, fun _ _ h => Or.inl h⟩
  trans := fun _ _ _ hab hbc =>
    { core := hab.core.trans hbc.core
      subs := by
        refine ⟨le_trans hab.subs.next_le hbc.subs.next_le, ?_⟩
        intro h r hr
        rcases hbc.subs.records h r hr with h1 | ⟨h1, h2, h3⟩ | h1
        · rcases hab.subs.records h r h1 with h4 | ⟨h4, h5, h6⟩ | h4
          · exact Or.inl h4
          · exact Or.inr (Or.inl ⟨h4, lt_of_lt_of_le h5 hbc.subs.next_le, h6⟩)
          · exact Or.inr (Or.inr h4)
        · exact Or.inr (Or.inl ⟨le_trans hab.subs.next_le h1, h2, h3⟩)
        · exact Or.inr (Or.inr h1) }

/-- The two ghost events of the manager entry points that the monitor calls. -/
def Event.isManagerCall : Event → Bool
  | Event.loadPlugin _ _ => true
  | Event.notifyPluginShouldUnload _ _ => true
  | _ => false

/-- The calls of the monitor into the manager, in the order they were made. -/
def managerCalls (t : List Event) : List Event :=
  t.filter Event.isManagerCall

/-- The invocations of subscribe callbacks. -/
def Event.isSubscribeCallback : Event → Bool
  | Event.subscribeCallback _ _ _ => true
  | _ => false

/-- The invocations of subscribe callbacks, in the order they were made. -/
def subscribeCallbacks (t : List Event) : List Event :=
  t.filter Event.isSubscribeCallback

/-- What the code of the manager and of the adapters leaves alone: the monitor, the
recorded manager calls, the recorded subscribe callbacks and the existing subscription
records. -/
structure MgrRel (w w' : World) : Prop where
  monitor : w'.monitor = w.monitor
  calls : managerCalls w'.trace = managerCalls w.trace
  callbacks : subscribeCallbacks w'.trace = subscribeCallbacks w.trace
  subs : SubsKept w w'

/-- The frame of the code of the manager and of the adapters. -/
def mgrFrame : Frame where
  rel := MgrRel
  refl := fun _ => ⟨Eq.refl _, Eq.refl _, Eq.refl _, le_refl _, fun _ _ h => Or.inl h⟩
  trans := fun _ _ _ hab hbc =>
    { monitor := hbc.monitor.trans hab.monitor
      calls := hbc.calls.trans hab.calls
      callbacks := hbc.callbacks.trans hab.callbacks
      subs := hab.subs.trans hbc.subs }

/-- What every piece of code leaves alone, the delivery of a reply to a subscribe
callback apart: the recorded subscribe callbacks and the existing subscription records. -/
structure TopRel (w w' : World) : Prop where
  callbacks : subscribeCallbacks w'.trace = subscribeCallbacks w.trace
  subs : SubsKept w w'

/-- The frame of all code but the delivery of a reply to a subscribe callback. -/
def topFrame : Frame where
  rel := TopRel
  refl := fun _ => ⟨Eq.refl _, le_refl _, fun _ _ h => Or.inl h⟩
  trans := fun _ _ _ hab hbc =>
    { callbacks := hbc.callbacks.trans hab.callbacks
      subs := hab.subs.trans hbc.subs }

/-- The frame of the code that keeps the invariant `I`, whether it returns or throws. -/
def invFrame (I : World → Prop) : Frame where
  rel := fun w w' => I w → I w'
  refl := fun _ h => h
  trans := fun _ _ _ hab hbc h => hbc (hab h)

/-- The service is mapped to `true` in the service-status map. -/
def World.isUp (w : World) (service : String) : Bool :=
  Map.find? w.monitor.serviceStatus service == some true

/-- The manager call that `updatePlugins` owes to a descriptor. -/
def expectedCall (w : World) (serviceName : String) (plugin : PluginInfo) : Event :=
  if plugin.requiredServices.all w.isUp then Event.loadPlugin plugin.path serviceName
  else Event.notifyPluginShouldUnload plugin.path serviceName

/-- The manager calls that `updatePlugins` owes to the descriptors, in list order. -/
def expectedCalls (w : World) (serviceName : String) : List Event :=
  w.monitor.plugins.map (expectedCall w serviceName)

/-- The plugin code never calls `unloadPlugin` on its manager. -/
def PluginCode.NoUnload {R : Type} : PluginCode R → Prop
  | PluginCode.ret _ => True
  | PluginCode.throw => True
  | PluginCode.call c next => c ≠ ManagerCall.unloadPlugin ∧ ∀ r, NoUnload (next r)

/-- The plugin code never throws, whatever its manager hands back. -/
def PluginCode.NoThrow {R : Type} : PluginCode R → Prop
  | PluginCode.ret _ => True
  | PluginCode.throw => False
  | PluginCode.call _ next => ∀ r, NoThrow (next r)

/-- Whenever the plugin code returns, the value satisfies `p`. -/
def PluginCode.Returns {R : Type} (p : R → Prop) : PluginCode R → Prop
  | PluginCode.ret r => p r
  | PluginCode.throw => True
  | PluginCode.call _ next => ∀ r, Returns p (next r)

/-- The address `luna://<svc>/<path>`. -/
def lunaUrl (svc path : String) : String :=
  "luna://" ++ svc ++ "/" ++ path

/-- A first response that makes `subscribeToMethod` with `checkFirstResponse` fail. -/
def BusOutcome.failsFirstCheck : BusOutcome → Bool
  | BusOutcome.reply payload =>
      match ((JDomParser.fromString payload JSchema.AllSchema).get "returnValue").asBool with
      | some true => false
      | _ => true
  | BusOutcome.noReply => true
  | BusOutcome.lsError => false

/-- The `url` of every method record is the public address of its key. -/
def LunaService.UrlsOK (s : LunaService) : Prop :=
  ∀ category name info, s.findMethod category name = some info →
    info.url = "luna://" ++ s.servicePath ++ category ++ "/" ++ name

/-- The owner of the method record under a key, if there is a record and it has one. -/
def LunaService.owner (s : LunaService) (category name : String) : Option AdapterPtr :=
  (s.findMethod category name).bind fun info => info.plugin

/-- The event: the plugin object of the library at `path` is made. -/
def Event.isInstantiate (path : String) : Event → Bool
  | Event.instantiatePlugin p => p == path
  | _ => false

/-- The event: `startMonitoring` is called on the plugin of the library at `path`. -/
def Event.isStartMonitoring (path : String) : Event → Bool
  | Event.startMonitoring p => p == path
  | _ => false

/-- How often the plugin object of the library at `path` was made. -/
def instantiations (path : String) (t : List Event) : Nat :=
  (t.filter (Event.isInstantiate path)).length

/-- How often `startMonitoring` was called on the plugin of the library at `path`. -/
def startMonitorings (path : String) (t : List Event) : Nat :=
  (t.filter (Event.isStartMonitoring path)).length

/-- The reply of `registerServerStatus` for a service. -/
def statusReply (service : String) (connected : Bool) : JValue :=
  JValue.obj [("serviceName", JValue.str service), ("connected", JValue.bool connected)]


/-- The event: `stopMonitoring(service)` is called on the plugin of the library at `path`. -/
def Event.isStopMonitoring (path service : String) : Event → Bool
  | Event.stopMonitoring p s => p == path && s == service
  | _ => false

/-- The event: the plugin object of the library at `path` is deleted. -/
def Event.isDeletePlugin (path : String) : Event → Bool
  | Event.deletePlugin p => p == path
  | _ => false

/-- How often `stopMonitoring(service)` was called on the plugin of the library at
`path`. -/
def stopMonitorings (path service : String) (t : List Event) : Nat :=
  (t.filter (Event.isStopMonitoring path service)).length

/-- How often the plugin object of the library at `path` was deleted. -/
def deletions (path : String) (t : List Event) : Nat :=
  (t.filter (Event.isDeletePlugin path)).length

/-- A reply that does not parse, is not an object or fails the schema of the record. -/
def LunaService.dropsReply (w : World) (info : SubscribeHandle) (reply : JValue) : Prop :=
  reply.isObject = false ∨
    ∀ r, Map.find? w.service.subscriptionInfos info = some r → r.schema.validate reply = false

/-! ## Concrete worlds for the scenarios -/

/-- A descriptor that requires `svcA` only. -/
def demoInfoA : PluginInfo :=
  { name := "demo", path := "/plugins/demo.so", requiredServices := ["svcA"] }

/-- A loaded, monitoring adapter for `demoInfoA`. -/
def demoAdapterA : PluginAdapter :=
  { info := demoInfoA, plugin := some 1 }

/-- A world with the adapter `demoAdapterA` at address 1, active, and `svcA` up. -/
def demoWorldA : World :=
  { service := { servicePath := "com.webos.service.eventmonitor" },
    manager := { activePlugins := [("/plugins/demo.so", 1)] },
    monitor := { plugins := [demoInfoA], serviceStatus := [("svcA", true)],
                 monitorStarted := true },
    loader := { dlHandle := ["/plugins/demo.so"] },
    adapters := [(1, demoAdapterA)],
    nextAdapter := 2,
    nextPlugin := 2 }

/-- The world `demoWorldA` in which the next bus operation is answered at once with a
reply whose `returnValue` is `false`. -/
def demoWorldS5 : World :=
  { demoWorldA with
    bus := [BusOutcome.reply (JValue.obj [("returnValue", JValue.bool false)])] }

/-- The record of the method `/demo/status`, registered by the adapter at address 1. -/
def demoMethod : MethodInfo :=
  { plugin := some 1, handler := some 7,
    url := "luna://com.webos.service.eventmonitor/demo/status" }

/-- The world `demoWorldA` after the adapter at address 1 has registered `/demo/status`. -/
def demoWorldM : World :=
  { demoWorldA with
    service := { servicePath := "com.webos.service.eventmonitor",
                 categoryMethods := [("/demo", [("status", demoMethod)])] } }

/-- Plugin code that makes no manager call: every entry point returns at once, the
constructor yields an object and `stopMonitoring` answers `UNLOAD_OK`. -/
def demoBehaviour : PluginBehaviour where
  instantiatePlugin := fun _ => Instantiation.runs (PluginCode.ret true)
  startMonitoring := fun _ => PluginCode.ret ()
  stopMonitoring := fun _ _ => PluginCode.ret UnloadResult.UNLOAD_OK
  uiLocaleChanged := fun _ _ => PluginCode.ret ()
  subscribeCallback := fun _ _ _ => PluginCode.ret ()
  lunaCallback := fun _ _ => PluginCode.ret ()
  timeoutCallback := fun _ _ => PluginCode.ret ()
  lunaCallHandler := fun _ _ => PluginCode.ret JValue.null

/-- A descriptor that requires `svcA` and `svcB`. -/
def demoInfoAB : PluginInfo :=
  { name := "other", path := "/plugins/other.so", requiredServices := ["svcA", "svcB"] }

/-- The world `demoWorldA` with the second descriptor `demoInfoAB`, not loaded, and the
service `svcB` down. -/
def demoWorldTwo : World :=
  { demoWorldA with
    monitor := { plugins := [demoInfoA, demoInfoAB],
                 serviceStatus := [("svcA", true), ("svcB", false)],
                 monitorStarted := true } }

/-- A world for scenario S1: the descriptor `demoInfoAB` is the one descriptor of the
monitor, `svcA` and `svcB` are monitored and down, nothing is loaded. -/
def demoWorldS1 : World :=
  { service := { servicePath := "com.webos.service.eventmonitor" },
    monitor := { plugins := [demoInfoAB], serviceStatus := [("svcA", false), ("svcB", false)],
                 monitorStarted := true } }

/-- Plugin code like `demoBehaviour`, but `stopMonitoring` answers `UNLOAD_CANCEL`. -/
def demoBehaviourCancel : PluginBehaviour :=
  { demoBehaviour with
    stopMonitoring := fun _ _ => PluginCode.ret UnloadResult.UNLOAD_CANCEL }

/-! ## Sequences of events -/

/-- What the event loop can hand to the core. -/
inductive Stimulus where
  /-- The call `monitor.startMonitor(loader.getPlugins())` of `main`. -/
  | startMonitor (plugins : List PluginInfo)
  /-- A message of the bus for the stream of a subscription record. -/
  | reply (info : SubscribeHandle) (message : Message)
  /-- A timer source of an adapter fires. -/
  | timeout (adapter : AdapterPtr) (timeoutId : String)
  /-- A request for a registered method arrives. -/
  | request (category method : String) (payload : JValue)

/-- The handler that the event loop runs for a stimulus. -/
def Stimulus.handle (beh : PluginBehaviour) : Stimulus → M Unit
  | Stimulus.startMonitor plugins => ServiceMonitor.startMonitor plugins
  | Stimulus.reply info message => do
      let _ ← LunaService.callResultHandler beh info message
      pure ()
  | Stimulus.timeout adapter timeoutId => do
      let _ ← PluginAdapter.timeoutCallback beh adapter timeoutId
      pure ()
  | Stimulus.request category method payload => do
      let _ ← LunaService.methodHandler beh category method payload
      pure ()

/-- Run the handlers of a sequence of stimuli, each with the plugin code of its turn. -/
def runAll : List (PluginBehaviour × Stimulus) → World → World
  | [], w => w
  | (beh, s) :: rest, w => runAll rest ((s.handle beh).exec w)

/-- The arguments `(previous, value)` of the invocations of the subscribe callback of the
record `h`, in the order of the trace. -/
def callbackArgs (h : SubscribeHandle) : List Event → List (JValue × JValue)
  | [] => []
  | Event.subscribeCallback h' previous value :: rest =>
      if h' = h then (previous, value) :: callbackArgs h rest else callbackArgs h rest
  | _ :: rest => callbackArgs h rest

/-- Each `previous` is the `value` of the invocation before it, the first one is `first`. -/
def Chained : JValue → List (JValue × JValue) → Prop
  | _, [] => True
  | first, (previous, value) :: rest => previous = first ∧ Chained value rest

/-- The `value` of the last invocation, or `first` if there was none. -/
def lastValue : JValue → List (JValue × JValue) → JValue
  | first, [] => first
  | _, (_, value) :: rest => lastValue value rest

/-- The invariant behind I5: for every record, the invocations of its callback are
chained from the null value, the stored `previousValue` is the value of the last one, and
addresses not handed out yet have no invocation. -/
def PreviousInv (w : World) : Prop :=
  ∀ h, Chained JValue.null (callbackArgs h w.trace) ∧
    (∀ r, Map.find? w.service.subscriptionInfos h = some r →
      r.previousValue = lastValue JValue.null (callbackArgs h w.trace) ∧
      h < w.service.nextSubscription) ∧
    (w.service.nextSubscription ≤ h → callbackArgs h w.trace = [])

/-- The reply of the settings service with the locale `tag`. -/
def demoLocaleReply (tag : String) : JValue :=
  JValue.obj [("settings", JValue.obj [("localeInfo", JValue.str tag)])]

/-- The start of the monitor, a locale reply, a reply that is not an object and a second
locale reply, all for the record at address 1 (the locale subscription). -/
def demoStimuli : List (PluginBehaviour × Stimulus) :=
  [(demoBehaviour, Stimulus.startMonitor [demoInfoA]),
   (demoBehaviour, Stimulus.reply 1 (Message.payload (demoLocaleReply "en"))),
   (demoBehaviour, Stimulus.reply 1 (Message.payload (JValue.str "x"))),
   (demoBehaviour, Stimulus.reply 1 (Message.payload (demoLocaleReply "fr")))]

/-- The world after the start of the monitor and the first locale reply. -/
def demoWorldLocale : World :=
  runAll (demoStimuli.take 2) (World.init "com.webos.service.eventmonitor" [])

/-! ## The invariant I1 -/

/-- What the invariant I1 reads of a world stays as it is: the descriptors, which
services are up, the active map, the allocator of adapters and the manager-side fields
of every adapter. -/
structure SameView (w w' : World) : Prop where
  plugins : w'.monitor.plugins = w.monitor.plugins
  isUp : ∀ s, w'.isUp s = w.isUp s
  active : w'.manager.activePlugins = w.manager.activePlugins
  nextAdapter : w'.nextAdapter = w.nextAdapter
  adapters : ∀ b, (Map.find? w'.adapters b).map PluginAdapter.core =
    (Map.find? w.adapters b).map PluginAdapter.core

/-- The frame of the code that leaves alone what the invariant I1 reads. -/
def viewFrame : Frame where
  rel := SameView
  refl := fun _ => ⟨rfl, fun _ => rfl, rfl, rfl, fun _ => rfl⟩
  trans := fun _ _ _ hab hbc =>
    { plugins := hbc.plugins.trans hab.plugins
      isUp := fun s => (hbc.isUp s).trans (hab.isUp s)
      active := hbc.active.trans hab.active
      nextAdapter := hbc.nextAdapter.trans hab.nextAdapter
      adapters := fun b => (hbc.adapters b).trans (hab.adapters b) }

/-- Entries may have left the active map and adapters may have been deleted; what is
left is as it was. -/
structure Shrunk (w w' : World) : Prop where
  plugins : w'.monitor.plugins = w.monitor.plugins
  isUp : ∀ s, w'.isUp s = w.isUp s
  nextAdapter : w'.nextAdapter = w.nextAdapter
  active : ∀ path a, Map.find? w'.manager.activePlugins path = some a →
    Map.find? w.manager.activePlugins path = some a ∧
    (Map.find? w'.adapters a).map PluginAdapter.core =
      (Map.find? w.adapters a).map PluginAdapter.core
  adapters : ∀ b y', Map.find? w'.adapters b = some y' →
    ∃ y, Map.find? w.adapters b = some y ∧ y.core = y'.core

/-- The active map is well formed: the paths of the descriptors are pairwise distinct,
and every entry points to a live adapter that was allocated, carries a plugin object and
the descriptor with the path of the entry. -/
structure Struct (w : World) : Prop where
  paths : (w.monitor.plugins.map fun i => i.path).Nodup
  entries : ∀ path a, Map.find? w.manager.activePlugins path = some a →
    a < w.nextAdapter ∧ ∃ ad, Map.find? w.adapters a = some ad ∧ ad.info.path = path ∧
      ad.info ∈ w.monitor.plugins ∧ ad.plugin.isSome = true

/-- Every active adapter whose descriptor is in `S` has all its required services up, or
has been notified (`stopMonitoring` was called since the last `startMonitoring`). -/
def Tended (S : PluginInfo → Prop) (w : World) : Prop :=
  ∀ path a ad, Map.find? w.manager.activePlugins path = some a →
    Map.find? w.adapters a = some ad → S ad.info →
    ad.info.requiredServices.all w.isUp = true ∨ ad.unloadNotified = true

/-- The invariant of the loop of `updatePlugins`; `S` holds the descriptors that the loop
is done with. -/
structure LoopInv (S : PluginInfo → Prop) (w : World) : Prop where
  struct : Struct w
  tended : Tended S w

/-- The invariant while `startMonitoring` may be called on the adapter `a`: the required
services of its descriptor are up. -/
structure LoadInv (S : PluginInfo → Prop) (a : AdapterPtr) (w : World) : Prop where
  inv : LoopInv S w
  deps : ∀ y, Map.find? w.adapters a = some y → y.info.requiredServices.all w.isUp = true

/-- The invariant between `new PluginAdapter` and the entry of the adapter `a` in the
active map. -/
structure FreshInv (S : PluginInfo → Prop) (a : AdapterPtr) (P : PluginInfo) (w : World) :
    Prop where
  inv : LoopInv S w
  lt : a < w.nextAdapter
  alive : ∃ y, Map.find? w.adapters a = some y ∧ y.info = P
  deps : P.requiredServices.all w.isUp = true
  unused : ∀ q, Map.find? w.manager.activePlugins q ≠ some a
  listed : P ∈ w.monitor.plugins

/-- The states that the locale and server-status callbacks lead to: `main` has called
`startMonitor` with descriptors of distinct paths, and every callback since has
returned. -/
inductive Reachable : World → Prop where
  | start (servicePath : String) (bus : List BusOutcome) (plugins : List PluginInfo)
      (hpaths : (plugins.map fun i => i.path).Nodup) :
      Reachable ((ServiceMonitor.startMonitor plugins).exec (World.init servicePath bus))
  | locale (beh : PluginBehaviour) (previousValue value : JValue) (bus : List BusOutcome)
      (w : World) (hw : Reachable w)
      (hret : (ServiceMonitor.localeCallback beh previousValue value).result
        { w with bus := bus } = Except.ok ()) :
      Reachable ((ServiceMonitor.localeCallback beh previousValue value).exec
        { w with bus := bus })
  | status (beh : PluginBehaviour) (previousValue value : JValue) (bus : List BusOutcome)
      (w : World) (hw : Reachable w)
      (hret : (ServiceMonitor.serviceStatusCallback beh previousValue value).result
        { w with bus := bus } = Except.ok ()) :
      Reachable ((ServiceMonitor.serviceStatusCallback beh previousValue value).exec
        { w with bus := bus })

/-- The invariant I1 as the spec states it: every required service of every active
plugin is up. -/
def DependenciesUp (w : World) : Prop :=
  ∀ path a ad, Map.find? w.manager.activePlugins path = some a →
    Map.find? w.adapters a = some ad → ∀ s ∈ ad.info.requiredServices, w.isUp s = true

/-- The contrapositive of I1 as the spec states it: an active plugin with a required
service that is not up has `needUnload` queued. -/
def DownQueued (w : World) : Prop :=
  ∀ path a ad, Map.find? w.manager.activePlugins path = some a →
    Map.find? w.adapters a = some ad → ∀ s ∈ ad.info.requiredServices, w.isUp s = false →
    ad.needUnload = true

/-- What the invariant I1 reads stays as it is, but the adapter `b` may have been
deleted. -/
structure Deleted (b : AdapterPtr) (w w' : World) : Prop where
  plugins : w'.monitor.plugins = w.monitor.plugins
  isUp : ∀ s, w'.isUp s = w.isUp s
  active : w'.manager.activePlugins = w.manager.activePlugins
  nextAdapter : w'.nextAdapter = w.nextAdapter
  others : ∀ c, c ≠ b → (Map.find? w'.adapters c).map PluginAdapter.core =
    (Map.find? w.adapters c).map PluginAdapter.core
  self : ∀ y', Map.find? w'.adapters b = some y' →
    ∃ y, Map.find? w.adapters b = some y ∧ y.core = y'.core

/-- The frame of the code that at most deletes the adapter `b`. -/
def deleteFrame (b : AdapterPtr) : Frame where
  rel := Deleted b
  refl := fun _ => ⟨rfl, fun _ => rfl, rfl, rfl, fun _ _ => rfl, fun y' h => ⟨y', h, rfl⟩⟩
  trans := fun _ _ _ hab hbc =>
    { plugins := hbc.plugins.trans hab.plugins
      isUp := fun s => (hbc.isUp s).trans (hab.isUp s)
      active := hbc.active.trans hab.active
      nextAdapter := hbc.nextAdapter.trans hab.nextAdapter
      others := fun c hc => (hbc.others c hc).trans (hab.others c hc)
      self := fun y'' h'' =>
        match hbc.self y'' h'' with
        | ⟨y', h', e1⟩ =>
            match hab.self y' h' with
            | ⟨y, h, e2⟩ => ⟨y, h, e2.trans e1⟩ }

/-- The world after `main` has started the monitor with the one descriptor `demoInfoA`. -/
def demoWorldStarted : World :=
  (ServiceMonitor.startMonitor [demoInfoA]).exec
    (World.init "com.webos.service.eventmonitor" [])

/-- The world `demoWorldStarted` after the first locale reply: `svcA` is monitored. -/
def demoWorldMonitoring : World :=
  (ServiceMonitor.localeCallback demoBehaviourCancel JValue.null (demoLocaleReply "en")).exec
    { demoWorldStarted with bus := [] }

/-- The world `demoWorldMonitoring` after `svcA` has come up: the plugin is loaded. -/
def demoWorldLoaded : World :=
  (ServiceMonitor.serviceStatusCallback demoBehaviourCancel JValue.null
    (statusReply "svcA" true)).exec { demoWorldMonitoring with bus := [] }

/-- The world `demoWorldLoaded` after `svcA` has gone down and the plugin has answered
`UNLOAD_CANCEL`. -/
def demoWorldStale : World :=
  (ServiceMonitor.serviceStatusCallback demoBehaviourCancel JValue.null
    (statusReply "svcA" false)).exec { demoWorldLoaded with bus := [] }


/-! ## Counting events -/

/-- The frame of the code that records no event selected by `p`. -/
def traceFrame (p : Event → Bool) : Frame where
  rel := fun w w' => w'.trace.filter p = w.trace.filter p
  refl := fun _ => rfl
  trans := fun _ _ _ hab hbc => hbc.trans hab

/-- The predicate `p` selects no event of the bus or of a timer source and no event of
the deletion of a plugin. -/
structure Event.Inner (p : Event → Bool) : Prop where
  busOp : ∀ e, p e = true → e.isBusOp = false
  deletePlugin : ∀ path, p (Event.deletePlugin path) = false
  dlclose : ∀ path, p (Event.dlclose path) = false

/-- A response is sent to a request. -/
def Event.isRespond : Event → Bool
  | Event.respond _ => true
  | _ => false

/-- A registered method handler is called. -/
def Event.isLunaCallHandler : Event → Bool
  | Event.lunaCallHandler _ _ _ => true
  | _ => false

/-- The responses sent to requests, in the order they were sent. -/
def responses (t : List Event) : List Event :=
  t.filter Event.isRespond

/-- The calls of registered method handlers, in the order they were made. -/
def handlerCalls (t : List Event) : List Event :=
  t.filter Event.isLunaCallHandler

/-- The method has no record, or its record has no owner or no handler. -/
def LunaService.noHandler (s : LunaService) (category name : String) : Prop :=
  match s.findMethod category name with
  | none => True
  | some method => method.plugin = none ∨ method.handler = none

/-! ## Releasing what a plugin holds -/

/-- The frame of the code that leaves the part `part` of the world alone. -/
def keptFrame {α : Type} (part : World → α) : Frame where
  rel := fun w w' => part w' = part w
  refl := fun _ => rfl
  trans := fun _ _ _ hab hbc => hbc.trans hab

/-- No subscription record of the gateway's set is owned by the adapter. -/
def LunaService.NoSubscriptionOf (s : LunaService) (adapter : AdapterPtr) : Prop :=
  ∀ h ∈ s.subscriptions, ∀ r, Map.find? s.subscriptionInfos h = some r →
    r.plugin ≠ some adapter

/-- The adapter `demoAdapterA` holding a subscription, a timer and an alert. -/
def demoAdapterBusy : PluginAdapter :=
  { demoAdapterA with
    subscriptions := [("s", 1)],
    timeouts := [("t", { timeoutId := "t", repeat_ := true, handle := 1, callback := 3 })],
    alerts := [("a", "alert-17")] }

/-- The world `demoWorldM` in which the adapter at address 1 also holds a subscription
(the record at address 1, owned by it), a timer and an alert, next to a subscription of
the monitor (the record at address 2). -/
def demoWorldBusy : World :=
  { demoWorldM with
    service := { servicePath := "com.webos.service.eventmonitor",
                 subscriptions := [1, 2],
                 subscriptionInfos :=
                   [(1, { schema := JSchema.AllSchema, plugin := some 1,
                          subscribeCallback := some (SubscribeCallback.plugin 5) }),
                    (2, { schema := JSchema.AllSchema,
                          subscribeCallback := some SubscribeCallback.localeCallback })],
                 nextSubscription := 3,
                 categoryMethods := [("/demo", [("status", demoMethod)])] },
    adapters := [(1, demoAdapterBusy)],
    nextTimeout := 2 }

/-! ## Scenario S4: unload from inside a subscription callback -/

/-- Every key of the gateway's subscription set points to a live record that was
allocated, and no key is in the set twice. -/
structure LunaService.Sound (s : LunaService) : Prop where
  live : ∀ h ∈ s.subscriptions, (Map.find? s.subscriptionInfos h).isSome = true
  nodup : s.subscriptions.Nodup
  bound : ∀ h ∈ s.subscriptions, h < s.nextSubscription

/-- The transport throws `LS::Error` on the bus operation. -/
def BusOutcome.isLSError : BusOutcome → Bool
  | BusOutcome.lsError => true
  | _ => false

/-- The transport accepts every bus operation to come: no outcome is an `LS::Error`. -/
def BusAccepts (w : World) : Prop :=
  ∀ o ∈ w.bus, o.isLSError = false

/-- A callback that calls `unloadPlugin()` on its manager and returns. -/
def unloadingCallback : PluginCode Unit :=
  PluginCode.call ManagerCall.unloadPlugin fun _ => PluginCode.ret ()

/-- Plugin code like `demoBehaviour`, but every subscribe callback calls `unloadPlugin()`
and returns. -/
def demoBehaviourUnload : PluginBehaviour :=
  { demoBehaviour with subscribeCallback := fun _ _ _ => unloadingCallback }

/-! ## Exceptions of plugin code -/

/-- The entry point `m` returns from `w` and leaves the adapter `self` marked
`needUnload`; the `processUnload` of the caller then returns as well, with the adapter
out of the active map and deleted. -/
def CaughtThenReaped {α : Type} (m : M α) (self : AdapterPtr) (path : String) (w : World) :
    Prop :=
  ∃ r w1, m w = (Except.ok r, w1) ∧
    (∃ y, Map.find? w1.adapters self = some y ∧ y.needUnload = true) ∧
    ∃ w2, PluginManager.processUnload self w1 = (Except.ok (), w2) ∧
      Map.find? w2.manager.activePlugins path = none ∧ Map.find? w2.adapters self = none

/-- Plugin code of which every wrapped entry point throws at once. -/
def demoBehaviourThrow : PluginBehaviour :=
  { demoBehaviour with
    startMonitoring := fun _ => PluginCode.throw
    stopMonitoring := fun _ _ => PluginCode.throw
    uiLocaleChanged := fun _ _ => PluginCode.throw
    timeoutCallback := fun _ _ => PluginCode.throw }

/-! ## Exceptions of plugin callbacks -/

/-- Plugin code of which every callback handed to the gateway throws at once. -/
def demoBehaviourThrowing : PluginBehaviour :=
  { demoBehaviour with
    subscribeCallback := fun _ _ _ => PluginCode.throw
    lunaCallback := fun _ _ => PluginCode.throw
    lunaCallHandler := fun _ _ => PluginCode.throw }

/-- The world `demoWorldBusy` after the adapter at address 1 has made the asynchronous
call `lunaCallAsync("luna://svcA/get", {}, callback 9)`: the record at address 3. -/
def demoWorldAsync : World :=
  (PluginAdapter.lunaCallAsync 1 "luna://svcA/get" (JValue.obj []) (some 9)).exec demoWorldBusy

/-! ## The synchronous call -/

/-- The world `demoWorldA` in which the next bus operation is answered with the JSON array
`[1]`. -/
def demoWorldArrayReply : World :=
  { demoWorldA with bus := [BusOutcome.reply (JValue.arr [JValue.num 1])] }

/-! ## Asynchronous calls -/

/-- The callback of the asynchronous call behind the record `h` is invoked. -/
def Event.isLunaCallbackOf (h : SubscribeHandle) : Event → Bool
  | Event.lunaCallback h' _ => decide (h' = h)
  | _ => false

/-- The invocations of the callback of the asynchronous call behind the record `h`, in
the order they were made. -/
def lunaCallbacks (h : SubscribeHandle) (t : List Event) : List Event :=
  t.filter (Event.isLunaCallbackOf h)

/-- The timer map of the adapter at `self`, if the adapter is there. -/
def timersOf (self : AdapterPtr) (w : World) : Option (List (String × TimeoutState)) :=
  (Map.find? w.adapters self).map fun x => x.timeouts

/-- The manager call sets or cancels a timer, or unloads the plugin (which cancels all
its timers). -/
def ManagerCall.touchesTimers : ManagerCall → Bool
  | ManagerCall.setTimeout _ _ _ _ => true
  | ManagerCall.cancelTimeout _ => true
  | ManagerCall.unloadPlugin => true
  | _ => false

/-- The plugin code makes no manager call that sets or cancels a timer or unloads the
plugin. -/
def PluginCode.LeavesTimers {R : Type} : PluginCode R → Prop
  | PluginCode.ret _ => True
  | PluginCode.throw => True
  | PluginCode.call c next => c.touchesTimers = false ∧ ∀ r, LeavesTimers (next r)

/-- What `timeoutCallback` does from the call `callback(timeoutId)` on. -/
def PluginAdapter.afterFiring (beh : PluginBehaviour) (self : AdapterPtr)
    (callback : PluginCallback) (timeoutId : String) (continueTimeout : Bool) : M Bool := do
  M.tryCatch (PluginAdapter.runPlugin self (beh.timeoutCallback callback timeoutId))
    Err.isException (fun _ => PluginAdapter.unloadPlugin self)
  PluginManager.processUnload self
  pure continueTimeout

/-- The number of timers registered under the id `timeoutId`. -/
def timerCount (timeouts : List (String × TimeoutState)) (timeoutId : String) : Nat :=
  (timeouts.filter fun e => e.1 == timeoutId).length

/-- The world in which `timeoutCallback` calls the callback of the one-shot timer `state`
stored under `timeoutId` in the adapter `x` at `self`: the entry is erased, and the removal
of the source and the invocation are recorded. -/
def World.firedOnce (w : World) (self : AdapterPtr) (x : PluginAdapter)
    (timeoutId : String) (state : TimeoutState) : World :=
  { w with
    adapters := Map.insert w.adapters self { x with timeouts := Map.erase x.timeouts timeoutId },
    trace := w.trace ++ [Event.sourceRemove state.handle] ++
      [Event.timeoutCallback x.info.path timeoutId] }

/-- A timer callback that registers a timer under the same id again and returns. -/
def reRegister (timeoutId : String) (timeMs : Nat) (repeat_ : Bool)
    (callback : PluginCallback) : PluginCode Unit :=
  PluginCode.call (ManagerCall.setTimeout timeoutId timeMs repeat_ callback)
    fun _ => PluginCode.ret ()

/-- The adapter `demoAdapterA` with the one-shot timer "t". -/
def demoAdapterTimer : PluginAdapter :=
  { demoAdapterA with
    timeouts := [("t", { timeoutId := "t", repeat_ := false, handle := 1, callback := 3 })] }

/-- The world `demoWorldA` in which the adapter at address 1 holds the one-shot timer
"t". -/
def demoWorldTimer : World :=
  { demoWorldA with adapters := [(1, demoAdapterTimer)], nextTimeout := 2 }

/-- Plugin code like `demoBehaviour`, but every timer callback registers a one-shot timer
under its own id again. -/
def demoBehaviourReRegister : PluginBehaviour :=
  { demoBehaviour with timeoutCallback := fun callback timeoutId => reRegister timeoutId 500 false callback }

/-! ## Alerts -/

/-- The alert map of the adapter at `self`, if the adapter is there. -/
def alertsOf (self : AdapterPtr) (w : World) : Option (List (String × String)) :=
  (Map.find? w.adapters self).map fun x => x.alerts

/-- What `LunaService::call` hands back for the next bus operation: the null value when
no reply arrives within the timeout, the parsed reply otherwise, and nothing when the
transport throws. -/
def World.nextResponse (w : World) : Option JValue :=
  match w.bus with
  | [] => some JValue.null
  | BusOutcome.noReply :: _ => some JValue.null
  | BusOutcome.reply payload :: _ => some payload
  | BusOutcome.lsError :: _ => none

/-- The response carries `returnValue: true` and a non-empty string `alertId`. -/
def AlertCreated (response : JValue) : Prop :=
  (response.get "returnValue").asBool = some true ∧
    ∃ id, (response.get "alertId").asString = some id ∧ id.length ≠ 0

/-- The adapter `demoAdapterA` with the alert "a" open under the external id
"alert-17". -/
def demoAdapterAlert : PluginAdapter :=
  { demoAdapterA with alerts := [("a", "alert-17")] }

/-- A reply of the notification service to `createAlert`. -/
def demoAlertReply (id : String) : JValue :=
  JValue.obj [("returnValue", JValue.bool true), ("alertId", JValue.str id)]

/-- The world `demoWorldA` in which the adapter at address 1 holds the alert "a", the
call that closes it is answered and the call that creates the next one is answered with
the external id "alert-18". -/
def demoWorldAlert : World :=
  { demoWorldA with
    adapters := [(1, demoAdapterAlert)],
    bus := [BusOutcome.reply (JValue.obj [("returnValue", JValue.bool true)]),
      BusOutcome.reply (demoAlertReply "alert-18")] }

/-- The world `demoWorldAlert` in which the call that creates the alert gets no reply. -/
def demoWorldAlertTimeout : World :=
  { demoWorldAlert with
    bus := [BusOutcome.reply (JValue.obj [("returnValue", JValue.bool true)]),
      BusOutcome.noReply] }

/-! ## Scenario S6: the locale broadcast -/

/-- The plugin entry point `uiLocaleChanged` is called. -/
def Event.isUiLocaleChanged : Event → Bool
  | Event.uiLocaleChanged _ _ => true
  | _ => false

/-- The calls of `uiLocaleChanged`, in the order they were made. -/
def localeEvents (t : List Event) : List Event :=
  t.filter Event.isUiLocaleChanged

/-- The frame of the code that leaves the manager-side fields of every adapter but `b`
alone. -/
def othersFrame (b : AdapterPtr) : Frame where
  rel := fun w w' => ∀ c, c ≠ b →
    (Map.find? w'.adapters c).map PluginAdapter.core =
      (Map.find? w.adapters c).map PluginAdapter.core
  refl := fun _ _ _ => rfl
  trans := fun _ _ _ hab hbc c hc => (hbc c hc).trans (hab c hc)

/-- The active map is well formed: no path is in it twice, and every entry points to a
live adapter that carries a plugin object and the descriptor with the path of the
entry. -/
structure ActiveLive (w : World) : Prop where
  nodup : (w.manager.activePlugins.map Prod.fst).Nodup
  live : ∀ e ∈ w.manager.activePlugins, ∃ x, Map.find? w.adapters e.2 = some x ∧
    x.plugin.isSome = true ∧ x.info.path = e.1

/-- The UI locale string of a `localeInfo` value: its `locales.UI`, or "en-US" when that
is missing or not a string. -/
def uiLocaleOf (locale : JValue) : String :=
  (((locale.get "locales").get "UI").asString).getD "en-US"

/-- A `localeInfo` object with the UI locale `tag`. -/
def demoLocaleInfo (tag : String) : JValue :=
  JValue.obj [("locales", JValue.obj [("UI", JValue.str tag)])]

/-- The descriptor of a second plugin. -/
def demoInfoB : PluginInfo :=
  { name := "second", path := "/plugins/second.so", requiredServices := ["svcA"] }

/-- The world `demoWorldA` with a second active plugin at address 2. -/
def demoWorldPair : World :=
  { demoWorldA with
    manager := { activePlugins := [("/plugins/demo.so", 1), ("/plugins/second.so", 2)] },
    adapters := [(1, demoAdapterA), (2, { info := demoInfoB, plugin := some 2 })],
    nextAdapter := 3,
    nextPlugin := 3 }

/-! ## Plugins without required services -/

/-- What the start of the monitoring leaves alone: the active map and the events other
than bus operations. -/
def idleFrame : Frame :=
  keptFrame fun w => (w.manager.activePlugins, lifecycle w.trace)

/-- The frame of the code that, when it meets an empty active map, leaves it empty and
records no event other than bus operations. -/
def emptyFrame : Frame where
  rel := fun w w' => w.manager.activePlugins = [] →
    w'.manager.activePlugins = [] ∧ lifecycle w'.trace = lifecycle w.trace
  refl := fun _ h => ⟨h, rfl⟩
  trans := fun _ _ _ hab hbc h =>
    ⟨(hbc (hab h).1).1, ((hbc (hab h).1).2).trans (hab h).2⟩

/-- A descriptor with no required service. -/
def demoInfoZero : PluginInfo :=
  { name := "zero", path := "/plugins/zero.so", requiredServices := [] }

/-- The world after `main` has started the monitor with the descriptors `demoInfoZero` and
`demoInfoA`. -/
def demoWorldZeroStarted : World :=
  (ServiceMonitor.startMonitor [demoInfoZero, demoInfoA]).exec
    (World.init "com.webos.service.eventmonitor" [])

/-- The world `demoWorldZeroStarted` after the first locale reply. -/
def demoWorldZeroLocale : World :=
  (ServiceMonitor.localeCallback demoBehaviour JValue.null (demoLocaleReply "en")).exec
    { demoWorldZeroStarted with bus := [] }

/-! ## The lifecycle of an adapter -/

/-- A world with a fresh adapter for `demoInfoA` at address 1: no plugin object yet. -/
def demoWorldFresh : World :=
  { service := { servicePath := "com.webos.service.eventmonitor" },
    adapters := [(1, { info := demoInfoA })],
    nextAdapter := 2 }

/-! ## A method handler that unloads its plugin -/

/-- Plugin code like `demoBehaviour`, but every method handler calls `unloadPlugin()` on
its manager and then returns `returnValue: true`. -/
def demoBehaviourHandlerUnload : PluginBehaviour :=
  { demoBehaviour with
    lunaCallHandler := fun _ _ =>
      PluginCode.call ManagerCall.unloadPlugin fun _ =>
        PluginCode.ret (JValue.obj [("returnValue", JValue.bool true)]) }

/-! ## The resources of an adapter that is destroyed -/

/-- The record of the monitor's locale subscription in `demoWorldBusy`: its owner is
null. -/
def demoMonitorRecord : SubscriptionInfo :=
  { schema := JSchema.AllSchema,
    subscribeCallback := some SubscribeCallback.localeCallback }


/-! ## Loading fails: a null instance or an exception of the constructor -/

/-- The world in which `PluginLoader::loadPlugin` calls `instantiatePlugin` when
`PluginManager::loadPlugin` was entered in `w` for a descriptor that is not active: the
adapter has been allocated at the address `w.nextAdapter` and the library is open. -/
def PluginManager.atInstantiate (info : PluginInfo) (service : String) (w : World) : World :=
  M.exec (do
    emit (Event.loadPlugin info.path service)
    let _ ← PluginAdapter.new info
    emit (Event.instantiatePlugin info.path)) w

/-- Plugin code like `demoBehaviour`, but `instantiatePlugin` throws. -/
def demoBehaviourCtorThrows : PluginBehaviour :=
  { demoBehaviour with instantiatePlugin := fun _ => Instantiation.runs PluginCode.throw }

/-- Plugin code like `demoBehaviour`, but `instantiatePlugin` returns null. -/
def demoBehaviourCtorNull : PluginBehaviour :=
  { demoBehaviour with
    instantiatePlugin := fun _ => Instantiation.runs (PluginCode.ret false) }


/-! ## The destructor of the manager -/

/-- One iteration of the loop of `PluginManager::~PluginManager` on the adapter
`adapter`. -/
def PluginManager.destroyStep (adapter : AdapterPtr) : M Unit := do
  PluginAdapter.unloadPlugin adapter
  PluginManager.processUnload adapter


/-! ## Runs of the process in which every handler returns -/

/-- The stimulus is the call of `startMonitor` by `main`. -/
def Stimulus.isStartMonitor : Stimulus → Bool
  | Stimulus.startMonitor _ => true
  | _ => false

/-- The states of a run of the process: `main` has called `startMonitor` with descriptors
of distinct paths, and the event loop has since run handlers for bus messages, timers and
requests, each of which returned.  (An exception that leaves a handler ends the process.) -/
inductive Running : World → Prop where
  | start (servicePath : String) (bus : List BusOutcome) (plugins : List PluginInfo)
      (hpaths : (plugins.map fun i => i.path).Nodup) :
      Running ((ServiceMonitor.startMonitor plugins).exec (World.init servicePath bus))
  | step (beh : PluginBehaviour) (s : Stimulus) (bus : List BusOutcome) (w : World)
      (hw : Running w) (hs : s.isStartMonitor = false)
      (hret : (s.handle beh).result { w with bus := bus } = Except.ok ()) :
      Running ((s.handle beh).exec { w with bus := bus })

/-- Every run of `m` that returns from a world with `I` ends in a world with `I`. -/
structure KeepsOk (I : World → Prop) {α : Type} (m : M α) : Prop where
  run : ∀ w a w', I w → m w = (Except.ok a, w') → I w'

/-- The weak dependency invariant: every entry of the active map points to a live adapter
that has all the required services of its descriptor up, or is notified. -/
def WeakDependencies (w : World) : Prop :=
  ∀ path a, Map.find? w.manager.activePlugins path = some a →
    ∃ ad, Map.find? w.adapters a = some ad ∧
      ((∀ s ∈ ad.info.requiredServices, w.isUp s = true) ∨ ad.unloadNotified = true)

/-- The world `demoWorldStarted` after the event loop has handled the first locale reply
(record 1): `svcA` is monitored through the record 2. -/
def demoRunLocale : World :=
  (Stimulus.handle demoBehaviour
    (Stimulus.reply 1 (Message.payload (demoLocaleReply "en")))).exec
    { demoWorldStarted with bus := [] }

/-- The world `demoRunLocale` after the event loop has handled the status reply that
`svcA` is up: the plugin of `demoInfoA` is loaded. -/
def demoRunLoaded : World :=
  (Stimulus.handle demoBehaviour
    (Stimulus.reply 2 (Message.payload (statusReply "svcA" true)))).exec
    { demoRunLocale with bus := [] }


/-! ## `startMonitoring` is not called twice in a row -/

/-- The event is a call of `startMonitoring`. -/
def Event.isStart : Event → Bool
  | Event.startMonitoring _ => true
  | _ => false

/-- The events that delimit the monitoring phases of the plugin of the library at `path`:
the construction of the object and the calls of its `startMonitoring` and
`stopMonitoring`. -/
def Event.isPhaseOf (path : String) : Event → Bool
  | Event.instantiatePlugin p => p == path
  | Event.startMonitoring p => p == path
  | Event.stopMonitoring p _ => p == path
  | _ => false

/-- The phase events of the library at `path`, in the order of the trace. -/
def phases (path : String) (t : List Event) : List Event :=
  t.filter (Event.isPhaseOf path)

/-- The last event of the list, if there is one, is not a `startMonitoring`. -/
def NotStarted (l : List Event) : Prop :=
  ∀ e, l.getLast? = some e → e.isStart = false

/-- For no library are two calls of `startMonitoring` adjacent among its phase events:
between two calls there is a `stopMonitoring`, or the second call is on a new object. -/
def NoDoubleStart (t : List Event) : Prop :=
  ∀ path, List.Chain' (fun a b => (a.isStart && b.isStart) = false) (phases path t)

/-- The invariant behind the alternation of `startMonitoring` and `stopMonitoring`: the
entries of the active map point to allocated addresses; a live adapter in the map carries
the descriptor of its entry; if it is notified, the last phase event of its library is
not a `startMonitoring`; and no two `startMonitoring` calls are adjacent so far. -/
structure StartInv (w : World) : Prop where
  bound : ∀ q a, Map.find? w.manager.activePlugins q = some a → a < w.nextAdapter
  own : ∀ q a x, Map.find? w.manager.activePlugins q = some a →
    Map.find? w.adapters a = some x → x.info.path = q
  ready : ∀ q a x, Map.find? w.manager.activePlugins q = some a →
    Map.find? w.adapters a = some x → x.unloadNotified = true →
    NotStarted (phases q w.trace)
  chain : NoDoubleStart w.trace

/-- Entries may have left the active map, adapters may have been deleted or allocated at
new addresses; the adapters that are left are as they were, and no phase event was
recorded. -/
structure Waned (w w' : World) : Prop where
  active : ∀ q a, Map.find? w'.manager.activePlugins q = some a →
    Map.find? w.manager.activePlugins q = some a
  nextAdapter : w.nextAdapter ≤ w'.nextAdapter
  adapters : ∀ b x', Map.find? w'.adapters b = some x' → b < w.nextAdapter →
    ∃ x, Map.find? w.adapters b = some x ∧ x.core = x'.core
  phases : ∀ q, phases q w'.trace = phases q w.trace

/-- The frame of the code that records no phase event and adds nothing to the active
map. -/
def wanedFrame : Frame where
  rel := Waned
  refl := fun _ => ⟨fun _ _ h => h, le_refl _, fun _ x' h _ => ⟨x', h, rfl⟩, fun _ => rfl⟩
  trans := fun a _ _ hab hbc =>
    { active := fun q x h => hab.active q x (hbc.active q x h)
      nextAdapter := le_trans hab.nextAdapter hbc.nextAdapter
      adapters := fun b x'' h'' hlt =>
        match hbc.adapters b x'' h'' (lt_of_lt_of_le hlt hab.nextAdapter) with
        | ⟨x', h', e1⟩ =>
            match hab.adapters b x' h' hlt with
            | ⟨x, h, e2⟩ => ⟨x, h, e2.trans e1⟩
      phases := fun q => (hbc.phases q).trans (hab.phases q) }

/-- The invariant between `new PluginAdapter` and the entry of the adapter `a` in the
active map: the adapter is allocated, no entry points to it, and it carries the
descriptor `info` and is not notified. -/
structure FreshStart (a : AdapterPtr) (info : PluginInfo) (w : World) : Prop where
  inv : StartInv w
  lt : a < w.nextAdapter
  unused : ∀ q, Map.find? w.manager.activePlugins q ≠ some a
  fresh : ∀ x, Map.find? w.adapters a = some x → x.info = info ∧ x.unloadNotified = false

/-- Nothing was made and nothing entered the active map: the allocators of adapters and
plugin objects stand where they stood, no plugin object was constructed, and every entry
of the active map was there before. -/
structure NothingMade (w w' : World) : Prop where
  active : ∀ q a, Map.find? w'.manager.activePlugins q = some a →
    Map.find? w.manager.activePlugins q = some a
  nextAdapter : w'.nextAdapter = w.nextAdapter
  nextPlugin : w'.nextPlugin = w.nextPlugin
  made : ∀ q, instantiations q w'.trace = instantiations q w.trace

/-- The frame of the code that makes no adapter and no plugin object. -/
def madeFrame : Frame where
  rel := NothingMade
  refl := fun _ => ⟨fun _ _ h => h, rfl, rfl, fun _ => rfl⟩
  trans := fun _ _ _ hab hbc =>
    { active := fun q x h => hab.active q x (hbc.active q x h)
      nextAdapter := hbc.nextAdapter.trans hab.nextAdapter
      nextPlugin := hbc.nextPlugin.trans hab.nextPlugin
      made := fun q => (hbc.made q).trans (hab.made q) }

/-- A notified adapter: `demoAdapterA` after `stopMonitoring` answered `UNLOAD_CANCEL`. -/
def demoAdapterNotified : PluginAdapter :=
  { demoAdapterA with unloadNotified := true }

/-- The world `demoWorldA` with its adapter notified. -/
def demoWorldNotified : World :=
  { demoWorldA with adapters := [(1, demoAdapterNotified)] }

/-- The gateway's subscription set holds the key of a deleted `SubscriptionInfo` (what a
refused first response leaves behind). -/
def LunaService.Dangling (s : LunaService) : Prop :=
  ∃ h ∈ s.subscriptions, Map.find? s.subscriptionInfos h = none

/-- The catch handler of the entry point `m`, entered in `w`, when the plugin code has
thrown and left the world `v` with a dangling key in the subscription set: the cleanup of
`unloadPlugin` reads the deleted record, which is undefined behaviour, and the adapters
are left as the plugin code left them (`needUnload` is not set). -/
def HandlerFaults {α : Type} (m : M α) (w v : World) : Prop :=
  v.service.Dangling →
    m.result w = Except.error (Err.fault "SubscriptionInfo used after delete") ∧
    (m.exec w).adapters = v.adapters

/-- Plugin code in the manner of the mock plugin: `startMonitoring` subscribes to a signal
and lets the `Error` of a refused subscription through, `stopMonitoring` and the timer
callbacks throw after a manager call, and `uiLocaleChanged` throws for the locale
"en-US" only. -/
def demoBehaviourRefused : PluginBehaviour :=
  { demoBehaviour with
    startMonitoring := fun _ =>
      PluginCode.call
        (ManagerCall.subscribeToSignal "batteryStatus" "/com/palm/power" "batteryStatus"
          (some 5) JSchema.AllSchema)
        fun r =>
          match r with
          | CallResult.raised _ => PluginCode.throw
          | _ => PluginCode.ret ()
    stopMonitoring := fun _ _ =>
      PluginCode.call ManagerCall.getUILocale fun _ => PluginCode.throw
    uiLocaleChanged := fun _ locale =>
      if locale = "en-US" then PluginCode.throw else PluginCode.ret ()
    timeoutCallback := fun _ _ =>
      PluginCode.call ManagerCall.getUILocale fun _ => PluginCode.throw }

/-- No adapter of the active map waits for `processUnload`: every live adapter that an
entry of the active map points to has `needUnload` unset. -/
def Calm (w : World) : Prop :=
  ∀ path a ad, Map.find? w.manager.activePlugins path = some a →
    Map.find? w.adapters a = some ad → ad.needUnload = false

/-- The property `Calm`, the adapter `b` apart: the state between a call into the adapter
`b` and the `processUnload` that follows it. -/
def CalmBut (b : AdapterPtr) (w : World) : Prop :=
  ∀ path a ad, a ≠ b → Map.find? w.manager.activePlugins path = some a →
    Map.find? w.adapters a = some ad → ad.needUnload = false

/-- Every run of `m` that returns from a world with `P` ends in a world with `Q`. -/
structure Leads (P : World → Prop) {α : Type} (m : M α) (Q : World → Prop) : Prop where
  run : ∀ w a w', P w → m w = (Except.ok a, w') → Q w'

end EventMonitor

/-! # Theorems -/

namespace EventMonitor

/-! ## Facts about the association lists -/

namespace Map

variable {κ : Type} [DecidableEq κ] {V : Type}

theorem find?_insert (m : List (κ × V)) (k : κ) (v : V) (k' : κ) :
    find? (insert m k v) k' = if k = k' then some v else find? m k' := by
  induction m with
  | nil => simp [insert, find?]
  | cons e rest ih =>
      obtain ⟨k0, v0⟩ := e
      by_cases h0 : k0 = k
      · subst h0
        by_cases h1 : k0 = k' <;> simp [insert, find?, h1]
      · by_cases h1 : k0 = k'
        · subst h1
          have : ¬ k = k0 := fun h => h0 h.symm
          simp [insert, find?, h0, this]
        · simp [insert, find?, h0, h1, ih]

theorem find?_erase (m : List (κ × V)) (k k' : κ) :
    find? (erase m k) k' = if k = k' then none else find? m k' := by
  induction m with
  | nil => simp [erase, find?]
  | cons e rest ih =>
      obtain ⟨k0, v0⟩ := e
      by_cases h0 : k0 = k
      · subst h0
        by_cases h1 : k0 = k'
        · subst h1
          simpa [erase, find?] using ih
        · simpa [erase, find?, h1] using ih
      · by_cases h1 : k0 = k'
        · subst h1
          have : ¬ k = k0 := fun h => h0 h.symm
          simp [erase, find?, h0, this]
        · simp [erase, find?, h0, h1, ih]

theorem contains_eq_isSome (m : List (κ × V)) (k : κ) :
    contains m k = (find? m k).isSome := by
  induction m with
  | nil => simp [contains, find?]
  | cons e rest ih =>
      obtain ⟨k0, v0⟩ := e
      have ih' : (rest.any fun e => decide (e.1 = k)) = (find? rest k).isSome := ih
      by_cases h0 : k0 = k <;> simp [contains, find?, h0, ih']

end Map

/-! ## Reasoning about the monad -/

@[simp] theorem M.pure_run {α : Type} (a : α) (w : World) :
    (pure a : M α) w = (Except.ok a, w) := rfl

theorem M.bind_run {α β : Type} (m : M α) (f : α → M β) (w : World) :
    (m >>= f) w = match m w with
      | (Except.ok a, w') => f a w'
      | (Except.error e, w') => (Except.error e, w') := rfl

namespace Keeps

variable {F : Frame} {α β : Type}

theorem pure (a : α) : Keeps F (pure a : M α) := ⟨fun w => F.refl w⟩

theorem raise (e : Err) : Keeps F (M.raise e : M α) := ⟨fun w => F.refl w⟩

theorem get : Keeps F M.get := ⟨fun w => F.refl w⟩

theorem bind {m : M α} {f : α → M β} (hm : Keeps F m) (hf : ∀ a, Keeps F (f a)) :
    Keeps F (m >>= f) := by
  constructor
  intro w
  have h1 := hm.run w
  rw [M.bind_run]
  rcases hmw : m w with ⟨r, w'⟩
  rw [hmw] at h1
  cases r with
  | error e => exact h1
  | ok a => exact F.trans _ _ _ h1 ((hf a).run w')

theorem tryCatch {m : M α} {c : Err → Bool} {h : Err → M α} (hm : Keeps F m)
    (hh : ∀ e, Keeps F (h e)) : Keeps F (M.tryCatch m c h) := by
  constructor
  intro w
  have h1 := hm.run w
  unfold M.tryCatch
  rcases hmw : m w with ⟨r, w'⟩
  rw [hmw] at h1
  cases r with
  | ok a => exact h1
  | error e =>
      by_cases hc : c e = true
      · simp only [hc, if_true]
        exact F.trans _ _ _ h1 ((hh e).run w')
      · simp only [hc]
        exact h1

theorem modify {f : World → World} (h : ∀ w, F.rel w (f w)) : Keeps F (M.modify f) := ⟨h⟩

theorem liftExcept (x : Except Err α) : Keeps F (liftExcept x) := by
  cases x with
  | ok a => exact pure a
  | error e => exact raise e

theorem derefAdapter (a : AdapterPtr) : Keeps F (derefAdapter a) := by
  constructor
  intro w
  unfold EventMonitor.derefAdapter
  split <;> exact F.refl w

theorem derefSubscription (h : SubscribeHandle) : Keeps F (derefSubscription h) := by
  constructor
  intro w
  unfold EventMonitor.derefSubscription
  split <;> exact F.refl w

theorem mono {G : Frame} {m : M α} (h : ∀ a b, F.rel a b → G.rel a b) (hm : Keeps F m) :
    Keeps G m := ⟨fun w => h _ _ (hm.run w)⟩

end Keeps

/-! ## The frame of the code below the manager -/

section ApiFrame

variable {strict : Bool}

theorem coreKept_of_fields {w w' : World} (h1 : w'.monitor = w.monitor)
    (h2 : w'.manager = w.manager) (h3 : w'.loader = w.loader)
    (h4 : w'.nextAdapter = w.nextAdapter) (h5 : w'.nextPlugin = w.nextPlugin)
    (h6 : lifecycle w'.trace = lifecycle w.trace) (h7 : w'.adapters = w.adapters) :
    CoreKept strict w w' :=
  { monitor := h1, manager := h2, loader := h3, nextAdapter := h4, nextPlugin := h5,
    events := h6, adapters := fun a => by rw [h7], needUnload := fun _ a => by rw [h7] }

theorem apiRel_of_fields {w w' : World} (h1 : w'.monitor = w.monitor)
    (h2 : w'.manager = w.manager) (h3 : w'.loader = w.loader)
    (h4 : w'.nextAdapter = w.nextAdapter) (h5 : w'.nextPlugin = w.nextPlugin)
    (h6 : lifecycle w'.trace = lifecycle w.trace) (h7 : w'.adapters = w.adapters)
    (h8 : w'.service.subscriptionInfos = w.service.subscriptionInfos)
    (h9 : w'.service.nextSubscription = w.service.nextSubscription) : ApiRel strict w w' :=
  { core := coreKept_of_fields h1 h2 h3 h4 h5 h6 h7
    subs := ⟨by rw [h9], fun h r hr => Or.inl (by rw [← h8]; exact hr)⟩ }

theorem ApiRel.toFresh {w w' : World} (h0 : SubscribeHandle) (h : ApiRel strict w w') :
    FreshRel h0 strict w w' :=
  { core := h.core
    subs := ⟨h.subs.next_le, fun h' r hr => by
      rcases h.subs.records h' r hr with h1 | h1
      · exact Or.inl h1
      · exact Or.inr (Or.inl h1)⟩ }

theorem Keeps.toFreshFrame {α : Type} {m : M α} (h0 : SubscribeHandle)
    (h : Keeps (apiFrame strict) m) : Keeps (freshFrame h0 strict) m :=
  Keeps.mono (fun _ _ hr => ApiRel.toFresh h0 hr) h

theorem lifecycle_append_busOp (t : List Event) (e : Event) (he : e.isBusOp = true) :
    lifecycle (t ++ [e]) = lifecycle t := by
  simp [lifecycle, List.filter_append, he]

theorem keeps_emit (e : Event) (he : e.isBusOp = true) : Keeps (apiFrame strict) (emit e) := by
  refine Keeps.modify fun w => apiRel_of_fields rfl rfl rfl rfl rfl ?_ rfl rfl rfl
  exact lifecycle_append_busOp _ _ he

theorem keeps_nextBusOutcome : Keeps (apiFrame strict) nextBusOutcome := by
  constructor
  intro w
  unfold nextBusOutcome
  split
  · exact (apiFrame strict).refl w
  · exact apiRel_of_fields rfl rfl rfl rfl rfl rfl rfl rfl rfl

theorem keeps_updateService (f : LunaService → LunaService)
    (h1 : ∀ s, (f s).subscriptionInfos = s.subscriptionInfos)
    (h2 : ∀ s, (f s).nextSubscription = s.nextSubscription) :
    Keeps (apiFrame strict) (updateService f) :=
  Keeps.modify fun _ => apiRel_of_fields rfl rfl rfl rfl rfl rfl rfl (h1 _) (h2 _)

theorem keeps_deleteSubscription (h : SubscribeHandle) :
    Keeps (apiFrame strict) (deleteSubscription h) := by
  constructor
  intro w
  unfold deleteSubscription
  split
  · exact
      { core := coreKept_of_fields rfl rfl rfl rfl rfl rfl rfl
        subs := ⟨le_refl _, fun h' r hr => by
          simp only [Map.find?_erase] at hr
          split at hr
          · exact absurd hr (by simp)
          · exact Or.inl hr⟩ }
  · exact (apiFrame strict).refl w

theorem keeps_updateSubscription_fresh (h : SubscribeHandle)
    (f : SubscriptionInfo → SubscriptionInfo)
    (hf : ∀ r, (f r).previousValue = JValue.null) :
    Keeps (freshFrame h strict) (updateSubscription h f) := by
  constructor
  intro w
  unfold updateSubscription
  split
  · exact
      { core := coreKept_of_fields rfl rfl rfl rfl rfl rfl rfl
        subs := ⟨le_refl _, fun h' r hr => by
          simp only [Map.find?_insert] at hr
          split at hr
          · rename_i heq
            subst heq
            refine Or.inr (Or.inr ⟨rfl, ?_⟩)
            cases hr
            exact hf _
          · exact Or.inl hr⟩ }
  · exact (freshFrame h strict).refl w

theorem keeps_updateAdapter (a : AdapterPtr) (f : PluginAdapter → PluginAdapter)
    (h1 : ∀ x, (f x).core = x.core)
    (h2 : strict = true → ∀ x, (f x).needUnload = x.needUnload) :
    Keeps (apiFrame strict) (updateAdapter a f) := by
  constructor
  intro w
  unfold updateAdapter
  split
  · rename_i adapter hfind
    exact
      { core :=
        { monitor := rfl, manager := rfl, loader := rfl, nextAdapter := rfl, nextPlugin := rfl,
          events := rfl,
          adapters := fun b => by
            simp only [Map.find?_insert]
            split
            · rename_i hab
              subst hab
              simp [hfind, h1]
            · rfl
          needUnload := fun hs b => by
            simp only [Map.find?_insert]
            split
            · rename_i hab
              subst hab
              simp [hfind, h2 hs]
            · rfl }
        subs := ⟨le_refl _, fun _ _ hr => Or.inl hr⟩ }
  · exact (apiFrame strict).refl w

theorem fresh_compose (w w1 w2 : World) (hc : CoreKept strict w w1)
    (hn : w1.service.nextSubscription = w.service.nextSubscription + 1)
    (hrec : ∀ h r, Map.find? w1.service.subscriptionInfos h = some r →
      (h = w.service.nextSubscription ∧ r.previousValue = JValue.null) ∨
      Map.find? w.service.subscriptionInfos h = some r)
    (hb : FreshRel w.service.nextSubscription strict w1 w2) : ApiRel strict w w2 := by
  have hlt : w.service.nextSubscription < w2.service.nextSubscription :=
    lt_of_lt_of_le (by rw [hn]; exact Nat.lt_succ_self _) hb.subs.next_le
  refine { core := hc.trans hb.core, subs := ⟨le_of_lt hlt, fun h r hr => ?_⟩ }
  rcases hb.subs.records h r hr with h1 | ⟨h1, h2, h3⟩ | ⟨h1, h2⟩
  · rcases hrec h r h1 with ⟨h4, h5⟩ | h4
    · subst h4
      exact Or.inr ⟨le_refl _, hlt, h5⟩
    · exact Or.inl h4
  · exact Or.inr ⟨le_trans (by rw [hn]; exact Nat.le_succ _) h1, h2, h3⟩
  · subst h1
    exact Or.inr ⟨le_refl _, hlt, h2⟩

/-- Making a record and then filling it in is, seen from the start, within `ApiRel`. -/
theorem keeps_newSubscription_then {α : Type} (schema : JSchema)
    (body : SubscribeHandle → M α)
    (hbody : ∀ h, Keeps (freshFrame h strict) (body h)) :
    Keeps (apiFrame strict) (newSubscription schema >>= body) := by
  constructor
  intro w
  have key : ApiRel strict w
      (body w.service.nextSubscription (newSubscription schema w).2).2 := by
    refine fresh_compose w (newSubscription schema w).2 _
      (coreKept_of_fields rfl rfl rfl rfl rfl rfl rfl) rfl ?_
      ((hbody w.service.nextSubscription).run _)
    intro h r hr
    simp only [newSubscription, Map.find?_insert] at hr
    split at hr
    · rename_i heq
      subst heq
      cases hr
      exact Or.inl ⟨rfl, rfl⟩
    · exact Or.inr hr
  exact key

end ApiFrame

/-! ## The gateway and the manager API stay within the frame -/

section ApiFunctions

variable {strict : Bool}

theorem keeps_call (url : String) (params : JValue) (timeout : Nat) :
    Keeps (apiFrame strict) (LunaService.call url params timeout) := by
  unfold LunaService.call
  repeat (first
    | exact Keeps.pure _ | exact Keeps.raise _ | exact Keeps.get
    | exact keeps_nextBusOutcome
    | exact keeps_emit _ rfl
    | apply Keeps.bind
    | intro _
    | split
    | dsimp only)

theorem keeps_callAsync (url : String) (params : JValue) (callback : Option PluginCallback)
    (plugin : Option AdapterPtr) :
    Keeps (apiFrame strict) (LunaService.callAsync url params callback plugin) := by
  unfold LunaService.callAsync
  cases callback with
  | none =>
      repeat (first
        | exact Keeps.pure _ | exact Keeps.raise _ | exact Keeps.get
        | exact keeps_nextBusOutcome
        | exact keeps_emit _ rfl
        | apply Keeps.bind
        | intro _
        | split
        | dsimp only)
  | some cb =>
      apply keeps_newSubscription_then
      intro h
      repeat (first
        | exact Keeps.pure _ | exact Keeps.raise _ | exact Keeps.get
        | exact Keeps.toFreshFrame _ keeps_nextBusOutcome
        | exact Keeps.toFreshFrame _ (keeps_emit _ rfl)
        | exact Keeps.toFreshFrame _ (keeps_updateService _ (fun _ => rfl) (fun _ => rfl))
        | exact Keeps.toFreshFrame _ (keeps_deleteSubscription _)
        | exact keeps_updateSubscription_fresh _ _ (fun _ => rfl)
        | apply Keeps.bind
        | apply Keeps.tryCatch
        | intro _
        | split
        | dsimp only)

theorem keeps_registerMethod (plugin : Option AdapterPtr) (category methodName : String)
    (handler : Option PluginCallback) (schema : JSchema) :
    Keeps (apiFrame strict)
      (LunaService.registerMethod plugin category methodName handler schema) := by
  unfold LunaService.registerMethod
  repeat (first
    | exact Keeps.pure _ | exact Keeps.raise _ | exact Keeps.get
    | exact keeps_emit _ rfl
    | exact keeps_updateService _ (fun _ => rfl) (fun _ => rfl)
    | apply Keeps.bind
    | intro _
    | split
    | dsimp only)

theorem keeps_checkFirst (info : SubscribeHandle) (reply : BusOutcome) :
    Keeps (apiFrame strict) (LunaService.checkFirst info reply) := by
  unfold LunaService.checkFirst
  repeat (first
    | exact Keeps.pure _ | exact Keeps.raise _ | exact Keeps.get
    | exact keeps_deleteSubscription _
    | apply Keeps.bind
    | intro _
    | split
    | dsimp only)

theorem keeps_subscribeToMethod (url : String) (params : JValue)
    (callback : Option SubscribeCallback) (schema : JSchema) (plugin : Option AdapterPtr)
    (checkFirstResponse : Bool) :
    Keeps (apiFrame strict)
      (LunaService.subscribeToMethod url params callback schema plugin checkFirstResponse) := by
  unfold LunaService.subscribeToMethod
  apply keeps_newSubscription_then
  intro h
  repeat (first
    | exact Keeps.pure _ | exact Keeps.raise _ | exact Keeps.get
    | exact Keeps.toFreshFrame _ keeps_nextBusOutcome
    | exact Keeps.toFreshFrame _ (keeps_emit _ rfl)
    | exact Keeps.toFreshFrame _ (keeps_updateService _ (fun _ => rfl) (fun _ => rfl))
    | exact Keeps.toFreshFrame _ (keeps_deleteSubscription _)
    | exact Keeps.toFreshFrame _ (keeps_checkFirst _ _)
    | exact keeps_updateSubscription_fresh _ _ (fun _ => rfl)
    | apply Keeps.bind
    | apply Keeps.tryCatch
    | intro _
    | split
    | dsimp only)

theorem keeps_cancelSubscribe (info : SubscribeHandle) :
    Keeps (apiFrame strict) (LunaService.cancelSubscribe info) := by
  unfold LunaService.cancelSubscribe
  repeat (first
    | exact Keeps.pure _ | exact Keeps.raise _ | exact Keeps.get
    | exact Keeps.derefSubscription _
    | exact keeps_emit _ rfl
    | exact keeps_deleteSubscription _
    | exact keeps_updateService _ (fun _ => rfl) (fun _ => rfl)
    | apply Keeps.bind
    | intro _
    | split
    | dsimp only)

theorem keeps_cleanupSubscriptions (plugin : Option AdapterPtr) (keys : List SubscribeHandle) :
    Keeps (apiFrame strict) (LunaService.cleanupSubscriptions plugin keys) := by
  induction keys with
  | nil => exact Keeps.pure _
  | cons key rest ih =>
      unfold LunaService.cleanupSubscriptions
      repeat (first
        | exact Keeps.pure _ | exact Keeps.raise _ | exact Keeps.get
        | exact ih
        | exact Keeps.derefSubscription _
        | exact keeps_emit _ rfl
        | exact keeps_deleteSubscription _
        | exact keeps_updateService _ (fun _ => rfl) (fun _ => rfl)
        | apply Keeps.bind
        | intro _
        | split
        | dsimp only)

theorem keeps_cleanupPlugin (plugin : Option AdapterPtr) :
    Keeps (apiFrame strict) (LunaService.cleanupPlugin plugin) := by
  unfold LunaService.cleanupPlugin
  repeat (first
    | exact Keeps.pure _ | exact Keeps.raise _ | exact Keeps.get
    | exact keeps_cleanupSubscriptions _ _
    | exact keeps_updateService _ (fun _ => rfl) (fun _ => rfl)
    | apply Keeps.bind
    | intro _
    | split
    | dsimp only)

theorem keeps_closeAlert (self : AdapterPtr) (alertId : String) :
    Keeps (apiFrame strict) (PluginAdapter.closeAlert self alertId) := by
  unfold PluginAdapter.closeAlert
  repeat (first
    | exact Keeps.pure _ | exact Keeps.raise _ | exact Keeps.get
    | exact Keeps.derefAdapter _
    | exact keeps_call _ _ _
    | exact keeps_updateAdapter _ _ (fun _ => rfl) (fun _ _ => rfl)
    | apply Keeps.bind
    | intro _
    | split
    | dsimp only)

theorem keeps_cancelTimeout (self : AdapterPtr) (timeoutId : String) :
    Keeps (apiFrame strict) (PluginAdapter.cancelTimeout self timeoutId) := by
  unfold PluginAdapter.cancelTimeout
  repeat (first
    | exact Keeps.pure _ | exact Keeps.raise _ | exact Keeps.get
    | exact Keeps.derefAdapter _
    | exact keeps_emit _ rfl
    | exact keeps_updateAdapter _ _ (fun _ => rfl) (fun _ _ => rfl)
    | apply Keeps.bind
    | intro _
    | split
    | dsimp only)

theorem keeps_closeAlerts (self : AdapterPtr) (fuel : Nat) :
    Keeps (apiFrame strict) (PluginAdapter.closeAlerts self fuel) := by
  induction fuel with
  | zero => exact Keeps.pure _
  | succ n ih =>
      unfold PluginAdapter.closeAlerts
      repeat (first
        | exact Keeps.pure _ | exact Keeps.raise _ | exact Keeps.get
        | exact ih
        | exact Keeps.derefAdapter _
        | exact keeps_closeAlert _ _
        | apply Keeps.bind
        | intro _
        | split
        | dsimp only)

theorem keeps_cancelTimeouts (self : AdapterPtr) (fuel : Nat) :
    Keeps (apiFrame strict) (PluginAdapter.cancelTimeouts self fuel) := by
  induction fuel with
  | zero => exact Keeps.pure _
  | succ n ih =>
      unfold PluginAdapter.cancelTimeouts
      repeat (first
        | exact Keeps.pure _ | exact Keeps.raise _ | exact Keeps.get
        | exact ih
        | exact Keeps.derefAdapter _
        | exact keeps_cancelTimeout _ _
        | apply Keeps.bind
        | intro _
        | split
        | dsimp only)

theorem keeps_unloadPlugin (self : AdapterPtr) :
    Keeps (apiFrame false) (PluginAdapter.unloadPlugin self) := by
  unfold PluginAdapter.unloadPlugin
  repeat (first
    | exact Keeps.pure _ | exact Keeps.raise _ | exact Keeps.get
    | exact Keeps.derefAdapter _
    | exact keeps_cleanupPlugin _
    | exact keeps_closeAlerts _ _
    | exact keeps_cancelTimeouts _ _
    | exact keeps_updateAdapter _ _ (fun _ => rfl) (fun h => absurd h (by decide))
    | apply Keeps.bind
    | intro _
    | split
    | dsimp only)

theorem keeps_unsubscribeFromMethod (self : AdapterPtr) (subscriptionId : String) :
    Keeps (apiFrame strict) (PluginAdapter.unsubscribeFromMethod self subscriptionId) := by
  unfold PluginAdapter.unsubscribeFromMethod
  repeat (first
    | exact Keeps.pure _ | exact Keeps.raise _ | exact Keeps.get
    | exact Keeps.derefAdapter _
    | exact keeps_cancelSubscribe _
    | exact keeps_updateAdapter _ _ (fun _ => rfl) (fun _ _ => rfl)
    | apply Keeps.bind
    | intro _
    | split
    | dsimp only)

theorem keeps_adapter_subscribeToMethod (self : AdapterPtr) (subscriptionId serviceName : String)
    (params : JValue) (callback : Option SubscribeCallback) (schema : JSchema) :
    Keeps (apiFrame strict)
      (PluginAdapter.subscribeToMethod self subscriptionId serviceName params callback schema) := by
  unfold PluginAdapter.subscribeToMethod
  repeat (first
    | exact Keeps.pure _ | exact Keeps.raise _ | exact Keeps.get
    | exact Keeps.derefAdapter _
    | exact Keeps.liftExcept _
    | exact keeps_unsubscribeFromMethod _ _
    | exact keeps_subscribeToMethod _ _ _ _ _ _
    | exact keeps_updateAdapter _ _ (fun _ => rfl) (fun _ _ => rfl)
    | apply Keeps.bind
    | intro _
    | split
    | dsimp only)

theorem keeps_subscribeToSignal (self : AdapterPtr) (subscriptionId category method : String)
    (callback : Option SubscribeCallback) (schema : JSchema) :
    Keeps (apiFrame strict)
      (PluginAdapter.subscribeToSignal self subscriptionId category method callback schema) := by
  unfold PluginAdapter.subscribeToSignal PluginAdapter.unsubscribeFromSignal
  repeat (first
    | exact Keeps.pure _ | exact Keeps.raise _ | exact Keeps.get
    | exact keeps_unsubscribeFromMethod _ _
    | exact keeps_subscribeToMethod _ _ _ _ _ _
    | exact keeps_updateAdapter _ _ (fun _ => rfl) (fun _ _ => rfl)
    | apply Keeps.bind
    | intro _
    | split
    | dsimp only)

theorem keeps_lunaCall (self : AdapterPtr) (url : String) (params : JValue) (timeout : Nat) :
    Keeps (apiFrame strict) (PluginAdapter.lunaCall self url params timeout) :=
  keeps_call url params timeout

theorem keeps_lunaCallAsync (self : AdapterPtr) (url : String) (params : JValue)
    (callback : Option PluginCallback) :
    Keeps (apiFrame strict) (PluginAdapter.lunaCallAsync self url params callback) := by
  unfold PluginAdapter.lunaCallAsync
  repeat (first
    | exact Keeps.pure _
    | exact keeps_callAsync _ _ _ _
    | apply Keeps.bind
    | intro _)

theorem keeps_setTimeout (self : AdapterPtr) (timeoutId : String) (timeMs : Nat)
    (repeat_ : Bool) (callback : PluginCallback) :
    Keeps (apiFrame strict)
      (PluginAdapter.setTimeout self timeoutId timeMs repeat_ callback) := by
  unfold PluginAdapter.setTimeout
  repeat (first
    | exact Keeps.pure _ | exact Keeps.raise _ | exact Keeps.get
    | exact keeps_cancelTimeout _ _
    | exact keeps_emit _ rfl
    | exact Keeps.modify fun _ => apiRel_of_fields rfl rfl rfl rfl rfl rfl rfl rfl rfl
    | exact keeps_updateAdapter _ _ (fun _ => rfl) (fun _ _ => rfl)
    | apply Keeps.bind
    | intro _
    | split
    | dsimp only)

theorem keeps_createToast (self : AdapterPtr) (message iconUrl : String)
    (onClickAction : JValue) :
    Keeps (apiFrame strict) (PluginAdapter.createToast self message iconUrl onClickAction) := by
  unfold PluginAdapter.createToast
  repeat (first
    | exact Keeps.pure _ | exact Keeps.raise _ | exact Keeps.get
    | exact Keeps.derefAdapter _
    | exact keeps_callAsync _ _ _ _
    | apply Keeps.bind
    | intro _)

theorem keeps_createAlert (self : AdapterPtr) (alertId title message : String) (modal : Bool)
    (iconUrl : String) (buttons onClose : JValue) :
    Keeps (apiFrame strict)
      (PluginAdapter.createAlert self alertId title message modal iconUrl buttons onClose) := by
  unfold PluginAdapter.createAlert
  repeat (first
    | exact Keeps.pure _ | exact Keeps.raise _ | exact Keeps.get
    | exact keeps_closeAlert _ _
    | exact keeps_call _ _ _
    | exact keeps_updateAdapter _ _ (fun _ => rfl) (fun _ _ => rfl)
    | apply Keeps.bind
    | intro _
    | split
    | dsimp only)

theorem keeps_adapter_registerMethod (self : AdapterPtr) (category name : String)
    (handler : Option PluginCallback) (schema : JSchema) :
    Keeps (apiFrame strict) (PluginAdapter.registerMethod self category name handler schema) := by
  unfold PluginAdapter.registerMethod
  repeat (first
    | exact Keeps.pure _ | exact Keeps.raise _ | exact Keeps.get
    | exact keeps_registerMethod _ _ _ _ _
    | apply Keeps.bind
    | intro _
    | split
    | dsimp only)

/-- A `Manager` call other than `unloadPlugin` leaves the flag `needUnload` alone too. -/
theorem keeps_dispatch (self : AdapterPtr) (c : ManagerCall)
    (hc : strict = true → c ≠ ManagerCall.unloadPlugin) :
    Keeps (apiFrame strict) (PluginAdapter.dispatch self c) := by
  cases c with
  | unloadPlugin =>
      cases strict with
      | true => exact absurd rfl (hc rfl)
      | false =>
          unfold PluginAdapter.dispatch
          exact Keeps.bind (keeps_unloadPlugin _) (fun _ => Keeps.pure _)
  | _ =>
      unfold PluginAdapter.dispatch
      repeat (first
        | exact Keeps.pure _ | exact Keeps.get
        | exact keeps_lunaCall _ _ _ _
        | exact keeps_lunaCallAsync _ _ _ _
        | exact keeps_adapter_subscribeToMethod _ _ _ _ _ _
        | exact keeps_unsubscribeFromMethod _ _
        | exact keeps_subscribeToSignal _ _ _ _ _ _
        | exact keeps_setTimeout _ _ _ _ _
        | exact keeps_cancelTimeout _ _
        | exact keeps_adapter_registerMethod _ _ _ _ _
        | exact keeps_createToast _ _ _ _
        | exact keeps_createAlert _ _ _ _ _ _ _ _
        | exact keeps_closeAlert _ _
        | apply Keeps.bind
        | intro _)

theorem keeps_runPlugin (self : AdapterPtr) {R : Type} (code : PluginCode R)
    (h : strict = true → code.NoUnload) :
    Keeps (apiFrame strict) (PluginAdapter.runPlugin self code) := by
  induction code with
  | ret r => exact Keeps.pure _
  | throw => exact Keeps.raise _
  | call c next ih =>
      unfold PluginAdapter.runPlugin
      refine Keeps.bind (Keeps.tryCatch (keeps_dispatch self c fun hs => (h hs).1)
        (fun _ => Keeps.pure _)) (fun r => ih r fun hs => (h hs).2 r)

end ApiFunctions


end EventMonitor

namespace EventMonitor

/-! ## The manager and the adapters stay within their frame -/

theorem filter_lifecycle (p : Event → Bool) (hp : ∀ e, p e = true → e.isBusOp = false)
    (t : List Event) : (lifecycle t).filter p = t.filter p := by
  induction t with
  | nil => rfl
  | cons e rest ih =>
      unfold lifecycle at ih ⊢
      by_cases hb : e.isBusOp = true
      · have hpe : p e = false := by
          cases hpe : p e with
          | false => rfl
          | true => rw [hp e hpe] at hb; cases hb
        simp [List.filter, hb, hpe, ih]
      · have hb' : e.isBusOp = false := by simpa using hb
        by_cases hpe : p e = true
        · simp [List.filter, hb', hpe, ih]
        · have hpe' : p e = false := by simpa using hpe
          simp [List.filter, hb', hpe', ih]

theorem ApiRel.toMgrRel {strict : Bool} {w w' : World} (h : ApiRel strict w w') : MgrRel w w' where
  monitor := h.core.monitor
  calls := by
    unfold managerCalls
    rw [← filter_lifecycle _ (by intro e he; cases e <;> simp_all [Event.isManagerCall, Event.isBusOp]) w'.trace,
      ← filter_lifecycle _ (by intro e he; cases e <;> simp_all [Event.isManagerCall, Event.isBusOp]) w.trace,
      h.core.events]
  callbacks := by
    unfold subscribeCallbacks
    rw [← filter_lifecycle _ (by intro e he; cases e <;> simp_all [Event.isSubscribeCallback, Event.isBusOp]) w'.trace,
      ← filter_lifecycle _ (by intro e he; cases e <;> simp_all [Event.isSubscribeCallback, Event.isBusOp]) w.trace,
      h.core.events]
  subs := h.subs

theorem Keeps.toMgr {strict : Bool} {α : Type} {m : M α} (h : Keeps (apiFrame strict) m) :
    Keeps mgrFrame m :=
  Keeps.mono (fun _ _ hr => ApiRel.toMgrRel hr) h

theorem mgrRel_of_fields {w w' : World} (h1 : w'.monitor = w.monitor)
    (h2 : w'.trace = w.trace) (h3 : w'.service = w.service) : MgrRel w w' :=
  { monitor := h1, calls := by rw [h2], callbacks := by rw [h2],
    subs := ⟨by rw [h3], fun h r hr => Or.inl (by rw [← h3]; exact hr)⟩ }

theorem keepsMgr_emit (e : Event) (h1 : e.isManagerCall = false)
    (h2 : e.isSubscribeCallback = false) : Keeps mgrFrame (emit e) := by
  refine Keeps.modify fun w => ?_
  exact
    { monitor := rfl
      calls := by simp [managerCalls, List.filter_append, h1]
      callbacks := by simp [subscribeCallbacks, List.filter_append, h2]
      subs := ⟨le_refl _, fun _ _ hr => Or.inl hr⟩ }

theorem keepsMgr_updateAdapter (a : AdapterPtr) (f : PluginAdapter → PluginAdapter) :
    Keeps mgrFrame (updateAdapter a f) := by
  constructor
  intro w
  unfold updateAdapter
  split
  · exact mgrRel_of_fields rfl rfl rfl
  · exact mgrFrame.refl w

theorem keeps_runPlugin_any (self : AdapterPtr) {R : Type} (code : PluginCode R) :
    Keeps (apiFrame false) (PluginAdapter.runPlugin self code) :=
  keeps_runPlugin self code (fun h => absurd h (by decide))

theorem keepsMgr_derefPlugin (self : AdapterPtr) :
    Keeps mgrFrame (PluginAdapter.derefPlugin self) := by
  unfold PluginAdapter.derefPlugin
  repeat (first
    | exact Keeps.pure _ | exact Keeps.raise _
    | exact Keeps.derefAdapter _
    | apply Keeps.bind
    | intro _
    | split)

theorem keepsMgr_callStartMonitoring (beh : PluginBehaviour) (self : AdapterPtr) :
    Keeps mgrFrame (PluginAdapter.callStartMonitoring beh self) := by
  unfold PluginAdapter.callStartMonitoring
  repeat (first
    | exact Keeps.pure _ | exact Keeps.raise _
    | exact keepsMgr_derefPlugin _
    | exact keepsMgr_updateAdapter _ _
    | exact keepsMgr_emit _ rfl rfl
    | exact Keeps.toMgr (keeps_runPlugin_any _ _)
    | exact Keeps.toMgr (keeps_unloadPlugin _)
    | apply Keeps.bind
    | apply Keeps.tryCatch
    | intro _
    | split
    | dsimp only)

theorem keepsMgr_pluginLoaded (beh : PluginBehaviour) (self : AdapterPtr)
    (plugin : Option PluginPtr) : Keeps mgrFrame (PluginAdapter.pluginLoaded beh self plugin) := by
  unfold PluginAdapter.pluginLoaded
  repeat (first
    | exact Keeps.pure _ | exact Keeps.raise _
    | exact Keeps.derefAdapter _
    | exact keepsMgr_updateAdapter _ _
    | exact keepsMgr_callStartMonitoring _ _
    | apply Keeps.bind
    | intro _
    | split
    | dsimp only)

theorem keepsMgr_notifyLocaleChanged (beh : PluginBehaviour) (self : AdapterPtr)
    (locale : String) : Keeps mgrFrame (PluginAdapter.notifyLocaleChanged beh self locale) := by
  unfold PluginAdapter.notifyLocaleChanged
  repeat (first
    | exact Keeps.pure _ | exact Keeps.raise _
    | exact Keeps.derefAdapter _
    | exact keepsMgr_emit _ rfl rfl
    | exact Keeps.toMgr (keeps_runPlugin_any _ _)
    | exact Keeps.toMgr (keeps_unloadPlugin _)
    | apply Keeps.bind
    | apply Keeps.tryCatch
    | intro _
    | split
    | dsimp only)

theorem keepsMgr_notifyPluginShouldUnload (beh : PluginBehaviour) (self : AdapterPtr)
    (service : String) :
    Keeps mgrFrame (PluginAdapter.notifyPluginShouldUnload beh self service) := by
  unfold PluginAdapter.notifyPluginShouldUnload
  repeat (first
    | exact Keeps.pure _ | exact Keeps.raise _
    | exact Keeps.derefAdapter _
    | exact keepsMgr_updateAdapter _ _
    | exact keepsMgr_emit _ rfl rfl
    | exact Keeps.toMgr (keeps_runPlugin_any _ _)
    | exact Keeps.toMgr (keeps_unloadPlugin _)
    | apply Keeps.bind
    | apply Keeps.tryCatch
    | intro _
    | split
    | dsimp only)

theorem keepsMgr_new (info : PluginInfo) : Keeps mgrFrame (PluginAdapter.new info) :=
  ⟨fun _ => mgrRel_of_fields rfl rfl rfl⟩

theorem keepsMgr_delete (self : AdapterPtr) : Keeps mgrFrame (PluginAdapter.delete self) := by
  unfold PluginAdapter.delete
  repeat (first
    | exact Keeps.pure _ | exact Keeps.raise _
    | exact Keeps.derefAdapter _
    | exact keepsMgr_emit _ rfl rfl
    | exact Keeps.modify fun _ => mgrRel_of_fields rfl rfl rfl
    | apply Keeps.bind
    | intro _
    | split
    | dsimp only)

theorem keepsMgr_loader_loadPlugin (beh : PluginBehaviour) (info : PluginInfo)
    (manager : AdapterPtr) : Keeps mgrFrame (PluginLoader.loadPlugin beh info manager) := by
  unfold PluginLoader.loadPlugin
  repeat (first
    | exact Keeps.pure _ | exact Keeps.raise _ | exact Keeps.get
    | exact keepsMgr_emit _ rfl rfl
    | exact Keeps.toMgr (keeps_runPlugin_any _ _)
    | exact Keeps.modify fun _ => mgrRel_of_fields rfl rfl rfl
    | apply Keeps.bind
    | apply Keeps.tryCatch
    | intro _
    | split
    | dsimp only)

theorem keepsMgr_loader_unloadPlugin (info : PluginInfo) :
    Keeps mgrFrame (PluginLoader.unloadPlugin info) := by
  unfold PluginLoader.unloadPlugin
  repeat (first
    | exact Keeps.pure _ | exact Keeps.raise _ | exact Keeps.get
    | exact keepsMgr_emit _ rfl rfl
    | exact Keeps.modify fun _ => mgrRel_of_fields rfl rfl rfl
    | apply Keeps.bind
    | intro _
    | split
    | dsimp only)

theorem keepsMgr_processUnload (adapter : AdapterPtr) :
    Keeps mgrFrame (PluginManager.processUnload adapter) := by
  unfold PluginManager.processUnload
  repeat (first
    | exact Keeps.pure _ | exact Keeps.raise _ | exact Keeps.get
    | exact Keeps.derefAdapter _
    | exact Keeps.toMgr (keeps_unloadPlugin _)
    | exact keepsMgr_delete _
    | exact keepsMgr_loader_unloadPlugin _
    | exact Keeps.modify fun _ => mgrRel_of_fields rfl rfl rfl
    | apply Keeps.bind
    | intro _
    | split
    | dsimp only)

/-- The body of `PluginManager::loadPlugin` after its ghost event. -/
theorem keepsMgr_loadPlugin_body (beh : PluginBehaviour) (info : PluginInfo) (w0 : World) :
    Keeps mgrFrame (match Map.find? w0.manager.activePlugins info.path with
      | some adapter => do
          PluginAdapter.pluginLoaded beh adapter none
          PluginManager.processUnload adapter
      | none => do
          let adapter ← PluginAdapter.new info
          let plugin ← PluginLoader.loadPlugin beh info adapter
          match plugin with
          | none => do
              PluginLoader.unloadPlugin info
              PluginAdapter.delete adapter
          | some p => do
              M.modify fun w => { w with manager := { w.manager with
                activePlugins := Map.insert w.manager.activePlugins info.path adapter } }
              PluginAdapter.pluginLoaded beh adapter (some p)
              PluginManager.processUnload adapter) := by
  repeat (first
    | exact Keeps.pure _ | exact Keeps.raise _ | exact Keeps.get
    | exact keepsMgr_pluginLoaded _ _ _
    | exact keepsMgr_processUnload _
    | exact keepsMgr_new _
    | exact keepsMgr_delete _
    | exact keepsMgr_loader_loadPlugin _ _ _
    | exact keepsMgr_loader_unloadPlugin _
    | exact Keeps.modify fun _ => mgrRel_of_fields rfl rfl rfl
    | apply Keeps.bind
    | intro _
    | split
    | dsimp only)

end EventMonitor

/-! ## The calls of `updatePlugins` (C1) -/

namespace EventMonitor

theorem keepsMgr_notify_body (beh : PluginBehaviour) (pluginInfo : PluginInfo)
    (serviceName : String) (w0 : World) :
    Keeps mgrFrame (match Map.find? w0.manager.activePlugins pluginInfo.path with
      | none => pure ()
      | some adapter => do
          PluginAdapter.notifyPluginShouldUnload beh adapter serviceName
          PluginManager.processUnload adapter) := by
  repeat (first
    | exact Keeps.pure _
    | exact keepsMgr_notifyPluginShouldUnload _ _ _
    | exact keepsMgr_processUnload _
    | apply Keeps.bind
    | intro _
    | split)

/-- The manager entry point `loadPlugin` records its call and leaves the monitor alone. -/
theorem loadPlugin_calls (beh : PluginBehaviour) (info : PluginInfo) (service : String)
    (w : World) :
    managerCalls (PluginManager.loadPlugin beh info service w).2.trace =
      managerCalls w.trace ++ [Event.loadPlugin info.path service] ∧
    (PluginManager.loadPlugin beh info service w).2.monitor = w.monitor := by
  have h := (keepsMgr_loadPlugin_body beh info
    { w with trace := w.trace ++ [Event.loadPlugin info.path service] }).run
    { w with trace := w.trace ++ [Event.loadPlugin info.path service] }
  have key : MgrRel { w with trace := w.trace ++ [Event.loadPlugin info.path service] }
      (PluginManager.loadPlugin beh info service w).2 := h
  refine ⟨?_, key.monitor⟩
  rw [key.calls]
  simp [managerCalls, List.filter_append, Event.isManagerCall]

/-- The manager entry point `notifyPluginShouldUnload` records its call and leaves the
monitor alone. -/
theorem notifyPluginShouldUnload_calls (beh : PluginBehaviour) (info : PluginInfo)
    (service : String) (w : World) :
    managerCalls (PluginManager.notifyPluginShouldUnload beh info service w).2.trace =
      managerCalls w.trace ++ [Event.notifyPluginShouldUnload info.path service] ∧
    (PluginManager.notifyPluginShouldUnload beh info service w).2.monitor = w.monitor := by
  have h := (keepsMgr_notify_body beh info service
    { w with trace := w.trace ++ [Event.notifyPluginShouldUnload info.path service] }).run
    { w with trace := w.trace ++ [Event.notifyPluginShouldUnload info.path service] }
  have key : MgrRel
      { w with trace := w.trace ++ [Event.notifyPluginShouldUnload info.path service] }
      (PluginManager.notifyPluginShouldUnload beh info service w).2 := h
  refine ⟨?_, key.monitor⟩
  rw [key.calls]
  simp [managerCalls, List.filter_append, Event.isManagerCall]

theorem expectedCall_congr (w w' : World) (serviceName : String)
    (h : ∀ s, w'.isUp s = w.isUp s) (plugin : PluginInfo) :
    expectedCall w' serviceName plugin = expectedCall w serviceName plugin := by
  have hfun : w'.isUp = w.isUp := funext h
  unfold expectedCall
  rw [hfun]

/-- The inner loop of `updatePlugins` returns whether every required service is mapped to
`true`; it writes nothing but `false` entries for services that had no entry. -/
theorem dependenciesMet_run (services : List String) (w : World) :
    ∃ w', ServiceMonitor.dependenciesMet services w = (Except.ok (services.all w.isUp), w') ∧
      (∀ s, w'.isUp s = w.isUp s) ∧ w'.trace = w.trace ∧
      w'.monitor.plugins = w.monitor.plugins := by
  induction services generalizing w with
  | nil => exact ⟨w, rfl, fun _ => rfl, rfl, rfl⟩
  | cons service rest ih =>
      unfold ServiceMonitor.dependenciesMet ServiceMonitor.serviceStatusAt
      rcases hf : Map.find? w.monitor.serviceStatus service with _ | up
      · refine ⟨{ w with monitor := { w.monitor with
            serviceStatus := Map.insert w.monitor.serviceStatus service false } }, ?_, ?_, ?_, ?_⟩
        · simp [M.bind_run, M.get, hf, ServiceMonitor.update, M.modify, World.isUp]
        · intro s
          simp only [World.isUp, Map.find?_insert]
          by_cases hs : service = s
          · subst hs
            simp [hf]
          · simp [hs]
        · rfl
        · rfl
      · cases up with
        | false =>
            refine ⟨w, ?_, fun _ => rfl, rfl, rfl⟩
            simp [M.bind_run, M.get, hf, World.isUp]
        | true =>
            obtain ⟨w', h1, h2, h3, h4⟩ := ih w
            refine ⟨w', ?_, h2, h3, h4⟩
            simp [M.bind_run, M.get, hf, World.isUp, h1]

/-- The outer loop of `updatePlugins`, from any world. -/
theorem updateEach_calls (beh : PluginBehaviour) (serviceName : String)
    (plugins : List PluginInfo) (w : World) :
    (∃ done, done <+: plugins.map (expectedCall w serviceName) ∧
      managerCalls (ServiceMonitor.updateEach beh serviceName plugins w).2.trace =
        managerCalls w.trace ++ done) ∧
    ((ServiceMonitor.updateEach beh serviceName plugins w).1 = Except.ok () →
      managerCalls (ServiceMonitor.updateEach beh serviceName plugins w).2.trace =
        managerCalls w.trace ++ plugins.map (expectedCall w serviceName)) := by
  induction plugins generalizing w with
  | nil =>
      refine ⟨⟨[], List.nil_prefix, ?_⟩, fun _ => ?_⟩ <;>
        simp [ServiceMonitor.updateEach]
  | cons plugin rest ih =>
      obtain ⟨w1, hmet, hup1, htrace1, -⟩ := dependenciesMet_run plugin.requiredServices w
      unfold ServiceMonitor.updateEach
      simp only [M.bind_run, hmet]
      by_cases hall : plugin.requiredServices.all w.isUp = true
      · have hcall := loadPlugin_calls beh plugin serviceName w1
        have he : expectedCall w serviceName plugin = Event.loadPlugin plugin.path serviceName :=
          by simp [expectedCall, hall]
        simp only [hall, if_true]
        rcases hrun : PluginManager.loadPlugin beh plugin serviceName w1 with ⟨r, w2⟩
        rw [hrun] at hcall
        simp only at hcall
        simp only [M.bind_run, hrun]
        have hup2 : ∀ s, w2.isUp s = w.isUp s := by
          intro s
          rw [← hup1 s]
          simp only [World.isUp, hcall.2]
        have hmap : rest.map (expectedCall w2 serviceName) =
            rest.map (expectedCall w serviceName) :=
          List.map_congr_left fun p _ => expectedCall_congr w w2 serviceName hup2 p
        cases r with
        | error e =>
            refine ⟨⟨[expectedCall w serviceName plugin], ?_, ?_⟩, fun h => by cases h⟩
            · simp
            · simp only [hcall.1, htrace1, he]
        | ok u =>
            obtain ⟨⟨done, hpre, hdone⟩, hfull⟩ := ih w2
            rw [hmap] at hpre hfull
            simp only [hcall.1, htrace1] at hdone hfull
            refine ⟨⟨expectedCall w serviceName plugin :: done, ?_, ?_⟩, fun h => ?_⟩
            · simpa using hpre
            · simp [hdone, he]
            · simp [hfull h, he]
      · have hcall := notifyPluginShouldUnload_calls beh plugin serviceName w1
        have he : expectedCall w serviceName plugin =
            Event.notifyPluginShouldUnload plugin.path serviceName := by
          simp [expectedCall, hall]
        have hall' : plugin.requiredServices.all w.isUp = false := by simpa using hall
        simp only [hall', Bool.false_eq_true, if_false]
        rcases hrun : PluginManager.notifyPluginShouldUnload beh plugin serviceName w1
          with ⟨r, w2⟩
        rw [hrun] at hcall
        simp only at hcall
        simp only [M.bind_run, hrun]
        have hup2 : ∀ s, w2.isUp s = w.isUp s := by
          intro s
          rw [← hup1 s]
          simp only [World.isUp, hcall.2]
        have hmap : rest.map (expectedCall w2 serviceName) =
            rest.map (expectedCall w serviceName) :=
          List.map_congr_left fun p _ => expectedCall_congr w w2 serviceName hup2 p
        cases r with
        | error e =>
            refine ⟨⟨[expectedCall w serviceName plugin], ?_, ?_⟩, fun h => by cases h⟩
            · simp
            · simp only [hcall.1, htrace1, he]
        | ok u =>
            obtain ⟨⟨done, hpre, hdone⟩, hfull⟩ := ih w2
            rw [hmap] at hpre hfull
            simp only [hcall.1, htrace1] at hdone hfull
            refine ⟨⟨expectedCall w serviceName plugin :: done, ?_, ?_⟩, fun h => ?_⟩
            · simpa using hpre
            · simp [hdone, he]
            · simp [hfull h, he]

/-- C1: `ServiceMonitor::updatePlugins` calls the manager for the descriptors in list
order, one call per descriptor: `loadPlugin(P, triggeringService)` if every service in
`P.requiredServices` is mapped to `true`, `notifyPluginShouldUnload(P, triggeringService)`
otherwise.  The calls made are always an initial segment of that list, and they are the
whole list whenever `updatePlugins` returns (a manager call that throws ends the loop). -/
theorem updatePlugins_manager_calls (beh : PluginBehaviour) (serviceName : String)
    (w : World) :
    (∃ done, done <+: expectedCalls w serviceName ∧
      managerCalls ((ServiceMonitor.updatePlugins beh serviceName).exec w).trace =
        managerCalls w.trace ++ done) ∧
    ((ServiceMonitor.updatePlugins beh serviceName).result w = Except.ok () →
      managerCalls ((ServiceMonitor.updatePlugins beh serviceName).exec w).trace =
        managerCalls w.trace ++ expectedCalls w serviceName) :=
  updateEach_calls beh serviceName w.monitor.plugins w

/-- C1 at a concrete monitor: with `svcA` up and `svcB` down, the descriptor that requires
`svcA` gets `loadPlugin` and the descriptor that requires both gets
`notifyPluginShouldUnload`, in this order. -/
theorem updatePlugins_manager_calls_witness :
    (ServiceMonitor.updatePlugins demoBehaviour "svcA").result demoWorldTwo = Except.ok () ∧
    expectedCalls demoWorldTwo "svcA" =
      [Event.loadPlugin "/plugins/demo.so" "svcA",
       Event.notifyPluginShouldUnload "/plugins/other.so" "svcA"] ∧
    managerCalls ((ServiceMonitor.updatePlugins demoBehaviour "svcA").exec demoWorldTwo).trace =
      managerCalls demoWorldTwo.trace ++ expectedCalls demoWorldTwo "svcA" :=
  ⟨rfl, rfl, (updatePlugins_manager_calls demoBehaviour "svcA" demoWorldTwo).2 rfl⟩

end EventMonitor

namespace EventMonitor

/-! ## Everything but the delivery of a reply stays within the top frame -/

theorem MgrRel.toTop {w w' : World} (h : MgrRel w w') : TopRel w w' :=
  ⟨h.callbacks, h.subs⟩

theorem Keeps.mgrToTop {α : Type} {m : M α} (h : Keeps mgrFrame m) : Keeps topFrame m :=
  Keeps.mono (fun _ _ hr => MgrRel.toTop hr) h

theorem Keeps.apiToTop {α : Type} {m : M α} (h : Keeps (apiFrame false) m) :
    Keeps topFrame m :=
  Keeps.mgrToTop (Keeps.toMgr h)

theorem topRel_of_fields {w w' : World} (h2 : w'.trace = w.trace)
    (h3 : w'.service = w.service) : TopRel w w' :=
  { callbacks := by rw [h2],
    subs := ⟨by rw [h3], fun h r hr => Or.inl (by rw [← h3]; exact hr)⟩ }

theorem keepsTop_emit (e : Event) (h2 : e.isSubscribeCallback = false) :
    Keeps topFrame (emit e) := by
  refine Keeps.modify fun w => ?_
  exact
    { callbacks := by simp [subscribeCallbacks, List.filter_append, h2]
      subs := ⟨le_refl _, fun _ _ hr => Or.inl hr⟩ }

theorem keepsTop_loadPlugin (beh : PluginBehaviour) (info : PluginInfo) (service : String) :
    Keeps topFrame (PluginManager.loadPlugin beh info service) := by
  unfold PluginManager.loadPlugin
  repeat (first
    | exact Keeps.get
    | exact keepsTop_emit _ rfl
    | exact Keeps.mgrToTop (keepsMgr_loadPlugin_body _ _ _)
    | apply Keeps.bind
    | intro _)

theorem keepsTop_notifyPluginShouldUnload (beh : PluginBehaviour) (info : PluginInfo)
    (service : String) :
    Keeps topFrame (PluginManager.notifyPluginShouldUnload beh info service) := by
  unfold PluginManager.notifyPluginShouldUnload
  repeat (first
    | exact Keeps.get
    | exact keepsTop_emit _ rfl
    | exact Keeps.mgrToTop (keepsMgr_notify_body _ _ _ _)
    | apply Keeps.bind
    | intro _)

theorem keepsTop_notifyAdapters (beh : PluginBehaviour) (localeStr : String)
    (entries : List (String × AdapterPtr)) :
    Keeps topFrame (PluginManager.notifyAdapters beh localeStr entries) := by
  induction entries with
  | nil => exact Keeps.pure _
  | cons entry rest ih =>
      unfold PluginManager.notifyAdapters
      repeat (first
        | exact ih
        | exact Keeps.mgrToTop (keepsMgr_notifyLocaleChanged _ _ _)
        | exact Keeps.mgrToTop (keepsMgr_processUnload _)
        | apply Keeps.bind
        | intro _)

theorem keepsTop_notifyLocaleChanged (beh : PluginBehaviour) (locale : JValue) :
    Keeps topFrame (PluginManager.notifyLocaleChanged beh locale) := by
  unfold PluginManager.notifyLocaleChanged
  repeat (first
    | exact Keeps.get
    | exact keepsTop_notifyAdapters _ _ _
    | exact Keeps.modify fun _ => topRel_of_fields rfl rfl
    | apply Keeps.bind
    | intro _
    | dsimp only)

theorem keepsTop_update (f : ServiceMonitor → ServiceMonitor) :
    Keeps topFrame (ServiceMonitor.update f) :=
  Keeps.modify fun _ => topRel_of_fields rfl rfl

theorem keepsTop_startMonitor (plugins : List PluginInfo) :
    Keeps topFrame (ServiceMonitor.startMonitor plugins) := by
  unfold ServiceMonitor.startMonitor
  repeat (first
    | exact Keeps.pure _
    | exact keepsTop_update _
    | exact Keeps.apiToTop (keeps_subscribeToMethod _ _ _ _ _ _)
    | apply Keeps.bind
    | intro _
    | dsimp only)

theorem keepsTop_addServices (services : List String) :
    Keeps topFrame (ServiceMonitor.addServices services) := by
  induction services with
  | nil => exact Keeps.pure _
  | cons service rest ih =>
      unfold ServiceMonitor.addServices
      repeat (first
        | exact Keeps.get
        | exact ih
        | exact keepsTop_update _
        | exact Keeps.apiToTop (keeps_subscribeToMethod _ _ _ _ _ _)
        | apply Keeps.bind
        | intro _
        | split
        | dsimp only)

theorem keepsTop_addPlugins (plugins : List PluginInfo) :
    Keeps topFrame (ServiceMonitor.addPlugins plugins) := by
  induction plugins with
  | nil => exact Keeps.pure _
  | cons info rest ih =>
      unfold ServiceMonitor.addPlugins ServiceMonitor.addPlugin
      exact Keeps.bind (keepsTop_addServices _) (fun _ => ih)

theorem keepsTop_localeCallback (beh : PluginBehaviour) (previousValue value : JValue) :
    Keeps topFrame (ServiceMonitor.localeCallback beh previousValue value) := by
  unfold ServiceMonitor.localeCallback
  repeat (first
    | exact Keeps.pure _ | exact Keeps.get
    | exact keepsTop_notifyLocaleChanged _ _
    | exact keepsTop_addPlugins _
    | exact keepsTop_update _
    | apply Keeps.bind
    | intro _
    | split
    | dsimp only)

theorem keepsTop_dependenciesMet (services : List String) :
    Keeps topFrame (ServiceMonitor.dependenciesMet services) := by
  induction services with
  | nil => exact Keeps.pure _
  | cons service rest ih =>
      unfold ServiceMonitor.dependenciesMet ServiceMonitor.serviceStatusAt
      repeat (first
        | exact Keeps.pure _ | exact Keeps.get
        | exact ih
        | exact keepsTop_update _
        | apply Keeps.bind
        | intro _
        | split
        | dsimp only)

theorem keepsTop_updateEach (beh : PluginBehaviour) (serviceName : String)
    (plugins : List PluginInfo) :
    Keeps topFrame (ServiceMonitor.updateEach beh serviceName plugins) := by
  induction plugins with
  | nil => exact Keeps.pure _
  | cons plugin rest ih =>
      unfold ServiceMonitor.updateEach
      repeat (first
        | exact ih
        | exact keepsTop_dependenciesMet _
        | exact keepsTop_loadPlugin _ _ _
        | exact keepsTop_notifyPluginShouldUnload _ _ _
        | apply Keeps.bind
        | intro _
        | split
        | dsimp only)

theorem keepsTop_serviceStatusCallback (beh : PluginBehaviour) (previousValue value : JValue) :
    Keeps topFrame (ServiceMonitor.serviceStatusCallback beh previousValue value) := by
  unfold ServiceMonitor.serviceStatusCallback ServiceMonitor.updatePlugins
  repeat (first
    | exact Keeps.pure _ | exact Keeps.get | exact Keeps.raise _
    | exact keepsTop_updateEach _ _ _
    | exact keepsTop_update _
    | apply Keeps.bind
    | intro _
    | split
    | dsimp only)

theorem keepsTop_invokeSubscribeCallback (beh : PluginBehaviour) (plugin : Option AdapterPtr)
    (callback : SubscribeCallback) (previousValue value : JValue) :
    Keeps topFrame
      (LunaService.invokeSubscribeCallback beh plugin callback previousValue value) := by
  unfold LunaService.invokeSubscribeCallback
  repeat (first
    | exact Keeps.raise _
    | exact keepsTop_localeCallback _ _ _
    | exact keepsTop_serviceStatusCallback _ _ _
    | exact Keeps.apiToTop (keeps_runPlugin_any _ _)
    | split)

theorem keepsTop_invokeLunaCallback (beh : PluginBehaviour) (plugin : Option AdapterPtr)
    (callback : PluginCallback) (value : JValue) :
    Keeps topFrame (LunaService.invokeLunaCallback beh plugin callback value) := by
  unfold LunaService.invokeLunaCallback
  repeat (first
    | exact Keeps.raise _
    | exact Keeps.apiToTop (keeps_runPlugin_any _ _)
    | split)

theorem keepsTop_timeoutCallback (beh : PluginBehaviour) (self : AdapterPtr)
    (timeoutId : String) :
    Keeps topFrame (PluginAdapter.timeoutCallback beh self timeoutId) := by
  unfold PluginAdapter.timeoutCallback
  repeat (first
    | exact Keeps.pure _ | exact Keeps.raise _
    | exact Keeps.derefAdapter _
    | exact keepsTop_emit _ rfl
    | exact Keeps.apiToTop (keeps_cancelTimeout _ _)
    | exact Keeps.apiToTop (keeps_runPlugin_any _ _)
    | exact Keeps.apiToTop (keeps_unloadPlugin _)
    | exact Keeps.mgrToTop (keepsMgr_processUnload _)
    | apply Keeps.bind
    | apply Keeps.tryCatch
    | intro _
    | split
    | dsimp only)

theorem keepsTop_methodHandler (beh : PluginBehaviour) (categoryName methodName : String)
    (payload : JValue) :
    Keeps topFrame (LunaService.methodHandler beh categoryName methodName payload) := by
  unfold LunaService.methodHandler
  repeat (first
    | exact Keeps.pure _ | exact Keeps.raise _ | exact Keeps.get
    | exact keepsTop_emit _ rfl
    | exact Keeps.apiToTop (keeps_runPlugin_any _ _)
    | exact Keeps.mgrToTop (keepsMgr_processUnload _)
    | apply Keeps.bind
    | intro _
    | split
    | dsimp only)

end EventMonitor
namespace EventMonitor

theorem runPlugin_noThrow (self : AdapterPtr) {R : Type} (code : PluginCode R)
    (h : code.NoThrow) (w : World) (e : Err)
    (he : (PluginAdapter.runPlugin self code w).1 = Except.error e) :
    e.isException = false := by
  induction code generalizing w with
  | ret r => simp [PluginAdapter.runPlugin, pure, M.ret] at he
  | throw => exact absurd h (by simp [PluginCode.NoThrow])
  | call c next ih =>
      unfold PluginAdapter.runPlugin at he
      simp only [M.bind_run, M.tryCatch] at he
      rcases hd : PluginAdapter.dispatch self c w with ⟨_ | r, w1⟩
      · rename_i e1
        rw [hd] at he
        simp only at he
        by_cases hc : e1.isException = true
        · simp only [hc, if_true] at he
          exact ih _ (h _) _ he
        · simp only [hc] at he
          simp at he
          subst he
          simpa using hc
      · rw [hd] at he
        exact ih _ (h _) _ he

theorem runPlugin_returns (self : AdapterPtr) {R : Type} (p : R → Prop) (code : PluginCode R)
    (h : code.Returns p) (w : World) (r : R)
    (he : (PluginAdapter.runPlugin self code w).1 = Except.ok r) : p r := by
  induction code generalizing w with
  | ret r0 =>
      simp [PluginAdapter.runPlugin, pure, M.ret] at he
      subst he
      exact h
  | throw => simp [PluginAdapter.runPlugin, M.raise] at he
  | call c next ih =>
      unfold PluginAdapter.runPlugin at he
      simp only [M.bind_run, M.tryCatch] at he
      rcases hd : PluginAdapter.dispatch self c w with ⟨_ | r1, w1⟩
      · rename_i e1
        rw [hd] at he
        simp only at he
        by_cases hc : e1.isException = true
        · simp only [hc, if_true] at he
          exact ih _ (h _) _ he
        · simp only [hc] at he
          simp at he
      · rw [hd] at he
        exact ih _ (h _) _ he

theorem Err.eq_fault_of_not_isException (e : Err) (h : e.isException = false) :
    ∃ why, e = Err.fault why := by
  cases e with
  | fault why => exact ⟨why, rfl⟩
  | error what => simp [Err.isException] at h
  | lsError => simp [Err.isException] at h
  | pluginException => simp [Err.isException] at h

/-- A guarded activation of plugin code that neither throws nor calls `unloadPlugin`:
the handler never runs, so the outcome is that of the code, a value or a fault, and the
code keeps the frame of the manager interface. -/
theorem guarded_runPlugin (a : AdapterPtr) {R : Type} (code : PluginCode R)
    (h1 : code.NoUnload) (h2 : code.NoThrow) (handler : Err → M R) (w : World)
    (res : Except Err R) (w' : World)
    (hrun : M.tryCatch (PluginAdapter.runPlugin a code) Err.isException handler w = (res, w')) :
    PluginAdapter.runPlugin a code w = (res, w') ∧ ApiRel true w w' ∧
      ((∃ why, res = Except.error (Err.fault why)) ∨ ∃ r, res = Except.ok r) := by
  have hk : ApiRel true w (PluginAdapter.runPlugin a code w).2 :=
    (keeps_runPlugin a code (fun _ => h1)).run w
  have hn := runPlugin_noThrow a code h2 w
  unfold M.tryCatch at hrun
  rcases hr : PluginAdapter.runPlugin a code w with ⟨e | r, w1⟩
  · rw [hr] at hrun hk hn
    have he := hn e rfl
    simp only [he, Bool.false_eq_true, if_false] at hrun
    obtain ⟨why, hwhy⟩ := Err.eq_fault_of_not_isException e he
    rw [← hrun]
    cases hrun
    exact ⟨rfl, hk, Or.inl ⟨why, by rw [hwhy]⟩⟩
  · rw [hr] at hrun hk
    cases hrun
    exact ⟨rfl, hk, Or.inr ⟨r, rfl⟩⟩

/-- The call of `startMonitoring` on a live adapter whose code neither throws nor calls
`unloadPlugin`: unless a fault occurs, it returns, `startMonitoring` is the one new
lifecycle event and the adapter is marked as monitoring. -/
theorem callStartMonitoring_spec (beh : PluginBehaviour) (a : AdapterPtr) (w : World)
    (x : PluginAdapter) (p : PluginPtr)
    (hx : Map.find? w.adapters a = some x) (hp : x.plugin = some p)
    (h1 : (beh.startMonitoring x.info.path).NoUnload)
    (h2 : (beh.startMonitoring x.info.path).NoThrow)
    (res : Except Err Unit) (w' : World)
    (hrun : PluginAdapter.callStartMonitoring beh a w = (res, w')) :
    (∃ why, res = Except.error (Err.fault why)) ∨
    (res = Except.ok () ∧ w'.monitor = w.monitor ∧ w'.manager = w.manager ∧
      w'.loader = w.loader ∧ w'.nextAdapter = w.nextAdapter ∧ w'.nextPlugin = w.nextPlugin ∧
      lifecycle w'.trace = lifecycle w.trace ++ [Event.startMonitoring x.info.path] ∧
      (∃ y, Map.find? w'.adapters a = some y ∧
        y.core = (x.info, some p, false) ∧ y.needUnload = x.needUnload)) := by
  unfold PluginAdapter.callStartMonitoring PluginAdapter.derefPlugin at hrun
  simp only [M.bind_run, updateAdapter, derefAdapter, hx, Map.find?_insert, if_true, hp,
    Option.isNone_some, emit, M.modify, Bool.false_eq_true, if_false, M.pure_run] at hrun
  obtain ⟨-, hk, hres⟩ := guarded_runPlugin a _ h1 h2 _ _ _ _ hrun
  rcases hres with hf | ⟨r, hr⟩
  · exact Or.inl hf
  · refine Or.inr ⟨hr, hk.core.monitor, hk.core.manager, hk.core.loader, hk.core.nextAdapter,
      hk.core.nextPlugin, ?_, ?_⟩
    · rw [hk.core.events]
      simp [lifecycle, Event.isBusOp]
    · have h3 := hk.core.adapters a
      have h4 := hk.core.needUnload rfl a
      simp only [Map.find?_insert, if_true, Option.map_some'] at h3 h4
      rcases hy : Map.find? w'.adapters a with _ | y
      · rw [hy] at h3
        simp at h3
      · rw [hy] at h3 h4
        simp only [Option.map_some', Option.some.injEq] at h3 h4
        exact ⟨y, rfl, h3, h4⟩

/-- The loader on a library whose `instantiatePlugin` neither throws nor calls
`unloadPlugin` and yields an object: unless a fault occurs, it returns the new object and
`instantiatePlugin` is the one new lifecycle event. -/
theorem loader_loadPlugin_spec (beh : PluginBehaviour) (info : PluginInfo) (a : AdapterPtr)
    (code : PluginCode Bool) (w : World)
    (hctor : beh.instantiatePlugin info.path = Instantiation.runs code)
    (h1 : code.NoUnload) (h2 : code.NoThrow) (h3 : code.Returns fun made => made = true)
    (res : Except Err (Option PluginPtr)) (w' : World)
    (hrun : PluginLoader.loadPlugin beh info a w = (res, w')) :
    (∃ why, res = Except.error (Err.fault why)) ∨
    (res = Except.ok (some w.nextPlugin) ∧ w'.monitor = w.monitor ∧ w'.manager = w.manager ∧
      w'.nextAdapter = w.nextAdapter ∧
      lifecycle w'.trace = lifecycle w.trace ++ [Event.instantiatePlugin info.path] ∧
      (∀ b, (Map.find? w'.adapters b).map PluginAdapter.core =
        (Map.find? w.adapters b).map PluginAdapter.core) ∧
      (∀ b, (Map.find? w'.adapters b).map (fun x => x.needUnload) =
        (Map.find? w.adapters b).map (fun x => x.needUnload))) := by
  unfold PluginLoader.loadPlugin at hrun
  simp only [hctor, M.bind_run, emit, M.modify] at hrun
  split at hrun
  · rename_i made w1 hg
    obtain ⟨hr, hk, -⟩ := guarded_runPlugin a _ h1 h2 _ _ _ _ hg
    have hmade : made = true := runPlugin_returns a _ code h3 _ made (by rw [hr])
    subst hmade
    simp only [M.bind_run, M.get, M.modify, M.pure_run, if_true] at hrun
    cases hrun
    refine Or.inr ⟨by rw [hk.core.nextPlugin], hk.core.monitor, hk.core.manager,
      hk.core.nextAdapter, ?_, hk.core.adapters, hk.core.needUnload rfl⟩
    rw [hk.core.events]
    simp [lifecycle, Event.isBusOp]
  · rename_i e w1 hg
    obtain ⟨-, -, hres⟩ := guarded_runPlugin a _ h1 h2 _ _ _ _ hg
    cases hrun
    rcases hres with ⟨why, hf⟩ | ⟨r, hr⟩
    · cases hf
      exact Or.inl ⟨why, rfl⟩
    · cases hr

/-- The method `PluginManager::loadPlugin` for a descriptor that is not active, with a
constructor and a `startMonitoring` that neither throw nor call `unloadPlugin`: unless a
fault occurs, the call returns, the new adapter is active and monitoring, and the plugin
was instantiated once and started once. -/
theorem loadPlugin_fresh (beh : PluginBehaviour) (info : PluginInfo) (service : String)
    (code : PluginCode Bool) (w : World)
    (hnot : Map.find? w.manager.activePlugins info.path = none)
    (hctor : beh.instantiatePlugin info.path = Instantiation.runs code)
    (h1 : code.NoUnload) (h2 : code.NoThrow) (h3 : code.Returns fun made => made = true)
    (h4 : (beh.startMonitoring info.path).NoUnload)
    (h5 : (beh.startMonitoring info.path).NoThrow)
    (res : Except Err Unit) (w' : World)
    (hrun : PluginManager.loadPlugin beh info service w = (res, w')) :
    (∃ why, res = Except.error (Err.fault why)) ∨
    (res = Except.ok () ∧ w'.monitor = w.monitor ∧
      w'.manager.activePlugins = Map.insert w.manager.activePlugins info.path w.nextAdapter ∧
      lifecycle w'.trace = lifecycle w.trace ++ [Event.loadPlugin info.path service,
        Event.instantiatePlugin info.path, Event.startMonitoring info.path] ∧
      (∃ y, Map.find? w'.adapters w.nextAdapter = some y ∧
        y.core = (info, some w.nextPlugin, false) ∧ y.needUnload = false)) := by
  unfold PluginManager.loadPlugin at hrun
  simp only [M.bind_run, emit, M.modify, M.get, hnot, PluginAdapter.new] at hrun
  split at hrun
  · rename_i plugin w1 hl
    rcases loader_loadPlugin_spec beh info _ code _ hctor h1 h2 h3 _ _ hl with
      ⟨why, hf⟩ | ⟨hp, hmon, hmgr, hna, hev, had, hnu⟩
    · cases hf
    · cases hp
      have had1 := had w.nextAdapter
      have hnu1 := hnu w.nextAdapter
      simp only [Map.find?_insert, if_true, Option.map_some'] at had1 hnu1 hmon hmgr hna hev
      rcases hx1 : Map.find? w1.adapters w.nextAdapter with _ | x1
      · rw [hx1] at had1
        simp at had1
      · rw [hx1] at had1 hnu1
        simp only [Option.map_some', Option.some.injEq, PluginAdapter.core,
          Prod.mk.injEq] at had1 hnu1
        simp only [M.bind_run, M.modify, PluginAdapter.pluginLoaded, updateAdapter,
          hx1] at hrun
        split at hrun
        · rename_i u w3 hs
          rcases callStartMonitoring_spec beh _ _
              { x1 with plugin := some w.nextPlugin, unloadNotified := true } w.nextPlugin
              (by simp only [Map.find?_insert, if_true]) rfl
              (by show (beh.startMonitoring x1.info.path).NoUnload; rw [had1.1]; exact h4)
              (by show (beh.startMonitoring x1.info.path).NoThrow; rw [had1.1]; exact h5)
              _ _ hs with
            ⟨why, hf⟩ | ⟨-, hmon3, hmgr3, -, -, -, hev3, y, hy, hyc, hyn⟩
          · cases hf
          · unfold PluginManager.processUnload at hrun
            simp only [M.bind_run, derefAdapter, hy, hyn, hnu1, Bool.not_false, if_true,
              M.pure_run, Bool.not_eq_true, Bool.false_eq_true, if_false] at hrun
            cases hrun
            refine Or.inr ⟨rfl, hmon3.trans hmon, ?_, ?_, y, hy, ?_, hyn.trans hnu1⟩
            · rw [hmgr3]
              simp only [hmgr]
            · rw [hev3, hev]
              simp [lifecycle, Event.isBusOp, had1.1]
            · rw [hyc, had1.1]
        · rename_i e w3 hs
          cases hrun
          rcases callStartMonitoring_spec beh _ _
              { x1 with plugin := some w.nextPlugin, unloadNotified := true } w.nextPlugin
              (by simp only [Map.find?_insert, if_true]) rfl
              (by show (beh.startMonitoring x1.info.path).NoUnload; rw [had1.1]; exact h4)
              (by show (beh.startMonitoring x1.info.path).NoThrow; rw [had1.1]; exact h5)
              _ _ hs with hf | ⟨hr, -⟩
          · exact Or.inl hf
          · cases hr
  · rename_i e w1 hl
    cases hrun
    rcases loader_loadPlugin_spec beh info _ code _ hctor h1 h2 h3 _ _ hl with
      ⟨why, hf⟩ | ⟨hp, -⟩
    · cases hf
      exact Or.inl ⟨why, rfl⟩
    · cases hp

theorem instantiations_lifecycle (path : String) (t : List Event) :
    instantiations path (lifecycle t) = instantiations path t := by
  unfold instantiations
  rw [filter_lifecycle]
  intro e he
  cases e <;> simp_all [Event.isInstantiate, Event.isBusOp]

theorem startMonitorings_lifecycle (path : String) (t : List Event) :
    startMonitorings path (lifecycle t) = startMonitorings path t := by
  unfold startMonitorings
  rw [filter_lifecycle]
  intro e he
  cases e <;> simp_all [Event.isStartMonitoring, Event.isBusOp]

theorem statusReply_serviceName (service : String) (connected : Bool) :
    ((statusReply service connected).get "serviceName").asString = some service := rfl

theorem statusReply_connected (service : String) (connected : Bool) :
    ((statusReply service connected).get "connected").asBool = some connected := by
  have h : ("connected" == "serviceName") = false := by decide
  simp [statusReply, JValue.get, List.lookup, h, JValue.asBool]

/-- The first status reply of scenario S1, computed. -/
theorem statusReply_first (beh : PluginBehaviour) (P : PluginInfo) (svcA svcB : String)
    (w : World) (prev : JValue)
    (hreq : P.requiredServices = [svcA, svcB]) (hne : svcA ≠ svcB)
    (hplugins : w.monitor.plugins = [P])
    (hA : Map.find? w.monitor.serviceStatus svcA = some false)
    (hB : Map.find? w.monitor.serviceStatus svcB = some false)
    (hnot : Map.find? w.manager.activePlugins P.path = none) :
    ServiceMonitor.serviceStatusCallback beh prev (statusReply svcA true) w =
      (Except.ok (), { w with
        monitor := { w.monitor with
          serviceStatus := Map.insert w.monitor.serviceStatus svcA true },
        trace := w.trace ++ [Event.notifyPluginShouldUnload P.path svcA] }) := by
  unfold ServiceMonitor.serviceStatusCallback
  simp [statusReply_serviceName, statusReply_connected, M.bind_run, M.get, hA,
    ServiceMonitor.update, M.modify, ServiceMonitor.updatePlugins, hplugins,
    ServiceMonitor.updateEach, hreq, ServiceMonitor.dependenciesMet,
    ServiceMonitor.serviceStatusAt, Map.find?_insert, hne, hB,
    PluginManager.notifyPluginShouldUnload, emit, hnot]

/-- The status reply that brings up the last required service of the only descriptor
ends in `PluginManager::loadPlugin`. -/
theorem statusReply_last (beh : PluginBehaviour) (P : PluginInfo) (svcA svcB : String)
    (v : World) (prev : JValue)
    (hreq : P.requiredServices = [svcA, svcB]) (hne : svcA ≠ svcB)
    (hplugins : v.monitor.plugins = [P])
    (hA : Map.find? v.monitor.serviceStatus svcA = some true)
    (hB : Map.find? v.monitor.serviceStatus svcB = some false) :
    ServiceMonitor.serviceStatusCallback beh prev (statusReply svcB true) v =
      PluginManager.loadPlugin beh P svcB { v with
        monitor := { v.monitor with
          serviceStatus := Map.insert v.monitor.serviceStatus svcB true } } := by
  unfold ServiceMonitor.serviceStatusCallback
  simp only [statusReply_serviceName, statusReply_connected, M.bind_run, M.get, hB,
    ServiceMonitor.update, M.modify, ServiceMonitor.updatePlugins, hplugins,
    ServiceMonitor.updateEach, hreq, ServiceMonitor.dependenciesMet,
    ServiceMonitor.serviceStatusAt, Map.find?_insert, hne, hA, M.pure_run]
  simp only [bne_iff_ne, ne_eq, Bool.false_eq_true, not_false_eq_true, if_true, M.bind_run,
    M.get, hplugins, ServiceMonitor.updateEach, ServiceMonitor.dependenciesMet,
    ServiceMonitor.serviceStatusAt, hreq, Map.find?_insert, hne.symm, hA, if_false,
    M.pure_run, Bool.not_true]
  split
  · rename_i h
    rw [h]
  · rename_i h
    rw [h]

theorem instantiations_append (path : String) (t u : List Event) :
    instantiations path (t ++ u) = instantiations path t + instantiations path u := by
  simp [instantiations, List.filter_append]

theorem startMonitorings_append (path : String) (t u : List Event) :
    startMonitorings path (t ++ u) = startMonitorings path t + startMonitorings path u := by
  simp [startMonitorings, List.filter_append]

/-- C2 (scenario S1): the plugin `P` is the one descriptor of the monitor and requires
exactly `svcA` and `svcB`, both are monitored and down, and `P` is not active.  The status
reply `(svcA, connected = true)` returns, and after it `P` is still not in the active map
and no plugin object was made for it.  The constructor of `P` and its `startMonitoring`
neither throw nor call `unloadPlugin`, the constructor yields an object, and the following
status reply `(svcB, connected = true)` does not run into undefined behaviour: then it
returns, and after it `P` is in the active map with a live, monitoring adapter, its plugin
object was made exactly once and `startMonitoring` was called exactly once. -/
theorem scenario_dependency_satisfaction (beh : PluginBehaviour) (P : PluginInfo)
    (svcA svcB : String) (code : PluginCode Bool) (w : World) (prev1 prev2 : JValue)
    (hreq : P.requiredServices = [svcA, svcB]) (hne : svcA ≠ svcB)
    (hplugins : w.monitor.plugins = [P])
    (hA : Map.find? w.monitor.serviceStatus svcA = some false)
    (hB : Map.find? w.monitor.serviceStatus svcB = some false)
    (hnot : Map.find? w.manager.activePlugins P.path = none)
    (hctor : beh.instantiatePlugin P.path = Instantiation.runs code)
    (h1 : code.NoUnload) (h2 : code.NoThrow) (h3 : code.Returns fun made => made = true)
    (h4 : (beh.startMonitoring P.path).NoUnload)
    (h5 : (beh.startMonitoring P.path).NoThrow)
    (hnofault : ∀ why,
      (ServiceMonitor.serviceStatusCallback beh prev2 (statusReply svcB true)).result
        ((ServiceMonitor.serviceStatusCallback beh prev1 (statusReply svcA true)).exec w) ≠
      Except.error (Err.fault why)) :
    (ServiceMonitor.serviceStatusCallback beh prev1 (statusReply svcA true)).result w =
        Except.ok () ∧
      Map.find? ((ServiceMonitor.serviceStatusCallback beh prev1
        (statusReply svcA true)).exec w).manager.activePlugins P.path = none ∧
      instantiations P.path ((ServiceMonitor.serviceStatusCallback beh prev1
        (statusReply svcA true)).exec w).trace = instantiations P.path w.trace ∧
      (ServiceMonitor.serviceStatusCallback beh prev2 (statusReply svcB true)).result
        ((ServiceMonitor.serviceStatusCallback beh prev1 (statusReply svcA true)).exec w) =
        Except.ok () ∧
      (∃ a y, Map.find? ((ServiceMonitor.serviceStatusCallback beh prev2
          (statusReply svcB true)).exec ((ServiceMonitor.serviceStatusCallback beh prev1
          (statusReply svcA true)).exec w)).manager.activePlugins P.path = some a ∧
        Map.find? ((ServiceMonitor.serviceStatusCallback beh prev2
          (statusReply svcB true)).exec ((ServiceMonitor.serviceStatusCallback beh prev1
          (statusReply svcA true)).exec w)).adapters a = some y ∧
        y.info = P ∧ y.plugin.isSome = true ∧ y.unloadNotified = false ∧
        y.needUnload = false) ∧
      instantiations P.path ((ServiceMonitor.serviceStatusCallback beh prev2
        (statusReply svcB true)).exec ((ServiceMonitor.serviceStatusCallback beh prev1
        (statusReply svcA true)).exec w)).trace = instantiations P.path w.trace + 1 ∧
      startMonitorings P.path ((ServiceMonitor.serviceStatusCallback beh prev2
        (statusReply svcB true)).exec ((ServiceMonitor.serviceStatusCallback beh prev1
        (statusReply svcA true)).exec w)).trace = startMonitorings P.path w.trace + 1 := by
  have e1 := statusReply_first beh P svcA svcB w prev1 hreq hne hplugins hA hB hnot
  simp only [M.result, M.exec, e1] at hnofault ⊢
  have e2 := statusReply_last beh P svcA svcB
    { w with
        monitor := { w.monitor with
          serviceStatus := Map.insert w.monitor.serviceStatus svcA true },
        trace := w.trace ++ [Event.notifyPluginShouldUnload P.path svcA] }
    prev2 hreq hne hplugins (by simp only [Map.find?_insert, if_true])
    (by simp only [Map.find?_insert]; rw [if_neg hne]; exact hB)
  rw [e2] at hnofault ⊢
  refine ⟨trivial, hnot, ?_, ?_⟩
  · rw [instantiations_append]
    simp [instantiations, Event.isInstantiate]
  · rcases hl : PluginManager.loadPlugin beh P svcB _ with ⟨res, w2⟩
    rw [hl] at hnofault
    rcases loadPlugin_fresh beh P svcB code _ (by exact hnot) hctor h1 h2 h3 h4 h5 _ _ hl with
      ⟨why, hf⟩ | ⟨hres, -, hact, hev, y, hy, hyc, hyn⟩
    · exact absurd hf (hnofault why)
    · simp only [PluginAdapter.core, Prod.mk.injEq] at hyc
      refine ⟨hres, ⟨w.nextAdapter, y, ?_, hy, hyc.1, ?_, hyc.2.2, hyn⟩, ?_, ?_⟩
      · rw [hact]
        simp only [Map.find?_insert, if_true]
      · rw [hyc.2.1]
        rfl
      · show instantiations P.path w2.trace = instantiations P.path w.trace + 1
        rw [← instantiations_lifecycle, hev, instantiations_append, instantiations_lifecycle,
          instantiations_append]
        simp [instantiations, Event.isInstantiate]
      · show startMonitorings P.path w2.trace = startMonitorings P.path w.trace + 1
        rw [← startMonitorings_lifecycle, hev, startMonitorings_append,
          startMonitorings_lifecycle, startMonitorings_append]
        simp [startMonitorings, Event.isStartMonitoring]

theorem scenario_dependency_satisfaction_witness :
    Map.find? ((ServiceMonitor.serviceStatusCallback demoBehaviour JValue.null
        (statusReply "svcA" true)).exec demoWorldS1).manager.activePlugins
        "/plugins/other.so" = none ∧
      Map.find? ((ServiceMonitor.serviceStatusCallback demoBehaviour JValue.null
        (statusReply "svcB" true)).exec ((ServiceMonitor.serviceStatusCallback demoBehaviour
        JValue.null (statusReply "svcA" true)).exec demoWorldS1)).manager.activePlugins
        "/plugins/other.so" = some 1 ∧
      instantiations "/plugins/other.so" ((ServiceMonitor.serviceStatusCallback demoBehaviour
        JValue.null (statusReply "svcB" true)).exec ((ServiceMonitor.serviceStatusCallback
        demoBehaviour JValue.null (statusReply "svcA" true)).exec demoWorldS1)).trace = 1 ∧
      startMonitorings "/plugins/other.so" ((ServiceMonitor.serviceStatusCallback demoBehaviour
        JValue.null (statusReply "svcB" true)).exec ((ServiceMonitor.serviceStatusCallback
        demoBehaviour JValue.null (statusReply "svcA" true)).exec demoWorldS1)).trace = 1 :=
  have h := scenario_dependency_satisfaction demoBehaviour demoInfoAB "svcA" "svcB"
    (PluginCode.ret true) demoWorldS1 JValue.null JValue.null rfl (by decide) rfl rfl rfl rfl
    rfl trivial trivial rfl trivial trivial (fun why h => by cases h)
  ⟨h.2.1, by rfl, h.2.2.2.2.2.1, h.2.2.2.2.2.2⟩

end EventMonitor
namespace EventMonitor

theorem Keeps.of_run {F : Frame} {α : Type} {m : M α} (h : Keeps F m) {w w' : World}
    {res : Except Err α} (hrun : m w = (res, w')) : F.rel w w' := by
  have h1 := h.run w
  rw [hrun] at h1
  exact h1

/-- A `PluginAdapter::unloadPlugin` that returns leaves the flag `needUnload` set. -/
theorem unloadPlugin_sets (a : AdapterPtr) (w : World) (x : PluginAdapter)
    (hx : Map.find? w.adapters a = some x) (hp : x.plugin.isSome = true) (w' : World)
    (hrun : PluginAdapter.unloadPlugin a w = (Except.ok (), w')) :
    ∃ y, Map.find? w'.adapters a = some y ∧ y.needUnload = true := by
  unfold PluginAdapter.unloadPlugin at hrun
  have hp' : x.plugin.isNone = false := by
    cases h : x.plugin with
    | none => rw [h] at hp; cases hp
    | some _ => rfl
  simp only [M.bind_run, derefAdapter, hx, hp', Bool.false_eq_true, if_false] at hrun
  split at hrun
  · split at hrun
    · split at hrun
      · unfold updateAdapter at hrun
        split at hrun
        · cases hrun
          simp only [Map.find?_insert, if_true]
          exact ⟨_, rfl, rfl⟩
        · cases hrun
      · cases hrun
    · cases hrun
  · cases hrun

/-- The method `PluginManager::processUnload` on an adapter that is not to be unloaded. -/
theorem processUnload_idle (a : AdapterPtr) (w : World) (x : PluginAdapter)
    (hx : Map.find? w.adapters a = some x) (hn : x.needUnload = false) :
    PluginManager.processUnload a w = (Except.ok (), w) := by
  unfold PluginManager.processUnload
  simp [M.bind_run, derefAdapter, hx, hn]

/-- A `PluginManager::processUnload` that returns, on an adapter that is to be unloaded:
the entry of the adapter is erased from the active map, the adapter is deleted and with
it its plugin object. -/
theorem processUnload_reaps (a : AdapterPtr) (w : World) (x : PluginAdapter)
    (hx : Map.find? w.adapters a = some x) (hn : x.needUnload = true)
    (hp : x.plugin.isSome = true) (w' : World)
    (hrun : PluginManager.processUnload a w = (Except.ok (), w')) :
    w'.manager.activePlugins = Map.erase w.manager.activePlugins x.info.path ∧
      w'.monitor = w.monitor ∧
      Map.find? w'.adapters a = none ∧
      (∀ b, b ≠ a → (Map.find? w'.adapters b).map PluginAdapter.core =
        (Map.find? w.adapters b).map PluginAdapter.core) ∧
      (lifecycle w'.trace = lifecycle w.trace ++ [Event.deletePlugin x.info.path] ∨
        lifecycle w'.trace = lifecycle w.trace ++
          [Event.deletePlugin x.info.path, Event.dlclose x.info.path]) := by
  unfold PluginManager.processUnload at hrun
  simp only [M.bind_run, derefAdapter, hx, hn, Bool.not_true, Bool.false_eq_true, if_false,
    M.modify] at hrun
  split at hrun
  · rename_i u w1 hu
    have hk : ApiRel false _ w1 := (keeps_unloadPlugin a).of_run hu
    have h3 := hk.core.adapters a
    simp only [hx, Option.map_some'] at h3
    rcases hy : Map.find? w1.adapters a with _ | y
    · rw [hy] at h3
      simp at h3
    · rw [hy] at h3
      simp only [Option.map_some', Option.some.injEq, PluginAdapter.core, Prod.mk.injEq] at h3
      have hyp : y.plugin.isSome = true := by rw [h3.2.1]; exact hp
      unfold PluginAdapter.delete PluginLoader.unloadPlugin at hrun
      simp only [M.bind_run, derefAdapter, hy, hyp, if_true, emit, M.modify, M.get] at hrun
      have hmgr := hk.core.manager
      have hmon := hk.core.monitor
      have hev := hk.core.events
      have had := hk.core.adapters
      simp only at hmgr hmon hev had
      split at hrun
      · simp only [M.bind_run, emit, M.modify] at hrun
        cases hrun
        refine ⟨by simp only [hmgr], hmon, by simp only [Map.find?_erase, if_true], ?_, Or.inr ?_⟩
        · intro b hb
          simp only [Map.find?_erase, if_neg (Ne.symm hb), had]
        · simp [lifecycle, Event.isBusOp, List.filter_append, h3.1] at hev ⊢
          rw [hev]
      · cases hrun
        refine ⟨by simp only [hmgr], hmon, by simp only [Map.find?_erase, if_true], ?_, Or.inl ?_⟩
        · intro b hb
          simp only [Map.find?_erase, if_neg (Ne.symm hb), had]
        · simp [lifecycle, Event.isBusOp, List.filter_append, h3.1] at hev ⊢
          rw [hev]
  · cases hrun

/-- A guarded `stopMonitoring` whose code returns `UNLOAD_OK` whenever it returns yields
`UNLOAD_OK` whenever the guarded call returns. -/
theorem guarded_stop_ok (a : AdapterPtr) (code : PluginCode UnloadResult)
    (h : code.Returns fun r => r = UnloadResult.UNLOAD_OK) (w w' : World) (r : UnloadResult)
    (hrun : M.tryCatch (PluginAdapter.runPlugin a code) Err.isException
      (fun _ => pure UnloadResult.UNLOAD_OK) w = (Except.ok r, w')) :
    r = UnloadResult.UNLOAD_OK := by
  unfold M.tryCatch at hrun
  rcases hr : PluginAdapter.runPlugin a code w with ⟨e | r1, w1⟩
  · rw [hr] at hrun
    simp only at hrun
    split at hrun
    · simp only [M.pure_run, Prod.mk.injEq, Except.ok.injEq] at hrun
      exact hrun.1.symm
    · cases hrun
  · rw [hr] at hrun
    cases hrun
    exact runPlugin_returns a _ code h w r (by rw [hr])

/-- The method `PluginAdapter::notifyPluginShouldUnload` on a live adapter with a plugin
object, when it returns: `stopMonitoring` is the one new lifecycle event, the adapter is
marked as notified, and the flag `needUnload` is set after `UNLOAD_OK` and left alone
after an `UNLOAD_CANCEL` of code that does not call `unloadPlugin`. -/
theorem adapter_notify_spec (beh : PluginBehaviour) (a : AdapterPtr) (service : String)
    (w : World) (x : PluginAdapter) (p : PluginPtr)
    (hx : Map.find? w.adapters a = some x) (hp : x.plugin = some p) (w' : World)
    (hrun : PluginAdapter.notifyPluginShouldUnload beh a service w = (Except.ok (), w')) :
    w'.monitor = w.monitor ∧ w'.manager = w.manager ∧
      lifecycle w'.trace = lifecycle w.trace ++ [Event.stopMonitoring x.info.path service] ∧
      ∃ y, Map.find? w'.adapters a = some y ∧ y.core = (x.info, some p, true) ∧
        ((beh.stopMonitoring x.info.path service).Returns
            (fun r => r = UnloadResult.UNLOAD_OK) → y.needUnload = true) ∧
        ((beh.stopMonitoring x.info.path service).Returns
            (fun r => r = UnloadResult.UNLOAD_CANCEL) →
          (beh.stopMonitoring x.info.path service).NoThrow →
          (beh.stopMonitoring x.info.path service).NoUnload →
          y.needUnload = x.needUnload) := by
  unfold PluginAdapter.notifyPluginShouldUnload at hrun
  simp only [M.bind_run, derefAdapter, hx, hp, Option.isNone_some, Bool.false_eq_true,
    if_false, updateAdapter, emit, M.modify] at hrun
  split at hrun
  · rename_i r w3 hg
    have hk : ApiRel false _ w3 :=
      (Keeps.tryCatch (keeps_runPlugin_any a _) (fun _ => Keeps.pure _)).of_run hg
    have hk2 : ApiRel false w3 w' := by
      by_cases hr : r = UnloadResult.UNLOAD_OK
      · simp only [hr, if_true] at hrun
        exact (keeps_unloadPlugin a).of_run hrun
      · simp only [hr, if_false, M.pure_run, Prod.mk.injEq, true_and] at hrun
        rw [hrun]
        exact (apiFrame false).refl _
    have hkk := (apiFrame false).trans _ _ _ hk hk2
    have hmon := hkk.core.monitor
    have hmgr := hkk.core.manager
    have hev := hkk.core.events
    have had := hkk.core.adapters a
    have had3 := hk.core.adapters a
    simp only [Map.find?_insert, if_true, Option.map_some'] at hmon hmgr hev had had3
    rcases hy : Map.find? w'.adapters a with _ | y
    · rw [hy] at had
      simp at had
    rcases hy3 : Map.find? w3.adapters a with _ | y3
    · rw [hy3] at had3
      simp at had3
    rw [hy] at had
    rw [hy3] at had3
    simp only [Option.map_some', Option.some.injEq] at had had3
    refine ⟨hmon, hmgr, ?_, y, rfl, had, ?_, ?_⟩
    · rw [hev]
      simp [lifecycle, Event.isBusOp, List.filter_append]
    · intro hret
      have hr := guarded_stop_ok a _ hret _ _ _ hg
      simp only [hr, if_true] at hrun
      have hp3 : y3.plugin.isSome = true := by
        simp only [PluginAdapter.core, Prod.mk.injEq] at had3
        rw [had3.2.1]
        rfl
      obtain ⟨y', hy', hn⟩ := unloadPlugin_sets a w3 y3 hy3 hp3 w' hrun
      rw [hy] at hy'
      cases hy'
      exact hn
    · intro hret hnt hnu
      obtain ⟨hr, hks, -⟩ := guarded_runPlugin a _ hnu hnt _ _ _ _ hg
      have hrc := runPlugin_returns a _ _ hret _ r (by rw [hr])
      subst hrc
      simp only [if_false, M.pure_run, Prod.mk.injEq, true_and,
        show (UnloadResult.UNLOAD_CANCEL = UnloadResult.UNLOAD_OK) = False from by simp] at hrun
      subst hrun
      have h5 := hks.core.needUnload rfl a
      simp only [Map.find?_insert, if_true, Option.map_some', hy] at h5
      simpa using h5
  · cases hrun

theorem stopMonitorings_lifecycle (path service : String) (t : List Event) :
    stopMonitorings path service (lifecycle t) = stopMonitorings path service t := by
  unfold stopMonitorings
  rw [filter_lifecycle]
  intro e he
  cases e <;> simp_all [Event.isStopMonitoring, Event.isBusOp]

theorem deletions_lifecycle (path : String) (t : List Event) :
    deletions path (lifecycle t) = deletions path t := by
  unfold deletions
  rw [filter_lifecycle]
  intro e he
  cases e <;> simp_all [Event.isDeletePlugin, Event.isBusOp]

theorem stopMonitorings_append (path service : String) (t u : List Event) :
    stopMonitorings path service (t ++ u) =
      stopMonitorings path service t + stopMonitorings path service u := by
  simp [stopMonitorings, List.filter_append]

theorem deletions_append (path : String) (t u : List Event) :
    deletions path (t ++ u) = deletions path t + deletions path u := by
  simp [deletions, List.filter_append]

/-- What `processUnload_reaps` says about the trace, as counts. -/
theorem reaped_counts (path service : String) (t t' : List Event)
    (h : lifecycle t' = lifecycle t ++ [Event.deletePlugin path] ∨
      lifecycle t' = lifecycle t ++ [Event.deletePlugin path, Event.dlclose path]) :
    deletions path t' = deletions path t + 1 ∧
      ∀ q, stopMonitorings q service t' = stopMonitorings q service t := by
  constructor
  · rw [← deletions_lifecycle path t', ← deletions_lifecycle path t]
    rcases h with h | h <;> rw [h, deletions_append] <;>
      simp [deletions, Event.isDeletePlugin]
  · intro q
    rw [← stopMonitorings_lifecycle q service t', ← stopMonitorings_lifecycle q service t]
    rcases h with h | h <;> rw [h, stopMonitorings_append] <;>
      simp [stopMonitorings, Event.isStopMonitoring]

/-- The call `unloadPlugin()` of a plugin followed by the `processUnload` of the caller,
when both return: the adapter is erased from the active map and deleted, and with it its
plugin object. -/
theorem unload_then_process (a : AdapterPtr) (v : World) (z : PluginAdapter)
    (hz : Map.find? v.adapters a = some z) (hzp : z.plugin.isSome = true) (v' : World)
    (hrun : (PluginAdapter.dispatch a ManagerCall.unloadPlugin >>= fun _ =>
      PluginManager.processUnload a) v = (Except.ok (), v')) :
    v'.manager.activePlugins = Map.erase v.manager.activePlugins z.info.path ∧
      Map.find? v'.adapters a = none ∧
      deletions z.info.path v'.trace = deletions z.info.path v.trace + 1 := by
  unfold PluginAdapter.dispatch at hrun
  simp only [M.bind_run] at hrun
  split at hrun
  · rename_i r v1 hd
    split at hd
    · rename_i u v2 hu
      simp only [M.pure_run, Prod.mk.injEq] at hd
      obtain ⟨-, hv⟩ := hd
      subst hv
      have hk : ApiRel false v v2 := (keeps_unloadPlugin a).of_run hu
      obtain ⟨y, hy, hyn⟩ := unloadPlugin_sets a v z hz hzp v2 hu
      have had := hk.core.adapters a
      simp only [hz, hy, Option.map_some', Option.some.injEq, PluginAdapter.core,
        Prod.mk.injEq] at had
      have hyp : y.plugin.isSome = true := by rw [had.2.1]; exact hzp
      obtain ⟨h1, -, h3, -, h5⟩ := processUnload_reaps a v2 y hy hyn hyp v' hrun
      rw [had.1] at h1 h5
      refine ⟨by rw [h1, hk.core.manager], h3, ?_⟩
      rw [(reaped_counts z.info.path "" v2.trace v'.trace h5).1,
        ← deletions_lifecycle _ v2.trace, hk.core.events, deletions_lifecycle]
    · cases hd
  · cases hrun

/-- C3 (scenario S2): the plugin `P` has a live adapter `a` with a plugin object in the
active map, and the call `PluginManager::notifyPluginShouldUnload(P, service)` that the
monitor makes when a required service goes down returns.  Then `stopMonitoring(service)`
was called once on `P`.  If it answers `UNLOAD_OK` (or throws), the adapter is out of the
active map and deleted, with its plugin object, when the call returns.  If it answers
`UNLOAD_CANCEL` without having called `unloadPlugin`, the adapter stays in the active map,
alive, notified and with `needUnload` false; and when the plugin later calls
`unloadPlugin()` and the caller runs `processUnload`, both returning, the adapter is out of
the active map and deleted, with its plugin object. -/
theorem scenario_dependency_loss (beh : PluginBehaviour) (P : PluginInfo) (service : String)
    (a : AdapterPtr) (x : PluginAdapter) (p : PluginPtr) (w : World)
    (hact : Map.find? w.manager.activePlugins P.path = some a)
    (hx : Map.find? w.adapters a = some x) (hinfo : x.info = P) (hp : x.plugin = some p)
    (hn : x.needUnload = false)
    (hret : (PluginManager.notifyPluginShouldUnload beh P service).result w = Except.ok ()) :
    stopMonitorings P.path service
        ((PluginManager.notifyPluginShouldUnload beh P service).exec w).trace =
        stopMonitorings P.path service w.trace + 1 ∧
      ((beh.stopMonitoring P.path service).Returns (fun r => r = UnloadResult.UNLOAD_OK) →
        Map.find? ((PluginManager.notifyPluginShouldUnload beh P service).exec
          w).manager.activePlugins P.path = none ∧
        Map.find? ((PluginManager.notifyPluginShouldUnload beh P service).exec w).adapters a =
          none ∧
        deletions P.path ((PluginManager.notifyPluginShouldUnload beh P service).exec w).trace =
          deletions P.path w.trace + 1) ∧
      ((beh.stopMonitoring P.path service).Returns
          (fun r => r = UnloadResult.UNLOAD_CANCEL) →
        (beh.stopMonitoring P.path service).NoThrow →
        (beh.stopMonitoring P.path service).NoUnload →
        Map.find? ((PluginManager.notifyPluginShouldUnload beh P service).exec
          w).manager.activePlugins P.path = some a ∧
        (∃ y, Map.find? ((PluginManager.notifyPluginShouldUnload beh P service).exec
            w).adapters a = some y ∧
          y.info = P ∧ y.plugin = some p ∧ y.needUnload = false ∧ y.unloadNotified = true) ∧
        deletions P.path ((PluginManager.notifyPluginShouldUnload beh P service).exec w).trace =
          deletions P.path w.trace ∧
        ((PluginAdapter.dispatch a ManagerCall.unloadPlugin >>= fun _ =>
            PluginManager.processUnload a).result
            ((PluginManager.notifyPluginShouldUnload beh P service).exec w) = Except.ok () →
          Map.find? ((PluginAdapter.dispatch a ManagerCall.unloadPlugin >>= fun _ =>
            PluginManager.processUnload a).exec
            ((PluginManager.notifyPluginShouldUnload beh P service).exec
              w)).manager.activePlugins P.path = none ∧
          Map.find? ((PluginAdapter.dispatch a ManagerCall.unloadPlugin >>= fun _ =>
            PluginManager.processUnload a).exec
            ((PluginManager.notifyPluginShouldUnload beh P service).exec w)).adapters a =
            none ∧
          deletions P.path ((PluginAdapter.dispatch a ManagerCall.unloadPlugin >>= fun _ =>
            PluginManager.processUnload a).exec
            ((PluginManager.notifyPluginShouldUnload beh P service).exec w)).trace =
            deletions P.path w.trace + 1)) := by
  rcases hrun : PluginManager.notifyPluginShouldUnload beh P service w with ⟨res, w'⟩
  simp only [M.result, M.exec, hrun] at hret ⊢
  subst hret
  unfold PluginManager.notifyPluginShouldUnload at hrun
  simp only [M.bind_run, emit, M.modify, M.get, hact] at hrun
  split at hrun
  · rename_i u w1 hs
    obtain ⟨hmon, hmgr, hev, y, hy, hyc, hok, hcancel⟩ :=
      adapter_notify_spec beh a service _ x p (by exact hx) hp w1 hs
    simp only [hinfo, PluginAdapter.core, Prod.mk.injEq] at hmon hmgr hev hyc hok hcancel
    have hstop1 : stopMonitorings P.path service w1.trace =
        stopMonitorings P.path service w.trace + 1 := by
      rw [← stopMonitorings_lifecycle, hev, stopMonitorings_append,
        stopMonitorings_lifecycle, stopMonitorings_append]
      simp [stopMonitorings, Event.isStopMonitoring]
    have hdel1 : deletions P.path w1.trace = deletions P.path w.trace := by
      rw [← deletions_lifecycle, hev, deletions_append, deletions_lifecycle,
        deletions_append]
      simp [deletions, Event.isDeletePlugin]
    have hyp : y.plugin.isSome = true := by rw [hyc.2.1]; rfl
    refine ⟨?_, ?_, ?_⟩
    · by_cases hyn : y.needUnload = true
      · obtain ⟨-, -, -, -, h5⟩ := processUnload_reaps a w1 y hy hyn hyp w' hrun
        rw [(reaped_counts y.info.path service w1.trace w'.trace h5).2, hstop1]
      · rw [processUnload_idle a w1 y hy (by simpa using hyn)] at hrun
        cases hrun
        exact hstop1
    · intro hcode
      obtain ⟨h1, -, h3, -, h5⟩ := processUnload_reaps a w1 y hy (hok hcode) hyp w' hrun
      rw [hyc.1] at h1 h5
      refine ⟨?_, h3, ?_⟩
      · rw [h1]
        simp only [Map.find?_erase, if_true]
      · rw [(reaped_counts P.path service w1.trace w'.trace h5).1, hdel1]
    · intro hcode hnt hnu
      have hyn : y.needUnload = false := (hcancel hcode hnt hnu).trans hn
      rw [processUnload_idle a w1 y hy hyn] at hrun
      cases hrun
      refine ⟨by rw [hmgr]; exact hact, ⟨y, hy, hyc.1, hyc.2.1, hyn, hyc.2.2⟩, hdel1, ?_⟩
      intro hlater
      rcases hrun2 : (PluginAdapter.dispatch a ManagerCall.unloadPlugin >>= fun _ =>
          PluginManager.processUnload a) w' with ⟨res2, w2⟩
      rw [hrun2] at hlater
      simp only at hlater
      subst hlater
      obtain ⟨h1, h2, h3⟩ := unload_then_process a w' y hy hyp w2 hrun2
      rw [hyc.1] at h1 h3
      refine ⟨?_, h2, by rw [h3, hdel1]⟩
      show Map.find? w2.manager.activePlugins P.path = none
      rw [h1]
      simp only [Map.find?_erase, if_true]
  · cases hrun

theorem scenario_dependency_loss_witness :
    (Map.find? ((PluginManager.notifyPluginShouldUnload demoBehaviour demoInfoA "svcA").exec
          demoWorldA).manager.activePlugins "/plugins/demo.so" = none ∧
        Map.find? ((PluginManager.notifyPluginShouldUnload demoBehaviour demoInfoA
          "svcA").exec demoWorldA).adapters 1 = none ∧
        deletions "/plugins/demo.so" ((PluginManager.notifyPluginShouldUnload demoBehaviour
          demoInfoA "svcA").exec demoWorldA).trace = 1) ∧
      Map.find? ((PluginManager.notifyPluginShouldUnload demoBehaviourCancel demoInfoA
        "svcA").exec demoWorldA).manager.activePlugins "/plugins/demo.so" = some 1 ∧
      Map.find? ((PluginAdapter.dispatch 1 ManagerCall.unloadPlugin >>= fun _ =>
        PluginManager.processUnload 1).exec
        ((PluginManager.notifyPluginShouldUnload demoBehaviourCancel demoInfoA "svcA").exec
          demoWorldA)).manager.activePlugins "/plugins/demo.so" = none :=
  ⟨(scenario_dependency_loss demoBehaviour demoInfoA "svcA" 1 demoAdapterA 1 demoWorldA
      rfl rfl rfl rfl rfl rfl).2.1 rfl,
    ((scenario_dependency_loss demoBehaviourCancel demoInfoA "svcA" 1 demoAdapterA 1 demoWorldA
      rfl rfl rfl rfl rfl rfl).2.2 rfl trivial trivial).1,
    (((scenario_dependency_loss demoBehaviourCancel demoInfoA "svcA" 1 demoAdapterA 1
      demoWorldA rfl rfl rfl rfl rfl rfl).2.2 rfl trivial trivial).2.2.2 rfl).1⟩

end EventMonitor
namespace EventMonitor

/-! ## The invariant I1: what keeps it -/

theorem SameView.toShrunk {w w' : World} (h : SameView w w') : Shrunk w w' where
  plugins := h.plugins
  isUp := h.isUp
  nextAdapter := h.nextAdapter
  active := fun path a ha => ⟨by rw [← h.active]; exact ha, h.adapters a⟩
  adapters := fun b y' hy' => by
    have h1 := h.adapters b
    rw [hy'] at h1
    rcases hy : Map.find? w.adapters b with _ | y
    · rw [hy] at h1
      simp at h1
    · rw [hy] at h1
      simp only [Option.map_some', Option.some.injEq] at h1
      exact ⟨y, rfl, h1.symm⟩

theorem Shrunk.rfl (w : World) : Shrunk w w :=
  (viewFrame.refl w).toShrunk

theorem Shrunk.trans {a b c : World} (hab : Shrunk a b) (hbc : Shrunk b c) : Shrunk a c where
  plugins := hbc.plugins.trans hab.plugins
  isUp := fun s => (hbc.isUp s).trans (hab.isUp s)
  nextAdapter := hbc.nextAdapter.trans hab.nextAdapter
  active := fun path x hx => by
    obtain ⟨h1, h2⟩ := hbc.active path x hx
    obtain ⟨h3, h4⟩ := hab.active path x h1
    exact ⟨h3, h2.trans h4⟩
  adapters := fun x y'' hy'' => by
    obtain ⟨y', hy', e1⟩ := hbc.adapters x y'' hy''
    obtain ⟨y, hy, e2⟩ := hab.adapters x y' hy'
    exact ⟨y, hy, e2.trans e1⟩

theorem all_isUp_congr {w w' : World} (h : ∀ s, w'.isUp s = w.isUp s) (l : List String) :
    l.all w'.isUp = l.all w.isUp := by
  induction l with
  | nil => rfl
  | cons s rest ih => simp only [List.all_cons, h s, ih]

theorem Struct.shrunkStruct {w w' : World} (hs : Struct w) (h : Shrunk w w') : Struct w' where
  paths := by rw [h.plugins]; exact hs.paths
  entries := fun path a ha => by
    obtain ⟨h1, h2⟩ := h.active path a ha
    obtain ⟨hlt, ad, had, hp, hm, hpl⟩ := hs.entries path a h1
    rw [had] at h2
    rcases hy : Map.find? w'.adapters a with _ | y
    · rw [hy] at h2
      simp at h2
    · rw [hy] at h2
      simp only [Option.map_some', Option.some.injEq, PluginAdapter.core, Prod.mk.injEq] at h2
      refine ⟨by rw [h.nextAdapter]; exact hlt, y, rfl, ?_, ?_, ?_⟩
      · rw [h2.1]; exact hp
      · rw [h2.1, h.plugins]; exact hm
      · rw [h2.2.1]; exact hpl

theorem Tended.shrunkTended {S : PluginInfo → Prop} {w w' : World} (ht : Tended S w)
    (h : Shrunk w w') : Tended S w' := by
  intro path a ad ha had hS
  obtain ⟨h1, -⟩ := h.active path a ha
  obtain ⟨y, hy, hc⟩ := h.adapters a ad had
  simp only [PluginAdapter.core, Prod.mk.injEq] at hc
  rw [← hc.1] at hS
  rw [all_isUp_congr h.isUp, ← hc.1, ← hc.2.2]
  exact ht path a y h1 hy hS

theorem LoopInv.shrunk {S : PluginInfo → Prop} {w w' : World} (hi : LoopInv S w)
    (h : Shrunk w w') : LoopInv S w' :=
  ⟨hi.struct.shrunkStruct h, hi.tended.shrunkTended h⟩

theorem LoadInv.shrunkLoad {S : PluginInfo → Prop} {a : AdapterPtr} {w w' : World}
    (hi : LoadInv S a w) (h : Shrunk w w') : LoadInv S a w' where
  inv := hi.inv.shrunk h
  deps := fun y' hy' => by
    obtain ⟨y, hy, hc⟩ := h.adapters a y' hy'
    simp only [PluginAdapter.core, Prod.mk.injEq] at hc
    rw [all_isUp_congr h.isUp, ← hc.1]
    exact hi.deps y hy

theorem FreshInv.sameView {S : PluginInfo → Prop} {a : AdapterPtr} {P : PluginInfo}
    {w w' : World} (hi : FreshInv S a P w) (h : SameView w w') : FreshInv S a P w' where
  inv := hi.inv.shrunk h.toShrunk
  lt := by rw [h.nextAdapter]; exact hi.lt
  alive := by
    obtain ⟨y, hy, hP⟩ := hi.alive
    have h1 := h.adapters a
    rw [hy] at h1
    rcases hy' : Map.find? w'.adapters a with _ | y'
    · rw [hy'] at h1
      simp at h1
    · rw [hy'] at h1
      simp only [Option.map_some', Option.some.injEq, PluginAdapter.core, Prod.mk.injEq] at h1
      exact ⟨y', rfl, h1.1.trans hP⟩
  deps := by rw [all_isUp_congr h.isUp]; exact hi.deps
  unused := by rw [h.active]; exact hi.unused
  listed := by rw [h.plugins]; exact hi.listed

theorem ApiRel.toView {strict : Bool} {w w' : World} (h : ApiRel strict w w') :
    SameView w w' where
  plugins := by rw [h.core.monitor]
  isUp := fun s => by simp only [World.isUp, h.core.monitor]
  active := by rw [h.core.manager]
  nextAdapter := h.core.nextAdapter
  adapters := h.core.adapters

theorem Keeps.apiToView {strict : Bool} {α : Type} {m : M α}
    (h : Keeps (apiFrame strict) m) : Keeps viewFrame m :=
  Keeps.mono (fun _ _ hr => ApiRel.toView hr) h

theorem sameView_of_fields {w w' : World} (h1 : w'.monitor = w.monitor)
    (h2 : w'.manager.activePlugins = w.manager.activePlugins)
    (h3 : w'.nextAdapter = w.nextAdapter) (h4 : w'.adapters = w.adapters) : SameView w w' :=
  { plugins := by rw [h1], isUp := fun s => by simp only [World.isUp, h1], active := h2,
    nextAdapter := h3, adapters := fun b => by rw [h4] }

theorem keepsView_emit (e : Event) : Keeps viewFrame (emit e) :=
  Keeps.modify fun _ => sameView_of_fields rfl rfl rfl rfl

theorem Keeps.viewToLoop {S : PluginInfo → Prop} {α : Type} {m : M α}
    (h : Keeps viewFrame m) : Keeps (invFrame (LoopInv S)) m :=
  Keeps.mono (fun _ _ hr hi => hi.shrunk (SameView.toShrunk hr)) h

theorem Keeps.viewToLoad {S : PluginInfo → Prop} {a : AdapterPtr} {α : Type} {m : M α}
    (h : Keeps viewFrame m) : Keeps (invFrame (LoadInv S a)) m :=
  Keeps.mono (fun _ _ hr hi => hi.shrunkLoad (SameView.toShrunk hr)) h

theorem Keeps.viewToFresh {S : PluginInfo → Prop} {a : AdapterPtr} {P : PluginInfo}
    {α : Type} {m : M α} (h : Keeps viewFrame m) : Keeps (invFrame (FreshInv S a P)) m :=
  Keeps.mono (fun _ _ hr hi => FreshInv.sameView hi hr) h

theorem keepsView_notifyLocaleChanged (beh : PluginBehaviour) (self : AdapterPtr)
    (locale : String) : Keeps viewFrame (PluginAdapter.notifyLocaleChanged beh self locale) := by
  unfold PluginAdapter.notifyLocaleChanged
  repeat (first
    | exact Keeps.pure _ | exact Keeps.raise _
    | exact Keeps.derefAdapter _
    | exact keepsView_emit _
    | exact Keeps.apiToView (keeps_runPlugin_any _ _)
    | exact Keeps.apiToView (keeps_unloadPlugin _)
    | apply Keeps.bind
    | apply Keeps.tryCatch
    | intro _
    | split
    | dsimp only)

theorem keepsView_loader_loadPlugin (beh : PluginBehaviour) (info : PluginInfo)
    (manager : AdapterPtr) : Keeps viewFrame (PluginLoader.loadPlugin beh info manager) := by
  unfold PluginLoader.loadPlugin
  repeat (first
    | exact Keeps.pure _ | exact Keeps.raise _ | exact Keeps.get
    | exact keepsView_emit _
    | exact Keeps.apiToView (keeps_runPlugin_any _ _)
    | exact Keeps.modify fun _ => sameView_of_fields rfl rfl rfl rfl
    | apply Keeps.bind
    | apply Keeps.tryCatch
    | intro _
    | split
    | dsimp only)

theorem keepsView_loader_unloadPlugin (info : PluginInfo) :
    Keeps viewFrame (PluginLoader.unloadPlugin info) := by
  unfold PluginLoader.unloadPlugin
  repeat (first
    | exact Keeps.pure _ | exact Keeps.get
    | exact keepsView_emit _
    | exact Keeps.modify fun _ => sameView_of_fields rfl rfl rfl rfl
    | apply Keeps.bind
    | intro _
    | split
    | dsimp only)

theorem SameView.toDeleted {b : AdapterPtr} {w w' : World} (h : SameView w w') :
    Deleted b w w' where
  plugins := h.plugins
  isUp := h.isUp
  active := h.active
  nextAdapter := h.nextAdapter
  others := fun c _ => h.adapters c
  self := fun y' hy' => (SameView.toShrunk h).adapters b y' hy'

theorem Keeps.viewToDelete {b : AdapterPtr} {α : Type} {m : M α} (h : Keeps viewFrame m) :
    Keeps (deleteFrame b) m :=
  Keeps.mono (fun _ _ hr => SameView.toDeleted hr) h

theorem keepsDelete_erase (b : AdapterPtr) :
    Keeps (deleteFrame b) (M.modify fun w => { w with adapters := Map.erase w.adapters b }) := by
  refine Keeps.modify fun w => ?_
  refine ⟨rfl, fun _ => rfl, rfl, rfl, ?_, ?_⟩
  · intro c hc
    simp only [Map.find?_erase, if_neg (Ne.symm hc)]
  · intro y' hy'
    simp only [Map.find?_erase, if_true] at hy'
    cases hy'

theorem keepsDelete_delete (b : AdapterPtr) :
    Keeps (deleteFrame b) (PluginAdapter.delete b) := by
  unfold PluginAdapter.delete
  repeat (first
    | exact Keeps.pure _
    | exact Keeps.derefAdapter _
    | exact Keeps.viewToDelete (keepsView_emit _)
    | exact keepsDelete_erase _
    | apply Keeps.bind
    | intro _
    | split
    | dsimp only)

/-- The method `PluginManager::processUnload` on a well-formed active map: at most the
entry of the adapter is gone, and the adapter with it. -/
theorem processUnload_shrinks (b : AdapterPtr) (w : World) (hs : Struct w) :
    Shrunk w (PluginManager.processUnload b w).2 := by
  unfold PluginManager.processUnload
  simp only [M.bind_run, derefAdapter]
  rcases hx : Map.find? w.adapters b with _ | x
  · exact Shrunk.rfl w
  · simp only
    by_cases hn : x.needUnload = true
    · simp only [hn, Bool.not_true, Bool.false_eq_true, if_false, M.bind_run, M.modify]
      have hk : Keeps (deleteFrame b) (PluginAdapter.unloadPlugin b >>= fun _ =>
          PluginAdapter.delete b >>= fun _ => PluginLoader.unloadPlugin x.info) :=
        Keeps.bind (Keeps.viewToDelete (Keeps.apiToView (keeps_unloadPlugin b)))
          (fun _ => Keeps.bind (keepsDelete_delete b)
            (fun _ => Keeps.viewToDelete (keepsView_loader_unloadPlugin _)))
      have key : ∀ w', Deleted b { w with manager := { w.manager with
          activePlugins := Map.erase w.manager.activePlugins x.info.path } } w' →
          Shrunk w w' := by
        intro w' hd
        have hactive : ∀ path a, Map.find? w'.manager.activePlugins path = some a →
            Map.find? w.manager.activePlugins path = some a ∧ a ≠ b := by
          intro path a ha
          rw [hd.active] at ha
          simp only [Map.find?_erase] at ha
          by_cases hp : x.info.path = path
          · rw [if_pos hp] at ha
            cases ha
          · rw [if_neg hp] at ha
            refine ⟨ha, ?_⟩
            intro hab
            subst hab
            obtain ⟨-, ad, had, hpath, -⟩ := hs.entries path a ha
            rw [hx] at had
            cases had
            exact hp hpath
        refine ⟨hd.plugins, hd.isUp, hd.nextAdapter, ?_, ?_⟩
        · intro path a ha
          obtain ⟨h1, h2⟩ := hactive path a ha
          exact ⟨h1, hd.others a h2⟩
        · intro c y' hy'
          by_cases hc : c = b
          · subst hc
            exact hd.self y' hy'
          · have h1 := hd.others c hc
            rw [hy'] at h1
            simp only at h1
            rcases hy : Map.find? w.adapters c with _ | y
            · rw [hy] at h1
              simp at h1
            · rw [hy] at h1
              simp only [Option.map_some', Option.some.injEq] at h1
              exact ⟨y, rfl, h1.symm⟩
      exact key _ (hk.run _)
    · have hn' : x.needUnload = false := by simpa using hn
      simp only [hn', Bool.not_false, if_true, M.pure_run]
      exact Shrunk.rfl w

theorem keepsLoop_processUnload (S : PluginInfo → Prop) (b : AdapterPtr) :
    Keeps (invFrame (LoopInv S)) (PluginManager.processUnload b) :=
  ⟨fun w hi => hi.shrunk (processUnload_shrinks b w hi.struct)⟩

theorem keepsLoad_processUnload (S : PluginInfo → Prop) (a b : AdapterPtr) :
    Keeps (invFrame (LoadInv S a)) (PluginManager.processUnload b) :=
  ⟨fun w hi => hi.shrunkLoad (processUnload_shrinks b w hi.inv.struct)⟩

/-- A write to the manager-side fields of one adapter that keeps its descriptor and its
plugin object, and leaves it notified or with all required services up. -/
theorem LoopInv.write {S : PluginInfo → Prop} {w : World} (hi : LoopInv S w)
    (a : AdapterPtr) (x x' : PluginAdapter) (hx : Map.find? w.adapters a = some x)
    (h1 : x'.info = x.info) (h2 : x.plugin.isSome = true → x'.plugin.isSome = true)
    (h3 : x'.unloadNotified = true ∨ x.info.requiredServices.all w.isUp = true) :
    LoopInv S { w with adapters := Map.insert w.adapters a x' } where
  struct :=
    { paths := hi.struct.paths
      entries := fun path b hb => by
        obtain ⟨hlt, ad, had, hp, hm, hpl⟩ := hi.struct.entries path b hb
        refine ⟨hlt, ?_⟩
        simp only [Map.find?_insert]
        by_cases hab : a = b
        · subst hab
          rw [hx] at had
          cases had
          simp only [if_true]
          exact ⟨x', rfl, by rw [h1]; exact hp, by rw [h1]; exact hm, h2 hpl⟩
        · simp only [if_neg hab]
          exact ⟨ad, had, hp, hm, hpl⟩ }
  tended := fun path b ad hb had hS => by
    simp only [Map.find?_insert] at had
    by_cases hab : a = b
    · subst hab
      simp only [if_true, Option.some.injEq] at had
      subst had
      rcases h3 with h3 | h3
      · exact Or.inr h3
      · exact Or.inl (by rw [h1]; exact h3)
    · simp only [if_neg hab] at had
      exact hi.tended path b ad hb had hS

theorem keepsLoop_notified (S : PluginInfo → Prop) (a : AdapterPtr) :
    Keeps (invFrame (LoopInv S))
      (updateAdapter a fun x => { x with unloadNotified := true }) := by
  constructor
  intro w hi
  unfold updateAdapter
  split
  · rename_i x hx
    exact hi.write a x _ hx rfl (fun h => h) (Or.inl rfl)
  · exact hi

theorem keepsLoad_updateAdapter (S : PluginInfo → Prop) (a : AdapterPtr)
    (f : PluginAdapter → PluginAdapter) (h1 : ∀ x, (f x).info = x.info)
    (h2 : ∀ x, x.plugin.isSome = true → (f x).plugin.isSome = true) :
    Keeps (invFrame (LoadInv S a)) (updateAdapter a f) := by
  constructor
  intro w hi
  unfold updateAdapter
  split
  · rename_i x hx
    refine ⟨hi.inv.write a x _ hx (h1 x) (h2 x) (Or.inr (hi.deps x hx)), ?_⟩
    intro y hy
    simp only [Map.find?_insert, if_true, Option.some.injEq] at hy
    subst hy
    rw [h1 x]
    exact hi.deps x hx
  · exact hi

theorem keepsLoop_adapter_notify (S : PluginInfo → Prop) (beh : PluginBehaviour)
    (a : AdapterPtr) (service : String) :
    Keeps (invFrame (LoopInv S)) (PluginAdapter.notifyPluginShouldUnload beh a service) := by
  unfold PluginAdapter.notifyPluginShouldUnload
  repeat (first
    | exact Keeps.pure _ | exact Keeps.raise _
    | exact Keeps.viewToLoop (Keeps.derefAdapter _)
    | exact keepsLoop_notified _ _
    | exact Keeps.viewToLoop (keepsView_emit _)
    | exact Keeps.viewToLoop (Keeps.apiToView (keeps_runPlugin_any _ _))
    | exact Keeps.viewToLoop (Keeps.apiToView (keeps_unloadPlugin _))
    | apply Keeps.bind
    | apply Keeps.tryCatch
    | intro _
    | split
    | dsimp only)

theorem keepsLoad_callStartMonitoring (S : PluginInfo → Prop) (beh : PluginBehaviour)
    (a : AdapterPtr) :
    Keeps (invFrame (LoadInv S a)) (PluginAdapter.callStartMonitoring beh a) := by
  unfold PluginAdapter.callStartMonitoring PluginAdapter.derefPlugin
  repeat (first
    | exact Keeps.pure _ | exact Keeps.raise _
    | exact Keeps.viewToLoad (Keeps.derefAdapter _)
    | exact keepsLoad_updateAdapter _ _ _ (fun _ => rfl) (fun _ h => h)
    | exact Keeps.viewToLoad (keepsView_emit _)
    | exact Keeps.viewToLoad (Keeps.apiToView (keeps_runPlugin_any _ _))
    | exact Keeps.viewToLoad (Keeps.apiToView (keeps_unloadPlugin _))
    | apply Keeps.bind
    | apply Keeps.tryCatch
    | intro _
    | split
    | dsimp only)

theorem keepsLoad_pluginLoaded (S : PluginInfo → Prop) (beh : PluginBehaviour)
    (a : AdapterPtr) (plugin : Option PluginPtr) :
    Keeps (invFrame (LoadInv S a)) (PluginAdapter.pluginLoaded beh a plugin) := by
  unfold PluginAdapter.pluginLoaded
  repeat (first
    | exact Keeps.pure _ | exact Keeps.raise _
    | exact Keeps.viewToLoad (Keeps.derefAdapter _)
    | exact keepsLoad_updateAdapter _ _ _ (fun _ => rfl) (fun _ _ => rfl)
    | exact keepsLoad_callStartMonitoring _ _ _
    | apply Keeps.bind
    | intro _
    | split
    | dsimp only)

theorem Struct.info_eq {w : World} (hs : Struct w) {P Q : PluginInfo}
    (hP : P ∈ w.monitor.plugins) (hQ : Q ∈ w.monitor.plugins) (h : Q.path = P.path) : Q = P :=
  List.inj_on_of_nodup_map hs.paths hQ hP h

/-- The invariant of the loop takes in the descriptor `P` when the adapter under its
path, if there is one, is notified or has all its services up. -/
theorem LoopInv.extend {S : PluginInfo → Prop} {w : World} (hi : LoopInv S w) (P : PluginInfo)
    (h : ∀ a ad, Map.find? w.manager.activePlugins P.path = some a →
      Map.find? w.adapters a = some ad →
      ad.info.requiredServices.all w.isUp = true ∨ ad.unloadNotified = true) :
    LoopInv (fun i => S i ∨ i = P) w where
  struct := hi.struct
  tended := fun path a ad ha had hS => by
    rcases hS with hS | hS
    · exact hi.tended path a ad ha had hS
    · obtain ⟨-, ad', had', hp, -⟩ := hi.struct.entries path a ha
      rw [had] at had'
      cases had'
      rw [hS] at hp
      rw [← hp] at ha
      exact h a ad ha had

theorem LoopInv.emit {S : PluginInfo → Prop} {w : World} (hi : LoopInv S w) (e : Event) :
    LoopInv S { w with trace := w.trace ++ [e] } :=
  hi.shrunk (SameView.toShrunk (sameView_of_fields rfl rfl rfl rfl))

/-- The method `PluginManager::notifyPluginShouldUnload` takes the descriptor into the
invariant of the loop, however it ends. -/
theorem notify_tends (S : PluginInfo → Prop) (beh : PluginBehaviour) (P : PluginInfo)
    (service : String) (w : World) (hi : LoopInv S w) :
    LoopInv (fun i => S i ∨ i = P)
      (PluginManager.notifyPluginShouldUnload beh P service w).2 := by
  rcases hrun : PluginManager.notifyPluginShouldUnload beh P service w with ⟨res, w'⟩
  unfold PluginManager.notifyPluginShouldUnload at hrun
  simp only [M.bind_run, emit, M.modify, M.get] at hrun
  have hi1 := hi.emit (Event.notifyPluginShouldUnload P.path service)
  rcases hact : Map.find? w.manager.activePlugins P.path with _ | a
  · simp only [hact, M.pure_run, Prod.mk.injEq] at hrun
    obtain ⟨-, hw⟩ := hrun
    subst hw
    refine hi1.extend P ?_
    intro a ad ha
    rw [hact] at ha
    cases ha
  · simp only [hact] at hrun
    obtain ⟨-, x, hx, -, -, hpl⟩ := hi.struct.entries P.path a hact
    unfold PluginAdapter.notifyPluginShouldUnload at hrun
    have hpl' : x.plugin.isNone = false := by
      cases h : x.plugin with
      | none => rw [h] at hpl; cases hpl
      | some _ => rfl
    simp only [M.bind_run, derefAdapter, hx, hpl', Bool.false_eq_true, if_false, updateAdapter,
      emit, M.modify] at hrun
    have hi2 : LoopInv (fun i => S i ∨ i = P) { w with
        adapters := Map.insert w.adapters a { x with unloadNotified := true },
        trace := w.trace ++ [Event.notifyPluginShouldUnload P.path service] ++
          [Event.stopMonitoring x.info.path service] } := by
      have h1 := (hi1.write a x { x with unloadNotified := true } hx rfl (fun h => h)
        (Or.inl rfl)).emit (Event.stopMonitoring x.info.path service)
      refine h1.extend P ?_
      intro b ad hb had
      rw [show Map.find? w.manager.activePlugins P.path = some a from hact] at hb
      cases hb
      simp only [Map.find?_insert, if_true, Option.some.injEq] at had
      subst had
      exact Or.inr rfl
    split at hrun
    · rename_i u w3 hs
      split at hs
      · rename_i r w2 hg
        have hi3 := (Keeps.viewToLoop (Keeps.apiToView (Keeps.tryCatch
          (keeps_runPlugin_any a _) (fun _ => Keeps.pure _)))).of_run hg hi2
        have hi4 : LoopInv (fun i => S i ∨ i = P) w3 := by
          split at hs
          · exact (Keeps.viewToLoop (Keeps.apiToView (keeps_unloadPlugin a))).of_run hs hi3
          · cases hs
            exact hi3
        exact (keepsLoop_processUnload _ a).of_run hrun hi4
      · cases hs
    · rename_i e w3 hs
      cases hrun
      split at hs
      · rename_i r w2 hg
        have hi3 := (Keeps.viewToLoop (Keeps.apiToView (Keeps.tryCatch
          (keeps_runPlugin_any a _) (fun _ => Keeps.pure _)))).of_run hg hi2
        split at hs
        · exact (Keeps.viewToLoop (Keeps.apiToView (keeps_unloadPlugin a))).of_run hs hi3
        · cases hs
      · rename_i e2 w2 hg
        cases hs
        exact (Keeps.viewToLoop (Keeps.apiToView (Keeps.tryCatch
          (keeps_runPlugin_any a _) (fun _ => Keeps.pure _)))).of_run hg hi2

theorem Deleted.toShrunkOf {b : AdapterPtr} {w w' : World} (h : Deleted b w w')
    (hb : ∀ q, Map.find? w.manager.activePlugins q ≠ some b) : Shrunk w w' where
  plugins := h.plugins
  isUp := h.isUp
  nextAdapter := h.nextAdapter
  active := fun path a ha => by
    rw [h.active] at ha
    refine ⟨ha, h.others a ?_⟩
    intro hab
    subst hab
    exact hb path ha
  adapters := fun c y' hy' => by
    by_cases hc : c = b
    · subst hc
      exact h.self y' hy'
    · have h1 := h.others c hc
      rw [hy'] at h1
      rcases hy : Map.find? w.adapters c with _ | y
      · rw [hy] at h1
        simp at h1
      · rw [hy] at h1
        simp only [Option.map_some', Option.some.injEq] at h1
        exact ⟨y, rfl, h1.symm⟩

/-- The new adapter of `loadPlugin`, right after `new PluginAdapter`. -/
theorem FreshInv.ofNew {S : PluginInfo → Prop} {w : World} (hi : LoopInv S w) (P : PluginInfo)
    (hP : P ∈ w.monitor.plugins) (hup : P.requiredServices.all w.isUp = true) :
    FreshInv S w.nextAdapter P { w with
      adapters := Map.insert w.adapters w.nextAdapter { info := P },
      nextAdapter := w.nextAdapter + 1 } where
  inv :=
    { struct :=
        { paths := hi.struct.paths
          entries := fun path b hb => by
            obtain ⟨hlt, ad, had, hp, hm, hpl⟩ := hi.struct.entries path b hb
            refine ⟨Nat.lt_succ_of_lt hlt, ad, ?_, hp, hm, hpl⟩
            simp only [Map.find?_insert, if_neg (Nat.ne_of_gt hlt)]
            exact had }
      tended := fun path b ad hb had hS => by
        obtain ⟨hlt, -⟩ := hi.struct.entries path b hb
        simp only [Map.find?_insert, if_neg (Nat.ne_of_gt hlt)] at had
        exact hi.tended path b ad hb had hS }
  lt := Nat.lt_succ_self _
  alive := ⟨{ info := P }, by simp only [Map.find?_insert, if_true], rfl⟩
  deps := hup
  unused := fun q hq => by
    obtain ⟨hlt, -⟩ := hi.struct.entries q w.nextAdapter hq
    exact Nat.lt_irrefl _ hlt
  listed := hP

/-- The branch of `loadPlugin` for a library that yields no plugin object. -/
theorem FreshInv.discard {S : PluginInfo → Prop} {a : AdapterPtr} {P : PluginInfo} {v : World}
    (hf : FreshInv S a P v) :
    LoopInv S ((PluginLoader.unloadPlugin P >>= fun _ => PluginAdapter.delete a) v).2 := by
  have hk : Keeps (deleteFrame a)
      (PluginLoader.unloadPlugin P >>= fun _ => PluginAdapter.delete a) :=
    Keeps.bind (Keeps.viewToDelete (keepsView_loader_unloadPlugin P))
      (fun _ => keepsDelete_delete a)
  exact hf.inv.shrunk (Deleted.toShrunkOf (hk.run v) hf.unused)

/-- The new adapter of `loadPlugin`, entered in the active map and given its plugin
object. -/
theorem FreshInv.enter {S : PluginInfo → Prop} {a : AdapterPtr} {P : PluginInfo} {v : World}
    (hf : FreshInv S a P v) (y : PluginAdapter) (hy : Map.find? v.adapters a = some y)
    (p : PluginPtr) :
    LoadInv S a { v with
      manager := { v.manager with
        activePlugins := Map.insert v.manager.activePlugins P.path a },
      adapters := Map.insert v.adapters a { y with plugin := some p, unloadNotified := true } } := by
  obtain ⟨y0, hy0, hP⟩ := hf.alive
  rw [hy] at hy0
  cases hy0
  refine ⟨⟨⟨hf.inv.struct.paths, ?_⟩, ?_⟩, ?_⟩
  · intro path b hb
    simp only [Map.find?_insert] at hb ⊢
    by_cases hq : P.path = path
    · simp only [if_pos hq, Option.some.injEq] at hb
      subst hb
      simp only [if_true]
      exact ⟨hf.lt, _, rfl, by rw [hP]; exact hq, by rw [hP]; exact hf.listed, rfl⟩
    · simp only [if_neg hq] at hb
      obtain ⟨hlt, ad, had, hp, hm, hpl⟩ := hf.inv.struct.entries path b hb
      have hab : a ≠ b := fun h => hf.unused path (by rw [h]; exact hb)
      simp only [if_neg hab]
      exact ⟨hlt, ad, had, hp, hm, hpl⟩
  · intro path b ad hb had hS
    simp only [Map.find?_insert] at hb had
    by_cases hq : P.path = path
    · simp only [if_pos hq, Option.some.injEq] at hb
      subst hb
      simp only [if_true, Option.some.injEq] at had
      subst had
      exact Or.inl (by rw [hP]; exact hf.deps)
    · simp only [if_neg hq] at hb
      have hab : a ≠ b := fun h => hf.unused path (by rw [h]; exact hb)
      simp only [if_neg hab] at had
      exact hf.inv.tended path b ad hb had hS
  · intro y' hy'
    simp only [Map.find?_insert, if_true, Option.some.injEq] at hy'
    subst hy'
    rw [hP]
    exact hf.deps

/-- The branch of `loadPlugin` for a library that yields a plugin object. -/
theorem FreshInv.admit_plugin {S : PluginInfo → Prop} {a : AdapterPtr} {P : PluginInfo}
    {v : World} (hf : FreshInv S a P v) (beh : PluginBehaviour) (p : PluginPtr) :
    LoopInv S ((M.modify (fun w => { w with manager := { w.manager with
        activePlugins := Map.insert w.manager.activePlugins P.path a } }) >>= fun _ =>
      PluginAdapter.pluginLoaded beh a (some p) >>= fun _ =>
      PluginManager.processUnload a) v).2 := by
  obtain ⟨y, hy, -⟩ := hf.alive
  have hl := hf.enter y hy p
  have hk : Keeps (invFrame (LoadInv S a)) (PluginAdapter.callStartMonitoring beh a >>= fun _ =>
      PluginManager.processUnload a) :=
    Keeps.bind (keepsLoad_callStartMonitoring S beh a) (fun _ => keepsLoad_processUnload S a a)
  have h1 := (hk.run _ hl).inv
  unfold PluginAdapter.pluginLoaded
  simp only [M.bind_run, M.modify, updateAdapter, hy]
  simp only [M.bind_run] at h1
  exact h1

/-- The method `PluginManager::loadPlugin` for a descriptor whose required services are
all up takes the descriptor into the invariant of the loop, however it ends. -/
theorem load_tends (S : PluginInfo → Prop) (beh : PluginBehaviour) (P : PluginInfo)
    (service : String) (w : World) (hi : LoopInv S w) (hP : P ∈ w.monitor.plugins)
    (hup : P.requiredServices.all w.isUp = true) :
    LoopInv (fun i => S i ∨ i = P) (PluginManager.loadPlugin beh P service w).2 := by
  rcases hrun : PluginManager.loadPlugin beh P service w with ⟨res, w'⟩
  unfold PluginManager.loadPlugin at hrun
  simp only [M.bind_run, emit, M.modify, M.get] at hrun
  have hi0 : LoopInv (fun i => S i ∨ i = P) w := by
    refine hi.extend P ?_
    intro a ad ha had
    obtain ⟨-, ad', had', hp, hm, -⟩ := hi.struct.entries P.path a ha
    rw [had] at had'
    cases had'
    rw [hi.struct.info_eq hP hm hp]
    exact Or.inl hup
  have hi1 := hi0.emit (Event.loadPlugin P.path service)
  rcases hact : Map.find? w.manager.activePlugins P.path with _ | a
  · simp only [hact, M.bind_run, PluginAdapter.new] at hrun
    have hf := FreshInv.ofNew hi1 P hP (by exact hup)
    split at hrun
    · rename_i plugin w2 hl
      have hf2 := (Keeps.viewToFresh (keepsView_loader_loadPlugin beh P _)).of_run hl hf
      cases plugin with
      | none =>
          have h3 := hf2.discard
          simp only [M.bind_run] at h3
          simp only [M.bind_run] at hrun
          rw [hrun] at h3
          exact h3
      | some p =>
          have h3 := hf2.admit_plugin beh p
          simp only [M.bind_run] at h3
          simp only [M.bind_run] at hrun
          rw [hrun] at h3
          exact h3
    · rename_i e w2 hl
      cases hrun
      exact ((Keeps.viewToFresh (keepsView_loader_loadPlugin beh P _)).of_run hl hf).inv
  · simp only [hact] at hrun
    have hl : LoadInv (fun i => S i ∨ i = P) a
        { w with trace := w.trace ++ [Event.loadPlugin P.path service] } := by
      refine ⟨hi1, ?_⟩
      intro y hy
      obtain ⟨-, ad', had', hp, hm, -⟩ := hi.struct.entries P.path a hact
      rw [show Map.find? w.adapters a = some y from hy] at had'
      cases had'
      rw [hi.struct.info_eq hP hm hp]
      exact hup
    exact ((Keeps.bind (keepsLoad_pluginLoaded _ beh a none)
      (fun _ => keepsLoad_processUnload _ a a)).of_run hrun hl).inv

theorem LoopInv.weaken {S T : PluginInfo → Prop} {w : World} (hi : LoopInv S w)
    (h : ∀ i, T i → S i) : LoopInv T w :=
  ⟨hi.struct, fun path a ad ha had hT => hi.tended path a ad ha had (h _ hT)⟩

/-- The inner loop of `updatePlugins` says whether every required service is up and
leaves alone what the invariant I1 reads. -/
theorem dependenciesMet_view (services : List String) (w : World) :
    ∃ w', ServiceMonitor.dependenciesMet services w = (Except.ok (services.all w.isUp), w') ∧
      SameView w w' := by
  induction services generalizing w with
  | nil => exact ⟨w, rfl, viewFrame.refl w⟩
  | cons service rest ih =>
      unfold ServiceMonitor.dependenciesMet ServiceMonitor.serviceStatusAt
      rcases hf : Map.find? w.monitor.serviceStatus service with _ | up
      · refine ⟨{ w with monitor := { w.monitor with
            serviceStatus := Map.insert w.monitor.serviceStatus service false } }, ?_, ?_⟩
        · simp [M.bind_run, M.get, hf, ServiceMonitor.update, M.modify, World.isUp]
        · refine ⟨rfl, ?_, rfl, rfl, fun _ => rfl⟩
          intro s
          simp only [World.isUp, Map.find?_insert]
          by_cases hs : service = s
          · subst hs
            simp [hf]
          · simp [hs]
      · cases up with
        | false =>
            refine ⟨w, ?_, viewFrame.refl w⟩
            simp [M.bind_run, M.get, hf, World.isUp]
        | true =>
            obtain ⟨w', h1, h2⟩ := ih w
            refine ⟨w', ?_, h2⟩
            simp [M.bind_run, M.get, hf, World.isUp, h1]

/-- The outer loop of `updatePlugins`, when it returns, has taken every descriptor of
its list into the invariant. -/
theorem updateEach_tends (beh : PluginBehaviour) (serviceName : String)
    (rest : List PluginInfo) (S : PluginInfo → Prop) (w w' : World) (hi : LoopInv S w)
    (hrest : ∀ P ∈ rest, P ∈ w.monitor.plugins)
    (hrun : ServiceMonitor.updateEach beh serviceName rest w = (Except.ok (), w')) :
    LoopInv (fun i => S i ∨ i ∈ rest) w' ∧ w'.monitor.plugins = w.monitor.plugins := by
  induction rest generalizing S w with
  | nil =>
      simp only [ServiceMonitor.updateEach, M.pure_run, Prod.mk.injEq, true_and] at hrun
      subst hrun
      exact ⟨hi.weaken (fun i h => h.elim id (fun h => absurd h (List.not_mem_nil i))), rfl⟩
  | cons P rest ih =>
      unfold ServiceMonitor.updateEach at hrun
      obtain ⟨w1, hd, hv⟩ := dependenciesMet_view P.requiredServices w
      simp only [M.bind_run, hd] at hrun
      have hi1 : LoopInv S w1 := hi.shrunk hv.toShrunk
      have hP1 : P ∈ w1.monitor.plugins := by
        rw [hv.plugins]
        exact hrest P (List.mem_cons_self _ _)
      have hstep : ∀ (m : M Unit), LoopInv (fun i => S i ∨ i = P) (m w1).2 →
          (m w1).2.monitor = w1.monitor →
          (m >>= fun _ => ServiceMonitor.updateEach beh serviceName rest) w1 =
            (Except.ok (), w') →
          LoopInv (fun i => S i ∨ i ∈ P :: rest) w' ∧
            w'.monitor.plugins = w.monitor.plugins := by
        intro m h2 hmon hrun
        simp only [M.bind_run] at hrun
        rcases hm : m w1 with ⟨r, w2⟩
        rw [hm] at h2 hmon hrun
        cases r with
        | error e => cases hrun
        | ok u =>
            simp only at hmon h2
            have hp2 : w2.monitor.plugins = w.monitor.plugins := by
              rw [hmon, hv.plugins]
            obtain ⟨h3, h4⟩ := ih _ w2 h2 (fun Q hQ => by
              rw [hp2]
              exact hrest Q (List.mem_cons_of_mem _ hQ)) hrun
            refine ⟨h3.weaken ?_, h4.trans hp2⟩
            · intro i hi
              rcases hi with hi | hi
              · exact Or.inl (Or.inl hi)
              · rcases List.mem_cons.mp hi with h | h
                · exact Or.inl (Or.inr h)
                · exact Or.inr h
      by_cases hmet : P.requiredServices.all w.isUp = true
      · simp only [hmet, if_true] at hrun
        refine hstep _ (load_tends S beh P serviceName w1 hi1 hP1 ?_)
          (loadPlugin_calls beh P serviceName w1).2 hrun
        rw [all_isUp_congr hv.isUp]
        exact hmet
      · simp only [hmet, Bool.false_eq_true, if_false] at hrun
        exact hstep _ (notify_tends S beh P serviceName w1 hi1)
          (notifyPluginShouldUnload_calls beh P serviceName w1).2 hrun


/-- The loop of `addPlugin` leaves alone what the invariant I1 reads: a service that is
new to the status map is entered as down. -/
theorem addServices_view (services : List String) (w : World) :
    SameView w (ServiceMonitor.addServices services w).2 := by
  induction services generalizing w with
  | nil => exact viewFrame.refl w
  | cons service rest ih =>
      unfold ServiceMonitor.addServices
      simp only [M.bind_run, M.get]
      by_cases hc : Map.contains w.monitor.serviceStatus service = true
      · simp only [hc, if_true]
        exact ih w
      · simp only [hc, Bool.false_eq_true, if_false, ServiceMonitor.update, M.modify, M.bind_run]
        have hnone : Map.find? w.monitor.serviceStatus service = none := by
          rw [Map.contains_eq_isSome] at hc
          cases h : Map.find? w.monitor.serviceStatus service with
          | none => rfl
          | some _ => rw [h] at hc; exact absurd rfl hc
        have h1 : SameView w { w with monitor := { w.monitor with
            serviceStatus := Map.insert w.monitor.serviceStatus service false } } := by
          refine ⟨rfl, ?_, rfl, rfl, fun _ => rfl⟩
          intro s
          simp only [World.isUp, Map.find?_insert]
          by_cases hs : service = s
          · subst hs
            simp [hnone]
          · simp [hs]
        have hk : Keeps viewFrame (LunaService.subscribeToMethod
            "luna://com.webos.service.bus/signal/registerServerStatus"
            (JValue.obj [("serviceName", JValue.str service)])
            (some SubscribeCallback.serviceStatusCallback) JSchema.AllSchema none false) :=
          Keeps.apiToView (keeps_subscribeToMethod _ _ _ _ _ _ : Keeps (apiFrame false) _)
        have h2 := hk.run { w with monitor := { w.monitor with
            serviceStatus := Map.insert w.monitor.serviceStatus service false } }
        split
        · rename_i hs
          rw [hs] at h2
          exact viewFrame.trans _ _ _ (viewFrame.trans _ _ _ h1 h2) (ih _)
        · rename_i hs
          rw [hs] at h2
          exact viewFrame.trans _ _ _ h1 h2

theorem keepsView_addPlugins (plugins : List PluginInfo) :
    Keeps viewFrame (ServiceMonitor.addPlugins plugins) := by
  induction plugins with
  | nil => exact Keeps.pure _
  | cons info rest ih =>
      unfold ServiceMonitor.addPlugins ServiceMonitor.addPlugin
      exact Keeps.bind ⟨addServices_view _⟩ (fun _ => ih)

theorem keepsLoop_notifyAdapters (S : PluginInfo → Prop) (beh : PluginBehaviour)
    (localeStr : String) (entries : List (String × AdapterPtr)) :
    Keeps (invFrame (LoopInv S)) (PluginManager.notifyAdapters beh localeStr entries) := by
  induction entries with
  | nil => exact Keeps.pure _
  | cons entry rest ih =>
      unfold PluginManager.notifyAdapters
      repeat (first
        | exact ih
        | exact Keeps.viewToLoop (keepsView_notifyLocaleChanged _ _ _)
        | exact keepsLoop_processUnload _ _
        | apply Keeps.bind
        | intro _)

theorem keepsLoop_localeCallback (S : PluginInfo → Prop) (beh : PluginBehaviour)
    (previousValue value : JValue) :
    Keeps (invFrame (LoopInv S)) (ServiceMonitor.localeCallback beh previousValue value) := by
  unfold ServiceMonitor.localeCallback PluginManager.notifyLocaleChanged
  repeat (first
    | exact Keeps.pure _ | exact Keeps.get
    | exact keepsLoop_notifyAdapters _ _ _ _
    | exact Keeps.viewToLoop (keepsView_addPlugins _)
    | exact Keeps.viewToLoop (Keeps.modify fun _ => ⟨rfl, fun _ => rfl, rfl, rfl, fun _ => rfl⟩)
    | apply Keeps.bind
    | intro _
    | split
    | dsimp only [ServiceMonitor.update])

/-- A server-status callback that returns keeps the invariant. -/
theorem serviceStatusCallback_inv (beh : PluginBehaviour) (previousValue value : JValue)
    (w w' : World) (hi : LoopInv (fun _ => True) w)
    (hrun : ServiceMonitor.serviceStatusCallback beh previousValue value w =
      (Except.ok (), w')) : LoopInv (fun _ => True) w' := by
  unfold ServiceMonitor.serviceStatusCallback at hrun
  rcases hname : (value.get "serviceName").asString with _ | serviceName
  · simp only [hname] at hrun
    cases hrun
  rcases hconn : (value.get "connected").asBool with _ | connected
  · simp only [hname, hconn] at hrun
    cases hrun
  · simp only [hname, hconn, M.bind_run, M.get] at hrun
    rcases hf : Map.find? w.monitor.serviceStatus serviceName with _ | was
    · simp only [hf, M.pure_run, Prod.mk.injEq, true_and] at hrun
      subst hrun
      exact hi
    · simp only [hf, ServiceMonitor.update, M.modify, M.bind_run] at hrun
      by_cases hsame : was = connected
      · subst hsame
        simp only [bne_self_eq_false, Bool.false_eq_true, if_false, M.pure_run, Prod.mk.injEq,
          true_and] at hrun
        subst hrun
        refine hi.shrunk (SameView.toShrunk ⟨rfl, ?_, rfl, rfl, fun _ => rfl⟩)
        intro s
        simp only [World.isUp, Map.find?_insert]
        by_cases hs : serviceName = s
        · subst hs
          simp [hf]
        · simp [hs]
      · have hne : (was != connected) = true := by simpa using hsame
        simp only [hne, if_true, ServiceMonitor.updatePlugins, M.bind_run, M.get] at hrun
        have h0 : LoopInv (fun _ => False) { w with monitor := { w.monitor with
            serviceStatus := Map.insert w.monitor.serviceStatus serviceName connected } } :=
          ⟨⟨hi.struct.paths, hi.struct.entries⟩, fun _ _ _ _ _ h => h.elim⟩
        obtain ⟨h1, h2⟩ := updateEach_tends beh serviceName _ _ _ w' h0 (fun _ h => h) hrun
        refine ⟨h1.struct, ?_⟩
        intro path a ad ha had _
        obtain ⟨-, ad', had', -, hm, -⟩ := h1.struct.entries path a ha
        rw [had] at had'
        cases had'
        rw [h2] at hm
        exact h1.tended path a ad ha had (Or.inr hm)

/-- The world after `startMonitor` has an empty active map. -/
theorem startMonitor_inv (servicePath : String) (bus : List BusOutcome)
    (plugins : List PluginInfo) (hpaths : (plugins.map fun i => i.path).Nodup) :
    LoopInv (fun _ => True)
      ((ServiceMonitor.startMonitor plugins).exec (World.init servicePath bus)) := by
  have hk : Keeps viewFrame (LunaService.subscribeToMethod
      "luna://com.webos.settingsservice/getSystemSettings"
      (JValue.obj [("keys", JValue.arr [JValue.str "localeInfo"])])
      (some SubscribeCallback.localeCallback) JSchema.AllSchema none false >>= fun _ =>
      (pure () : M Unit)) :=
    Keeps.bind
      (Keeps.apiToView (keeps_subscribeToMethod _ _ _ _ _ _ : Keeps (apiFrame false) _))
      (fun _ => Keeps.pure _)
  have h0 : LoopInv (fun _ => True) { World.init servicePath bus with
      monitor := { plugins := plugins } } := by
    refine ⟨⟨hpaths, ?_⟩, ?_⟩
    · intro path a ha
      cases ha
    · intro path a ad ha
      cases ha
  exact h0.shrunk (SameView.toShrunk (hk.run _))

/-- Every state that the locale and server-status callbacks lead to has a well-formed
active map whose adapters have all their required services up or are notified. -/
theorem reachable_inv (w : World) (h : Reachable w) : LoopInv (fun _ => True) w := by
  induction h with
  | start servicePath bus plugins hpaths => exact startMonitor_inv servicePath bus plugins hpaths
  | locale beh previousValue value bus w _ _ ih =>
      have h1 : LoopInv (fun _ => True) { w with bus := bus } :=
        ih.shrunk (SameView.toShrunk (sameView_of_fields rfl rfl rfl rfl))
      exact (keepsLoop_localeCallback _ beh previousValue value).run _ h1
  | status beh previousValue value bus w _ hret ih =>
      have h1 : LoopInv (fun _ => True) { w with bus := bus } :=
        ih.shrunk (SameView.toShrunk (sameView_of_fields rfl rfl rfl rfl))
      rcases hrun : ServiceMonitor.serviceStatusCallback beh previousValue value
        { w with bus := bus } with ⟨res, w'⟩
      simp only [M.result, M.exec, hrun] at hret ⊢
      subst hret
      exact serviceStatusCallback_inv beh previousValue value _ w' h1 hrun

/-! ## Invariant I1: no active adapter is left with `needUnload` queued -/

theorem Calm.apart {w : World} (h : Calm w) (b : AdapterPtr) : CalmBut b w :=
  fun path a ad _ ha had => h path a ad ha had

theorem calmBut_of_kept (b : AdapterPtr) {w w' : World}
    (hact : w'.manager.activePlugins = w.manager.activePlugins)
    (hnu : ∀ c, c ≠ b → (Map.find? w'.adapters c).map (fun x => x.needUnload) =
      (Map.find? w.adapters c).map (fun x => x.needUnload))
    (hi : CalmBut b w) : CalmBut b w' := by
  intro path a ad hab ha had
  rw [hact] at ha
  have hn := hnu a hab
  rw [had] at hn
  rcases hx : Map.find? w.adapters a with _ | x
  · rw [hx] at hn
    simp at hn
  · rw [hx] at hn
    simp only [Option.map_some', Option.some.injEq] at hn
    rw [hn]
    exact hi path a x hab ha hx

theorem calm_of_kept {w w' : World}
    (hact : w'.manager.activePlugins = w.manager.activePlugins)
    (hnu : ∀ c, (Map.find? w'.adapters c).map (fun x => x.needUnload) =
      (Map.find? w.adapters c).map (fun x => x.needUnload))
    (hi : Calm w) : Calm w' := by
  intro path a ad ha had
  rw [hact] at ha
  have hn := hnu a
  rw [had] at hn
  rcases hx : Map.find? w.adapters a with _ | x
  · rw [hx] at hn
    simp at hn
  · rw [hx] at hn
    simp only [Option.map_some', Option.some.injEq] at hn
    rw [hn]
    exact hi path a x ha hx

namespace Leads

variable {P Q R : World → Prop} {α β : Type}

theorem fromKeeps {I : World → Prop} {m : M α} (h : Keeps (invFrame I) m) : Leads I m I :=
  ⟨fun w _ w' hi hrun => by
    have h1 := h.run w hi
    rw [hrun] at h1
    exact h1⟩

theorem chain {m : M α} {f : α → M β} (hm : Leads P m Q) (hf : ∀ a, Leads Q (f a) R) :
    Leads P (m >>= f) R := by
  constructor
  intro w b w' hi hrun
  rw [M.bind_run] at hrun
  rcases hmw : m w with ⟨r, w1⟩
  rw [hmw] at hrun
  cases r with
  | error e => cases hrun
  | ok a => exact (hf a).run w1 b w' (hm.run w a w1 hi hmw) hrun

theorem relax {P' Q' : World → Prop} {m : M α} (h : Leads P m Q) (hp : ∀ w, P' w → P w)
    (hq : ∀ w, Q w → Q' w) : Leads P' m Q' :=
  ⟨fun w a w' hi hrun => hq w' (h.run w a w' (hp w hi) hrun)⟩

end Leads

/-- Code below the manager that leaves the flag `needUnload` alone keeps `Calm`. -/
theorem Keeps.strictToCalm {α : Type} {m : M α} (h : Keeps (apiFrame true) m) :
    Keeps (invFrame Calm) m :=
  Keeps.mono (fun w w' (hr : ApiRel true w w') hi =>
    calm_of_kept (by rw [hr.core.manager]) (hr.core.needUnload rfl) hi) h

theorem Keeps.strictToBut (b : AdapterPtr) {α : Type} {m : M α}
    (h : Keeps (apiFrame true) m) : Keeps (invFrame (CalmBut b)) m :=
  Keeps.mono (fun w w' (hr : ApiRel true w w') hi =>
    calmBut_of_kept b (by rw [hr.core.manager]) (fun c _ => hr.core.needUnload rfl c) hi) h

theorem keepsCalm_silent (f : World → World)
    (h1 : ∀ w, (f w).manager.activePlugins = w.manager.activePlugins)
    (h2 : ∀ w, (f w).adapters = w.adapters) : Keeps (invFrame Calm) (M.modify f) :=
  Keeps.modify fun w hi => calm_of_kept (h1 w) (fun c => by rw [h2 w]) hi

theorem keepsBut_silent (b : AdapterPtr) (f : World → World)
    (h1 : ∀ w, (f w).manager.activePlugins = w.manager.activePlugins)
    (h2 : ∀ w, (f w).adapters = w.adapters) : Keeps (invFrame (CalmBut b)) (M.modify f) :=
  Keeps.modify fun w hi => calmBut_of_kept b (h1 w) (fun c _ => by rw [h2 w]) hi

theorem keepsCalm_emit (e : Event) : Keeps (invFrame Calm) (emit e) :=
  keepsCalm_silent _ (fun _ => rfl) (fun _ => rfl)

theorem keepsBut_emit (b : AdapterPtr) (e : Event) : Keeps (invFrame (CalmBut b)) (emit e) :=
  keepsBut_silent b _ (fun _ => rfl) (fun _ => rfl)

/-- A write to the adapter `b` leaves the other adapters alone. -/
theorem keepsBut_updateAdapter (b : AdapterPtr) (f : PluginAdapter → PluginAdapter) :
    Keeps (invFrame (CalmBut b)) (updateAdapter b f) := by
  constructor
  intro w hi
  unfold updateAdapter
  split
  · rename_i adapter _
    have h1 : CalmBut b { w with adapters := Map.insert w.adapters b (f adapter) } := by
      refine @calmBut_of_kept b w _ rfl (fun c hc => ?_) hi
      simp only [Map.find?_insert, if_neg (Ne.symm hc)]
    exact h1
  · exact hi

theorem keepsBut_unloadPlugin (b : AdapterPtr) :
    Keeps (invFrame (CalmBut b)) (PluginAdapter.unloadPlugin b) := by
  unfold PluginAdapter.unloadPlugin
  repeat (first
    | exact Keeps.pure _
    | exact Keeps.derefAdapter _
    | exact Keeps.strictToBut _ (keeps_cleanupPlugin _)
    | exact Keeps.strictToBut _ (keeps_closeAlerts _ _)
    | exact Keeps.strictToBut _ (keeps_cancelTimeouts _ _)
    | exact keepsBut_updateAdapter _ _
    | apply Keeps.bind
    | intro _
    | split
    | dsimp only)

theorem keepsBut_dispatch (b : AdapterPtr) (c : ManagerCall) :
    Keeps (invFrame (CalmBut b)) (PluginAdapter.dispatch b c) := by
  by_cases hc : c = ManagerCall.unloadPlugin
  · subst hc
    unfold PluginAdapter.dispatch
    exact Keeps.bind (keepsBut_unloadPlugin b) (fun _ => Keeps.pure _)
  · exact Keeps.strictToBut b (keeps_dispatch b c fun _ => hc)

/-- Plugin code run behind the adapter `b` sets the flag `needUnload` of no other
adapter. -/
theorem keepsBut_runPlugin (b : AdapterPtr) {R : Type} (code : PluginCode R) :
    Keeps (invFrame (CalmBut b)) (PluginAdapter.runPlugin b code) := by
  induction code with
  | ret r => exact Keeps.pure _
  | throw => exact Keeps.raise _
  | call c next ih =>
      unfold PluginAdapter.runPlugin
      exact Keeps.bind (Keeps.tryCatch (keepsBut_dispatch b c) (fun _ => Keeps.pure _))
        (fun r => ih r)

theorem keepsBut_callStartMonitoring (beh : PluginBehaviour) (b : AdapterPtr) :
    Keeps (invFrame (CalmBut b)) (PluginAdapter.callStartMonitoring beh b) := by
  unfold PluginAdapter.callStartMonitoring PluginAdapter.derefPlugin
  repeat (first
    | exact Keeps.pure _ | exact Keeps.raise _
    | exact Keeps.derefAdapter _
    | exact keepsBut_updateAdapter _ _
    | exact keepsBut_emit _ _
    | exact keepsBut_runPlugin _ _
    | exact keepsBut_unloadPlugin _
    | apply Keeps.bind
    | apply Keeps.tryCatch
    | intro _
    | split
    | dsimp only)

theorem keepsBut_pluginLoaded (beh : PluginBehaviour) (b : AdapterPtr)
    (plugin : Option PluginPtr) :
    Keeps (invFrame (CalmBut b)) (PluginAdapter.pluginLoaded beh b plugin) := by
  unfold PluginAdapter.pluginLoaded
  repeat (first
    | exact Keeps.pure _ | exact Keeps.raise _
    | exact Keeps.derefAdapter _
    | exact keepsBut_updateAdapter _ _
    | exact keepsBut_callStartMonitoring _ _
    | apply Keeps.bind
    | intro _
    | split
    | dsimp only)

theorem keepsBut_adapter_notifyPluginShouldUnload (beh : PluginBehaviour) (b : AdapterPtr)
    (service : String) :
    Keeps (invFrame (CalmBut b)) (PluginAdapter.notifyPluginShouldUnload beh b service) := by
  unfold PluginAdapter.notifyPluginShouldUnload
  repeat (first
    | exact Keeps.pure _ | exact Keeps.raise _
    | exact Keeps.derefAdapter _
    | exact keepsBut_updateAdapter _ _
    | exact keepsBut_emit _ _
    | exact keepsBut_runPlugin _ _
    | exact keepsBut_unloadPlugin _
    | apply Keeps.bind
    | apply Keeps.tryCatch
    | intro _
    | split
    | dsimp only)

theorem keepsBut_adapter_notifyLocaleChanged (beh : PluginBehaviour) (b : AdapterPtr)
    (locale : String) :
    Keeps (invFrame (CalmBut b)) (PluginAdapter.notifyLocaleChanged beh b locale) := by
  unfold PluginAdapter.notifyLocaleChanged
  repeat (first
    | exact Keeps.pure _ | exact Keeps.raise _
    | exact Keeps.derefAdapter _
    | exact keepsBut_emit _ _
    | exact keepsBut_runPlugin _ _
    | exact keepsBut_unloadPlugin _
    | apply Keeps.bind
    | apply Keeps.tryCatch
    | intro _
    | split
    | dsimp only)

theorem keepsBut_loader_loadPlugin (beh : PluginBehaviour) (info : PluginInfo)
    (b : AdapterPtr) :
    Keeps (invFrame (CalmBut b)) (PluginLoader.loadPlugin beh info b) := by
  unfold PluginLoader.loadPlugin
  repeat (first
    | exact Keeps.pure _ | exact Keeps.raise _ | exact Keeps.get
    | exact keepsBut_emit _ _
    | exact keepsBut_runPlugin _ _
    | exact keepsBut_silent _ _ (fun _ => rfl) (fun _ => rfl)
    | apply Keeps.bind
    | apply Keeps.tryCatch
    | intro _
    | split
    | dsimp only)

theorem keepsCalm_loader_unloadPlugin (info : PluginInfo) :
    Keeps (invFrame Calm) (PluginLoader.unloadPlugin info) := by
  unfold PluginLoader.unloadPlugin
  repeat (first
    | exact Keeps.pure _ | exact Keeps.get
    | exact keepsCalm_emit _
    | exact keepsCalm_silent _ (fun _ => rfl) (fun _ => rfl)
    | apply Keeps.bind
    | intro _
    | split
    | dsimp only)

theorem keepsBut_loader_unloadPlugin (b : AdapterPtr) (info : PluginInfo) :
    Keeps (invFrame (CalmBut b)) (PluginLoader.unloadPlugin info) := by
  unfold PluginLoader.unloadPlugin
  repeat (first
    | exact Keeps.pure _ | exact Keeps.get
    | exact keepsBut_emit _ _
    | exact keepsBut_silent _ _ (fun _ => rfl) (fun _ => rfl)
    | apply Keeps.bind
    | intro _
    | split
    | dsimp only)

/-- The C++ `delete adapter` ends the exception made for the adapter. -/
theorem leads_delete (b : AdapterPtr) : Leads (CalmBut b) (PluginAdapter.delete b) Calm := by
  constructor
  intro w u w' hi hrun
  have hshape : w'.manager.activePlugins = w.manager.activePlugins ∧
      w'.adapters = Map.erase w.adapters b := by
    unfold PluginAdapter.delete at hrun
    simp only [M.bind_run, derefAdapter] at hrun
    rcases hx : Map.find? w.adapters b with _ | x
    · rw [hx] at hrun
      cases hrun
    · rw [hx] at hrun
      simp only [emit, M.modify] at hrun
      split at hrun <;> cases hrun <;> exact ⟨rfl, rfl⟩
  intro path a ad ha had
  rw [hshape.1] at ha
  rw [hshape.2, Map.find?_erase] at had
  by_cases hab : b = a
  · rw [if_pos hab] at had
    cases had
  · rw [if_neg hab] at had
    exact hi path a ad (Ne.symm hab) ha had

/-- The method `PluginManager::processUnload` ends the exception made for the adapter: if
the flag is set the adapter leaves the active map and is deleted. -/
theorem leads_processUnload (b : AdapterPtr) :
    Leads (CalmBut b) (PluginManager.processUnload b) Calm := by
  constructor
  intro w u w' hi hrun
  unfold PluginManager.processUnload at hrun
  simp only [M.bind_run, derefAdapter] at hrun
  rcases hx : Map.find? w.adapters b with _ | x
  · rw [hx] at hrun
    cases hrun
  rw [hx] at hrun
  simp only at hrun
  by_cases hn : x.needUnload = true
  · simp only [hn, Bool.not_true, Bool.false_eq_true, if_false, M.bind_run, M.modify] at hrun
    have h0 : CalmBut b { w with manager := { w.manager with
        activePlugins := Map.erase w.manager.activePlugins x.info.path } } := by
      intro path a ad hab ha had
      simp only [Map.find?_erase] at ha
      split at ha
      · cases ha
      · exact hi path a ad hab ha had
    have htail : Leads (CalmBut b) (PluginAdapter.unloadPlugin b >>= fun _ =>
        PluginAdapter.delete b >>= fun _ => PluginLoader.unloadPlugin x.info) Calm :=
      Leads.chain (Leads.fromKeeps (keepsBut_unloadPlugin b))
        (fun _ => Leads.chain (leads_delete b)
          (fun _ => Leads.fromKeeps (keepsCalm_loader_unloadPlugin _)))
    refine htail.run _ u w' h0 ?_
    simp only [M.bind_run]
    exact hrun
  · have hn' : x.needUnload = false := by simpa using hn
    simp only [hn', Bool.not_false, if_true, M.pure_run, Prod.mk.injEq, true_and] at hrun
    subst hrun
    intro path a ad ha had
    by_cases hab : a = b
    · subst hab
      rw [hx] at had
      cases had
      exact hn'
    · exact hi path a ad hab ha had

theorem keepsCalm_new (info : PluginInfo) : Keeps (invFrame Calm) (PluginAdapter.new info) := by
  constructor
  intro w hi path a ad ha had
  have had' : Map.find? (Map.insert w.adapters w.nextAdapter { info := info }) a = some ad :=
    had
  have ha' : Map.find? w.manager.activePlugins path = some a := ha
  rw [Map.find?_insert] at had'
  split at had'
  · cases had'
    rfl
  · exact hi path a ad ha' had'

theorem keepsBut_enter (b : AdapterPtr) (path : String) :
    Keeps (invFrame (CalmBut b)) (M.modify fun w => { w with manager := { w.manager with
      activePlugins := Map.insert w.manager.activePlugins path b } }) := by
  refine Keeps.modify fun w hi => ?_
  intro q a ad hab ha had
  have ha' : Map.find? (Map.insert w.manager.activePlugins path b) q = some a := ha
  rw [Map.find?_insert] at ha'
  split at ha'
  · cases ha'
    exact absurd rfl hab
  · exact hi q a ad hab ha' had

/-- The method `PluginManager::loadPlugin`, when it returns, leaves no active adapter with
`needUnload` queued. -/
theorem leads_loadPlugin (beh : PluginBehaviour) (info : PluginInfo) (service : String) :
    Leads Calm (PluginManager.loadPlugin beh info service) Calm := by
  unfold PluginManager.loadPlugin
  refine Leads.chain (Leads.fromKeeps (keepsCalm_emit _)) (fun _ => ?_)
  refine Leads.chain (Leads.fromKeeps Keeps.get) (fun w0 => ?_)
  split
  · rename_i adapter _
    exact Leads.chain
      (Leads.relax (Leads.fromKeeps (keepsBut_pluginLoaded beh adapter none))
        (fun _ h => h.apart adapter) (fun _ h => h))
      (fun _ => leads_processUnload adapter)
  · refine Leads.chain (Leads.fromKeeps (keepsCalm_new info)) (fun adapter => ?_)
    refine Leads.chain
      (Leads.relax (Leads.fromKeeps (keepsBut_loader_loadPlugin beh info adapter))
        (fun _ h => h.apart adapter) (fun _ h => h)) (fun plugin => ?_)
    split
    · exact Leads.chain (Leads.fromKeeps (keepsBut_loader_unloadPlugin adapter info))
        (fun _ => leads_delete adapter)
    · rename_i p
      exact Leads.chain (Leads.fromKeeps (keepsBut_enter adapter info.path))
        (fun _ => Leads.chain (Leads.fromKeeps (keepsBut_pluginLoaded beh adapter (some p)))
          (fun _ => leads_processUnload adapter))

theorem leads_notifyPluginShouldUnload (beh : PluginBehaviour) (info : PluginInfo)
    (service : String) :
    Leads Calm (PluginManager.notifyPluginShouldUnload beh info service) Calm := by
  unfold PluginManager.notifyPluginShouldUnload
  refine Leads.chain (Leads.fromKeeps (keepsCalm_emit _)) (fun _ => ?_)
  refine Leads.chain (Leads.fromKeeps Keeps.get) (fun w0 => ?_)
  split
  · exact Leads.fromKeeps (Keeps.pure _)
  · rename_i adapter _
    exact Leads.chain
      (Leads.relax
        (Leads.fromKeeps (keepsBut_adapter_notifyPluginShouldUnload beh adapter service))
        (fun _ h => h.apart adapter) (fun _ h => h))
      (fun _ => leads_processUnload adapter)

theorem leads_notifyAdapters (beh : PluginBehaviour) (localeStr : String)
    (entries : List (String × AdapterPtr)) :
    Leads Calm (PluginManager.notifyAdapters beh localeStr entries) Calm := by
  induction entries with
  | nil => exact Leads.fromKeeps (Keeps.pure _)
  | cons entry rest ih =>
      unfold PluginManager.notifyAdapters
      exact Leads.chain
        (Leads.relax
          (Leads.fromKeeps (keepsBut_adapter_notifyLocaleChanged beh entry.2 localeStr))
          (fun _ h => h.apart entry.2) (fun _ h => h))
        (fun _ => Leads.chain (leads_processUnload entry.2) (fun _ => ih))

theorem keepsCalm_update (f : ServiceMonitor → ServiceMonitor) :
    Keeps (invFrame Calm) (ServiceMonitor.update f) :=
  keepsCalm_silent _ (fun _ => rfl) (fun _ => rfl)

theorem keepsCalm_addServices (services : List String) :
    Keeps (invFrame Calm) (ServiceMonitor.addServices services) := by
  induction services with
  | nil => exact Keeps.pure _
  | cons service rest ih =>
      unfold ServiceMonitor.addServices
      repeat (first
        | exact ih
        | exact Keeps.pure _ | exact Keeps.get
        | exact keepsCalm_update _
        | exact Keeps.strictToCalm (keeps_subscribeToMethod _ _ _ _ _ _)
        | apply Keeps.bind
        | intro _
        | split
        | dsimp only)

theorem keepsCalm_addPlugins (plugins : List PluginInfo) :
    Keeps (invFrame Calm) (ServiceMonitor.addPlugins plugins) := by
  induction plugins with
  | nil => exact Keeps.pure _
  | cons info rest ih =>
      unfold ServiceMonitor.addPlugins ServiceMonitor.addPlugin
      exact Keeps.bind (keepsCalm_addServices _) (fun _ => ih)

theorem leads_localeCallback (beh : PluginBehaviour) (previousValue value : JValue) :
    Leads Calm (ServiceMonitor.localeCallback beh previousValue value) Calm := by
  unfold ServiceMonitor.localeCallback PluginManager.notifyLocaleChanged
  repeat (first
    | exact Leads.fromKeeps (Keeps.pure _)
    | exact Leads.fromKeeps Keeps.get
    | exact leads_notifyAdapters _ _ _
    | exact Leads.fromKeeps (keepsCalm_addPlugins _)
    | exact Leads.fromKeeps (keepsCalm_update _)
    | exact Leads.fromKeeps (keepsCalm_silent _ (fun _ => rfl) (fun _ => rfl))
    | apply Leads.chain
    | intro _
    | split
    | dsimp only)

theorem keepsCalm_dependenciesMet (services : List String) :
    Keeps (invFrame Calm) (ServiceMonitor.dependenciesMet services) := by
  induction services with
  | nil => exact Keeps.pure _
  | cons service rest ih =>
      unfold ServiceMonitor.dependenciesMet ServiceMonitor.serviceStatusAt
      repeat (first
        | exact ih
        | exact Keeps.pure _ | exact Keeps.get
        | exact keepsCalm_update _
        | apply Keeps.bind
        | intro _
        | split
        | dsimp only)

theorem leads_updateEach (beh : PluginBehaviour) (serviceName : String)
    (plugins : List PluginInfo) :
    Leads Calm (ServiceMonitor.updateEach beh serviceName plugins) Calm := by
  induction plugins with
  | nil => exact Leads.fromKeeps (Keeps.pure _)
  | cons plugin rest ih =>
      unfold ServiceMonitor.updateEach
      refine Leads.chain (Leads.fromKeeps (keepsCalm_dependenciesMet _)) (fun met => ?_)
      dsimp only
      split
      · exact Leads.chain (leads_loadPlugin beh plugin serviceName) (fun _ => ih)
      · exact Leads.chain (leads_notifyPluginShouldUnload beh plugin serviceName)
          (fun _ => ih)

theorem leads_serviceStatusCallback (beh : PluginBehaviour) (previousValue value : JValue) :
    Leads Calm (ServiceMonitor.serviceStatusCallback beh previousValue value) Calm := by
  unfold ServiceMonitor.serviceStatusCallback ServiceMonitor.updatePlugins
  repeat (first
    | exact Leads.fromKeeps (Keeps.pure _)
    | exact Leads.fromKeeps (Keeps.raise _)
    | exact Leads.fromKeeps Keeps.get
    | exact leads_updateEach _ _ _
    | exact Leads.fromKeeps (keepsCalm_update _)
    | apply Leads.chain
    | intro _
    | split
    | dsimp only)

theorem keepsCalm_startMonitor (plugins : List PluginInfo) :
    Keeps (invFrame Calm) (ServiceMonitor.startMonitor plugins) := by
  unfold ServiceMonitor.startMonitor
  repeat (first
    | exact Keeps.pure _
    | exact keepsCalm_update _
    | exact Keeps.strictToCalm (keeps_subscribeToMethod _ _ _ _ _ _)
    | apply Keeps.bind
    | intro _
    | dsimp only)

/-- No state that the locale and server-status callbacks lead to has an active adapter
with `needUnload` queued. -/
theorem reachable_calm (w : World) (h : Reachable w) : Calm w := by
  induction h with
  | start servicePath bus plugins hpaths =>
      refine (keepsCalm_startMonitor plugins).run (World.init servicePath bus) ?_
      intro path a ad ha
      cases ha
  | locale beh previousValue value bus w _ hret ih =>
      rcases hrun : ServiceMonitor.localeCallback beh previousValue value
        { w with bus := bus } with ⟨res, w'⟩
      simp only [M.result, M.exec, hrun] at hret ⊢
      subst hret
      have h1 : Calm { w with bus := bus } := ih
      exact (leads_localeCallback beh previousValue value).run _ () w' h1 hrun
  | status beh previousValue value bus w _ hret ih =>
      rcases hrun : ServiceMonitor.serviceStatusCallback beh previousValue value
        { w with bus := bus } with ⟨res, w'⟩
      simp only [M.result, M.exec, hrun] at hret ⊢
      subst hret
      have h1 : Calm { w with bus := bus } := ih
      exact (leads_serviceStatusCallback beh previousValue value).run _ () w' h1 hrun

/-- C4 (invariant I1, amended): in every state that the locale and server-status
callbacks lead to, every entry of the active map points to a live adapter for which
`needUnload` is not queued, and every service that the descriptor of the adapter requires
is up, unless the adapter has been notified: `stopMonitoring` was called on its plugin
since the last `startMonitoring` (and answered `UNLOAD_CANCEL`, as the adapter is still
there). -/
theorem dependencies_up_or_notified (w : World) (h : Reachable w) :
    ∀ path a, Map.find? w.manager.activePlugins path = some a →
      ∃ ad, Map.find? w.adapters a = some ad ∧ ad.needUnload = false ∧
        ((∀ s ∈ ad.info.requiredServices, w.isUp s = true) ∨ ad.unloadNotified = true) := by
  intro path a ha
  have hi := reachable_inv w h
  obtain ⟨-, ad, had, -⟩ := hi.struct.entries path a ha
  refine ⟨ad, had, reachable_calm w h path a ad ha had, ?_⟩
  rcases hi.tended path a ad ha had trivial with h1 | h1
  · exact Or.inl (List.all_eq_true.mp h1)
  · exact Or.inr h1

theorem demoWorldStale_reachable : Reachable demoWorldStale :=
  Reachable.status demoBehaviourCancel JValue.null (statusReply "svcA" false) [] demoWorldLoaded
    (Reachable.status demoBehaviourCancel JValue.null (statusReply "svcA" true) []
      demoWorldMonitoring
      (Reachable.locale demoBehaviourCancel JValue.null (demoLocaleReply "en") []
        demoWorldStarted
        (Reachable.start "com.webos.service.eventmonitor" [] [demoInfoA] (by simp))
        rfl)
      rfl)
    rfl

/-- C4, the claim as stated fails: after `svcA` has come up and gone down again, with a
plugin that answers `UNLOAD_CANCEL`, the plugin is still in the active map, its required
service `svcA` is down and `needUnload` is not set. -/
theorem dependencies_up_counterexample :
    Reachable demoWorldStale ∧
      Map.find? demoWorldStale.manager.activePlugins "/plugins/demo.so" = some 1 ∧
      (Map.find? demoWorldStale.adapters 1).map (fun ad => ad.info.requiredServices) =
        some ["svcA"] ∧
      (Map.find? demoWorldStale.adapters 1).map (fun ad => ad.needUnload) = some false ∧
      demoWorldStale.isUp "svcA" = false ∧
      ¬ DependenciesUp demoWorldStale ∧ ¬ DownQueued demoWorldStale := by
  have h1 : Map.find? demoWorldStale.manager.activePlugins "/plugins/demo.so" = some 1 := rfl
  have h2 : Map.find? demoWorldStale.adapters 1 =
      some { info := demoInfoA, plugin := some 1, unloadNotified := true } := rfl
  have h3 : demoWorldStale.isUp "svcA" = false := rfl
  refine ⟨demoWorldStale_reachable, h1, by rw [h2]; rfl, by rw [h2]; rfl, h3, ?_, ?_⟩
  · intro h
    have h4 := h _ _ _ h1 h2 "svcA" (by simp [demoInfoA])
    rw [h3] at h4
    cases h4
  · intro h
    have h4 := h _ _ _ h1 h2 "svcA" (by simp [demoInfoA]) h3
    cases h4

theorem dependencies_up_or_notified_witness :
    Reachable demoWorldStale ∧
      ∃ ad, Map.find? demoWorldStale.adapters 1 = some ad ∧ ad.needUnload = false ∧
        ((∀ s ∈ ad.info.requiredServices, demoWorldStale.isUp s = true) ∨
          ad.unloadNotified = true) :=
  ⟨demoWorldStale_reachable,
    dependencies_up_or_notified demoWorldStale demoWorldStale_reachable "/plugins/demo.so" 1 rfl⟩

end EventMonitor

/-! ## Subscriptions of an adapter (C5) -/

namespace EventMonitor

theorem Map.mem_eraseKey {κ : Type} [DecidableEq κ] (l : List κ) (k x : κ) :
    x ∈ Map.eraseKey l k ↔ x ∈ l ∧ x ≠ k := by
  induction l with
  | nil => simp [Map.eraseKey]
  | cons a rest ih =>
      by_cases h : a = k
      · subst h
        simp only [Map.eraseKey, if_true, ih, List.mem_cons]
        constructor
        · rintro ⟨h1, h2⟩
          exact ⟨Or.inr h1, h2⟩
        · rintro ⟨h1 | h1, h2⟩
          · exact absurd h1 h2
          · exact ⟨h1, h2⟩
      · simp only [Map.eraseKey, h, if_false, List.mem_cons, ih]
        constructor
        · rintro (h1 | ⟨h1, h2⟩)
          · exact ⟨Or.inl h1, by rw [h1]; exact h⟩
          · exact ⟨Or.inr h1, h2⟩
        · rintro ⟨h1 | h1, h2⟩
          · exact Or.inl h1
          · exact Or.inr ⟨h1, h2⟩

theorem Map.erase_of_find?_none {κ V : Type} [DecidableEq κ] (l : List (κ × V)) (k : κ)
    (h : Map.find? l k = none) : Map.erase l k = l := by
  induction l with
  | nil => rfl
  | cons e rest ih =>
      obtain ⟨k0, v0⟩ := e
      by_cases h0 : k0 = k
      · simp [Map.find?, h0] at h
      · simp only [Map.find?, h0, if_false] at h
        simp [Map.erase, h0, ih h]

/-- What `unsubscribeFromMethod` does when the handle it finds is not dangling. -/
theorem unsubscribeFromMethod_run (self : AdapterPtr) (id : String) (w : World)
    (ad : PluginAdapter) (had : Map.find? w.adapters self = some ad)
    (hvalid : ∀ h, Map.find? ad.subscriptions id = some h → h ∈ w.service.subscriptions →
      (Map.find? w.service.subscriptionInfos h).isSome = true) :
    ∃ b w1, PluginAdapter.unsubscribeFromMethod self id w = (Except.ok b, w1) ∧
      Map.find? w1.adapters self =
        some { ad with subscriptions := Map.erase ad.subscriptions id } ∧
      w1.service.nextSubscription = w.service.nextSubscription ∧
      (∀ h, h ∈ w1.service.subscriptions → h ∈ w.service.subscriptions) ∧
      (∀ h r, Map.find? w1.service.subscriptionInfos h = some r →
        Map.find? w.service.subscriptionInfos h = some r) ∧
      w1.bus = w.bus := by
  unfold PluginAdapter.unsubscribeFromMethod
  simp only [M.bind_run, derefAdapter, had]
  cases hf : Map.find? ad.subscriptions id with
  | none =>
      refine ⟨false, w, rfl, ?_, rfl, fun _ h => h, fun _ _ h => h, rfl⟩
      rw [had, Map.erase_of_find?_none _ _ hf]
  | some h =>
      simp only [LunaService.cancelSubscribe, M.bind_run, M.get]
      by_cases hmem : h ∈ w.service.subscriptions
      · have hv := hvalid h hf hmem
        rcases hrec : Map.find? w.service.subscriptionInfos h with _ | r
        · simp [hrec] at hv
        · simp [hmem, derefSubscription, hrec, emit, M.modify, deleteSubscription, updateService,
            updateAdapter, had, M.bind_run]
          refine ⟨by simp [Map.find?_insert], ?_, ?_⟩
          · intro x hx
            exact ((Map.mem_eraseKey _ _ _).1 hx).1
          · intro x r hx
            rw [Map.find?_erase] at hx
            split at hx
            · exact absurd hx (by simp)
            · exact hx
      · simp [hmem, updateAdapter, had, Map.find?_insert]


theorem splitChars_segment (delim : Char) (seg : List Char) (hseg : delim ∉ seg)
    (rest item : List Char) :
    splitChars delim (seg ++ delim :: rest) item =
      String.mk (item.reverse ++ seg) :: splitChars delim rest [] := by
  induction seg generalizing item with
  | nil => simp [splitChars]
  | cons c cs ih =>
      have hc : c ≠ delim := fun h => hseg (by simp [h])
      have hcs : delim ∉ cs := fun h => hseg (by simp [h])
      simp [splitChars, hc, ih hcs]

theorem splitString_luna (svc path : String) (hsvc : '/' ∉ svc.toList) :
    ∃ rest, splitString ("luna://" ++ svc ++ "/" ++ path) '/' = "luna:" :: "" :: svc :: rest := by
  refine ⟨splitChars '/' path.toList [], ?_⟩
  unfold splitString
  have h1 : ("luna://" ++ svc ++ "/" ++ path).toList =
      ['l', 'u', 'n', 'a', ':'] ++ '/' :: ([] ++ '/' :: (svc.toList ++ '/' :: path.toList)) := by
    simp [String.toList]
  rw [h1, splitChars_segment _ _ (by decide), splitChars_segment _ _ (by simp),
    splitChars_segment _ _ hsvc]
  simp

theorem any_beq_eq_decide_mem (l : List String) (x : String) :
    (l.any fun s => s == x) = decide (x ∈ l) := by
  induction l with
  | nil => simp
  | cons a rest ih =>
      by_cases h : a = x
      · simp [h]
      · have h' : ¬ x = a := fun e => h e.symm
        simp [h, h', ih]

theorem containsURI_luna (info : PluginInfo) (svc path : String) (hne : svc ≠ "")
    (hsvc : '/' ∉ svc.toList) :
    info.containsURI ("luna://" ++ svc ++ "/" ++ path) =
      Except.ok (decide (svc ∈ info.requiredServices)) := by
  obtain ⟨rest, hsplit⟩ := splitString_luna svc path hsvc
  have hlen : svc.length ≠ 0 := by
    intro h
    apply hne
    cases svc with
    | mk data =>
        simp [String.length] at h
        simp [h]
  unfold PluginInfo.containsURI
  rw [hsplit]
  simp [hlen, any_beq_eq_decide_mem]

theorem Map.insert_insert {κ V : Type} [DecidableEq κ] (l : List (κ × V)) (k : κ) (v v' : V) :
    Map.insert (Map.insert l k v) k v' = Map.insert l k v' := by
  induction l with
  | nil => simp [Map.insert]
  | cons e rest ih =>
      obtain ⟨k0, v0⟩ := e
      by_cases h0 : k0 = k
      · simp [Map.insert, h0]
      · simp [Map.insert, h0, ih]

/-- The record that `LunaService::subscribeToMethod` leaves behind on success. -/
theorem LunaService.subscribeToMethod_accepted (url : String) (params : JValue)
    (callback : Option SubscribeCallback) (schema : JSchema) (plugin : Option AdapterPtr)
    (w : World) (hbus : w.bus.head? ≠ some BusOutcome.lsError) :
    LunaService.subscribeToMethod url params callback schema plugin false w =
      (Except.ok w.service.nextSubscription,
        { w with
          service := { w.service with
            subscriptions := w.service.subscriptions.insert w.service.nextSubscription,
            subscriptionInfos := Map.insert w.service.subscriptionInfos
              w.service.nextSubscription
              { plugin := plugin, subscribeCallback := callback, serviceUrl := url,
                previousValue := JValue.null, schema := schema, counter := 0 },
            nextSubscription := w.service.nextSubscription + 1 },
          bus := w.bus.tail,
          trace := w.trace ++ [Event.callMultiReply w.service.nextSubscription url
            (LunaService.subscribeParams params) false] }) := by
  unfold LunaService.subscribeToMethod M.tryCatch
  rcases hb : w.bus with _ | ⟨o, rest⟩
  · simp [M.bind_run, newSubscription, updateService, M.modify, emit, nextBusOutcome, hb,
      updateSubscription, Map.find?_insert, Map.insert_insert]
  · have ho : o ≠ BusOutcome.lsError := by
      intro h
      apply hbus
      simp [hb, h]
    cases o with
    | lsError => exact absurd rfl ho
    | noReply =>
        simp [M.bind_run, newSubscription, updateService, M.modify, emit, nextBusOutcome, hb,
          updateSubscription, Map.find?_insert, Map.insert_insert]
    | reply payload =>
        simp [M.bind_run, newSubscription, updateService, M.modify, emit, nextBusOutcome, hb,
          updateSubscription, Map.find?_insert, Map.insert_insert]


theorem LunaService.subscribeToMethod_trace (url : String) (params : JValue)
    (callback : Option SubscribeCallback) (schema : JSchema) (plugin : Option AdapterPtr)
    (w : World) :
    (LunaService.subscribeToMethod url params callback schema plugin false w).2.trace =
      w.trace ++ [Event.callMultiReply w.service.nextSubscription url
        (LunaService.subscribeParams params) false] := by
  by_cases hbus : w.bus.head? = some BusOutcome.lsError
  · unfold LunaService.subscribeToMethod M.tryCatch
    rcases hb : w.bus with _ | ⟨o, rest⟩
    · simp [hb] at hbus
    · simp only [hb, List.head?_cons, Option.some.injEq] at hbus
      subst hbus
      simp [M.bind_run, newSubscription, updateService, M.modify, emit, nextBusOutcome, hb,
        deleteSubscription, Map.find?_insert, M.raise, Err.isLSError]
  · rw [LunaService.subscribeToMethod_accepted _ _ _ _ _ _ hbus]

/-- C5 (subscription policy, S3): a URL `luna://<svc>/<path>` with a non-empty `<svc>` is
refused with the policy `Error` when `<svc>` is not a required service of the descriptor,
and then no subscription object is made, no key is added to the subscription set of the
gateway and no handle is stored under the id; when `<svc>` is a required service the
policy check passes, the gateway subscribe goes out with `checkFirstResponse = false`,
and, the transport accepting it, its handle is stored under the id. -/
theorem subscribeToMethod_policy (self : AdapterPtr) (w : World) (ad : PluginAdapter)
    (id svc path : String) (params : JValue) (callback : Option SubscribeCallback)
    (schema : JSchema)
    (had : Map.find? w.adapters self = some ad)
    (hvalid : ∀ h, Map.find? ad.subscriptions id = some h → h ∈ w.service.subscriptions →
      (Map.find? w.service.subscriptionInfos h).isSome = true)
    (hne : svc ≠ "") (hsvc : '/' ∉ svc.toList) :
    (svc ∉ ad.info.requiredServices →
      (PluginAdapter.subscribeToMethod self id ("luna://" ++ svc ++ "/" ++ path) params
          callback schema).result w =
        Except.error (Err.error "Can only subscribe to services that are in required list") ∧
      ((PluginAdapter.subscribeToMethod self id ("luna://" ++ svc ++ "/" ++ path) params
          callback schema).exec w).service.nextSubscription = w.service.nextSubscription ∧
      (∀ h, h ∈ ((PluginAdapter.subscribeToMethod self id ("luna://" ++ svc ++ "/" ++ path)
          params callback schema).exec w).service.subscriptions →
        h ∈ w.service.subscriptions) ∧
      (∀ h r, Map.find? ((PluginAdapter.subscribeToMethod self id
          ("luna://" ++ svc ++ "/" ++ path) params callback schema).exec
            w).service.subscriptionInfos h = some r →
        Map.find? w.service.subscriptionInfos h = some r) ∧
      ∃ ad', Map.find? ((PluginAdapter.subscribeToMethod self id
          ("luna://" ++ svc ++ "/" ++ path) params callback schema).exec w).adapters self =
            some ad' ∧
        Map.find? ad'.subscriptions id = none) ∧
    (svc ∈ ad.info.requiredServices →
      ad.info.containsURI ("luna://" ++ svc ++ "/" ++ path) = Except.ok true ∧
      ((PluginAdapter.subscribeToMethod self id ("luna://" ++ svc ++ "/" ++ path) params
          callback schema).exec w).trace.getLast? =
        some (Event.callMultiReply w.service.nextSubscription
          ("luna://" ++ svc ++ "/" ++ path) (LunaService.subscribeParams params) false) ∧
      (w.bus.head? ≠ some BusOutcome.lsError →
        (PluginAdapter.subscribeToMethod self id ("luna://" ++ svc ++ "/" ++ path) params
          callback schema).result w = Except.ok () ∧
        w.service.nextSubscription ∈ ((PluginAdapter.subscribeToMethod self id
          ("luna://" ++ svc ++ "/" ++ path) params callback schema).exec
            w).service.subscriptions ∧
        (∃ r, Map.find? ((PluginAdapter.subscribeToMethod self id
            ("luna://" ++ svc ++ "/" ++ path) params callback schema).exec
              w).service.subscriptionInfos w.service.nextSubscription = some r ∧
          r.plugin = some self ∧ r.subscribeCallback = callback) ∧
        ∃ ad', Map.find? ((PluginAdapter.subscribeToMethod self id
            ("luna://" ++ svc ++ "/" ++ path) params callback schema).exec w).adapters self =
              some ad' ∧
          Map.find? ad'.subscriptions id = some w.service.nextSubscription)) := by
  obtain ⟨b, w1, hrun, had1, hnext, hkeys, hrecs, hbus1⟩ :=
    unsubscribeFromMethod_run self id w ad had hvalid
  have huri := containsURI_luna ad.info svc path hne hsvc
  constructor
  · intro hnot
    have hstep : PluginAdapter.subscribeToMethod self id ("luna://" ++ svc ++ "/" ++ path)
        params callback schema w =
        (Except.error (Err.error "Can only subscribe to services that are in required list"),
          w1) := by
      unfold PluginAdapter.subscribeToMethod
      simp [M.bind_run, hrun, derefAdapter, had1, huri, hnot, liftExcept, M.raise]
    simp only [M.result, M.exec, hstep]
    refine ⟨trivial, hnext, hkeys, hrecs, _, had1, ?_⟩
    simp [Map.find?_erase]
  · intro hin
    refine ⟨by simp [huri, hin], ?_, ?_⟩
    · have htrace := LunaService.subscribeToMethod_trace
        ("luna://" ++ svc ++ "/" ++ path) params callback schema (some self) w1
      rw [hnext] at htrace
      unfold M.exec PluginAdapter.subscribeToMethod
      simp only [M.bind_run, hrun, derefAdapter, had1, huri, hin, liftExcept, decide_True,
        M.pure_run, Bool.not_true, Bool.false_eq_true, if_false]
      rcases hsub : LunaService.subscribeToMethod ("luna://" ++ svc ++ "/" ++ path) params
        callback schema (some self) false w1 with ⟨r, w2⟩
      rw [hsub] at htrace
      simp only at htrace
      cases r with
      | error e => simp [htrace]
      | ok h =>
          simp only [updateAdapter]
          split <;> simp [htrace]
    · intro hbus
      have hbus' : w1.bus.head? ≠ some BusOutcome.lsError := by rw [hbus1]; exact hbus
      have hsub := LunaService.subscribeToMethod_accepted ("luna://" ++ svc ++ "/" ++ path)
        params callback schema (some self) w1 hbus'
      unfold M.result M.exec PluginAdapter.subscribeToMethod
      simp only [M.bind_run, hrun, derefAdapter, had1, huri, hin, liftExcept, decide_True,
        M.pure_run, Bool.not_true, Bool.false_eq_true, if_false, hsub, updateAdapter]
      simp [hnext, Map.find?_insert]

/-- C5, scenario S3: the adapter of a plugin that requires `svcA` only is refused a
subscription to `luna://svcB/x`. -/
theorem subscribeToMethod_policy_witness :
    Map.find? demoWorldA.adapters 1 = some demoAdapterA ∧
    "svcB" ∉ demoAdapterA.info.requiredServices ∧
    (PluginAdapter.subscribeToMethod 1 "id" ("luna://" ++ "svcB" ++ "/" ++ "x") JValue.null
        none JSchema.AllSchema).result demoWorldA =
      Except.error (Err.error "Can only subscribe to services that are in required list") :=
  ⟨rfl, by decide,
    ((subscribeToMethod_policy 1 demoWorldA demoAdapterA "id" "svcB" "x" JValue.null none
      JSchema.AllSchema rfl (fun h hh => by simp [demoAdapterA, Map.find?] at hh)
      (by decide) (by decide)).1 (by decide)).1⟩

end EventMonitor

/-! ## Subscribing twice under one id (C6) -/

namespace EventMonitor

/-- What `unsubscribeFromMethod` does to a live subscription. -/
theorem unsubscribeFromMethod_cancel (self : AdapterPtr) (id : String) (w : World)
    (ad : PluginAdapter) (h : SubscribeHandle) (r : SubscriptionInfo)
    (had : Map.find? w.adapters self = some ad)
    (hid : Map.find? ad.subscriptions id = some h)
    (hmem : h ∈ w.service.subscriptions)
    (hrec : Map.find? w.service.subscriptionInfos h = some r) :
    PluginAdapter.unsubscribeFromMethod self id w =
      (Except.ok true,
        { w with
          service := { w.service with
            subscriptions := Map.eraseKey w.service.subscriptions h,
            subscriptionInfos := Map.erase w.service.subscriptionInfos h },
          trace := w.trace ++ [Event.callCancel h],
          adapters := Map.insert w.adapters self
            { ad with subscriptions := Map.erase ad.subscriptions id } }) := by
  unfold PluginAdapter.unsubscribeFromMethod
  simp [M.bind_run, derefAdapter, had, hid, LunaService.cancelSubscribe, M.get, hmem,
    derefSubscription, hrec, emit, M.modify, deleteSubscription, updateService, updateAdapter]

/-- What `PluginAdapter::subscribeToMethod` does once the old subscription is gone, the
policy check passes and the transport accepts the call. -/
theorem adapter_subscribe_accepted (self : AdapterPtr) (id url : String) (params : JValue)
    (callback : Option SubscribeCallback) (schema : JSchema) (w w1 : World) (b : Bool)
    (ad1 : PluginAdapter)
    (hrun : PluginAdapter.unsubscribeFromMethod self id w = (Except.ok b, w1))
    (had1 : Map.find? w1.adapters self = some ad1)
    (huri : ad1.info.containsURI url = Except.ok true)
    (hbus : w1.bus.head? ≠ some BusOutcome.lsError) :
    PluginAdapter.subscribeToMethod self id url params callback schema w =
      (Except.ok (),
        { w1 with
          service := { w1.service with
            subscriptions := w1.service.subscriptions.insert w1.service.nextSubscription,
            subscriptionInfos := Map.insert w1.service.subscriptionInfos
              w1.service.nextSubscription
              { plugin := some self, subscribeCallback := callback, serviceUrl := url,
                previousValue := JValue.null, schema := schema, counter := 0 },
            nextSubscription := w1.service.nextSubscription + 1 },
          bus := w1.bus.tail,
          trace := w1.trace ++ [Event.callMultiReply w1.service.nextSubscription url
            (LunaService.subscribeParams params) false],
          adapters := Map.insert w1.adapters self
            { ad1 with subscriptions :=
                Map.insert ad1.subscriptions id w1.service.nextSubscription } }) := by
  have hsub := LunaService.subscribeToMethod_accepted url params callback schema (some self)
    w1 hbus
  unfold PluginAdapter.subscribeToMethod
  simp [M.bind_run, hrun, derefAdapter, had1, huri, liftExcept, hsub, updateAdapter]

theorem Map.count_insert_erase {κ V : Type} [DecidableEq κ] (l : List (κ × V)) (k : κ) (v : V) :
    ((Map.insert (Map.erase l k) k v).filter fun e => decide (e.1 = k)).length = 1 := by
  induction l with
  | nil => simp [Map.erase, Map.insert]
  | cons e rest ih =>
      obtain ⟨k0, v0⟩ := e
      by_cases h0 : k0 = k
      · simpa [Map.erase, h0] using ih
      · simpa [Map.erase, Map.insert, h0] using ih

/-- What a `PluginAdapter::subscribeToMethod` that passes the policy check and is accepted
by the transport leaves behind. -/
theorem adapter_subscribe_facts (self : AdapterPtr) (id url : String) (params : JValue)
    (callback : Option SubscribeCallback) (schema : JSchema) (w : World) (ad : PluginAdapter)
    (had : Map.find? w.adapters self = some ad)
    (hvalid : ∀ h, Map.find? ad.subscriptions id = some h → h ∈ w.service.subscriptions →
      (Map.find? w.service.subscriptionInfos h).isSome = true)
    (huri : ad.info.containsURI url = Except.ok true)
    (hbus : w.bus.head? ≠ some BusOutcome.lsError) :
    ∃ w', PluginAdapter.subscribeToMethod self id url params callback schema w =
        (Except.ok (), w') ∧
      Map.find? w'.adapters self =
        some { ad with
          subscriptions :=
            Map.insert (Map.erase ad.subscriptions id) id w.service.nextSubscription } ∧
      w.service.nextSubscription ∈ w'.service.subscriptions ∧
      Map.find? w'.service.subscriptionInfos w.service.nextSubscription =
        some { plugin := some self, subscribeCallback := callback, serviceUrl := url,
               previousValue := JValue.null, schema := schema, counter := 0 } ∧
      w'.service.nextSubscription = w.service.nextSubscription + 1 ∧
      w'.bus = w.bus.tail ∧
      (∀ h0, Map.find? ad.subscriptions id = some h0 → h0 ≠ w.service.nextSubscription →
        h0 ∈ w.service.subscriptions →
        h0 ∉ w'.service.subscriptions ∧ Map.find? w'.service.subscriptionInfos h0 = none ∧
        Event.callCancel h0 ∈ w'.trace) := by
  cases hid : Map.find? ad.subscriptions id with
  | none =>
      have hrun : PluginAdapter.unsubscribeFromMethod self id w = (Except.ok false, w) := by
        unfold PluginAdapter.unsubscribeFromMethod
        simp [M.bind_run, derefAdapter, had, hid]
      have hA := adapter_subscribe_accepted self id url params callback schema w w false ad
        hrun had huri hbus
      refine ⟨_, hA, ?_, ?_, ?_, rfl, rfl, ?_⟩
      · simp [Map.find?_insert, Map.erase_of_find?_none _ _ hid]
      · simp
      · simp [Map.find?_insert]
      · intro h0 h
        exact absurd h (by simp)
  | some h0 =>
      by_cases hmem : h0 ∈ w.service.subscriptions
      · have hv := hvalid h0 hid hmem
        rcases hrec : Map.find? w.service.subscriptionInfos h0 with _ | r
        · simp [hrec] at hv
        · have hrun := unsubscribeFromMethod_cancel self id w ad h0 r had hid hmem hrec
          have hA := adapter_subscribe_accepted self id url params callback schema w _ true
            { ad with subscriptions := Map.erase ad.subscriptions id }
            hrun (by simp [Map.find?_insert]) huri hbus
          refine ⟨_, hA, ?_, ?_, ?_, rfl, rfl, ?_⟩
          · simp [Map.find?_insert, Map.insert_insert]
          · simp
          · simp [Map.find?_insert]
          · intro h1 h hne _
            cases h
            have hne' : ¬ w.service.nextSubscription = h0 := fun e => hne e.symm
            simp [Map.mem_eraseKey, Map.find?_insert, Map.find?_erase, hne, hne']
      · have hrun : PluginAdapter.unsubscribeFromMethod self id w =
            (Except.ok true,
              { w with
                adapters := Map.insert w.adapters self
                  { ad with subscriptions := Map.erase ad.subscriptions id } }) := by
          unfold PluginAdapter.unsubscribeFromMethod
          simp [M.bind_run, derefAdapter, had, hid, LunaService.cancelSubscribe, M.get, hmem,
            updateAdapter]
        have hA := adapter_subscribe_accepted self id url params callback schema w _ true
          { ad with subscriptions := Map.erase ad.subscriptions id }
          hrun (by simp [Map.find?_insert]) huri hbus
        refine ⟨_, hA, ?_, ?_, ?_, rfl, rfl, ?_⟩
        · simp [Map.find?_insert, Map.insert_insert]
        · simp
        · simp [Map.find?_insert]
        · intro h1 h hne hin
          cases h
          exact absurd hin hmem

/-- C6 (invariant I8): two policy-conforming `subscribeToMethod` calls of one adapter
with the same id, both accepted by the transport, leave the second subscription stored
under the id, as the only entry for the id, and live in the gateway; the first one has
been cancelled, its key is no longer in the subscription set and its object is gone. -/
theorem subscribeToMethod_twice (self : AdapterPtr) (w : World) (ad : PluginAdapter)
    (id svc1 path1 svc2 path2 : String) (params1 params2 : JValue)
    (cb1 cb2 : Option SubscribeCallback) (schema1 schema2 : JSchema)
    (had : Map.find? w.adapters self = some ad)
    (hvalid : ∀ h, Map.find? ad.subscriptions id = some h → h ∈ w.service.subscriptions →
      (Map.find? w.service.subscriptionInfos h).isSome = true)
    (hne1 : svc1 ≠ "") (hsvc1 : '/' ∉ svc1.toList) (hin1 : svc1 ∈ ad.info.requiredServices)
    (hne2 : svc2 ≠ "") (hsvc2 : '/' ∉ svc2.toList) (hin2 : svc2 ∈ ad.info.requiredServices)
    (hbus1 : w.bus.head? ≠ some BusOutcome.lsError)
    (hbus2 : w.bus.tail.head? ≠ some BusOutcome.lsError) :
    (PluginAdapter.subscribeToMethod self id (lunaUrl svc1 path1) params1 cb1 schema1).result w
      = Except.ok () ∧
    (PluginAdapter.subscribeToMethod self id (lunaUrl svc2 path2) params2 cb2 schema2).result
      ((PluginAdapter.subscribeToMethod self id (lunaUrl svc1 path1) params1 cb1 schema1).exec w)
      = Except.ok () ∧
    (∃ ad', Map.find? ((PluginAdapter.subscribeToMethod self id (lunaUrl svc2 path2) params2
        cb2 schema2).exec ((PluginAdapter.subscribeToMethod self id (lunaUrl svc1 path1)
          params1 cb1 schema1).exec w)).adapters self = some ad' ∧
      Map.find? ad'.subscriptions id = some (w.service.nextSubscription + 1) ∧
      (ad'.subscriptions.filter fun e => decide (e.1 = id)).length = 1) ∧
    (w.service.nextSubscription + 1) ∈ ((PluginAdapter.subscribeToMethod self id
        (lunaUrl svc2 path2) params2 cb2 schema2).exec ((PluginAdapter.subscribeToMethod self
          id (lunaUrl svc1 path1) params1 cb1 schema1).exec w)).service.subscriptions ∧
    (∃ r, Map.find? ((PluginAdapter.subscribeToMethod self id (lunaUrl svc2 path2) params2
        cb2 schema2).exec ((PluginAdapter.subscribeToMethod self id (lunaUrl svc1 path1)
          params1 cb1 schema1).exec w)).service.subscriptionInfos
            (w.service.nextSubscription + 1) = some r ∧
      r.serviceUrl = lunaUrl svc2 path2 ∧ r.plugin = some self ∧ r.subscribeCallback = cb2) ∧
    w.service.nextSubscription ∉ ((PluginAdapter.subscribeToMethod self id
        (lunaUrl svc2 path2) params2 cb2 schema2).exec ((PluginAdapter.subscribeToMethod self
          id (lunaUrl svc1 path1) params1 cb1 schema1).exec w)).service.subscriptions ∧
    Map.find? ((PluginAdapter.subscribeToMethod self id (lunaUrl svc2 path2) params2
        cb2 schema2).exec ((PluginAdapter.subscribeToMethod self id (lunaUrl svc1 path1)
          params1 cb1 schema1).exec w)).service.subscriptionInfos
            w.service.nextSubscription = none ∧
    Event.callCancel w.service.nextSubscription ∈ ((PluginAdapter.subscribeToMethod self id
        (lunaUrl svc2 path2) params2 cb2 schema2).exec ((PluginAdapter.subscribeToMethod self
          id (lunaUrl svc1 path1) params1 cb1 schema1).exec w)).trace := by
  have huri1 : ad.info.containsURI (lunaUrl svc1 path1) = Except.ok true := by
    simp [lunaUrl, containsURI_luna ad.info svc1 path1 hne1 hsvc1, hin1]
  have huri2 : ad.info.containsURI (lunaUrl svc2 path2) = Except.ok true := by
    simp [lunaUrl, containsURI_luna ad.info svc2 path2 hne2 hsvc2, hin2]
  obtain ⟨wA, hA, hadA, hmemA, hrecA, hnextA, hbusA, -⟩ :=
    adapter_subscribe_facts self id (lunaUrl svc1 path1) params1 cb1 schema1 w ad had hvalid
      huri1 hbus1
  obtain ⟨wB, hB, hadB, hmemB, hrecB, -, -, holdB⟩ :=
    adapter_subscribe_facts self id (lunaUrl svc2 path2) params2 cb2 schema2 wA _ hadA
      (fun h hh _ => by
        simp only [Map.find?_insert, if_true, Option.some.injEq] at hh
        subst hh
        simp [hrecA])
      huri2 (by rw [hbusA]; exact hbus2)
  have hold := holdB w.service.nextSubscription (by simp [Map.find?_insert])
    (by rw [hnextA]; exact (Nat.succ_ne_self _).symm) hmemA
  simp only [M.result, M.exec, hA, hB]
  rw [hnextA] at hadB hmemB hrecB
  refine ⟨trivial, trivial, ⟨_, hadB, ?_, ?_⟩, hmemB, ⟨_, hrecB, rfl, rfl, rfl⟩, hold.1,
    hold.2.1, hold.2.2⟩
  · simp [Map.find?_insert]
  · exact Map.count_insert_erase _ _ _

/-- C6 at a concrete adapter: after `luna://svcA/x` and then `luna://svcA/y` under the
id `"id"`, the handle 2 of the second subscription is in the subscription set and the
handle 1 of the first is not. -/
theorem subscribeToMethod_twice_witness :
    Map.find? demoWorldA.adapters 1 = some demoAdapterA ∧
    "svcA" ∈ demoAdapterA.info.requiredServices ∧
    demoWorldA.bus.head? ≠ some BusOutcome.lsError ∧
    (demoWorldA.service.nextSubscription + 1) ∈
      ((PluginAdapter.subscribeToMethod 1 "id" (lunaUrl "svcA" "y") JValue.null none
        JSchema.AllSchema).exec ((PluginAdapter.subscribeToMethod 1 "id" (lunaUrl "svcA" "x")
          JValue.null none JSchema.AllSchema).exec demoWorldA)).service.subscriptions ∧
    demoWorldA.service.nextSubscription ∉
      ((PluginAdapter.subscribeToMethod 1 "id" (lunaUrl "svcA" "y") JValue.null none
        JSchema.AllSchema).exec ((PluginAdapter.subscribeToMethod 1 "id" (lunaUrl "svcA" "x")
          JValue.null none JSchema.AllSchema).exec demoWorldA)).service.subscriptions :=
  have h := subscribeToMethod_twice 1 demoWorldA demoAdapterA "id" "svcA" "x" "svcA" "y"
    JValue.null JValue.null none none JSchema.AllSchema JSchema.AllSchema rfl
    (fun h hh => by simp [demoAdapterA, Map.find?] at hh)
    (by decide) (by decide) (by decide) (by decide) (by decide) (by decide)
    (by simp [demoWorldA]) (by simp [demoWorldA])
  ⟨rfl, by decide, by simp [demoWorldA], h.2.2.2.1, h.2.2.2.2.2.1⟩

end EventMonitor

/-! ## The first response of a subscription (C7) -/

namespace EventMonitor

/-- The failing branch of `LunaService::subscribeToMethod` with `checkFirstResponse`: the
call throws an `Error`, the `SubscriptionInfo` it made has been deleted, and the key of
the deleted object is still in the subscription set. -/
theorem subscribeToMethod_checkFirst_residue (url : String) (params : JValue)
    (callback : Option SubscribeCallback) (schema : JSchema) (plugin : Option AdapterPtr)
    (w : World) (o : BusOutcome) (rest : List BusOutcome) (hbus : w.bus = o :: rest)
    (ho : o.failsFirstCheck = true) :
    (∃ what, (LunaService.subscribeToMethod url params callback schema plugin true).result w =
      Except.error (Err.error what)) ∧
    w.service.nextSubscription ∈
      ((LunaService.subscribeToMethod url params callback schema plugin true).exec
        w).service.subscriptions ∧
    Map.find? ((LunaService.subscribeToMethod url params callback schema plugin true).exec
      w).service.subscriptionInfos w.service.nextSubscription = none := by
  unfold M.result M.exec LunaService.subscribeToMethod M.tryCatch
  cases o with
  | lsError => simp [BusOutcome.failsFirstCheck] at ho
  | noReply =>
      simp [M.bind_run, newSubscription, updateService, M.modify, emit, nextBusOutcome, hbus,
        LunaService.checkFirst, deleteSubscription, Map.find?_insert, Map.find?_erase, M.raise,
        Err.isLSError]
  | reply payload =>
      simp only [BusOutcome.failsFirstCheck] at ho
      rcases hv : ((JDomParser.fromString payload JSchema.AllSchema).get "returnValue").asBool
        with _ | b
      · simp [M.bind_run, newSubscription, updateService, M.modify, emit, nextBusOutcome, hbus,
          LunaService.checkFirst, deleteSubscription, Map.find?_insert, Map.find?_erase,
          M.raise, Err.isLSError, hv]
      · cases b with
        | true => simp [hv] at ho
        | false =>
            simp [M.bind_run, newSubscription, updateService, M.modify, emit, nextBusOutcome,
              hbus, LunaService.checkFirst, deleteSubscription, Map.find?_insert,
              Map.find?_erase, M.raise, Err.isLSError, hv]

/-- C7 (invariant I6, scenario S5) at the failing input: `subscribeToSignal` gets the first
reply `returnValue: false`.  The call fails with the `Error` "First response failed", but
the subscription set of the gateway, empty before the call, now holds the key 1 of the
deleted `SubscriptionInfo`, no object is left behind it, and the next `unloadPlugin`
dereferences the deleted object. -/
theorem checkFirstResponse_leaves_residue :
    demoWorldS5.service.subscriptions = [] ∧
    (PluginAdapter.subscribeToSignal 1 "sig" "/category" "" none JSchema.AllSchema).result
      demoWorldS5 = Except.error (Err.error "First response failed") ∧
    ((PluginAdapter.subscribeToSignal 1 "sig" "/category" "" none JSchema.AllSchema).exec
      demoWorldS5).service.subscriptions = [1] ∧
    Map.keys ((PluginAdapter.subscribeToSignal 1 "sig" "/category" "" none
      JSchema.AllSchema).exec demoWorldS5).service.subscriptionInfos = [] ∧
    (PluginAdapter.unloadPlugin 1).result
      ((PluginAdapter.subscribeToSignal 1 "sig" "/category" "" none JSchema.AllSchema).exec
        demoWorldS5) = Except.error (Err.fault "SubscriptionInfo used after delete") := by
  refine ⟨rfl, ?_, ?_, ?_, ?_⟩ <;> rfl

end EventMonitor
namespace EventMonitor

theorem callbackArgs_append (h : SubscribeHandle) (t u : List Event) :
    callbackArgs h (t ++ u) = callbackArgs h t ++ callbackArgs h u := by
  induction t with
  | nil => rfl
  | cons e rest ih =>
      cases e <;> simp only [List.cons_append, callbackArgs, List.append_eq, ih]
      split <;> simp

theorem callbackArgs_subscribeCallbacks (h : SubscribeHandle) (t : List Event) :
    callbackArgs h (subscribeCallbacks t) = callbackArgs h t := by
  induction t with
  | nil => rfl
  | cons e rest ih =>
      unfold subscribeCallbacks at ih ⊢
      cases e <;> simp [List.filter, Event.isSubscribeCallback, callbackArgs, ih]

theorem chained_append (first : JValue) (args : List (JValue × JValue)) (p v : JValue) :
    Chained first (args ++ [(p, v)]) ↔ Chained first args ∧ p = lastValue first args := by
  induction args generalizing first with
  | nil => simp [Chained, lastValue]
  | cons a rest ih =>
      obtain ⟨q, u⟩ := a
      simp only [List.cons_append, Chained, lastValue, List.append_eq, ih, and_assoc]

theorem lastValue_append (first : JValue) (args : List (JValue × JValue)) (p v : JValue) :
    lastValue first (args ++ [(p, v)]) = v := by
  induction args generalizing first with
  | nil => rfl
  | cons a rest ih =>
      obtain ⟨q, u⟩ := a
      simp only [List.cons_append, lastValue, List.append_eq, ih]

theorem PreviousInv.of_topRel {w w' : World} (hinv : PreviousInv w) (hrel : TopRel w w') :
    PreviousInv w' := by
  intro h
  obtain ⟨h1, h2, h3⟩ := hinv h
  have hargs : callbackArgs h w'.trace = callbackArgs h w.trace := by
    rw [← callbackArgs_subscribeCallbacks, hrel.callbacks, callbackArgs_subscribeCallbacks]
  rw [hargs]
  refine ⟨h1, ?_, ?_⟩
  · intro r hr
    rcases hrel.subs.records h r hr with hold | ⟨hge, hlt, hnull⟩
    · exact ⟨(h2 r hold).1, lt_of_lt_of_le (h2 r hold).2 hrel.subs.next_le⟩
    · rw [h3 hge]
      exact ⟨hnull, hlt⟩
  · intro hge
    exact h3 (le_trans hrel.subs.next_le hge)

theorem PreviousInv.init (servicePath : String) (bus : List BusOutcome) :
    PreviousInv (World.init servicePath bus) := by
  intro h
  refine ⟨trivial, ?_, fun _ => rfl⟩
  intro r hr
  simp [World.init, Map.find?] at hr

/-- The write and the ghost event of `callResult` before a subscribe callback runs. -/
theorem PreviousInv.deliver {w : World} (hinv : PreviousInv w) (h : SubscribeHandle)
    (r : SubscriptionInfo) (value : JValue)
    (hrec : Map.find? w.service.subscriptionInfos h = some r) :
    PreviousInv
      { w with
        service := { w.service with
          subscriptionInfos := Map.insert w.service.subscriptionInfos h
            { r with counter := r.counter + 1, previousValue := value } },
        trace := w.trace ++ [Event.subscribeCallback h r.previousValue value] } := by
  intro h'
  obtain ⟨h1, h2, h3⟩ := hinv h'
  by_cases heq : h = h'
  · subst heq
    have hr := h2 r hrec
    simp only [callbackArgs_append, callbackArgs, if_true, chained_append, lastValue_append,
      Map.find?_insert]
    refine ⟨⟨h1, hr.1⟩, ?_, ?_⟩
    · intro r' hr'
      cases hr'
      exact ⟨rfl, hr.2⟩
    · intro hge
      exact absurd hr.2 (not_lt.2 hge)
  · simp only [callbackArgs_append, callbackArgs, heq, if_false, List.append_nil,
      Map.find?_insert]
    exact ⟨h1, h2, h3⟩

theorem keepsTop_cancelSubscribe (info : SubscribeHandle) :
    Keeps topFrame (LunaService.cancelSubscribe info) :=
  Keeps.apiToTop (keeps_cancelSubscribe info)

theorem Keeps.topToPrevious {α : Type} {m : M α} (h : Keeps topFrame m) :
    Keeps (invFrame PreviousInv) m :=
  Keeps.mono (fun _ _ hr hinv => PreviousInv.of_topRel hinv hr) h

theorem keepsPrevious_swapPreviousValue (info : SubscribeHandle) (value : JValue) :
    Keeps (invFrame PreviousInv) (LunaService.swapPreviousValue info value) := by
  constructor
  intro w hinv
  unfold LunaService.swapPreviousValue
  simp only [M.bind_run, derefSubscription]
  rcases hrec : Map.find? w.service.subscriptionInfos info with _ | r
  · exact hinv
  · simp only [M.bind_run, updateSubscription, hrec, emit, M.modify, M.pure_run]
    exact hinv.deliver info r value hrec

/-- The invariant behind I5 is kept by `callResult`. -/
theorem keepsPrevious_callResult (beh : PluginBehaviour) (info : SubscribeHandle)
    (message : Message) :
    Keeps (invFrame PreviousInv) (LunaService.callResult beh info message) := by
  unfold LunaService.callResult
  repeat (first
    | exact Keeps.pure _
    | exact Keeps.derefSubscription _
    | exact keepsPrevious_swapPreviousValue _ _
    | exact Keeps.topToPrevious (keepsTop_cancelSubscribe _)
    | exact Keeps.topToPrevious (keepsTop_emit _ rfl)
    | exact Keeps.topToPrevious (keepsTop_invokeLunaCallback _ _ _ _)
    | exact Keeps.topToPrevious (keepsTop_invokeSubscribeCallback _ _ _ _ _)
    | exact Keeps.topToPrevious (Keeps.mgrToTop (keepsMgr_processUnload _))
    | apply Keeps.bind
    | intro _
    | split
    | dsimp only)

theorem keepsPrevious_handle (beh : PluginBehaviour) (s : Stimulus) :
    Keeps (invFrame PreviousInv) (s.handle beh) := by
  cases s with
  | startMonitor plugins => exact Keeps.topToPrevious (keepsTop_startMonitor plugins)
  | reply info message =>
      unfold Stimulus.handle LunaService.callResultHandler
      repeat (first
        | exact Keeps.pure _ | exact Keeps.get
        | exact Keeps.derefSubscription _
        | exact keepsPrevious_callResult _ _ _
        | apply Keeps.bind
        | intro _
        | split)
  | timeout adapter timeoutId =>
      unfold Stimulus.handle
      exact Keeps.bind (Keeps.topToPrevious (keepsTop_timeoutCallback _ _ _))
        (fun _ => Keeps.pure _)
  | request category method payload =>
      unfold Stimulus.handle
      exact Keeps.bind (Keeps.topToPrevious (keepsTop_methodHandler _ _ _ _))
        (fun _ => Keeps.pure _)

theorem runAll_previousInv (stimuli : List (PluginBehaviour × Stimulus)) (w : World)
    (hinv : PreviousInv w) : PreviousInv (runAll stimuli w) := by
  induction stimuli generalizing w with
  | nil => exact hinv
  | cons s rest ih =>
      obtain ⟨beh, s⟩ := s
      exact ih _ ((keepsPrevious_handle beh s).run w hinv)

/-- C8 (invariant I5): in every world reached from the start of the process by any
sequence of events (replies for any record, timers, method requests, with any plugin
code), the invocations of the subscribe callback of every record are chained: the
`previous` argument of the first one is the null value and the `previous` argument of
each later one is the `value` argument of the one before.  And a reply that does not
parse, is not an object or fails the schema of the record invokes nothing and leaves the
world, with the record and its stored previous value, as it was. -/
theorem previous_is_last_value :
    (∀ (servicePath : String) (bus : List BusOutcome)
      (stimuli : List (PluginBehaviour × Stimulus)) (h : SubscribeHandle),
      Chained JValue.null (callbackArgs h (runAll stimuli (World.init servicePath bus)).trace)) ∧
    (∀ (beh : PluginBehaviour) (w : World) (info : SubscribeHandle) (reply : JValue),
      LunaService.dropsReply w info reply →
      (LunaService.callResultHandler beh info (Message.payload reply)).exec w = w) := by
  constructor
  · intro servicePath bus stimuli h
    exact (runAll_previousInv stimuli _ (PreviousInv.init servicePath bus) h).1
  · intro beh w info reply hdrop
    unfold M.exec LunaService.callResultHandler LunaService.callResult
    simp only [M.bind_run, derefSubscription]
    rcases hrec : Map.find? w.service.subscriptionInfos info with _ | r
    · rfl
    simp only [M.bind_run, M.get]
    split
    · simp only [M.bind_run, derefSubscription, hrec]
      have hvalue : JDomParser.fromString reply JSchema.AllSchema = reply ∨
          (JDomParser.fromString reply JSchema.AllSchema).isValid = false := by
        cases reply <;> simp [JDomParser.fromString, JSchema.AllSchema, JValue.isValid]
      split
      · rfl
      · split
        · rfl
        · split
          · rfl
          · rename_i h1 h2 h3
            exfalso
            rcases hvalue with hv | hv
            · rw [hv] at h2 h3
              rcases hdrop with hd | hd
              · simp [hd] at h2
              · simp [hd r hrec] at h3
            · simp [hv] at h1
    · rfl

theorem previous_is_last_value_witness :
    callbackArgs 1 (runAll demoStimuli (World.init "com.webos.service.eventmonitor" [])).trace
        = [(JValue.null, demoLocaleReply "en"), (demoLocaleReply "en", demoLocaleReply "fr")] ∧
      Chained JValue.null
        (callbackArgs 1
          (runAll demoStimuli (World.init "com.webos.service.eventmonitor" [])).trace) ∧
      (Map.find? demoWorldLocale.service.subscriptionInfos 1).isSome = true ∧
      LunaService.dropsReply demoWorldLocale 1 (JValue.str "x") ∧
      (LunaService.callResultHandler demoBehaviour 1
        (Message.payload (JValue.str "x"))).exec demoWorldLocale = demoWorldLocale :=
  ⟨by rfl, previous_is_last_value.1 _ _ _ _, by rfl, Or.inl rfl,
    previous_is_last_value.2 _ _ _ _ (Or.inl rfl)⟩

end EventMonitor

/-! ## The method table (C9, C10) -/

namespace EventMonitor

theorem LunaService.findMethod_storeMethod (s : LunaService) (category name : String)
    (info : MethodInfo) (category' name' : String) :
    (s.storeMethod category name info).findMethod category' name' =
      if category = category' ∧ name = name' then some info
      else s.findMethod category' name' := by
  unfold LunaService.findMethod LunaService.storeMethod
  simp only [Map.find?_insert]
  by_cases hc : category = category'
  · subst hc
    by_cases hn : name = name'
    · simp [hn, Map.find?_insert]
    · simp only [if_true, hn, and_false, if_false, Map.find?_insert]
      cases Map.find? s.categoryMethods category <;> simp [Map.find?]
  · simp [hc]

/-- What `LunaService::registerMethod` does when it does not throw. -/
theorem LunaService.registerMethod_accepted (plugin : AdapterPtr) (category name : String)
    (handler : Option PluginCallback) (schema : JSchema) (w : World)
    (hown : ∀ i, w.service.findMethod category name = some i →
      i.plugin = none ∨ i.plugin = some plugin) :
    ∃ url, (∀ i, w.service.findMethod category name = some i → url = i.url) ∧
      (w.service.findMethod category name = none →
        url = "luna://" ++ w.service.servicePath ++ category ++ "/" ++ name) ∧
      ∃ w', LunaService.registerMethod (some plugin) category name handler schema w =
          (Except.ok { plugin := some plugin, handler := handler, schema := schema, url := url },
            w') ∧
        w'.service.servicePath = w.service.servicePath ∧
        ∀ c n, w'.service.findMethod c n =
          if category = c ∧ name = n then
            some { plugin := some plugin, handler := handler, schema := schema, url := url }
          else w.service.findMethod c n := by
  unfold LunaService.registerMethod
  rcases hf : w.service.findMethod category name with _ | i
  · refine ⟨_, fun i h => by simp at h, fun _ => rfl, ?_⟩
    simp [M.bind_run, M.get, hf, emit, M.modify, updateService,
      LunaService.findMethod_storeMethod]
    rfl
  · refine ⟨i.url, fun j h => by cases h; rfl, fun h => by simp at h, ?_⟩
    have hcond : ¬ (i.plugin.isSome = true ∧ ¬ i.plugin = some plugin) := by
      rcases hown i hf with h | h <;> simp [h]
    simp [M.bind_run, M.get, hf, hcond, M.modify, updateService,
      LunaService.findMethod_storeMethod]
    rfl


/-- C9 (invariant I3): when the record of `(category, name)` is owned by the adapter `A`,
`LunaService::registerMethod` called for the same key on behalf of anyone but `A` fails
with an `Error` and leaves the whole world, the method table with it, as it was; and no
call of `registerMethod`, failed or not, takes a key away from the adapter that owns it. -/
theorem registerMethod_cross_plugin (w : World) (category name : String) (A : AdapterPtr)
    (info : MethodInfo) (hinfo : w.service.findMethod category name = some info)
    (hA : info.plugin = some A) :
    (∀ (B : Option AdapterPtr) (handler : Option PluginCallback) (schema : JSchema),
      B ≠ some A →
      (∃ what, (LunaService.registerMethod B category name handler schema).result w =
        Except.error (Err.error what)) ∧
      (LunaService.registerMethod B category name handler schema).exec w = w) ∧
    (∀ (B : Option AdapterPtr) (category' name' : String) (handler : Option PluginCallback)
      (schema : JSchema),
      ((LunaService.registerMethod B category' name' handler schema).exec w).service.owner
        category name = some A) := by
  have hown : w.service.owner category name = some A := by
    simp [LunaService.owner, hinfo, hA]
  constructor
  · intro B handler schema hB
    unfold M.result M.exec LunaService.registerMethod
    cases B with
    | none => simp [M.raise]
    | some b =>
        have hne : ¬ A = b := fun h => hB (by rw [h])
        simp [M.bind_run, M.get, hinfo, hA, hne, M.raise]
  · intro B category' name' handler schema
    unfold M.exec LunaService.registerMethod
    cases B with
    | none => simpa [M.raise] using hown
    | some b =>
        simp only [Option.isNone_some, Bool.false_eq_true, if_false, M.bind_run, M.get]
        rcases hf : w.service.findMethod category' name' with _ | i
        · have hkey : ¬ (category' = category ∧ name' = name) := by
            rintro ⟨h1, h2⟩
            subst h1 h2
            rw [hinfo] at hf
            cases hf
          simp [M.bind_run, emit, M.modify, updateService, LunaService.owner,
            LunaService.findMethod_storeMethod, hkey, hinfo, hA]
        · by_cases hcond : (i.plugin.isSome && i.plugin != some b) = true
          · simpa [hcond, M.raise] using hown
          · by_cases hkey : category' = category ∧ name' = name
            · obtain ⟨h1, h2⟩ := hkey
              subst h1 h2
              rw [hinfo] at hf
              cases hf
              have hb : A = b := by
                by_contra hne
                exact hcond (by simp [hA, hne])
              simp [hcond, M.bind_run, M.modify, updateService, LunaService.owner,
                LunaService.findMethod_storeMethod, hb]
            · simp [hcond, M.bind_run, M.modify, updateService, LunaService.owner,
                LunaService.findMethod_storeMethod, hkey, hinfo, hA]

/-- C9 at a concrete table: `/demo/status` is owned by the adapter at address 1, and the
adapter at address 2 is refused. -/
theorem registerMethod_cross_plugin_witness :
    demoWorldM.service.findMethod "/demo" "status" = some demoMethod ∧
    demoMethod.plugin = some 1 ∧
    (LunaService.registerMethod (some 2) "/demo" "status" (some 9) JSchema.AllSchema).exec
      demoWorldM = demoWorldM :=
  ⟨rfl, rfl,
    ((registerMethod_cross_plugin demoWorldM "/demo" "status" 1 demoMethod rfl rfl).1
      (some 2) (some 9) JSchema.AllSchema (by decide)).2⟩


/-- C10: `PluginAdapter::registerMethod` fails with an `Error`, the world untouched, when
the name is empty or the category is empty or does not start with `/`.  Otherwise, when
no other adapter owns the key, it returns the address
`"luna://" + servicePath + category + "/" + name` and stores the handler and the schema
under the adapter; and a second registration by the same adapter returns the same
address and replaces the stored handler and schema. -/
theorem registerMethod_adapter (self : AdapterPtr) (w : World) (category name : String)
    (handler : Option PluginCallback) (schema : JSchema) :
    ((name.length = 0 ∨ category.length = 0 ∨ category.get 0 ≠ '/') →
      (∃ what, (PluginAdapter.registerMethod self category name handler schema).result w =
        Except.error (Err.error what)) ∧
      (PluginAdapter.registerMethod self category name handler schema).exec w = w) ∧
    (name.length ≠ 0 → category.length ≠ 0 → category.get 0 = '/' →
      w.service.UrlsOK →
      (∀ i, w.service.findMethod category name = some i →
        i.plugin = none ∨ i.plugin = some self) →
      (PluginAdapter.registerMethod self category name handler schema).result w =
        Except.ok ("luna://" ++ w.service.servicePath ++ category ++ "/" ++ name) ∧
      ((PluginAdapter.registerMethod self category name handler schema).exec
          w).service.findMethod category name =
        some { plugin := some self, handler := handler, schema := schema,
               url := "luna://" ++ w.service.servicePath ++ category ++ "/" ++ name } ∧
      ((PluginAdapter.registerMethod self category name handler schema).exec
          w).service.UrlsOK ∧
      ∀ (handler' : Option PluginCallback) (schema' : JSchema),
        (PluginAdapter.registerMethod self category name handler' schema').result
          ((PluginAdapter.registerMethod self category name handler schema).exec w) =
          Except.ok ("luna://" ++ w.service.servicePath ++ category ++ "/" ++ name) ∧
        ((PluginAdapter.registerMethod self category name handler' schema').exec
          ((PluginAdapter.registerMethod self category name handler schema).exec
            w)).service.findMethod category name =
          some { plugin := some self, handler := handler', schema := schema',
                 url := "luna://" ++ w.service.servicePath ++ category ++ "/" ++ name }) := by
  constructor
  · intro hbad
    unfold M.result M.exec PluginAdapter.registerMethod
    by_cases hn : name.length = 0
    · simp [hn, M.raise]
    · rcases hbad with h | h | h
      · exact absurd h hn
      · simp [hn, h, M.raise]
      · simp [hn, h, M.raise]
  · intro hn hc hslash hurls hown
    obtain ⟨url, hurl1, hurl2, w1, hrun, hpath, hfind⟩ :=
      LunaService.registerMethod_accepted self category name handler schema w hown
    have hurl : url = "luna://" ++ w.service.servicePath ++ category ++ "/" ++ name := by
      rcases hf : w.service.findMethod category name with _ | i
      · exact hurl2 hf
      · rw [hurl1 i hf]
        exact hurls category name i hf
    subst hurl
    have hstep : PluginAdapter.registerMethod self category name handler schema w =
        (Except.ok ("luna://" ++ w.service.servicePath ++ category ++ "/" ++ name), w1) := by
      unfold PluginAdapter.registerMethod
      simp [hn, hc, hslash, M.bind_run, hrun]
    have hurls1 : w1.service.UrlsOK := by
      intro c n i hi
      rw [hfind] at hi
      rw [hpath]
      split at hi
      · rename_i hk
        obtain ⟨h1, h2⟩ := hk
        subst h1 h2
        cases hi
        rfl
      · exact hurls c n i hi
    have hfind1 := hfind category name
    simp only [and_self, if_true] at hfind1
    simp only [M.result, M.exec, hstep]
    refine ⟨trivial, hfind1, hurls1, ?_⟩
    intro handler' schema'
    obtain ⟨url2, hurl3, -, w2, hrun2, -, hfind2⟩ :=
      LunaService.registerMethod_accepted self category name handler' schema' w1
        (fun i hi => by
          rw [hfind1] at hi
          cases hi
          exact Or.inr rfl)
    have hurl2' := hurl3 _ hfind1
    simp only at hurl2'
    subst hurl2'
    have hstep2 : PluginAdapter.registerMethod self category name handler' schema' w1 =
        (Except.ok ("luna://" ++ w.service.servicePath ++ category ++ "/" ++ name), w2) := by
      unfold PluginAdapter.registerMethod
      simp [hn, hc, hslash, M.bind_run, hrun2]
    rw [hstep2]
    have hfind3 := hfind2 category name
    simp only [and_self, if_true] at hfind3
    exact ⟨rfl, hfind3⟩

/-- C10 at a concrete adapter: in the world `demoWorldA`, whose method table is empty, the
adapter at address 1 registers `/demo/status` and gets the public address. -/
theorem registerMethod_adapter_witness :
    "status".length ≠ 0 ∧ "/demo".length ≠ 0 ∧ "/demo".get 0 = '/' ∧
    (PluginAdapter.registerMethod 1 "/demo" "status" (some 7) JSchema.AllSchema).result
      demoWorldA =
      Except.ok ("luna://" ++ demoWorldA.service.servicePath ++ "/demo" ++ "/" ++ "status") :=
  ⟨by decide, by decide, by decide,
    ((registerMethod_adapter 1 demoWorldA "/demo" "status" (some 7) JSchema.AllSchema).2
      (by decide) (by decide) (by decide)
      (fun c n i h => by simp [demoWorldA, LunaService.findMethod, Map.find?] at h)
      (fun i h => by simp [demoWorldA, LunaService.findMethod, Map.find?] at h)).1⟩

end EventMonitor
namespace EventMonitor

/-! ## Counting events: what records none of the selected events -/

theorem Keeps.apiToTrace {strict : Bool} {p : Event → Bool} (hp : Event.Inner p) {α : Type}
    {m : M α} (h : Keeps (apiFrame strict) m) : Keeps (traceFrame p) m := by
  refine Keeps.mono (fun w w' hr => ?_) h
  show w'.trace.filter p = w.trace.filter p
  rw [← filter_lifecycle p hp.busOp w'.trace, ← filter_lifecycle p hp.busOp w.trace,
    hr.core.events]

theorem keepsTrace_emit (p : Event → Bool) (e : Event) (he : p e = false) :
    Keeps (traceFrame p) (emit e) := by
  refine Keeps.modify fun w => ?_
  show (w.trace ++ [e]).filter p = w.trace.filter p
  simp [List.filter_append, he]

theorem keepsTrace_silent (p : Event → Bool) (f : World → World)
    (hf : ∀ w, (f w).trace = w.trace) : Keeps (traceFrame p) (M.modify f) := by
  refine Keeps.modify fun w => ?_
  show (f w).trace.filter p = w.trace.filter p
  rw [hf]

theorem keepsTrace_delete {p : Event → Bool} (hp : Event.Inner p) (self : AdapterPtr) :
    Keeps (traceFrame p) (PluginAdapter.delete self) := by
  unfold PluginAdapter.delete
  repeat (first
    | exact Keeps.pure _
    | exact Keeps.derefAdapter _
    | exact keepsTrace_emit _ _ (hp.deletePlugin _)
    | exact keepsTrace_silent _ _ (fun _ => rfl)
    | apply Keeps.bind
    | intro _
    | split
    | dsimp only)

theorem keepsTrace_loader_unloadPlugin {p : Event → Bool} (hp : Event.Inner p)
    (info : PluginInfo) : Keeps (traceFrame p) (PluginLoader.unloadPlugin info) := by
  unfold PluginLoader.unloadPlugin
  repeat (first
    | exact Keeps.pure _ | exact Keeps.get
    | exact keepsTrace_emit _ _ (hp.dlclose _)
    | exact keepsTrace_silent _ _ (fun _ => rfl)
    | apply Keeps.bind
    | intro _
    | split
    | dsimp only)

theorem keepsTrace_processUnload {p : Event → Bool} (hp : Event.Inner p)
    (adapter : AdapterPtr) : Keeps (traceFrame p) (PluginManager.processUnload adapter) := by
  unfold PluginManager.processUnload
  repeat (first
    | exact Keeps.pure _ | exact Keeps.raise _ | exact Keeps.get
    | exact Keeps.derefAdapter _
    | exact Keeps.apiToTrace hp (keeps_unloadPlugin _)
    | exact keepsTrace_delete hp _
    | exact keepsTrace_loader_unloadPlugin hp _
    | exact keepsTrace_silent _ _ (fun _ => rfl)
    | apply Keeps.bind
    | intro _
    | split
    | dsimp only)

theorem Event.inner_isRespond : Event.Inner Event.isRespond :=
  ⟨fun e he => by cases e <;> simp_all [Event.isRespond, Event.isBusOp], fun _ => rfl,
    fun _ => rfl⟩

theorem Event.inner_isLunaCallHandler : Event.Inner Event.isLunaCallHandler :=
  ⟨fun e he => by cases e <;> simp_all [Event.isLunaCallHandler, Event.isBusOp], fun _ => rfl,
    fun _ => rfl⟩

/-- The tail of `methodHandler` after the response is sent records nothing selected. -/
theorem methodHandler_tail {p : Event → Bool} (hp : Event.Inner p)
    (categoryName methodName : String) :
    Keeps (traceFrame p) (do
      let w' ← M.get
      match (LunaService.findMethod w'.service categoryName methodName).bind
          (fun m => m.plugin) with
      | none => M.raise (Err.fault "null PluginAdapter dereferenced")
      | some adapter =>
          PluginManager.processUnload adapter
          pure true) := by
  repeat (first
    | exact Keeps.pure _ | exact Keeps.raise _ | exact Keeps.get
    | exact keepsTrace_processUnload hp _
    | apply Keeps.bind
    | intro _
    | split
    | dsimp only)

/-- C11: `LunaService::methodHandler` answers a request for a method without a record,
owner or handler with the one response `{returnValue: false, errorCode: 1, errorMessage:
"Method removed."}` and calls no handler; it answers a request whose payload does not
pass the schema of the method with the one response `{returnValue: false, errorCode: 2,
errorMessage: "Failed to validate request against schema"}` and calls no handler;
otherwise it calls the handler once, on the parsed payload.  When the handler returns, the
one response is the value the handler returned.  When the handler does not return
(it throws), `methodHandler` ends with the handler's exception and no response is sent to
the request. -/
theorem methodHandler_responds (beh : PluginBehaviour) (categoryName methodName : String)
    (payload : JValue) (w : World) :
    (w.service.noHandler categoryName methodName →
      (LunaService.methodHandler beh categoryName methodName payload).result w =
        Except.ok true ∧
      responses ((LunaService.methodHandler beh categoryName methodName payload).exec w).trace =
        responses w.trace ++ [Event.respond (JValue.obj [("returnValue", JValue.bool false),
          ("errorCode", JValue.num 1), ("errorMessage", JValue.str "Method removed.")])] ∧
      handlerCalls ((LunaService.methodHandler beh categoryName methodName payload).exec
        w).trace = handlerCalls w.trace) ∧
    (∀ method owner handler, w.service.findMethod categoryName methodName = some method →
      method.plugin = some owner → method.handler = some handler →
      ((JDomParser.fromString payload method.schema).isValid = false →
        (LunaService.methodHandler beh categoryName methodName payload).result w =
          Except.ok true ∧
        responses ((LunaService.methodHandler beh categoryName methodName payload).exec
          w).trace = responses w.trace ++ [Event.respond (JValue.obj
            [("returnValue", JValue.bool false), ("errorCode", JValue.num 2),
              ("errorMessage", JValue.str "Failed to validate request against schema")])] ∧
        handlerCalls ((LunaService.methodHandler beh categoryName methodName payload).exec
          w).trace = handlerCalls w.trace) ∧
      ((JDomParser.fromString payload method.schema).isValid = true →
        handlerCalls ((LunaService.methodHandler beh categoryName methodName payload).exec
          w).trace = handlerCalls w.trace ++ [Event.lunaCallHandler categoryName methodName
            (JDomParser.fromString payload method.schema)] ∧
        (∀ result, (PluginAdapter.runPlugin owner (beh.lunaCallHandler handler
            (JDomParser.fromString payload method.schema))).result
            { w with trace := w.trace ++ [Event.lunaCallHandler categoryName methodName
              (JDomParser.fromString payload method.schema)] } = Except.ok result →
          responses ((LunaService.methodHandler beh categoryName methodName payload).exec
            w).trace = responses w.trace ++ [Event.respond result]) ∧
        ∀ e, (PluginAdapter.runPlugin owner (beh.lunaCallHandler handler
            (JDomParser.fromString payload method.schema))).result
            { w with trace := w.trace ++ [Event.lunaCallHandler categoryName methodName
              (JDomParser.fromString payload method.schema)] } = Except.error e →
          (LunaService.methodHandler beh categoryName methodName payload).result w =
            Except.error e ∧
          responses ((LunaService.methodHandler beh categoryName methodName payload).exec
            w).trace = responses w.trace)) := by
  refine ⟨?_, ?_⟩
  · intro hno
    unfold LunaService.noHandler at hno
    unfold M.result M.exec LunaService.methodHandler LunaService.methodRemoved
    simp only [M.bind_run, M.get]
    rcases hf : LunaService.findMethod w.service categoryName methodName with _ | method
    · simp [emit, M.modify, M.bind_run, responses, handlerCalls, List.filter_append,
        Event.isRespond, Event.isLunaCallHandler]
    · rw [hf] at hno
      simp only at hno
      rcases hno with hno | hno
      · simp [hno, emit, M.modify, M.bind_run, responses, handlerCalls, List.filter_append,
          Event.isRespond, Event.isLunaCallHandler]
      · rcases hpl : method.plugin with _ | owner
        · simp [hpl, hno, emit, M.modify, M.bind_run, responses, handlerCalls,
            List.filter_append, Event.isRespond, Event.isLunaCallHandler]
        · simp [hpl, hno, emit, M.modify, M.bind_run, responses, handlerCalls,
            List.filter_append, Event.isRespond, Event.isLunaCallHandler]
  · intro method owner handler hf hpl hh
    refine ⟨?_, ?_⟩
    · intro hv
      unfold M.result M.exec LunaService.methodHandler LunaService.validationFailed
      simp [M.bind_run, M.get, hf, hpl, hh, hv, emit, M.modify, responses, handlerCalls,
        List.filter_append, Event.isRespond, Event.isLunaCallHandler]
    · intro hv
      have hv' : (!(JDomParser.fromString payload method.schema).isValid) = false := by
        rw [hv]; rfl
      unfold M.result M.exec LunaService.methodHandler
      simp only [M.bind_run, M.get, hf, hpl, hh, hv', Bool.false_eq_true, if_false, emit,
        M.modify]
      rcases hr : PluginAdapter.runPlugin owner (beh.lunaCallHandler handler
          (JDomParser.fromString payload method.schema))
          { w with trace := w.trace ++ [Event.lunaCallHandler categoryName methodName
            (JDomParser.fromString payload method.schema)] } with ⟨res, v⟩
      have hk1 := (Keeps.apiToTrace Event.inner_isRespond
        (keeps_runPlugin_any owner _)).of_run hr
      have hk2 := (Keeps.apiToTrace Event.inner_isLunaCallHandler
        (keeps_runPlugin_any owner _)).of_run hr
      have ht1 := (methodHandler_tail Event.inner_isRespond categoryName methodName).run
      have ht2 := (methodHandler_tail Event.inner_isLunaCallHandler categoryName
        methodName).run
      simp only [traceFrame, M.bind_run, M.get] at hk1 hk2 ht1 ht2
      cases res with
      | error e =>
          simp only
          refine ⟨?_, fun result h => (by cases h), fun e' h => ?_⟩
          · unfold handlerCalls
            rw [hk2]
            simp [List.filter_append, Event.isLunaCallHandler]
          · cases h
            refine ⟨rfl, ?_⟩
            unfold responses
            rw [hk1]
            simp [List.filter_append, Event.isRespond]
      | ok r =>
          simp only
          refine ⟨?_, ?_, fun e h => by cases h⟩
          · unfold handlerCalls
            refine Eq.trans (ht2 { v with trace := v.trace ++ [Event.respond r] }) ?_
            rw [List.filter_append, hk2]
            simp [List.filter_append, Event.isLunaCallHandler]
          · intro result h
            cases h
            unfold responses
            refine Eq.trans (ht1 { v with trace := v.trace ++ [Event.respond r] }) ?_
            rw [List.filter_append, hk1]
            simp [List.filter_append, Event.isRespond]

theorem methodHandler_responds_witness :
    responses ((LunaService.methodHandler demoBehaviour "/demo" "nope"
        (JValue.obj [])).exec demoWorldM).trace =
        [Event.respond (JValue.obj [("returnValue", JValue.bool false),
          ("errorCode", JValue.num 1), ("errorMessage", JValue.str "Method removed.")])] ∧
      responses ((LunaService.methodHandler demoBehaviour "/demo" "status"
        JValue.invalid).exec demoWorldM).trace =
        [Event.respond (JValue.obj [("returnValue", JValue.bool false),
          ("errorCode", JValue.num 2),
          ("errorMessage", JValue.str "Failed to validate request against schema")])] ∧
      responses ((LunaService.methodHandler demoBehaviour "/demo" "status"
        (JValue.obj [])).exec demoWorldM).trace = [Event.respond JValue.null] ∧
      (LunaService.methodHandler demoBehaviourThrowing "/demo" "status"
        (JValue.obj [])).result demoWorldM = Except.error Err.pluginException ∧
      responses ((LunaService.methodHandler demoBehaviourThrowing "/demo" "status"
        (JValue.obj [])).exec demoWorldM).trace = [] :=
  ⟨((methodHandler_responds demoBehaviour "/demo" "nope" (JValue.obj []) demoWorldM).1
      (show True from trivial)).2.1,
    (((methodHandler_responds demoBehaviour "/demo" "status" JValue.invalid demoWorldM).2
      demoMethod 1 7 rfl rfl rfl).1 rfl).2.1,
    ((((methodHandler_responds demoBehaviour "/demo" "status" (JValue.obj []) demoWorldM).2
      demoMethod 1 7 rfl rfl rfl).2 rfl).2.1) JValue.null rfl,
    ((((methodHandler_responds demoBehaviourThrowing "/demo" "status" (JValue.obj [])
      demoWorldM).2 demoMethod 1 7 rfl rfl rfl).2 rfl).2.2 Err.pluginException rfl).1,
    ((((methodHandler_responds demoBehaviourThrowing "/demo" "status" (JValue.obj [])
      demoWorldM).2 demoMethod 1 7 rfl rfl rfl).2 rfl).2.2 Err.pluginException rfl).2⟩

end EventMonitor
namespace EventMonitor

/-! ## Invariant I4: `unloadPlugin` releases what the plugin holds -/

theorem keepsAdapters_nextBusOutcome : Keeps (keptFrame fun w => w.adapters) nextBusOutcome := by
  constructor
  intro w
  unfold nextBusOutcome
  split <;> rfl

theorem keepsService_nextBusOutcome : Keeps (keptFrame fun w => w.service) nextBusOutcome := by
  constructor
  intro w
  unfold nextBusOutcome
  split <;> rfl

theorem keepsAdapters_call (serviceUrl : String) (params : JValue) (timeout : Nat) :
    Keeps (keptFrame fun w => w.adapters) (LunaService.call serviceUrl params timeout) := by
  unfold LunaService.call
  repeat (first
    | exact Keeps.pure _ | exact Keeps.raise _
    | exact keepsAdapters_nextBusOutcome
    | exact keepsService_nextBusOutcome
    | exact Keeps.modify fun _ => rfl
    | apply Keeps.bind
    | intro _
    | split
    | dsimp only [emit])

theorem keepsService_call (serviceUrl : String) (params : JValue) (timeout : Nat) :
    Keeps (keptFrame fun w => w.service) (LunaService.call serviceUrl params timeout) := by
  unfold LunaService.call
  repeat (first
    | exact Keeps.pure _ | exact Keeps.raise _
    | exact keepsAdapters_nextBusOutcome
    | exact keepsService_nextBusOutcome
    | exact Keeps.modify fun _ => rfl
    | apply Keeps.bind
    | intro _
    | split
    | dsimp only [emit])

theorem keepsService_updateAdapter (a : AdapterPtr) (f : PluginAdapter → PluginAdapter) :
    Keeps (keptFrame fun w => w.service) (updateAdapter a f) := by
  constructor
  intro w
  unfold updateAdapter
  split <;> rfl

theorem keepsService_closeAlerts (self : AdapterPtr) (fuel : Nat) :
    Keeps (keptFrame fun w => w.service) (PluginAdapter.closeAlerts self fuel) := by
  induction fuel with
  | zero => exact Keeps.pure _
  | succ n ih =>
      unfold PluginAdapter.closeAlerts PluginAdapter.closeAlert
      repeat (first
        | exact Keeps.pure _ | exact Keeps.raise _
        | exact ih
        | exact Keeps.derefAdapter _
        | exact keepsService_call _ _ _
        | exact keepsService_updateAdapter _ _
        | apply Keeps.bind
        | intro _
        | split
        | dsimp only)

theorem keepsService_cancelTimeouts (self : AdapterPtr) (fuel : Nat) :
    Keeps (keptFrame fun w => w.service) (PluginAdapter.cancelTimeouts self fuel) := by
  induction fuel with
  | zero => exact Keeps.pure _
  | succ n ih =>
      unfold PluginAdapter.cancelTimeouts PluginAdapter.cancelTimeout
      repeat (first
        | exact Keeps.pure _ | exact Keeps.raise _
        | exact ih
        | exact Keeps.derefAdapter _
        | exact keepsService_updateAdapter _ _
        | exact Keeps.modify fun _ => rfl
        | apply Keeps.bind
        | intro _
        | split
        | dsimp only [emit])

theorem Map.length_erase_le {κ : Type} [DecidableEq κ] {V : Type} (m : List (κ × V)) (k : κ) :
    (Map.erase m k).length ≤ m.length := by
  induction m with
  | nil => exact Nat.le_refl _
  | cons e rest ih =>
      obtain ⟨k0, v0⟩ := e
      by_cases h : k0 = k
      · simp only [Map.erase, h, if_true, List.length_cons]
        exact Nat.le_succ_of_le ih
      · simp only [Map.erase, h, if_false, List.length_cons]
        exact Nat.succ_le_succ ih

/-- The first loop of `cleanupPlugin`, when it returns: what is left of the keys it went
through is not owned by the plugin, and nothing was added or written. -/
theorem cleanupSubscriptions_spec (plugin : Option AdapterPtr) (keys : List SubscribeHandle)
    (w w' : World)
    (hrun : LunaService.cleanupSubscriptions plugin keys w = (Except.ok (), w')) :
    (∀ h, h ∈ w'.service.subscriptions → h ∈ w.service.subscriptions) ∧
      (∀ h r, Map.find? w'.service.subscriptionInfos h = some r →
        Map.find? w.service.subscriptionInfos h = some r) ∧
      (∀ h ∈ keys, h ∈ w'.service.subscriptions → ∀ r,
        Map.find? w'.service.subscriptionInfos h = some r → r.plugin ≠ plugin) ∧
      w'.service.categoryMethods = w.service.categoryMethods ∧ w'.adapters = w.adapters := by
  induction keys generalizing w with
  | nil =>
      simp only [LunaService.cleanupSubscriptions, M.pure_run, Prod.mk.injEq, true_and] at hrun
      subst hrun
      exact ⟨fun _ h => h, fun _ _ h => h, fun _ h => absurd h (List.not_mem_nil _), rfl, rfl⟩
  | cons key rest ih =>
      unfold LunaService.cleanupSubscriptions at hrun
      simp only [M.bind_run, derefSubscription] at hrun
      rcases hk : Map.find? w.service.subscriptionInfos key with _ | info
      · rw [hk] at hrun
        cases hrun
      · rw [hk] at hrun
        simp only at hrun
        by_cases hp : info.plugin = plugin
        · simp only [hp, if_true, M.bind_run, emit, M.modify, deleteSubscription, hk,
            updateService] at hrun
          obtain ⟨h1, h2, h3, h4, h5⟩ := ih _ hrun
          simp only at h1 h2 h3 h4 h5
          refine ⟨?_, ?_, ?_, h4, h5⟩
          · intro h hh
            exact ((Map.mem_eraseKey _ _ _).mp (h1 h hh)).1
          · intro h r hr
            have := h2 h r hr
            rw [Map.find?_erase] at this
            split at this
            · cases this
            · exact this
          · intro h hmem hh r hr
            rcases List.mem_cons.mp hmem with hmem | hmem
            · subst hmem
              exact absurd rfl ((Map.mem_eraseKey _ _ _).mp (h1 h hh)).2
            · exact h3 h hmem hh r hr
        · simp only [hp, if_false, M.pure_run] at hrun
          obtain ⟨h1, h2, h3, h4, h5⟩ := ih _ hrun
          refine ⟨h1, h2, ?_, h4, h5⟩
          intro h hmem hh r hr
          rcases List.mem_cons.mp hmem with hmem | hmem
          · subst hmem
            have := h2 h r hr
            rw [hk] at this
            cases this
            exact hp
          · exact h3 h hmem hh r hr

/-- The loop that closes the alerts, when it returns with enough fuel, leaves no alert. -/
theorem closeAlerts_empties (self : AdapterPtr) (fuel : Nat) (w w' : World) (x : PluginAdapter)
    (hx : Map.find? w.adapters self = some x) (hfuel : x.alerts.length ≤ fuel)
    (hrun : PluginAdapter.closeAlerts self fuel w = (Except.ok (), w')) :
    ∃ y, Map.find? w'.adapters self = some y ∧ y.alerts = [] ∧ y.timeouts = x.timeouts ∧
      y.plugin = x.plugin := by
  induction fuel generalizing w x with
  | zero =>
      simp only [PluginAdapter.closeAlerts, M.pure_run, Prod.mk.injEq, true_and] at hrun
      subst hrun
      exact ⟨x, hx, List.length_eq_zero.mp (Nat.le_zero.mp hfuel), rfl, rfl⟩
  | succ n ih =>
      unfold PluginAdapter.closeAlerts at hrun
      simp only [M.bind_run, derefAdapter, hx] at hrun
      rcases ha : x.alerts with _ | ⟨first, rest⟩
      · simp only [ha, M.pure_run, Prod.mk.injEq, true_and] at hrun
        subst hrun
        exact ⟨x, hx, ha, rfl, rfl⟩
      · obtain ⟨k, v⟩ := first
        simp only [ha] at hrun
        unfold PluginAdapter.closeAlert at hrun
        simp only [M.bind_run, derefAdapter, hx, ha, Map.find?, if_true, updateAdapter] at hrun
        split at hrun
        · rename_i b w2 hc
          split at hc
          · rename_i c w3 hcall
            simp only [M.pure_run, Prod.mk.injEq] at hc
            obtain ⟨-, hw⟩ := hc
            subst hw
            have had : w3.adapters = _ := (keepsAdapters_call _ _ _).of_run hcall
            simp only at had
            obtain ⟨y, hy, h1, h2, h3⟩ := ih w3
              { x with alerts := Map.erase ((k, v) :: rest) k }
              (by rw [had]; simp only [Map.find?_insert, if_true])
              (by
                have h4 := Map.length_erase_le rest k
                rw [ha] at hfuel
                simp only [Map.erase, if_true, List.length_cons] at hfuel ⊢
                omega) hrun
            exact ⟨y, hy, h1, h2, h3⟩
          · cases hc
        · cases hrun

/-- The loop that cancels the timers, when it returns with enough fuel, leaves no
timer. -/
theorem cancelTimeouts_empties (self : AdapterPtr) (fuel : Nat) (w w' : World)
    (x : PluginAdapter) (hx : Map.find? w.adapters self = some x)
    (hfuel : x.timeouts.length ≤ fuel)
    (hrun : PluginAdapter.cancelTimeouts self fuel w = (Except.ok (), w')) :
    ∃ y, Map.find? w'.adapters self = some y ∧ y.timeouts = [] ∧ y.alerts = x.alerts ∧
      y.plugin = x.plugin := by
  induction fuel generalizing w x with
  | zero =>
      simp only [PluginAdapter.cancelTimeouts, M.pure_run, Prod.mk.injEq, true_and] at hrun
      subst hrun
      exact ⟨x, hx, List.length_eq_zero.mp (Nat.le_zero.mp hfuel), rfl, rfl⟩
  | succ n ih =>
      unfold PluginAdapter.cancelTimeouts at hrun
      simp only [M.bind_run, derefAdapter, hx] at hrun
      rcases ha : x.timeouts with _ | ⟨first, rest⟩
      · simp only [ha, M.pure_run, Prod.mk.injEq, true_and] at hrun
        subst hrun
        exact ⟨x, hx, ha, rfl, rfl⟩
      · obtain ⟨k, v⟩ := first
        simp only [ha] at hrun
        unfold PluginAdapter.cancelTimeout at hrun
        simp only [M.bind_run, derefAdapter, hx, ha, Map.find?, if_true, updateAdapter, emit,
          M.modify, M.pure_run] at hrun
        obtain ⟨y, hy, h1, h2, h3⟩ := ih _
          { x with timeouts := Map.erase ((k, v) :: rest) k }
          (by simp only [Map.find?_insert, if_true])
          (by
            have h4 := Map.length_erase_le rest k
            rw [ha] at hfuel
            simp only [Map.erase, if_true, List.length_cons] at hfuel ⊢
            omega) hrun
        exact ⟨y, hy, h1, h2, h3⟩

theorem Map.find?_map_values {κ : Type} [DecidableEq κ] {V U : Type} (f : V → U)
    (m : List (κ × V)) (k : κ) :
    Map.find? (m.map fun e => (e.1, f e.2)) k = (Map.find? m k).map f := by
  induction m with
  | nil => rfl
  | cons e rest ih =>
      obtain ⟨k0, v0⟩ := e
      by_cases h : k0 = k
      · subst h
        simp [Map.find?]
      · simp [Map.find?, h, ih]

/-- The second loop of `cleanupPlugin` on one key of the method table. -/
theorem findMethod_cleanupMethods (plugin : Option AdapterPtr) (s : LunaService)
    (category name : String) :
    (LunaService.cleanupMethods plugin s).findMethod category name =
      (s.findMethod category name).map (LunaService.cleanupMethod plugin) := by
  have h1 : Map.find? (LunaService.cleanupMethods plugin s).categoryMethods category =
      (Map.find? s.categoryMethods category).map (fun (methods : List (String × MethodInfo)) =>
        methods.map fun (m : String × MethodInfo) =>
          (m.1, LunaService.cleanupMethod plugin m.2)) := by
    unfold LunaService.cleanupMethods
    exact Map.find?_map_values _ _ _
  unfold LunaService.findMethod
  rw [h1]
  rcases Map.find? s.categoryMethods category with _ | methods
  · rfl
  · simp only [Option.map_some']
    exact Map.find?_map_values (LunaService.cleanupMethod plugin) methods name

/-- What `PluginAdapter::unloadPlugin` leaves behind when it returns. -/
theorem unloadPlugin_effect (self : AdapterPtr) (w : World) (x : PluginAdapter)
    (hx : Map.find? w.adapters self = some x) (hp : x.plugin.isSome = true)
    (w' : World) (hrun : PluginAdapter.unloadPlugin self w = (Except.ok (), w')) :
    (∃ y, Map.find? w'.adapters self = some y ∧
        y.needUnload = true ∧ y.timeouts = [] ∧ y.alerts = []) ∧
      w'.service.NoSubscriptionOf self ∧
      (∀ category name,
        w'.service.owner category name ≠ some self) ∧
      (∀ category name, w.service.owner category name = some self →
        w'.service.noHandler category name) := by
  unfold PluginAdapter.unloadPlugin at hrun
  have hp' : x.plugin.isNone = false := by
    cases h : x.plugin with
    | none => rw [h] at hp; cases hp
    | some _ => rfl
  simp only [M.bind_run, derefAdapter, hx, hp', Bool.false_eq_true, if_false] at hrun
  split at hrun
  · rename_i u1 w1 hclean
    unfold LunaService.cleanupPlugin at hclean
    simp only [M.bind_run, M.get] at hclean
    split at hclean
    · rename_i u0 w0 hsubs
      simp only [updateService, M.modify, Prod.mk.injEq, true_and] at hclean
      obtain ⟨s1, s2, s3, -, s5⟩ := cleanupSubscriptions_spec _ _ _ _ hsubs
      split at hrun
      · rename_i u2 w2 halerts
        have hsv2 : w2.service = w1.service := (keepsService_closeAlerts _ _).of_run halerts
        obtain ⟨y2, hy2, ha2, ht2, hp2⟩ := closeAlerts_empties self _ w1 w2 x
          (by rw [← hclean]; simp only; rw [s5]; exact hx) (Nat.le_refl _) halerts
        split at hrun
        · rename_i u3 w3 htimers
          have hsv3 : w3.service = w2.service :=
            (keepsService_cancelTimeouts _ _).of_run htimers
          obtain ⟨y3, hy3, ht3, ha3, hp3⟩ := cancelTimeouts_empties self _ w2 w3 y2 hy2
            (by rw [ht2]) htimers
          have hsv' : w'.service = w3.service := (keepsService_updateAdapter _ _).of_run hrun
          have hsv : w'.service = LunaService.cleanupMethods (some self) w0.service := by
            rw [hsv', hsv3, hsv2, ← hclean]
          unfold updateAdapter at hrun
          rw [hy3] at hrun
          simp only [Prod.mk.injEq, true_and] at hrun
          refine ⟨⟨{ y3 with needUnload := true },
            by rw [← hrun]; simp only [Map.find?_insert, if_true], rfl, ht3,
            by show y3.alerts = []; rw [ha3, ha2]⟩, ?_, ?_, ?_⟩
          · intro h hh r hr
            rw [hsv] at hh hr
            exact s3 h (s1 h hh) hh r hr
          · intro category name
            rw [hsv]
            unfold LunaService.owner
            rw [findMethod_cleanupMethods]
            rcases LunaService.findMethod w0.service category name with _ | m
            · simp
            · simp only [Option.map_some', Option.some_bind, LunaService.cleanupMethod]
              split
              · simp
              · rename_i hne
                exact hne
          · intro category name hown
            rw [hsv]
            unfold LunaService.noHandler
            rw [findMethod_cleanupMethods]
            unfold LunaService.owner at hown
            have hw0 : w0.service.categoryMethods = w.service.categoryMethods := by
              obtain ⟨-, -, -, s4, -⟩ := cleanupSubscriptions_spec _ _ _ _ hsubs
              exact s4
            have hfm : LunaService.findMethod w0.service category name =
                LunaService.findMethod w.service category name := by
              unfold LunaService.findMethod
              rw [hw0]
            rw [hfm]
            rcases hm : LunaService.findMethod w.service category name with _ | m
            · trivial
            · rw [hm] at hown
              simp only [Option.some_bind] at hown
              simp only [Option.map_some', LunaService.cleanupMethod, hown, if_true]
              exact Or.inl trivial
        · cases hrun
      · cases hrun
    · cases hclean
  · cases hrun

/-- C12 (invariant I4): for an adapter with a plugin object, when
`PluginAdapter::unloadPlugin` returns, `needUnload` is set, the timer map and the alert
map of the adapter are empty, no subscription record in the gateway's set is owned by the
adapter, and no method record has the adapter as owner: a method it owned has no owner
and no handler left, which is the case that `methodHandler` answers with "Method
removed.". -/
theorem unloadPlugin_releases (self : AdapterPtr) (w : World) (x : PluginAdapter)
    (hx : Map.find? w.adapters self = some x) (hp : x.plugin.isSome = true)
    (hret : (PluginAdapter.unloadPlugin self).result w = Except.ok ()) :
    (∃ y, Map.find? ((PluginAdapter.unloadPlugin self).exec w).adapters self = some y ∧
        y.needUnload = true ∧ y.timeouts = [] ∧ y.alerts = []) ∧
      ((PluginAdapter.unloadPlugin self).exec w).service.NoSubscriptionOf self ∧
      (∀ category name,
        ((PluginAdapter.unloadPlugin self).exec w).service.owner category name ≠ some self) ∧
      (∀ category name, w.service.owner category name = some self →
        ((PluginAdapter.unloadPlugin self).exec w).service.noHandler category name) := by
  rcases hrun : PluginAdapter.unloadPlugin self w with ⟨res, w'⟩
  simp only [M.result, M.exec, hrun] at hret ⊢
  subst hret
  exact unloadPlugin_effect self w x hx hp w' hrun

theorem unloadPlugin_releases_witness :
    (∃ y, Map.find? ((PluginAdapter.unloadPlugin 1).exec demoWorldBusy).adapters 1 = some y ∧
        y.needUnload = true ∧ y.timeouts = [] ∧ y.alerts = []) ∧
      ((PluginAdapter.unloadPlugin 1).exec demoWorldBusy).service.NoSubscriptionOf 1 ∧
      ((PluginAdapter.unloadPlugin 1).exec demoWorldBusy).service.subscriptions = [2] ∧
      demoWorldBusy.service.owner "/demo" "status" = some 1 ∧
      ((PluginAdapter.unloadPlugin 1).exec demoWorldBusy).service.noHandler "/demo" "status" :=
  ⟨(unloadPlugin_releases 1 demoWorldBusy demoAdapterBusy rfl rfl rfl).1,
    (unloadPlugin_releases 1 demoWorldBusy demoAdapterBusy rfl rfl rfl).2.1, rfl, rfl,
    (unloadPlugin_releases 1 demoWorldBusy demoAdapterBusy rfl rfl rfl).2.2.2 "/demo" "status"
      rfl⟩

end EventMonitor
namespace EventMonitor

/-! ## Scenario S4: unload from inside a subscription callback -/

theorem Map.nodup_eraseKey {κ : Type} [DecidableEq κ] (l : List κ) (k : κ) (h : l.Nodup) :
    (Map.eraseKey l k).Nodup := by
  induction l with
  | nil => exact List.nodup_nil
  | cons a rest ih =>
      have h1 := List.nodup_cons.mp h
      by_cases hk : a = k
      · simp only [Map.eraseKey, hk, if_true]
        exact ih h1.2
      · simp only [Map.eraseKey, hk, if_false]
        refine List.nodup_cons.mpr ⟨?_, ih h1.2⟩
        intro hmem
        exact h1.1 ((Map.mem_eraseKey _ _ _).mp hmem).1

/-- On a sound subscription set the first loop of `cleanupPlugin` returns, over any keys
without repetition that are all live, and leaves the set sound. -/
theorem cleanupSubscriptions_total (plugin : Option AdapterPtr) (keys : List SubscribeHandle)
    (w : World) (hnd : keys.Nodup)
    (hlive : ∀ h ∈ keys, (Map.find? w.service.subscriptionInfos h).isSome = true)
    (hs : w.service.Sound) :
    ∃ w', LunaService.cleanupSubscriptions plugin keys w = (Except.ok (), w') ∧
      w'.service.Sound ∧ w'.bus = w.bus := by
  induction keys generalizing w with
  | nil => exact ⟨w, rfl, hs, rfl⟩
  | cons key rest ih =>
      have hn := List.nodup_cons.mp hnd
      unfold LunaService.cleanupSubscriptions
      simp only [M.bind_run, derefSubscription]
      rcases hk : Map.find? w.service.subscriptionInfos key with _ | info
      · have := hlive key (List.mem_cons_self _ _)
        rw [hk] at this
        cases this
      · simp only
        by_cases hp : info.plugin = plugin
        · simp only [hp, if_true, M.bind_run, emit, M.modify, deleteSubscription, hk,
            updateService]
          refine ih _ hn.2 ?_ ?_
          · intro h hh
            have hne : key ≠ h := fun e => hn.1 (e ▸ hh)
            simp only [Map.find?_erase, if_neg hne]
            exact hlive h (List.mem_cons_of_mem _ hh)
          · refine ⟨?_, Map.nodup_eraseKey _ _ hs.nodup, ?_⟩
            · intro h hh
              have h1 := (Map.mem_eraseKey _ _ _).mp hh
              simp only [Map.find?_erase, if_neg (Ne.symm h1.2)]
              exact hs.live h h1.1
            · intro h hh
              exact hs.bound h ((Map.mem_eraseKey _ _ _).mp hh).1
        · simp only [hp, if_false, M.pure_run]
          exact ih w hn.2 (fun h hh => hlive h (List.mem_cons_of_mem _ hh)) hs

/-- With a transport that accepts, `LunaService::call` returns. -/
theorem call_total (serviceUrl : String) (params : JValue) (timeout : Nat) (w : World)
    (hb : BusAccepts w) :
    ∃ v w', LunaService.call serviceUrl params timeout w = (Except.ok v, w') ∧
      BusAccepts w' ∧ w'.service = w.service ∧ w'.adapters = w.adapters := by
  unfold LunaService.call
  simp only [M.bind_run, emit, M.modify, nextBusOutcome]
  rcases hbus : w.bus with _ | ⟨o, rest⟩
  · simp only [M.pure_run]
    refine ⟨_, _, rfl, ?_, rfl, rfl⟩
    intro o ho
    exact absurd ho (List.not_mem_nil o)
  · have ho := hb o (by rw [hbus]; exact List.mem_cons_self _ _)
    have hrest : ∀ o' ∈ rest, o'.isLSError = false := fun o' h' =>
      hb o' (by rw [hbus]; exact List.mem_cons_of_mem _ h')
    cases o with
    | lsError => cases ho
    | noReply => exact ⟨_, _, rfl, hrest, rfl, rfl⟩
    | reply payload => exact ⟨_, _, rfl, hrest, rfl, rfl⟩

/-- With a transport that accepts, the loop that closes the alerts returns. -/
theorem closeAlerts_total (self : AdapterPtr) (fuel : Nat) (w : World) (x : PluginAdapter)
    (hx : Map.find? w.adapters self = some x) (hb : BusAccepts w) :
    ∃ w', PluginAdapter.closeAlerts self fuel w = (Except.ok (), w') ∧ BusAccepts w' ∧
      w'.service = w.service := by
  induction fuel generalizing w x with
  | zero => exact ⟨w, rfl, hb, rfl⟩
  | succ n ih =>
      unfold PluginAdapter.closeAlerts
      simp only [M.bind_run, derefAdapter, hx]
      rcases ha : x.alerts with _ | ⟨first, rest⟩
      · exact ⟨w, rfl, hb, rfl⟩
      · obtain ⟨k, v⟩ := first
        simp only
        unfold PluginAdapter.closeAlert
        simp only [M.bind_run, derefAdapter, hx, ha, Map.find?, if_true, updateAdapter]
        obtain ⟨c, w2, hcall, hb2, hs2, ha2⟩ := call_total
          "luna://com.webos.notification/closeAlert"
          (JValue.obj [("alertId", JValue.str v)]) 1000
          { w with
            adapters :=
              Map.insert w.adapters self { x with alerts := Map.erase ((k, v) :: rest) k } }
          hb
        rw [hcall]
        simp only [M.pure_run]
        obtain ⟨w', h1, h2, h3⟩ := ih w2 { x with alerts := Map.erase ((k, v) :: rest) k }
          (by rw [ha2]; simp only [Map.find?_insert, if_true]) hb2
        exact ⟨w', h1, h2, h3.trans hs2⟩

/-- The loop that cancels the timers returns. -/
theorem cancelTimeouts_total (self : AdapterPtr) (fuel : Nat) (w : World) (x : PluginAdapter)
    (hx : Map.find? w.adapters self = some x) :
    ∃ w', PluginAdapter.cancelTimeouts self fuel w = (Except.ok (), w') ∧ w'.bus = w.bus ∧
      w'.service = w.service := by
  induction fuel generalizing w x with
  | zero => exact ⟨w, rfl, rfl, rfl⟩
  | succ n ih =>
      unfold PluginAdapter.cancelTimeouts
      simp only [M.bind_run, derefAdapter, hx]
      rcases ha : x.timeouts with _ | ⟨first, rest⟩
      · exact ⟨w, rfl, rfl, rfl⟩
      · obtain ⟨k, v⟩ := first
        simp only
        unfold PluginAdapter.cancelTimeout
        simp only [M.bind_run, derefAdapter, hx, ha, Map.find?, if_true, updateAdapter, emit,
          M.modify, M.pure_run]
        obtain ⟨w', h1, h2, h3⟩ := ih
          { w with
            adapters :=
              Map.insert w.adapters self { x with timeouts := Map.erase ((k, v) :: rest) k },
            trace := w.trace ++ [Event.sourceRemove v.handle] }
          { x with timeouts := Map.erase ((k, v) :: rest) k }
          (by simp only [Map.find?_insert, if_true])
        exact ⟨w', h1, h2, h3⟩

/-- On a sound subscription set and with a transport that accepts,
`PluginAdapter::unloadPlugin` on a live adapter returns. -/
theorem unloadPlugin_total (self : AdapterPtr) (w : World) (x : PluginAdapter)
    (hx : Map.find? w.adapters self = some x) (hs : w.service.Sound) (hb : BusAccepts w) :
    ∃ w', PluginAdapter.unloadPlugin self w = (Except.ok (), w') ∧ w'.service.Sound ∧
      BusAccepts w' := by
  unfold PluginAdapter.unloadPlugin
  simp only [M.bind_run, derefAdapter, hx]
  by_cases hp : x.plugin.isNone = true
  · simp only [hp, if_true, M.pure_run]
    exact ⟨w, rfl, hs, hb⟩
  · have hp' : x.plugin.isNone = false := by
      cases h : x.plugin.isNone with
      | false => rfl
      | true => exact absurd h hp
    simp only [hp', Bool.false_eq_true, if_false]
    unfold LunaService.cleanupPlugin
    simp only [M.bind_run, M.get]
    obtain ⟨w0, h0, hs0, hb0⟩ := cleanupSubscriptions_total (some self) w.service.subscriptions
      w hs.nodup hs.live hs
    obtain ⟨-, -, -, -, had0⟩ := cleanupSubscriptions_spec _ _ _ _ h0
    rw [h0]
    simp only [updateService, M.modify]
    obtain ⟨w2, h2, hb2, hs2⟩ := closeAlerts_total self x.alerts.length
      { w0 with service := LunaService.cleanupMethods (some self) w0.service } x
      (by simp only; rw [had0]; exact hx) (fun o ho => hb o (by rw [← hb0]; exact ho))
    rw [h2]
    simp only
    have hk2 : ApiRel false _ w2 := (keeps_closeAlerts self _).of_run h2
    have hx2 := hk2.core.adapters self
    simp only [had0, hx, Option.map_some'] at hx2
    rcases hy2 : Map.find? w2.adapters self with _ | y2
    · rw [hy2] at hx2
      simp at hx2
    obtain ⟨w3, h3, hb3, hs3⟩ := cancelTimeouts_total self x.timeouts.length w2 y2 hy2
    rw [h3]
    simp only
    have hk3 : ApiRel false _ w3 := (keeps_cancelTimeouts self _).of_run h3
    have hx3 := hk3.core.adapters self
    rw [hy2] at hx3
    rcases hy3 : Map.find? w3.adapters self with _ | y3
    · rw [hy3] at hx3
      simp at hx3
    unfold updateAdapter
    rw [hy3]
    refine ⟨_, rfl, ?_, ?_⟩
    · show w3.service.Sound
      rw [hs3, hs2]
      exact ⟨hs0.live, hs0.nodup, hs0.bound⟩
    · intro o ho
      exact hb2 o (by rw [← hb3]; exact ho)


theorem keepsService_delete (self : AdapterPtr) :
    Keeps (keptFrame fun w => w.service) (PluginAdapter.delete self) := by
  unfold PluginAdapter.delete
  repeat (first
    | exact Keeps.pure _
    | exact Keeps.derefAdapter _
    | exact Keeps.modify fun _ => rfl
    | apply Keeps.bind
    | intro _
    | split
    | dsimp only [emit])

theorem keepsService_loader_unloadPlugin (info : PluginInfo) :
    Keeps (keptFrame fun w => w.service) (PluginLoader.unloadPlugin info) := by
  unfold PluginLoader.unloadPlugin
  repeat (first
    | exact Keeps.pure _ | exact Keeps.get
    | exact Keeps.modify fun _ => rfl
    | apply Keeps.bind
    | intro _
    | split
    | dsimp only [emit])

/-- On a sound subscription set and with a transport that accepts,
`PluginManager::processUnload` on a live adapter that is to be unloaded returns, and the
gateway is left without a subscription of the adapter. -/
theorem processUnload_total (a : AdapterPtr) (w : World) (x : PluginAdapter)
    (hx : Map.find? w.adapters a = some x) (hn : x.needUnload = true)
    (hp : x.plugin.isSome = true) (hs : w.service.Sound) (hb : BusAccepts w) :
    ∃ w', PluginManager.processUnload a w = (Except.ok (), w') ∧ w'.service.Sound ∧
      w'.service.NoSubscriptionOf a ∧ BusAccepts w' := by
  unfold PluginManager.processUnload
  simp only [M.bind_run, derefAdapter, hx, hn, Bool.not_true, Bool.false_eq_true, if_false,
    M.modify]
  obtain ⟨w2, h2, hs2, hb2⟩ := unloadPlugin_total a
    { w with manager := { w.manager with
        activePlugins := Map.erase w.manager.activePlugins x.info.path } } x hx hs hb
  obtain ⟨-, hno, -, -⟩ := unloadPlugin_effect a _ x (by exact hx) hp w2 h2
  have hk : ApiRel false _ w2 := (keeps_unloadPlugin a).of_run h2
  have hx2 := hk.core.adapters a
  simp only [hx, Option.map_some'] at hx2
  rcases hy2 : Map.find? w2.adapters a with _ | y2
  · rw [hy2] at hx2
    simp at hx2
  rw [h2]
  simp only
  rcases hd : PluginAdapter.delete a w2 with ⟨r3, w3⟩
  have hs3 : w3.service = w2.service := (keepsService_delete a).of_run hd
  have hb3 : w3.bus = w2.bus := by
    unfold PluginAdapter.delete at hd
    simp only [M.bind_run, derefAdapter, hy2, emit, M.modify] at hd
    split at hd <;> cases hd <;> rfl
  have hr3 : r3 = Except.ok () := by
    unfold PluginAdapter.delete at hd
    simp only [M.bind_run, derefAdapter, hy2, emit, M.modify] at hd
    split at hd <;> cases hd <;> rfl
  subst hr3
  simp only
  rcases hl : PluginLoader.unloadPlugin x.info w3 with ⟨r4, w4⟩
  have hs4 : w4.service = w3.service := (keepsService_loader_unloadPlugin _).of_run hl
  unfold PluginLoader.unloadPlugin at hl
  simp only [M.bind_run, M.get, emit, M.modify] at hl
  have hfin : r4 = Except.ok () ∧ w4.bus = w3.bus := by
    split at hl <;> cases hl <;> exact ⟨rfl, rfl⟩
  obtain ⟨hr4, hb4⟩ := hfin
  subst hr4
  refine ⟨w4, rfl, ?_, ?_, ?_⟩
  · rw [hs4, hs3]
    exact hs2
  · rw [hs4, hs3]
    exact hno
  · intro o ho
    rw [hb4, hb3] at ho
    exact hb2 o ho

theorem demoWorldBusy_sound : demoWorldBusy.service.Sound :=
  ⟨by decide, by decide, by decide⟩

/-- A later reply on the subscription of scenario S4, evaluated: in the world that the
first reply leaves behind (the callback has unloaded the plugin, the record at address 1
is deleted and its key is out of the set), `callResultHandler` on the same handle does not
take its early return: it reads the deleted record. -/
theorem scenario_later_reply_faults :
    (LunaService.callResultHandler demoBehaviourUnload 1
        (Message.payload (JValue.obj []))).result demoWorldBusy = Except.ok true ∧
      1 ∉ ((LunaService.callResultHandler demoBehaviourUnload 1
        (Message.payload (JValue.obj []))).exec demoWorldBusy).service.subscriptions ∧
      Map.find? ((LunaService.callResultHandler demoBehaviourUnload 1
        (Message.payload (JValue.obj []))).exec demoWorldBusy).service.subscriptionInfos 1 =
        none ∧
      (LunaService.callResultHandler demoBehaviourUnload 1
        (Message.payload (JValue.obj []))).result
        ((LunaService.callResultHandler demoBehaviourUnload 1
          (Message.payload (JValue.obj []))).exec demoWorldBusy) =
        Except.error (Err.fault "SubscriptionInfo used after delete") :=
  ⟨rfl, by decide, rfl, rfl⟩

end EventMonitor
namespace EventMonitor

/-! ## Exceptions of plugin code in the wrapped entry points -/

theorem isNone_of_isSome {α : Type} (o : Option α) (h : o.isSome = true) :
    o.isNone = false := by
  cases o with
  | none => cases h
  | some p => rfl

/-- The caller's `processUnload` after an entry point has left the adapter to be
unloaded: it returns, and the adapter is out of the active map and deleted. -/
theorem reap_after (self : AdapterPtr) (y : PluginAdapter) (v : World)
    (hy : Map.find? v.adapters self = some y) (hyn : y.needUnload = true)
    (hp : y.plugin.isSome = true) (hs : v.service.Sound) (hb : BusAccepts v) :
    ∃ v', PluginManager.processUnload self v = (Except.ok (), v') ∧
      Map.find? v'.manager.activePlugins y.info.path = none ∧
      Map.find? v'.adapters self = none := by
  obtain ⟨v', h1, -, -, -⟩ := processUnload_total self v y hy hyn hp hs hb
  obtain ⟨ha, -, hgone, -, -⟩ := processUnload_reaps self v y hy hyn hp v' h1
  refine ⟨v', h1, ?_, hgone⟩
  rw [ha]
  simp only [Map.find?_erase, if_true]

theorem caught_of_guarded {α : Type} (m : M α) (self : AdapterPtr) (x : PluginAdapter)
    (w v : World) (r : α) (y : PluginAdapter)
    (hm : m w = (Except.ok r, v)) (hy : Map.find? v.adapters self = some y)
    (hyn : y.needUnload = true) (hp : y.plugin.isSome = true) (hi : y.info = x.info)
    (hs : v.service.Sound) (hb : BusAccepts v) :
    CaughtThenReaped m self x.info.path w := by
  obtain ⟨v', h1, h2, h3⟩ := reap_after self y v hy hyn hp hs hb
  rw [hi] at h2
  exact ⟨r, v, hm, ⟨y, hy, hyn⟩, v', h1, h2, h3⟩

/-- The adapter behind which plugin code has run is live afterwards, with its descriptor
and its plugin object. -/
theorem adapter_after_run (self : AdapterPtr) {R : Type} (code : PluginCode R) (c v : World)
    (r : Except Err R) (x : PluginAdapter)
    (hrun : PluginAdapter.runPlugin self code c = (r, v))
    (hx : Map.find? c.adapters self = some x) :
    ∃ y, Map.find? v.adapters self = some y ∧ y.info = x.info ∧ y.plugin = x.plugin := by
  have hk : ApiRel false c v := (keeps_runPlugin_any self code).of_run hrun
  have hc := hk.core.adapters self
  simp only [hx, Option.map_some'] at hc
  rcases hy : Map.find? v.adapters self with _ | y
  · rw [hy] at hc
    simp at hc
  rw [hy] at hc
  simp only [Option.map_some', Option.some.injEq, PluginAdapter.core, Prod.mk.injEq] at hc
  exact ⟨y, rfl, hc.1, hc.2.1⟩

/-- The first loop of `cleanupPlugin` over keys of which one points to a deleted record:
the loop reads the deleted record. -/
theorem cleanupSubscriptions_dangling (plugin : Option AdapterPtr)
    (keys : List SubscribeHandle) (w : World)
    (h : ∃ k ∈ keys, Map.find? w.service.subscriptionInfos k = none) :
    ∃ w', LunaService.cleanupSubscriptions plugin keys w =
        (Except.error (Err.fault "SubscriptionInfo used after delete"), w') ∧
      w'.adapters = w.adapters := by
  induction keys generalizing w with
  | nil =>
      obtain ⟨k, hk, -⟩ := h
      exact absurd hk (List.not_mem_nil k)
  | cons key rest ih =>
      unfold LunaService.cleanupSubscriptions
      simp only [M.bind_run, derefSubscription]
      rcases hk : Map.find? w.service.subscriptionInfos key with _ | info
      · exact ⟨w, rfl, rfl⟩
      · obtain ⟨k, hmem, hdead⟩ := h
        have hne : key ≠ k := by
          intro e
          rw [e] at hk
          rw [hk] at hdead
          cases hdead
        have hrest : k ∈ rest := by
          rcases List.mem_cons.mp hmem with h1 | h1
          · exact absurd h1.symm hne
          · exact h1
        simp only
        by_cases hp : info.plugin = plugin
        · simp only [hp, if_true, M.bind_run, emit, M.modify, deleteSubscription, hk,
            updateService]
          obtain ⟨w', h1, h2⟩ := ih
            { w with
              service := { w.service with
                subscriptions := Map.eraseKey w.service.subscriptions key,
                subscriptionInfos := Map.erase w.service.subscriptionInfos key },
              trace := w.trace ++ [Event.callCancel key] }
            ⟨k, hrest, by simp only [Map.find?_erase, if_neg hne]; exact hdead⟩
          exact ⟨w', h1, h2⟩
        · simp only [hp, if_false, M.pure_run]
          exact ih w ⟨k, hrest, hdead⟩

/-- The method `PluginAdapter::unloadPlugin` on a subscription set with a dangling key. -/
theorem unloadPlugin_dangling (self : AdapterPtr) (v : World) (x : PluginAdapter)
    (hx : Map.find? v.adapters self = some x) (hp : x.plugin.isSome = true)
    (hd : v.service.Dangling) :
    ∃ v', PluginAdapter.unloadPlugin self v =
        (Except.error (Err.fault "SubscriptionInfo used after delete"), v') ∧
      v'.adapters = v.adapters := by
  obtain ⟨v', h1, h2⟩ := cleanupSubscriptions_dangling (some self) v.service.subscriptions
    v hd
  refine ⟨v', ?_, h2⟩
  unfold PluginAdapter.unloadPlugin LunaService.cleanupPlugin
  simp only [M.bind_run, derefAdapter, hx, isNone_of_isSome _ hp, Bool.false_eq_true,
    if_false, M.get, h1]

/-- An entry point that comes down to the catch handler `unloadPlugin`, run in the world
`v` that the throwing plugin code has left. -/
theorem caught_of_handler (m : M Unit) (self : AdapterPtr) (x y1 : PluginAdapter)
    (w v : World) (hm : m w = PluginAdapter.unloadPlugin self v)
    (hy1 : Map.find? v.adapters self = some y1) (hp1 : y1.plugin.isSome = true)
    (hi : y1.info = x.info) :
    (v.service.Sound → BusAccepts v → CaughtThenReaped m self x.info.path w) ∧
      HandlerFaults m w v := by
  refine ⟨fun hs hb => ?_, fun hd => ?_⟩
  · obtain ⟨v2, h2, hs2, hb2⟩ := unloadPlugin_total self v y1 hy1 hs hb
    obtain ⟨⟨y, hy, hyn, -, -⟩, -, -, -⟩ := unloadPlugin_effect self v y1 hy1 hp1 v2 h2
    have hk2 : ApiRel false v v2 := (keeps_unloadPlugin self).of_run h2
    have hc2 := hk2.core.adapters self
    simp only [hy1, hy, Option.map_some', Option.some.injEq, PluginAdapter.core,
      Prod.mk.injEq] at hc2
    exact caught_of_guarded m self x w v2 () y (hm.trans h2) hy hyn
      (by rw [hc2.2.1]; exact hp1) (hc2.1.trans hi) hs2 hb2
  · obtain ⟨v', h1, h2⟩ := unloadPlugin_dangling self v y1 hy1 hp1 hd
    unfold M.result M.exec
    rw [hm, h1]
    exact ⟨rfl, h2⟩

theorem tryCatch_handler {α : Type} (m : M α) (h : Err → M α) (c v : World) (e : Err)
    (hrun : m c = (Except.error e, v)) (he : e.isException = true) :
    M.tryCatch m Err.isException h c = h e v := by
  unfold M.tryCatch
  rw [hrun]
  simp only [he, if_true]

theorem callStartMonitoring_handler (beh : PluginBehaviour) (self : AdapterPtr)
    (x : PluginAdapter) (w v : World) (e : Err)
    (hx : Map.find? w.adapters self = some x) (hp : x.plugin.isSome = true)
    (hrun : PluginAdapter.runPlugin self (beh.startMonitoring x.info.path)
      { w with
        adapters := Map.insert w.adapters self { x with unloadNotified := false },
        trace := w.trace ++ [Event.startMonitoring x.info.path] } = (Except.error e, v))
    (he : e.isException = true) :
    PluginAdapter.callStartMonitoring beh self w = PluginAdapter.unloadPlugin self v := by
  have hto : PluginAdapter.callStartMonitoring beh self w =
      M.tryCatch (PluginAdapter.runPlugin self (beh.startMonitoring x.info.path))
        Err.isException (fun _ => PluginAdapter.unloadPlugin self)
        { w with
          adapters := Map.insert w.adapters self { x with unloadNotified := false },
          trace := w.trace ++ [Event.startMonitoring x.info.path] } := by
    unfold PluginAdapter.callStartMonitoring PluginAdapter.derefPlugin
    simp only [M.bind_run, derefAdapter, hx, updateAdapter, emit, M.modify,
      Map.find?_insert, if_true, isNone_of_isSome _ hp, Bool.false_eq_true, if_false,
      M.pure_run]
  rw [hto]
  exact tryCatch_handler _ _ _ _ e hrun he

theorem pluginLoaded_first_handler (beh : PluginBehaviour) (self : AdapterPtr)
    (p : PluginPtr) (x : PluginAdapter) (w v : World) (e : Err)
    (hx : Map.find? w.adapters self = some x)
    (hrun : PluginAdapter.runPlugin self (beh.startMonitoring x.info.path)
      { w with
        adapters := Map.insert
          (Map.insert w.adapters self { x with plugin := some p, unloadNotified := true })
          self { x with plugin := some p, unloadNotified := false },
        trace := w.trace ++ [Event.startMonitoring x.info.path] } = (Except.error e, v))
    (he : e.isException = true) :
    PluginAdapter.pluginLoaded beh self (some p) w = PluginAdapter.unloadPlugin self v := by
  have h := callStartMonitoring_handler beh self
    { x with plugin := some p, unloadNotified := true }
    { w with
      adapters := Map.insert w.adapters self { x with plugin := some p, unloadNotified := true } }
    v e (by simp only [Map.find?_insert, if_true]) rfl hrun he
  unfold PluginAdapter.pluginLoaded
  simp only [M.bind_run, updateAdapter, hx]
  exact h

theorem pluginLoaded_again_handler (beh : PluginBehaviour) (self : AdapterPtr)
    (x : PluginAdapter) (w v : World) (e : Err)
    (hx : Map.find? w.adapters self = some x) (hp : x.plugin.isSome = true)
    (hn : x.unloadNotified = true)
    (hrun : PluginAdapter.runPlugin self (beh.startMonitoring x.info.path)
      { w with
        adapters := Map.insert w.adapters self { x with unloadNotified := false },
        trace := w.trace ++ [Event.startMonitoring x.info.path] } = (Except.error e, v))
    (he : e.isException = true) :
    PluginAdapter.pluginLoaded beh self none w = PluginAdapter.unloadPlugin self v := by
  have h := callStartMonitoring_handler beh self x w v e hx hp hrun he
  unfold PluginAdapter.pluginLoaded
  simp only [M.bind_run, derefAdapter, hx, hn, Bool.not_true, Bool.false_eq_true, if_false]
  exact h

theorem notifyPluginShouldUnload_handler (beh : PluginBehaviour) (self : AdapterPtr)
    (service : String) (x : PluginAdapter) (w v : World) (e : Err)
    (hx : Map.find? w.adapters self = some x) (hp : x.plugin.isSome = true)
    (hrun : PluginAdapter.runPlugin self (beh.stopMonitoring x.info.path service)
      { w with
        adapters := Map.insert w.adapters self { x with unloadNotified := true },
        trace := w.trace ++ [Event.stopMonitoring x.info.path service] } =
      (Except.error e, v))
    (he : e.isException = true) :
    PluginAdapter.notifyPluginShouldUnload beh self service w =
      PluginAdapter.unloadPlugin self v := by
  have hto : PluginAdapter.notifyPluginShouldUnload beh self service w =
      (M.tryCatch (PluginAdapter.runPlugin self (beh.stopMonitoring x.info.path service))
        Err.isException (fun _ => pure UnloadResult.UNLOAD_OK) >>= fun result =>
        if result = UnloadResult.UNLOAD_OK then PluginAdapter.unloadPlugin self else pure ())
        { w with
          adapters := Map.insert w.adapters self { x with unloadNotified := true },
          trace := w.trace ++ [Event.stopMonitoring x.info.path service] } := by
    unfold PluginAdapter.notifyPluginShouldUnload
    simp only [M.bind_run, derefAdapter, hx, isNone_of_isSome _ hp, Bool.false_eq_true,
      if_false, emit, M.modify, updateAdapter]
  rw [hto]
  simp only [M.bind_run, tryCatch_handler _ _ _ _ e hrun he, M.pure_run, if_true]

theorem notifyLocaleChanged_handler (beh : PluginBehaviour) (self : AdapterPtr)
    (locale : String) (x : PluginAdapter) (w v : World) (e : Err)
    (hx : Map.find? w.adapters self = some x) (hp : x.plugin.isSome = true)
    (hrun : PluginAdapter.runPlugin self (beh.uiLocaleChanged x.info.path locale)
      { w with trace := w.trace ++ [Event.uiLocaleChanged x.info.path locale] } =
      (Except.error e, v))
    (he : e.isException = true) :
    PluginAdapter.notifyLocaleChanged beh self locale w =
      PluginAdapter.unloadPlugin self v := by
  have hto : PluginAdapter.notifyLocaleChanged beh self locale w =
      M.tryCatch (PluginAdapter.runPlugin self (beh.uiLocaleChanged x.info.path locale))
        Err.isException (fun _ => PluginAdapter.unloadPlugin self)
        { w with trace := w.trace ++ [Event.uiLocaleChanged x.info.path locale] } := by
    unfold PluginAdapter.notifyLocaleChanged
    simp only [M.bind_run, derefAdapter, hx, isNone_of_isSome _ hp, Bool.false_eq_true,
      if_false, emit, M.modify]
  rw [hto]
  exact tryCatch_handler _ _ _ _ e hrun he

/-- The static method `timeoutCallback` when the callback has thrown and left the world
`v`: what is left to run is the catch handler and `processUnload`. -/
theorem timeoutCallback_handler (beh : PluginBehaviour) (self : AdapterPtr)
    (timeoutId : String) (state : TimeoutState) (x : PluginAdapter) (w v : World) (e : Err)
    (hx : Map.find? w.adapters self = some x)
    (ht : Map.find? x.timeouts timeoutId = some state)
    (hrun : PluginAdapter.runPlugin self (beh.timeoutCallback state.callback timeoutId)
      (if state.repeat_ = true then
        { w with trace := w.trace ++ [Event.timeoutCallback x.info.path timeoutId] }
      else
        { w with
          adapters :=
            Map.insert w.adapters self { x with timeouts := Map.erase x.timeouts timeoutId },
          trace := w.trace ++ [Event.sourceRemove state.handle] ++
            [Event.timeoutCallback x.info.path timeoutId] }) = (Except.error e, v))
    (he : e.isException = true) :
    PluginAdapter.timeoutCallback beh self timeoutId w =
      (PluginAdapter.unloadPlugin self >>= fun _ =>
        PluginManager.processUnload self >>= fun _ => (pure state.repeat_ : M Bool)) v := by
  cases hrep : state.repeat_ with
  | true =>
      rw [hrep] at hrun
      simp only [if_true] at hrun
      unfold PluginAdapter.timeoutCallback
      simp only [M.bind_run, derefAdapter, hx, ht, hrep, Bool.not_true, Bool.false_eq_true,
        if_false, emit, M.modify, M.pure_run, tryCatch_handler _ _ _ _ e hrun he]
  | false =>
      rw [hrep] at hrun
      simp only [Bool.false_eq_true, if_false] at hrun
      unfold PluginAdapter.timeoutCallback PluginAdapter.cancelTimeout
      simp only [M.bind_run, derefAdapter, hx, ht, hrep, Bool.not_false, if_true, emit,
        M.modify, M.pure_run, updateAdapter, tryCatch_handler _ _ _ _ e hrun he]

theorem timeoutCallback_caught (beh : PluginBehaviour) (self : AdapterPtr)
    (timeoutId : String) (state : TimeoutState) (x y1 : PluginAdapter) (w v : World)
    (hm : PluginAdapter.timeoutCallback beh self timeoutId w =
      (PluginAdapter.unloadPlugin self >>= fun _ =>
        PluginManager.processUnload self >>= fun _ => (pure state.repeat_ : M Bool)) v)
    (hy1 : Map.find? v.adapters self = some y1) (hp1 : y1.plugin.isSome = true)
    (hi : y1.info = x.info) :
    (v.service.Sound → BusAccepts v →
      ∃ w', PluginAdapter.timeoutCallback beh self timeoutId w =
          (Except.ok state.repeat_, w') ∧
        Map.find? w'.manager.activePlugins x.info.path = none ∧
        Map.find? w'.adapters self = none) ∧
      HandlerFaults (PluginAdapter.timeoutCallback beh self timeoutId) w v := by
  refine ⟨fun hs hb => ?_, fun hd => ?_⟩
  · obtain ⟨v2, h2, hs2, hb2⟩ := unloadPlugin_total self v y1 hy1 hs hb
    obtain ⟨⟨y, hy, hyn, -, -⟩, -, -, -⟩ := unloadPlugin_effect self v y1 hy1 hp1 v2 h2
    have hk2 : ApiRel false v v2 := (keeps_unloadPlugin self).of_run h2
    have hc2 := hk2.core.adapters self
    simp only [hy1, hy, Option.map_some', Option.some.injEq, PluginAdapter.core,
      Prod.mk.injEq] at hc2
    obtain ⟨v', h1, h3, h4⟩ := reap_after self y v2 hy hyn (by rw [hc2.2.1]; exact hp1)
      hs2 hb2
    rw [hc2.1, hi] at h3
    refine ⟨v', ?_, h3, h4⟩
    rw [hm]
    simp only [M.bind_run, h2, h1, M.pure_run]
  · obtain ⟨v', h1, h2⟩ := unloadPlugin_dangling self v y1 hy1 hp1 hd
    unfold M.result M.exec
    rw [hm]
    simp only [M.bind_run, h1]
    exact ⟨trivial, h2⟩

/-- Claim C14: the wrapped entry points of the adapter when the plugin code throws.  The
plugin code is taken as it runs: in the world in which the entry point calls it, it ends
with an exception `e` and leaves the world `v`.  For `pluginLoaded` (first load and
reload), `notifyPluginShouldUnload`, `notifyLocaleChanged` and `timeoutCallback` (repeating
and one-shot timers): if `v` has a sound subscription set and a transport that accepts the
bus operations of the cleanup, the exception is caught, the adapter is marked
`needUnload`, and `processUnload` (the caller's, or `timeoutCallback`'s own) takes the
adapter out of the active map and deletes it.  If the plugin code has left a dangling key
in the subscription set (a refused `subscribeToSignal`), the `unloadPlugin` of the catch
handler reads the deleted record: the entry point does not return, and the adapter is not
marked. -/
theorem wrapped_entry_points_catch (beh : PluginBehaviour) (self : AdapterPtr)
    (x : PluginAdapter) (w : World) (hx : Map.find? w.adapters self = some x) :
    (∀ p e v,
      PluginAdapter.runPlugin self (beh.startMonitoring x.info.path)
        { w with
          adapters := Map.insert
            (Map.insert w.adapters self { x with plugin := some p, unloadNotified := true })
            self { x with plugin := some p, unloadNotified := false },
          trace := w.trace ++ [Event.startMonitoring x.info.path] } = (Except.error e, v) →
      e.isException = true →
      (v.service.Sound → BusAccepts v →
        CaughtThenReaped (PluginAdapter.pluginLoaded beh self (some p)) self x.info.path w) ∧
      HandlerFaults (PluginAdapter.pluginLoaded beh self (some p)) w v) ∧
    (x.plugin.isSome = true → x.unloadNotified = true → ∀ e v,
      PluginAdapter.runPlugin self (beh.startMonitoring x.info.path)
        { w with
          adapters := Map.insert w.adapters self { x with unloadNotified := false },
          trace := w.trace ++ [Event.startMonitoring x.info.path] } = (Except.error e, v) →
      e.isException = true →
      (v.service.Sound → BusAccepts v →
        CaughtThenReaped (PluginAdapter.pluginLoaded beh self none) self x.info.path w) ∧
      HandlerFaults (PluginAdapter.pluginLoaded beh self none) w v) ∧
    (x.plugin.isSome = true → ∀ service e v,
      PluginAdapter.runPlugin self (beh.stopMonitoring x.info.path service)
        { w with
          adapters := Map.insert w.adapters self { x with unloadNotified := true },
          trace := w.trace ++ [Event.stopMonitoring x.info.path service] } =
        (Except.error e, v) →
      e.isException = true →
      (v.service.Sound → BusAccepts v →
        CaughtThenReaped (PluginAdapter.notifyPluginShouldUnload beh self service) self
          x.info.path w) ∧
      HandlerFaults (PluginAdapter.notifyPluginShouldUnload beh self service) w v) ∧
    (x.plugin.isSome = true → ∀ locale e v,
      PluginAdapter.runPlugin self (beh.uiLocaleChanged x.info.path locale)
        { w with trace := w.trace ++ [Event.uiLocaleChanged x.info.path locale] } =
        (Except.error e, v) →
      e.isException = true →
      (v.service.Sound → BusAccepts v →
        CaughtThenReaped (PluginAdapter.notifyLocaleChanged beh self locale) self
          x.info.path w) ∧
      HandlerFaults (PluginAdapter.notifyLocaleChanged beh self locale) w v) ∧
    (x.plugin.isSome = true → ∀ timeoutId state e v,
      Map.find? x.timeouts timeoutId = some state →
      PluginAdapter.runPlugin self (beh.timeoutCallback state.callback timeoutId)
        (if state.repeat_ = true then
          { w with trace := w.trace ++ [Event.timeoutCallback x.info.path timeoutId] }
        else
          { w with
            adapters :=
              Map.insert w.adapters self
                { x with timeouts := Map.erase x.timeouts timeoutId },
            trace := w.trace ++ [Event.sourceRemove state.handle] ++
              [Event.timeoutCallback x.info.path timeoutId] }) = (Except.error e, v) →
      e.isException = true →
      (v.service.Sound → BusAccepts v →
        ∃ w', PluginAdapter.timeoutCallback beh self timeoutId w =
            (Except.ok state.repeat_, w') ∧
          Map.find? w'.manager.activePlugins x.info.path = none ∧
          Map.find? w'.adapters self = none) ∧
      HandlerFaults (PluginAdapter.timeoutCallback beh self timeoutId) w v) := by
  refine ⟨fun p e v hrun he => ?_, fun hp hn e v hrun he => ?_,
    fun hp service e v hrun he => ?_, fun hp locale e v hrun he => ?_,
    fun hp timeoutId state e v ht hrun he => ?_⟩
  · obtain ⟨y1, hy1, hi, hpl⟩ := adapter_after_run self _ _ v _
      { x with plugin := some p, unloadNotified := false } hrun
      (by simp only [Map.find?_insert, if_true])
    exact caught_of_handler _ self x y1 w v
      (pluginLoaded_first_handler beh self p x w v e hx hrun he) hy1 (by rw [hpl]; rfl) hi
  · obtain ⟨y1, hy1, hi, hpl⟩ := adapter_after_run self _ _ v _
      { x with unloadNotified := false } hrun (by simp only [Map.find?_insert, if_true])
    exact caught_of_handler _ self x y1 w v
      (pluginLoaded_again_handler beh self x w v e hx hp hn hrun he) hy1
      (by rw [hpl]; exact hp) hi
  · obtain ⟨y1, hy1, hi, hpl⟩ := adapter_after_run self _ _ v _
      { x with unloadNotified := true } hrun (by simp only [Map.find?_insert, if_true])
    exact caught_of_handler _ self x y1 w v
      (notifyPluginShouldUnload_handler beh self service x w v e hx hp hrun he) hy1
      (by rw [hpl]; exact hp) hi
  · obtain ⟨y1, hy1, hi, hpl⟩ := adapter_after_run self _ _ v _ x hrun hx
    exact caught_of_handler _ self x y1 w v
      (notifyLocaleChanged_handler beh self locale x w v e hx hp hrun he) hy1
      (by rw [hpl]; exact hp) hi
  · have hm := timeoutCallback_handler beh self timeoutId state x w v e hx ht hrun he
    have hlive : ∃ y1, Map.find? v.adapters self = some y1 ∧ y1.info = x.info ∧
        y1.plugin = x.plugin := by
      cases hrep : state.repeat_ with
      | true =>
          rw [hrep] at hrun
          simp only [if_true] at hrun
          exact adapter_after_run self _ _ v _ x hrun hx
      | false =>
          rw [hrep] at hrun
          simp only [Bool.false_eq_true, if_false] at hrun
          exact adapter_after_run self _ _ v _
            { x with timeouts := Map.erase x.timeouts timeoutId } hrun
            (by simp only [Map.find?_insert, if_true])
    obtain ⟨y1, hy1, hi, hpl⟩ := hlive
    exact timeoutCallback_caught beh self timeoutId state x y1 w v hm hy1
      (by rw [hpl]; exact hp) hi

theorem wrapped_entry_points_catch_witness :
    Map.find? demoWorldBusy.manager.activePlugins "/plugins/demo.so" = some 1 ∧
      CaughtThenReaped (PluginAdapter.pluginLoaded demoBehaviourThrow 1 (some 2)) 1
        "/plugins/demo.so" demoWorldBusy ∧
      CaughtThenReaped (PluginAdapter.notifyPluginShouldUnload demoBehaviourRefused 1 "svcA")
        1 "/plugins/demo.so" demoWorldBusy ∧
      CaughtThenReaped (PluginAdapter.notifyLocaleChanged demoBehaviourRefused 1 "en-US") 1
        "/plugins/demo.so" demoWorldBusy ∧
      (∃ w', PluginAdapter.timeoutCallback demoBehaviourRefused 1 "t" demoWorldBusy =
          (Except.ok true, w') ∧
        Map.find? w'.manager.activePlugins "/plugins/demo.so" = none ∧
        Map.find? w'.adapters 1 = none) ∧
      (PluginAdapter.pluginLoaded demoBehaviourRefused 1 (some 2)).result demoWorldS5 =
        Except.error (Err.fault "SubscriptionInfo used after delete") ∧
      (Map.find? ((PluginAdapter.pluginLoaded demoBehaviourRefused 1 (some 2)).exec
        demoWorldS5).adapters 1).map (fun y => y.needUnload) = some false :=
  have h := wrapped_entry_points_catch demoBehaviourThrow 1 demoAdapterBusy demoWorldBusy rfl
  have g := wrapped_entry_points_catch demoBehaviourRefused 1 demoAdapterBusy demoWorldBusy
    rfl
  have f := wrapped_entry_points_catch demoBehaviourRefused 1 demoAdapterA demoWorldS5 rfl
  have hf := (f.1 2 Err.pluginException
    ((PluginAdapter.runPlugin 1 (demoBehaviourRefused.startMonitoring "/plugins/demo.so")).exec
      { demoWorldS5 with
        adapters := [(1, { demoAdapterA with plugin := some 2 })],
        trace := [Event.startMonitoring "/plugins/demo.so"] })
    rfl rfl).2 ⟨1, by decide, rfl⟩
  ⟨rfl,
    (h.1 2 Err.pluginException _ rfl rfl).1 demoWorldBusy_sound
      (fun o ho => absurd ho (List.not_mem_nil o)),
    (g.2.2.1 rfl "svcA" Err.pluginException _ rfl rfl).1 demoWorldBusy_sound
      (fun o ho => absurd ho (List.not_mem_nil o)),
    (g.2.2.2.1 rfl "en-US" Err.pluginException _ rfl rfl).1 demoWorldBusy_sound
      (fun o ho => absurd ho (List.not_mem_nil o)),
    (g.2.2.2.2 rfl "t" { timeoutId := "t", repeat_ := true, handle := 1, callback := 3 }
      Err.pluginException _ rfl rfl rfl).1 demoWorldBusy_sound
      (fun o ho => absurd ho (List.not_mem_nil o)),
    hf.1, by rw [hf.2]; rfl⟩

end EventMonitor
namespace EventMonitor

/-! ## Exceptions of plugin callbacks in the gateway -/

/-- A subscription callback of a plugin that throws: `callResult` has no handler around
the call, so the exception leaves it, and nothing has marked the adapter. -/
theorem callResult_subscribe_throws (beh : PluginBehaviour) (info : SubscribeHandle)
    (record : SubscriptionInfo) (tag : Nat) (owner : AdapterPtr) (value : JValue) (w : World)
    (hrec : Map.find? w.service.subscriptionInfos info = some record)
    (hsimple : record.simpleCallback = none)
    (hcb : record.subscribeCallback = some (SubscribeCallback.plugin tag))
    (howner : record.plugin = some owner)
    (hvalid : value.isValid = true) (hobj : value.isObject = true)
    (hschema : record.schema.validate value = true)
    (hall : JSchema.AllSchema.validate value = true)
    (hthrow : beh.subscribeCallback tag record.previousValue value = PluginCode.throw) :
    (LunaService.callResult beh info (Message.payload value)).result w =
        Except.error Err.pluginException ∧
      ((LunaService.callResult beh info (Message.payload value)).exec w).adapters =
        w.adapters := by
  unfold M.result M.exec LunaService.callResult
  simp only [M.bind_run, derefSubscription, hrec, JDomParser.fromString, hvalid, hall,
    Bool.and_self, if_true, hobj, hschema, Bool.not_true, Bool.false_eq_true, if_false,
    hsimple, hcb, howner, LunaService.swapPreviousValue, updateSubscription, emit, M.modify,
    M.pure_run, LunaService.invokeSubscribeCallback, hthrow, PluginAdapter.runPlugin,
    M.raise, and_self]

/-- The callback of an asynchronous call that throws: the record is cancelled, then the
exception leaves `callResult`, and nothing has marked the adapter. -/
theorem callResult_simple_throws (beh : PluginBehaviour) (info : SubscribeHandle)
    (record : SubscriptionInfo) (callback : PluginCallback) (owner : AdapterPtr)
    (value : JValue) (w : World)
    (hrec : Map.find? w.service.subscriptionInfos info = some record)
    (hin : info ∈ w.service.subscriptions)
    (hsimple : record.simpleCallback = some callback)
    (howner : record.plugin = some owner)
    (hvalid : value.isValid = true) (hobj : value.isObject = true)
    (hschema : record.schema.validate value = true)
    (hall : JSchema.AllSchema.validate value = true)
    (hthrow : beh.lunaCallback callback value = PluginCode.throw) :
    (LunaService.callResult beh info (Message.payload value)).result w =
        Except.error Err.pluginException ∧
      ((LunaService.callResult beh info (Message.payload value)).exec w).adapters =
        w.adapters := by
  unfold M.result M.exec LunaService.callResult
  simp only [M.bind_run, derefSubscription, hrec, JDomParser.fromString, hvalid, hall,
    Bool.and_self, if_true, hobj, hschema, Bool.not_true, Bool.false_eq_true, if_false,
    hsimple, howner, LunaService.cancelSubscribe, M.get, hin, deleteSubscription,
    updateService, emit, M.modify, M.pure_run, LunaService.invokeLunaCallback, hthrow,
    PluginAdapter.runPlugin, M.raise, and_self]

/-- A method handler of a plugin that throws: the exception leaves `methodHandler`, no
response is sent to the request, and nothing has marked the adapter. -/
theorem methodHandler_throws (beh : PluginBehaviour) (categoryName methodName : String)
    (payload : JValue) (method : MethodInfo) (owner : AdapterPtr) (handler : PluginCallback)
    (w : World)
    (hfind : LunaService.findMethod w.service categoryName methodName = some method)
    (howner : method.plugin = some owner) (hhandler : method.handler = some handler)
    (hvalid : (JDomParser.fromString payload method.schema).isValid = true)
    (hthrow : beh.lunaCallHandler handler (JDomParser.fromString payload method.schema) =
      PluginCode.throw) :
    (LunaService.methodHandler beh categoryName methodName payload).result w =
        Except.error Err.pluginException ∧
      ((LunaService.methodHandler beh categoryName methodName payload).exec w).adapters =
        w.adapters ∧
      responses ((LunaService.methodHandler beh categoryName methodName payload).exec
        w).trace = responses w.trace := by
  unfold M.result M.exec LunaService.methodHandler
  simp only [M.bind_run, M.get, hfind, howner, hhandler, hvalid, Bool.not_true,
    Bool.false_eq_true, if_false, emit, M.modify, M.pure_run, hthrow,
    PluginAdapter.runPlugin, M.raise, true_and]
  unfold responses
  simp [Event.isRespond]

/-- Claim C15 at failing inputs: the adapter at address 1 owns a subscription (record 1),
an asynchronous call (record 3) and the method `/demo/status`, and its callbacks throw.
A reply for either record makes `callResultHandler` throw the exception of the plugin, a
request for the method makes `methodHandler` throw it, and in each case the adapter is
left with `needUnload = false`. -/
theorem plugin_exception_escapes_gateway :
    (LunaService.callResultHandler demoBehaviourThrowing 1
        (Message.payload (JValue.obj []))).result demoWorldAsync =
      Except.error Err.pluginException ∧
    (Map.find? ((LunaService.callResultHandler demoBehaviourThrowing 1
        (Message.payload (JValue.obj []))).exec demoWorldAsync).adapters 1).map
      PluginAdapter.needUnload = some false ∧
    (LunaService.callResultHandler demoBehaviourThrowing 3
        (Message.payload (JValue.obj []))).result demoWorldAsync =
      Except.error Err.pluginException ∧
    (Map.find? ((LunaService.callResultHandler demoBehaviourThrowing 3
        (Message.payload (JValue.obj []))).exec demoWorldAsync).adapters 1).map
      PluginAdapter.needUnload = some false ∧
    (LunaService.methodHandler demoBehaviourThrowing "/demo" "status"
        (JValue.obj [])).result demoWorldAsync = Except.error Err.pluginException ∧
    (Map.find? ((LunaService.methodHandler demoBehaviourThrowing "/demo" "status"
        (JValue.obj [])).exec demoWorldAsync).adapters 1).map
      PluginAdapter.needUnload = some false := by
  refine ⟨?_, ?_, ?_, ?_, ?_, ?_⟩ <;> rfl

end EventMonitor
namespace EventMonitor

/-! ## The synchronous call `LunaService::call` -/

theorem JDomParser.fromString_allSchema (payload : JValue) :
    JDomParser.fromString payload JSchema.AllSchema = payload := by
  cases payload <;> rfl

/-- Claim C16, amended: `LunaService::call` sends one call with the parameters as they
are when they are an object and with the empty object otherwise, and hands back the parsed
reply as it is: the value of a reply that parses, object or not, the invalid value of a
reply that does not parse, and the null value when no reply arrives within the timeout; an
error of the transport is thrown on. -/
theorem call_returns_parsed_reply (serviceUrl : String) (params : JValue) (timeout : Nat)
    (w : World) :
    ((LunaService.call serviceUrl params timeout).exec w).trace = w.trace ++
        [Event.callOneReply serviceUrl (if params.isObject then params else JValue.obj [])] ∧
      (∀ payload rest, w.bus = BusOutcome.reply payload :: rest →
        (LunaService.call serviceUrl params timeout).result w = Except.ok payload) ∧
      (w.bus = [] ∨ (∃ rest, w.bus = BusOutcome.noReply :: rest) →
        (LunaService.call serviceUrl params timeout).result w = Except.ok JValue.null) ∧
      (∀ rest, w.bus = BusOutcome.lsError :: rest →
        (LunaService.call serviceUrl params timeout).result w =
          Except.error Err.lsError) := by
  unfold M.result M.exec LunaService.call
  simp only [M.bind_run, emit, M.modify, nextBusOutcome, LunaService.callParams]
  refine ⟨?_, ?_, ?_, ?_⟩
  · rcases hbus : w.bus with _ | ⟨o, rest⟩
    · rfl
    · cases o <;> rfl
  · intro payload rest hbus
    simp only [hbus, M.pure_run, JDomParser.fromString_allSchema]
  · rintro (hbus | ⟨rest, hbus⟩) <;> simp only [hbus, M.pure_run]
  · intro rest hbus
    simp only [hbus, M.raise]

theorem call_returns_parsed_reply_witness :
    (LunaService.call "luna://svcA/get" (JValue.num 3) 1000).result demoWorldS5 =
        Except.ok (JValue.obj [("returnValue", JValue.bool false)]) ∧
      (LunaService.call "luna://svcA/get" (JValue.num 3) 1000).result demoWorldA =
        Except.ok JValue.null ∧
      ((LunaService.call "luna://svcA/get" (JValue.num 3) 1000).exec demoWorldA).trace =
        [Event.callOneReply "luna://svcA/get" (JValue.obj [])] :=
  ⟨(call_returns_parsed_reply "luna://svcA/get" (JValue.num 3) 1000 demoWorldS5).2.1 _ []
      rfl,
    (call_returns_parsed_reply "luna://svcA/get" (JValue.num 3) 1000 demoWorldA).2.2.1
      (Or.inl rfl),
    (call_returns_parsed_reply "luna://svcA/get" (JValue.num 3) 1000 demoWorldA).1⟩

/-- Claim C16 as stated fails: the reply `[1]` parses to a JSON value that is not an
object, and `LunaService::call` returns that array, which is not the null value. -/
theorem call_nonobject_counterexample :
    (LunaService.call "luna://svcA/get" (JValue.obj []) 1000).result demoWorldArrayReply =
        Except.ok (JValue.arr [JValue.num 1]) ∧
      (JValue.arr [JValue.num 1]).isValid = true ∧
      (JValue.arr [JValue.num 1]).isObject = false ∧
      (JValue.arr [JValue.num 1]).isNull = false :=
  ⟨rfl, rfl, rfl, rfl⟩

end EventMonitor
namespace EventMonitor

/-! ## Counting events: the code above the adapters -/

end EventMonitor
namespace EventMonitor

/-! ## Asynchronous calls: the callback is invoked at most once -/

/-- The second reply for an asynchronous call whose callback has been invoked, evaluated:
the record was deleted by the first delivery, and `callResultHandler` does not drop the
reply but reads the deleted record. -/
theorem callAsync_later_reply_faults :
    (LunaService.callResultHandler demoBehaviour 3 (Message.payload (JValue.obj []))).result
        demoWorldAsync = Except.ok true ∧
      lunaCallbacks 3 ((LunaService.callResultHandler demoBehaviour 3
        (Message.payload (JValue.obj []))).exec demoWorldAsync).trace =
        [Event.lunaCallback 3 (JValue.obj [])] ∧
      Map.find? ((LunaService.callResultHandler demoBehaviour 3
        (Message.payload (JValue.obj []))).exec demoWorldAsync).service.subscriptionInfos 3 =
        none ∧
      (LunaService.callResultHandler demoBehaviour 3 (Message.payload (JValue.obj []))).result
        ((LunaService.callResultHandler demoBehaviour 3
          (Message.payload (JValue.obj []))).exec demoWorldAsync) =
        Except.error (Err.fault "SubscriptionInfo used after delete") := by
  refine ⟨?_, ?_, ?_, ?_⟩ <;> rfl

end EventMonitor
namespace EventMonitor

/-! ## Timers: what leaves the timer map of an adapter alone -/

theorem Keeps.adaptersToTimers {α : Type} {m : M α} (self : AdapterPtr)
    (h : Keeps (keptFrame fun w => w.adapters) m) : Keeps (keptFrame (timersOf self)) m := by
  refine Keeps.mono (fun w w' hr => ?_) h
  show timersOf self w' = timersOf self w
  unfold timersOf
  rw [show w'.adapters = w.adapters from hr]

theorem keepsAdapters_derefSubscription (h : SubscribeHandle) :
    Keeps (keptFrame fun w => w.adapters) (derefSubscription h) :=
  Keeps.derefSubscription _

theorem keepsAdapters_updateSubscription (h : SubscribeHandle)
    (f : SubscriptionInfo → SubscriptionInfo) :
    Keeps (keptFrame fun w => w.adapters) (updateSubscription h f) := by
  constructor
  intro w
  unfold updateSubscription
  split <;> rfl

theorem keepsAdapters_newSubscription (schema : JSchema) :
    Keeps (keptFrame fun w => w.adapters) (newSubscription schema) :=
  ⟨fun _ => rfl⟩

theorem keepsAdapters_deleteSubscription (h : SubscribeHandle) :
    Keeps (keptFrame fun w => w.adapters) (deleteSubscription h) := by
  constructor
  intro w
  unfold deleteSubscription
  split <;> rfl

theorem keepsAdapters_callAsync (serviceUrl : String) (params : JValue)
    (callback : Option PluginCallback) (plugin : Option AdapterPtr) :
    Keeps (keptFrame fun w => w.adapters)
      (LunaService.callAsync serviceUrl params callback plugin) := by
  unfold LunaService.callAsync
  repeat (first
    | exact Keeps.pure _ | exact Keeps.raise _
    | exact keepsAdapters_nextBusOutcome
    | exact keepsAdapters_newSubscription _
    | exact keepsAdapters_updateSubscription _ _
    | exact keepsAdapters_deleteSubscription _
    | exact Keeps.modify fun _ => rfl
    | apply Keeps.bind
    | apply Keeps.tryCatch
    | intro _
    | split
    | dsimp only [emit, updateService])

theorem keepsAdapters_subscribeToMethod (serviceUrl : String) (params : JValue)
    (callback : Option SubscribeCallback) (schema : JSchema) (plugin : Option AdapterPtr)
    (checkFirstResponse : Bool) :
    Keeps (keptFrame fun w => w.adapters)
      (LunaService.subscribeToMethod serviceUrl params callback schema plugin
        checkFirstResponse) := by
  unfold LunaService.subscribeToMethod LunaService.checkFirst
  repeat (first
    | exact Keeps.pure _ | exact Keeps.raise _
    | exact keepsAdapters_nextBusOutcome
    | exact keepsAdapters_newSubscription _
    | exact keepsAdapters_updateSubscription _ _
    | exact keepsAdapters_deleteSubscription _
    | exact Keeps.modify fun _ => rfl
    | apply Keeps.bind
    | apply Keeps.tryCatch
    | intro _
    | split
    | dsimp only [emit, updateService])

theorem keepsAdapters_cancelSubscribe (info : SubscribeHandle) :
    Keeps (keptFrame fun w => w.adapters) (LunaService.cancelSubscribe info) := by
  unfold LunaService.cancelSubscribe
  repeat (first
    | exact Keeps.pure _ | exact Keeps.raise _ | exact Keeps.get
    | exact keepsAdapters_derefSubscription _
    | exact keepsAdapters_deleteSubscription _
    | exact Keeps.modify fun _ => rfl
    | apply Keeps.bind
    | intro _
    | split
    | dsimp only [emit, updateService])

theorem keepsAdapters_registerMethod (plugin : Option AdapterPtr)
    (category methodName : String) (handler : Option PluginCallback) (schema : JSchema) :
    Keeps (keptFrame fun w => w.adapters)
      (LunaService.registerMethod plugin category methodName handler schema) := by
  unfold LunaService.registerMethod
  repeat (first
    | exact Keeps.pure _ | exact Keeps.raise _ | exact Keeps.get
    | exact Keeps.modify fun _ => rfl
    | apply Keeps.bind
    | intro _
    | split
    | dsimp only [emit, updateService])

theorem keepsTimers_updateAdapter (self a : AdapterPtr) (f : PluginAdapter → PluginAdapter)
    (hf : ∀ x, (f x).timeouts = x.timeouts) :
    Keeps (keptFrame (timersOf self)) (updateAdapter a f) := by
  constructor
  intro w
  show timersOf self (updateAdapter a f w).2 = timersOf self w
  unfold updateAdapter timersOf
  rcases hx : Map.find? w.adapters a with _ | x
  · rfl
  · simp only [Map.find?_insert]
    by_cases h : a = self
    · subst h
      simp only [if_true, hx, Option.map_some', hf]
    · simp only [h, if_false]

theorem keepsTimers_dispatch (self : AdapterPtr) (c : ManagerCall)
    (hc : c.touchesTimers = false) :
    Keeps (keptFrame (timersOf self)) (PluginAdapter.dispatch self c) := by
  cases c <;> first
    | exact Bool.noConfusion hc
    | (unfold PluginAdapter.dispatch
       try unfold PluginAdapter.lunaCall
       try unfold PluginAdapter.lunaCallAsync
       try unfold PluginAdapter.subscribeToSignal
       try unfold PluginAdapter.unsubscribeFromSignal
       try unfold PluginAdapter.subscribeToMethod
       try unfold PluginAdapter.unsubscribeFromMethod
       try unfold PluginAdapter.registerMethod
       try unfold PluginAdapter.createToast
       try unfold PluginAdapter.createAlert
       try unfold PluginAdapter.closeAlert
       repeat (first
        | exact Keeps.pure _ | exact Keeps.raise _ | exact Keeps.get
        | exact Keeps.derefAdapter _
        | exact Keeps.liftExcept _
        | exact keepsTimers_updateAdapter _ _ _ (fun _ => rfl)
        | exact Keeps.adaptersToTimers _ (keepsAdapters_call _ _ _)
        | exact Keeps.adaptersToTimers _ (keepsAdapters_callAsync _ _ _ _)
        | exact Keeps.adaptersToTimers _ (keepsAdapters_subscribeToMethod _ _ _ _ _ _)
        | exact Keeps.adaptersToTimers _ (keepsAdapters_cancelSubscribe _)
        | exact Keeps.adaptersToTimers _ (keepsAdapters_registerMethod _ _ _ _ _)
        | apply Keeps.bind
        | intro _
        | split
        | dsimp only))

theorem keepsTimers_runPlugin (self : AdapterPtr) {R : Type} (code : PluginCode R)
    (h : code.LeavesTimers) :
    Keeps (keptFrame (timersOf self)) (PluginAdapter.runPlugin self code) := by
  induction code with
  | ret r => exact Keeps.pure _
  | throw => exact Keeps.raise _
  | call c next ih =>
      unfold PluginAdapter.runPlugin
      exact Keeps.bind (Keeps.tryCatch (keepsTimers_dispatch self c h.1)
        (fun _ => Keeps.pure _)) (fun r => ih r (h.2 r))

/-! ## Timers: the firing of a timer -/

theorem timerCount_erase (m : List (String × TimeoutState)) (k : String) :
    timerCount (Map.erase m k) k = 0 := by
  induction m with
  | nil => rfl
  | cons e rest ih =>
      obtain ⟨k', v⟩ := e
      by_cases h : k' = k
      · simp only [Map.erase, h, if_true]
        exact ih
      · simp only [Map.erase, h, if_false]
        unfold timerCount at ih ⊢
        simp only [List.filter_cons, beq_iff_eq, h, if_false]
        exact ih

theorem timerCount_insert (m : List (String × TimeoutState)) (k : String) (v : TimeoutState)
    (h0 : timerCount m k = 0) : timerCount (Map.insert m k v) k = 1 := by
  induction m with
  | nil => simp [Map.insert, timerCount]
  | cons e rest ih =>
      obtain ⟨k', v'⟩ := e
      by_cases h : k' = k
      · unfold timerCount at h0
        simp [List.filter_cons, h] at h0
      · unfold timerCount at h0 ih ⊢
        simp only [List.filter_cons, beq_iff_eq, h, if_false] at h0
        simp only [Map.insert, h, if_false, List.filter_cons, beq_iff_eq]
        exact ih h0

/-- The firing of a one-shot timer: the entry is erased before the callback is called. -/
theorem timeoutCallback_oneShot (beh : PluginBehaviour) (self : AdapterPtr)
    (timeoutId : String) (state : TimeoutState) (x : PluginAdapter) (w : World)
    (hx : Map.find? w.adapters self = some x)
    (ht : Map.find? x.timeouts timeoutId = some state) (hrep : state.repeat_ = false) :
    PluginAdapter.timeoutCallback beh self timeoutId w =
      PluginAdapter.afterFiring beh self state.callback timeoutId false
        (w.firedOnce self x timeoutId state) := by
  unfold PluginAdapter.timeoutCallback PluginAdapter.cancelTimeout PluginAdapter.afterFiring
    World.firedOnce
  simp only [M.bind_run, derefAdapter, hx, ht, hrep, Bool.not_false, if_true, emit,
    M.modify, M.pure_run, updateAdapter]
  try rfl

/-- The firing of a repeating timer: the callback is called with the entry in place. -/
theorem timeoutCallback_repeating (beh : PluginBehaviour) (self : AdapterPtr)
    (timeoutId : String) (state : TimeoutState) (x : PluginAdapter) (w : World)
    (hx : Map.find? w.adapters self = some x)
    (ht : Map.find? x.timeouts timeoutId = some state) (hrep : state.repeat_ = true) :
    PluginAdapter.timeoutCallback beh self timeoutId w =
      PluginAdapter.afterFiring beh self state.callback timeoutId true
        { w with trace := w.trace ++ [Event.timeoutCallback x.info.path timeoutId] } := by
  unfold PluginAdapter.timeoutCallback PluginAdapter.afterFiring
  simp only [M.bind_run, derefAdapter, hx, ht, hrep, Bool.not_true, Bool.false_eq_true,
    if_false, emit, M.modify, M.pure_run]
  try rfl

/-- A callback that sets no timer, cancels none, does not unload the plugin and does not
throw leaves the timer map of its adapter as it was. -/
theorem afterFiring_keeps_timers (beh : PluginBehaviour) (self : AdapterPtr)
    (callback : PluginCallback) (timeoutId : String) (continueTimeout : Bool)
    (x : PluginAdapter) (w : World)
    (hx : Map.find? w.adapters self = some x) (hn : x.needUnload = false)
    (h1 : (beh.timeoutCallback callback timeoutId).LeavesTimers)
    (h2 : (beh.timeoutCallback callback timeoutId).NoUnload)
    (h3 : (beh.timeoutCallback callback timeoutId).NoThrow) :
    timersOf self
        ((PluginAdapter.afterFiring beh self callback timeoutId continueTimeout).exec w) =
      some x.timeouts := by
  have hstart : timersOf self w = some x.timeouts := by
    unfold timersOf
    rw [hx]
    rfl
  unfold M.exec PluginAdapter.afterFiring
  rw [M.bind_run]
  rcases hrun : M.tryCatch (PluginAdapter.runPlugin self (beh.timeoutCallback callback
    timeoutId)) Err.isException (fun _ => PluginAdapter.unloadPlugin self) w with ⟨res, v⟩
  obtain ⟨hr, hrel, hres⟩ := guarded_runPlugin self _ h2 h3 _ w res v hrun
  have hkeep : timersOf self v = timersOf self w := by
    have := (keepsTimers_runPlugin self _ h1).run w
    rw [hr] at this
    exact this
  have hneed := hrel.core.needUnload rfl self
  rcases hres with ⟨why, rfl⟩ | ⟨r, rfl⟩
  · show timersOf self v = _
    rw [hkeep, hstart]
  · rcases hy : Map.find? v.adapters self with _ | y
    · unfold timersOf at hkeep hstart
      rw [hy, hstart] at hkeep
      cases hkeep
    · rw [hy, hx] at hneed
      simp only [Option.map_some', Option.some.injEq] at hneed
      simp only [M.bind_run, processUnload_idle self v y hy (hneed.trans hn), M.pure_run]
      rw [hkeep, hstart]

/-- A one-shot timer whose callback registers a timer under the same id again: the timer
map ends with the new timer alone under the id, and the source of the new timer is not
removed. -/
theorem timeoutCallback_reRegisters (beh : PluginBehaviour) (self : AdapterPtr)
    (timeoutId : String) (state : TimeoutState) (x : PluginAdapter) (w : World)
    (timeMs : Nat) (repeat_ : Bool) (callback : PluginCallback)
    (hx : Map.find? w.adapters self = some x) (hn : x.needUnload = false)
    (ht : Map.find? x.timeouts timeoutId = some state) (hrep : state.repeat_ = false)
    (hcode : beh.timeoutCallback state.callback timeoutId =
      reRegister timeoutId timeMs repeat_ callback) :
    (PluginAdapter.timeoutCallback beh self timeoutId).result w = Except.ok false ∧
      ((PluginAdapter.timeoutCallback beh self timeoutId).exec w).trace =
        w.trace ++ [Event.sourceRemove state.handle,
          Event.timeoutCallback x.info.path timeoutId, Event.timeoutAdd w.nextTimeout timeMs] ∧
      ∃ y, Map.find? ((PluginAdapter.timeoutCallback beh self timeoutId).exec w).adapters
          self = some y ∧
        Map.find? y.timeouts timeoutId = some
          { timeoutId := timeoutId, repeat_ := repeat_, handle := w.nextTimeout,
            callback := callback } ∧
        timerCount y.timeouts timeoutId = 1 := by
  have hnone : Map.find? (Map.erase x.timeouts timeoutId) timeoutId = none := by
    simp only [Map.find?_erase, if_true]
  have hidle := processUnload_idle self
    { w with
      adapters := Map.insert (Map.insert w.adapters self
          { x with timeouts := Map.erase x.timeouts timeoutId }) self
        { x with
          timeouts := Map.insert (Map.erase x.timeouts timeoutId) timeoutId
            { timeoutId := timeoutId, repeat_ := repeat_, handle := w.nextTimeout,
              callback := callback } },
      nextTimeout := w.nextTimeout + 1,
      trace := w.trace ++ [Event.sourceRemove state.handle] ++
        [Event.timeoutCallback x.info.path timeoutId] ++
        [Event.timeoutAdd w.nextTimeout timeMs] }
    { x with
      timeouts := Map.insert (Map.erase x.timeouts timeoutId) timeoutId
        { timeoutId := timeoutId, repeat_ := repeat_, handle := w.nextTimeout,
          callback := callback } }
    (by simp only [Map.find?_insert, if_true]) hn
  have hrun : PluginAdapter.timeoutCallback beh self timeoutId w = (Except.ok false,
      { w with
        adapters := Map.insert (Map.insert w.adapters self
            { x with timeouts := Map.erase x.timeouts timeoutId }) self
          { x with
            timeouts := Map.insert (Map.erase x.timeouts timeoutId) timeoutId
              { timeoutId := timeoutId, repeat_ := repeat_, handle := w.nextTimeout,
                callback := callback } },
        nextTimeout := w.nextTimeout + 1,
        trace := w.trace ++ [Event.sourceRemove state.handle] ++
          [Event.timeoutCallback x.info.path timeoutId] ++
          [Event.timeoutAdd w.nextTimeout timeMs] }) := by
    rw [timeoutCallback_oneShot beh self timeoutId state x w hx ht hrep]
    unfold PluginAdapter.afterFiring World.firedOnce
    rw [hcode]
    unfold reRegister
    simp only [PluginAdapter.runPlugin, PluginAdapter.dispatch, PluginAdapter.setTimeout,
      PluginAdapter.cancelTimeout, M.bind_run, M.tryCatch, derefAdapter, Map.find?_insert,
      if_true, hnone, M.pure_run, M.get, M.modify, emit, updateAdapter, hidle]
  unfold M.result M.exec
  rw [hrun]
  refine ⟨rfl, ?_, ⟨{ x with
    timeouts := Map.insert (Map.erase x.timeouts timeoutId) timeoutId
      { timeoutId := timeoutId, repeat_ := repeat_, handle := w.nextTimeout,
        callback := callback } }, ?_, ?_, ?_⟩⟩
  · simp only [List.append_assoc, List.cons_append, List.nil_append]
  · simp only [Map.find?_insert, if_true]
  · simp only [Map.find?_insert, if_true]
  · exact timerCount_insert _ _ _ (timerCount_erase _ _)

/-- Claim C18: when a one-shot timer fires, `timeoutCallback` erases its entry from the
timer map of the adapter before it calls the callback, so the callback runs with no timer
under the id; a callback that calls `setTimeout` with the same id again leaves, once
`timeoutCallback` has returned, exactly one timer under the id, the new one, whose source
has not been removed.  When a repeating timer fires, the callback is called with the entry
in place, and the timer map is the same after `timeoutCallback` if the callback sets and
cancels no timer, does not unload the plugin and does not throw. -/
theorem oneshot_timer_removed_before_callback (beh : PluginBehaviour) (self : AdapterPtr)
    (timeoutId : String) (state : TimeoutState) (x : PluginAdapter) (w : World)
    (hx : Map.find? w.adapters self = some x)
    (ht : Map.find? x.timeouts timeoutId = some state) :
    (state.repeat_ = false →
      PluginAdapter.timeoutCallback beh self timeoutId w =
          PluginAdapter.afterFiring beh self state.callback timeoutId false
            (w.firedOnce self x timeoutId state) ∧
        timersOf self (w.firedOnce self x timeoutId state) =
          some (Map.erase x.timeouts timeoutId) ∧
        Map.find? (Map.erase x.timeouts timeoutId) timeoutId = none) ∧
    (state.repeat_ = false → x.needUnload = false →
      ∀ (timeMs : Nat) (repeat_ : Bool) (callback : PluginCallback),
      beh.timeoutCallback state.callback timeoutId =
        reRegister timeoutId timeMs repeat_ callback →
      (PluginAdapter.timeoutCallback beh self timeoutId).result w = Except.ok false ∧
        ((PluginAdapter.timeoutCallback beh self timeoutId).exec w).trace =
          w.trace ++ [Event.sourceRemove state.handle,
            Event.timeoutCallback x.info.path timeoutId,
            Event.timeoutAdd w.nextTimeout timeMs] ∧
        ∃ y, Map.find? ((PluginAdapter.timeoutCallback beh self timeoutId).exec w).adapters
            self = some y ∧
          Map.find? y.timeouts timeoutId = some
            { timeoutId := timeoutId, repeat_ := repeat_, handle := w.nextTimeout,
              callback := callback } ∧
          timerCount y.timeouts timeoutId = 1) ∧
    (state.repeat_ = true →
      PluginAdapter.timeoutCallback beh self timeoutId w =
          PluginAdapter.afterFiring beh self state.callback timeoutId true
            { w with trace := w.trace ++ [Event.timeoutCallback x.info.path timeoutId] } ∧
        (x.needUnload = false →
          (beh.timeoutCallback state.callback timeoutId).LeavesTimers →
          (beh.timeoutCallback state.callback timeoutId).NoUnload →
          (beh.timeoutCallback state.callback timeoutId).NoThrow →
          timersOf self ((PluginAdapter.timeoutCallback beh self timeoutId).exec w) =
            some x.timeouts)) := by
  refine ⟨fun hrep => ⟨timeoutCallback_oneShot beh self timeoutId state x w hx ht hrep, ?_, ?_⟩,
    fun hrep hn timeMs repeat_ callback hcode =>
      timeoutCallback_reRegisters beh self timeoutId state x w timeMs repeat_ callback hx hn
        ht hrep hcode,
    fun hrep => ⟨timeoutCallback_repeating beh self timeoutId state x w hx ht hrep,
      fun hn h1 h2 h3 => ?_⟩⟩
  · unfold timersOf World.firedOnce
    simp only [Map.find?_insert, if_true, Option.map_some']
  · simp only [Map.find?_erase, if_true]
  · unfold M.exec
    rw [timeoutCallback_repeating beh self timeoutId state x w hx ht hrep]
    exact afterFiring_keeps_timers beh self state.callback timeoutId true x _ hx hn h1 h2 h3

theorem oneshot_timer_removed_before_callback_witness :
    (PluginAdapter.timeoutCallback demoBehaviourReRegister 1 "t").result demoWorldTimer =
        Except.ok false ∧
      ((PluginAdapter.timeoutCallback demoBehaviourReRegister 1 "t").exec demoWorldTimer).trace =
        [Event.sourceRemove 1, Event.timeoutCallback "/plugins/demo.so" "t",
          Event.timeoutAdd 2 500] ∧
      (∃ y, Map.find? ((PluginAdapter.timeoutCallback demoBehaviourReRegister 1 "t").exec
            demoWorldTimer).adapters 1 = some y ∧
          Map.find? y.timeouts "t" = some
            { timeoutId := "t", repeat_ := false, handle := 2, callback := 3 } ∧
          timerCount y.timeouts "t" = 1) ∧
      timersOf 1 ((PluginAdapter.timeoutCallback demoBehaviour 1 "t").exec demoWorldBusy) =
        some demoAdapterBusy.timeouts :=
  have h1 := (oneshot_timer_removed_before_callback demoBehaviourReRegister 1 "t"
    { timeoutId := "t", repeat_ := false, handle := 1, callback := 3 } demoAdapterTimer
    demoWorldTimer rfl rfl).2.1 rfl rfl 500 false 3 rfl
  have h2 := ((oneshot_timer_removed_before_callback demoBehaviour 1 "t"
    { timeoutId := "t", repeat_ := true, handle := 1, callback := 3 } demoAdapterBusy
    demoWorldBusy rfl rfl).2.2 rfl).2 rfl trivial trivial trivial
  ⟨h1.1, h1.2.1, h1.2.2, h2⟩

end EventMonitor
namespace EventMonitor

/-! ## Alerts: `PluginAdapter::createAlert` -/

theorem call_run (serviceUrl : String) (params : JValue) (timeout : Nat) (w : World) :
    ((LunaService.call serviceUrl params timeout).exec w).adapters = w.adapters ∧
      ((LunaService.call serviceUrl params timeout).exec w).bus = w.bus.tail ∧
      (LunaService.call serviceUrl params timeout).result w =
        match w.nextResponse with
        | some v => Except.ok v
        | none => Except.error Err.lsError := by
  unfold M.result M.exec LunaService.call World.nextResponse
  simp only [M.bind_run, emit, M.modify, nextBusOutcome]
  rcases hbus : w.bus with _ | ⟨o, rest⟩
  · exact ⟨rfl, rfl, rfl⟩
  · cases o
    · refine ⟨rfl, rfl, ?_⟩
      simp only [M.pure_run, JDomParser.fromString_allSchema]
    · exact ⟨rfl, rfl, rfl⟩
    · exact ⟨rfl, rfl, rfl⟩

/-- Whatever the outcome of `closeAlert`, the adapter is left with no alert under
`alertId` and its other alerts as they were. -/
theorem closeAlert_erases (self : AdapterPtr) (alertId : String) (x : PluginAdapter)
    (w : World) (hx : Map.find? w.adapters self = some x) :
    alertsOf self ((PluginAdapter.closeAlert self alertId).exec w) =
      some (Map.erase x.alerts alertId) := by
  unfold M.exec PluginAdapter.closeAlert
  simp only [M.bind_run, derefAdapter, hx]
  rcases hfind : Map.find? x.alerts alertId with _ | internalId
  · simp only [M.pure_run]
    unfold alertsOf
    rw [hx, Map.erase_of_find?_none _ _ hfind]
    rfl
  · simp only [M.bind_run, updateAdapter, hx]
    have h1 := (call_run "luna://com.webos.notification/closeAlert"
      (JValue.obj [("alertId", JValue.str internalId)]) 1000
      { w with
        adapters :=
          Map.insert w.adapters self { x with alerts := Map.erase x.alerts alertId } }).1
    unfold M.exec at h1
    rcases hcall : LunaService.call "luna://com.webos.notification/closeAlert"
      (JValue.obj [("alertId", JValue.str internalId)]) 1000
      { w with
        adapters :=
          Map.insert w.adapters self { x with alerts := Map.erase x.alerts alertId } } with ⟨res, w1⟩
    rw [hcall] at h1
    cases res <;>
    · simp only [M.pure_run]
      unfold alertsOf
      rw [show w1.adapters = _ from h1]
      simp only [Map.find?_insert, if_true, Option.map_some']

/-- Claim C19: `PluginAdapter::createAlert` closes the alert stored under `alertId` first.
A run that throws, whatever the error, leaves the adapter with no alert under `alertId`.
When the closing returns and the call to the notification service is answered with
`response` (the null value if no reply arrives within the timeout), `createAlert` returns
if and only if the response has `returnValue` true and a non-empty string `alertId`; it
then maps `alertId` to that external id, and otherwise throws the `Error` "Failed to
create alert". -/
theorem createAlert_succeeds_iff (self : AdapterPtr) (alertId title message : String)
    (modal : Bool) (iconUrl : String) (buttons onClose : JValue) (x : PluginAdapter)
    (w : World) (hx : Map.find? w.adapters self = some x) :
    alertsOf self ((PluginAdapter.closeAlert self alertId).exec w) =
        some (Map.erase x.alerts alertId) ∧
    (∀ e, (PluginAdapter.createAlert self alertId title message modal iconUrl buttons
        onClose).result w = Except.error e →
      alertsOf self ((PluginAdapter.createAlert self alertId title message modal iconUrl
        buttons onClose).exec w) = some (Map.erase x.alerts alertId) ∧
      Map.find? (Map.erase x.alerts alertId) alertId = none) ∧
    (∀ closed w1 response,
      PluginAdapter.closeAlert self alertId w = (Except.ok closed, w1) →
      w1.nextResponse = some response →
      ((PluginAdapter.createAlert self alertId title message modal iconUrl buttons
          onClose).result w = Except.ok () ↔ AlertCreated response) ∧
      (∀ id, AlertCreated response → (response.get "alertId").asString = some id →
        alertsOf self ((PluginAdapter.createAlert self alertId title message modal iconUrl
          buttons onClose).exec w) =
            some (Map.insert (Map.erase x.alerts alertId) alertId id) ∧
          Map.find? (Map.insert (Map.erase x.alerts alertId) alertId id) alertId =
            some id) ∧
      (¬ AlertCreated response →
        (PluginAdapter.createAlert self alertId title message modal iconUrl buttons
          onClose).result w = Except.error (Err.error "Failed to create alert"))) := by
  have hclose := closeAlert_erases self alertId x w hx
  refine ⟨hclose, ?_, ?_⟩
  · intro e he
    refine ⟨?_, by simp only [Map.find?_erase, if_true]⟩
    unfold M.exec at hclose ⊢
    unfold M.result at he
    unfold PluginAdapter.createAlert at he ⊢
    rw [M.bind_run] at he ⊢
    rcases hc : PluginAdapter.closeAlert self alertId w with ⟨res1, w1⟩
    try rw [hc] at hclose
    try rw [hc] at he
    try rw [hc]
    cases res1 with
    | error e1 => exact hclose
    | ok closed =>
        simp only [M.bind_run] at he ⊢
        generalize hp : (if iconUrl.length > 0 then _ else _ : JValue) = params at he ⊢
        have hcall := call_run "luna://com.webos.notification/createAlert" params 1000 w1
        unfold M.exec M.result at hcall
        rcases hr : LunaService.call "luna://com.webos.notification/createAlert" params 1000
          w1 with ⟨res2, w2⟩
        try rw [hr] at hcall
        try rw [hr] at he
        try rw [hr]
        have hsame : alertsOf self w2 = some (Map.erase x.alerts alertId) := by
          unfold alertsOf at hclose ⊢
          rw [show w2.adapters = w1.adapters from hcall.1]
          exact hclose
        cases res2 with
        | error e2 => exact hsame
        | ok response =>
            simp only at he ⊢
            rcases hok : (response.get "returnValue").asBool with _ | b
            · exact hsame
            · cases b with
              | false => exact hsame
              | true =>
                  rcases hid : (response.get "alertId").asString with _ | id
                  · exact hsame
                  · by_cases hlen : id.length = 0
                    · simp only [hlen, beq_self_eq_true, if_true, M.raise]
                      exact hsame
                    · exfalso
                      have hl : (id.length == 0) = false := by simpa using hlen
                      unfold alertsOf at hsame
                      rcases hy : Map.find? w2.adapters self with _ | y
                      · rw [hy] at hsame; cases hsame
                      · simp [hok, hid, hl, updateAdapter, hy] at he
  · intro closed w1 response hc hresp
    have hclose1 : alertsOf self w1 = some (Map.erase x.alerts alertId) := by
      unfold M.exec at hclose
      rw [hc] at hclose
      exact hclose
    have hrun : ∀ params, ∃ w2, LunaService.call "luna://com.webos.notification/createAlert"
        params 1000 w1 = (Except.ok response, w2) ∧
        alertsOf self w2 = some (Map.erase x.alerts alertId) := by
      intro params
      have hcall := call_run "luna://com.webos.notification/createAlert" params 1000 w1
      unfold M.exec M.result at hcall
      rcases hr : LunaService.call "luna://com.webos.notification/createAlert" params 1000
        w1 with ⟨res2, w2⟩
      rw [hr, hresp] at hcall
      refine ⟨w2, ?_, ?_⟩
      · rw [show res2 = Except.ok response from hcall.2.2]
      · unfold alertsOf at hclose1 ⊢
        rw [show w2.adapters = w1.adapters from hcall.1]
        exact hclose1
    have key : ∀ w2, alertsOf self w2 = some (Map.erase x.alerts alertId) →
        ∃ y, Map.find? w2.adapters self = some y ∧ y.alerts = Map.erase x.alerts alertId := by
      intro w2 h2
      unfold alertsOf at h2
      rcases hy : Map.find? w2.adapters self with _ | y
      · rw [hy] at h2; cases h2
      · rw [hy] at h2
        exact ⟨y, rfl, by simpa using h2⟩
    have hmain : (AlertCreated response →
          ∀ id, (response.get "alertId").asString = some id →
          (PluginAdapter.createAlert self alertId title message modal iconUrl buttons
            onClose).result w = Except.ok () ∧
          alertsOf self ((PluginAdapter.createAlert self alertId title message modal iconUrl
            buttons onClose).exec w) =
              some (Map.insert (Map.erase x.alerts alertId) alertId id)) ∧
        (¬ AlertCreated response →
          (PluginAdapter.createAlert self alertId title message modal iconUrl buttons
            onClose).result w = Except.error (Err.error "Failed to create alert")) := by
      unfold M.result M.exec PluginAdapter.createAlert
      rw [M.bind_run, hc]
      simp only [M.bind_run]
      generalize (if iconUrl.length > 0 then _ else _ : JValue) = params
      obtain ⟨w2, hr, h2⟩ := hrun params
      obtain ⟨y, hy, hya⟩ := key w2 h2
      rw [hr]
      simp only
      constructor
      · rintro ⟨hok, id', hid', hlen⟩ id hid
        have hidd : id' = id := Option.some.inj (hid'.symm.trans hid)
        subst hidd
        have hl : (id'.length == 0) = false := by simpa using hlen
        simp only [hok, hid', hl, Bool.false_eq_true, if_false, updateAdapter, hy]
        refine ⟨by first | rfl | trivial, ?_⟩
        unfold alertsOf
        simp only [Map.find?_insert, if_true, Option.map_some', hya]
      · intro hnot
        rcases hok : (response.get "returnValue").asBool with _ | b
        · rfl
        · cases b with
          | false => rfl
          | true =>
              rcases hid : (response.get "alertId").asString with _ | id
              · rfl
              · by_cases hlen : id.length = 0
                · simp only [hlen, beq_self_eq_true, if_true, M.raise]
                · exact absurd ⟨hok, id, hid, hlen⟩ hnot
    refine ⟨⟨fun hres => ?_, fun hcreated => ?_⟩, fun id hcreated hid => ?_, hmain.2⟩
    · by_contra hnot
      rw [hmain.2 hnot] at hres
      cases hres
    · obtain ⟨hok, id, hid, hlen⟩ := hcreated
      exact (hmain.1 ⟨hok, id, hid, hlen⟩ id hid).1
    · exact ⟨(hmain.1 hcreated id hid).2, by simp only [Map.find?_insert, if_true]⟩

theorem createAlert_succeeds_iff_witness :
    alertsOf 1 demoWorldAlert = some [("a", "alert-17")] ∧
      (PluginAdapter.createAlert 1 "a" "Title" "Text" false "" (JValue.arr [])
        JValue.null).result demoWorldAlert = Except.ok () ∧
      alertsOf 1 ((PluginAdapter.createAlert 1 "a" "Title" "Text" false "" (JValue.arr [])
        JValue.null).exec demoWorldAlert) = some [("a", "alert-18")] ∧
      (PluginAdapter.createAlert 1 "a" "Title" "Text" false "" (JValue.arr [])
        JValue.null).result demoWorldAlertTimeout =
          Except.error (Err.error "Failed to create alert") ∧
      alertsOf 1 ((PluginAdapter.createAlert 1 "a" "Title" "Text" false "" (JValue.arr [])
        JValue.null).exec demoWorldAlertTimeout) = some [] :=
  have h := (createAlert_succeeds_iff 1 "a" "Title" "Text" false "" (JValue.arr [])
    JValue.null demoAdapterAlert demoWorldAlert rfl).2.2 true
    (PluginAdapter.closeAlert 1 "a" demoWorldAlert).2 (demoAlertReply "alert-18") rfl rfl
  have hcreated : AlertCreated (demoAlertReply "alert-18") :=
    ⟨rfl, "alert-18", rfl, by decide⟩
  have h' := createAlert_succeeds_iff 1 "a" "Title" "Text" false "" (JValue.arr [])
    JValue.null demoAdapterAlert demoWorldAlertTimeout rfl
  have hfail := (h'.2.2 true (PluginAdapter.closeAlert 1 "a" demoWorldAlertTimeout).2
    JValue.null rfl rfl).2.2 (fun hc => Option.noConfusion hc.1)
  ⟨rfl, h.1.mpr hcreated, (h.2.1 "alert-18" hcreated rfl).1, hfail, (h'.2.1 _ hfail).1⟩

end EventMonitor
namespace EventMonitor

/-! ## Scenario S6: the locale broadcast -/

theorem Event.inner_isUiLocaleChanged : Event.Inner Event.isUiLocaleChanged :=
  ⟨fun e he => by cases e <;> simp_all [Event.isUiLocaleChanged, Event.isBusOp], fun _ => rfl,
    fun _ => rfl⟩

theorem Keeps.apiToOthers {strict : Bool} (b : AdapterPtr) {α : Type} {m : M α}
    (h : Keeps (apiFrame strict) m) : Keeps (othersFrame b) m :=
  ⟨fun w c _ => (h.run w).core.adapters c⟩

theorem keepsOthers_silent (b : AdapterPtr) (f : World → World)
    (hf : ∀ w, (f w).adapters = w.adapters) : Keeps (othersFrame b) (M.modify f) := by
  refine Keeps.modify fun w c _ => ?_
  rw [hf]

theorem keepsOthers_delete (b : AdapterPtr) : Keeps (othersFrame b) (PluginAdapter.delete b) := by
  unfold PluginAdapter.delete
  repeat (first
    | exact Keeps.pure _
    | exact Keeps.derefAdapter _
    | exact keepsOthers_silent _ _ (fun _ => rfl)
    | exact Keeps.modify fun w c hc => by
        show (Map.find? (Map.erase w.adapters b) c).map _ = _
        rw [Map.find?_erase, if_neg (fun h => hc h.symm)]
    | apply Keeps.bind
    | intro _
    | split
    | dsimp only [emit])

theorem keepsOthers_loader_unloadPlugin (b : AdapterPtr) (info : PluginInfo) :
    Keeps (othersFrame b) (PluginLoader.unloadPlugin info) := by
  unfold PluginLoader.unloadPlugin
  repeat (first
    | exact Keeps.pure _ | exact Keeps.get
    | exact keepsOthers_silent _ _ (fun _ => rfl)
    | apply Keeps.bind
    | intro _
    | split
    | dsimp only [emit])

theorem keepsOthers_processUnload (b : AdapterPtr) :
    Keeps (othersFrame b) (PluginManager.processUnload b) := by
  unfold PluginManager.processUnload
  repeat (first
    | exact Keeps.pure _ | exact Keeps.raise _ | exact Keeps.get
    | exact Keeps.derefAdapter _
    | exact Keeps.apiToOthers _ (keeps_unloadPlugin _)
    | exact keepsOthers_delete _
    | exact keepsOthers_loader_unloadPlugin _ _
    | exact keepsOthers_silent _ _ (fun _ => rfl)
    | apply Keeps.bind
    | intro _
    | split
    | dsimp only)

theorem keepsOthers_adapter_notifyLocaleChanged (beh : PluginBehaviour) (b : AdapterPtr)
    (locale : String) :
    Keeps (othersFrame b) (PluginAdapter.notifyLocaleChanged beh b locale) := by
  unfold PluginAdapter.notifyLocaleChanged
  repeat (first
    | exact Keeps.pure _ | exact Keeps.raise _
    | exact Keeps.derefAdapter _
    | exact keepsOthers_silent _ _ (fun _ => rfl)
    | exact Keeps.apiToOthers _ (keeps_runPlugin_any _ _)
    | exact Keeps.apiToOthers _ (keeps_unloadPlugin _)
    | apply Keeps.bind
    | apply Keeps.tryCatch
    | intro _
    | split
    | dsimp only [emit])

theorem Keeps.apiToLocale {strict : Bool} {α : Type} {m : M α}
    (h : Keeps (apiFrame strict) m) : Keeps (keptFrame fun w => w.manager.locale) m :=
  ⟨fun w => by
    show (m w).2.manager.locale = w.manager.locale
    rw [(h.run w).core.manager]⟩

theorem keepsLocale_processUnload (b : AdapterPtr) :
    Keeps (keptFrame fun w => w.manager.locale) (PluginManager.processUnload b) := by
  unfold PluginManager.processUnload PluginAdapter.delete PluginLoader.unloadPlugin
  repeat (first
    | exact Keeps.pure _ | exact Keeps.raise _ | exact Keeps.get
    | exact Keeps.derefAdapter _
    | exact Keeps.apiToLocale (keeps_unloadPlugin _)
    | exact Keeps.modify fun _ => rfl
    | apply Keeps.bind
    | intro _
    | split
    | dsimp only [emit])

theorem keepsLocale_adapter_notifyLocaleChanged (beh : PluginBehaviour) (b : AdapterPtr)
    (locale : String) :
    Keeps (keptFrame fun w => w.manager.locale)
      (PluginAdapter.notifyLocaleChanged beh b locale) := by
  unfold PluginAdapter.notifyLocaleChanged
  repeat (first
    | exact Keeps.pure _ | exact Keeps.raise _
    | exact Keeps.derefAdapter _
    | exact Keeps.modify fun _ => rfl
    | exact Keeps.apiToLocale (keeps_runPlugin_any _ _)
    | exact Keeps.apiToLocale (keeps_unloadPlugin _)
    | apply Keeps.bind
    | apply Keeps.tryCatch
    | intro _
    | split
    | dsimp only [emit])

theorem keepsLocale_notifyAdapters (beh : PluginBehaviour) (localeStr : String)
    (entries : List (String × AdapterPtr)) :
    Keeps (keptFrame fun w => w.manager.locale)
      (PluginManager.notifyAdapters beh localeStr entries) := by
  induction entries with
  | nil => exact Keeps.pure _
  | cons entry rest ih =>
      unfold PluginManager.notifyAdapters
      repeat (first
        | exact ih
        | exact keepsLocale_adapter_notifyLocaleChanged _ _ _
        | exact keepsLocale_processUnload _
        | apply Keeps.bind
        | intro _)

/-- One call of `PluginAdapter::notifyLocaleChanged` on an adapter with a plugin object:
`uiLocaleChanged` is called once, with the string handed in. -/
theorem adapter_notifyLocaleChanged_events (beh : PluginBehaviour) (b : AdapterPtr)
    (locale : String) (x : PluginAdapter) (w : World)
    (hx : Map.find? w.adapters b = some x) (hp : x.plugin.isSome = true) :
    localeEvents ((PluginAdapter.notifyLocaleChanged beh b locale) w).2.trace =
      localeEvents w.trace ++ [Event.uiLocaleChanged x.info.path locale] := by
  have hk : Keeps (traceFrame Event.isUiLocaleChanged)
      (M.tryCatch (PluginAdapter.runPlugin b (beh.uiLocaleChanged x.info.path locale))
        Err.isException (fun _ => PluginAdapter.unloadPlugin b)) :=
    Keeps.tryCatch (Keeps.apiToTrace Event.inner_isUiLocaleChanged (keeps_runPlugin_any _ _))
      (fun _ => Keeps.apiToTrace Event.inner_isUiLocaleChanged (keeps_unloadPlugin _))
  have h1 := hk.run { w with trace := w.trace ++ [Event.uiLocaleChanged x.info.path locale] }
  unfold PluginAdapter.notifyLocaleChanged
  simp only [M.bind_run, derefAdapter, hx, isNone_of_isSome _ hp, Bool.false_eq_true,
    if_false, emit, M.modify]
  unfold localeEvents
  refine Eq.trans h1 ?_
  simp [List.filter_append, Event.isUiLocaleChanged]

theorem notifyAdapters_events (beh : PluginBehaviour) (localeStr : String)
    (entries : List (String × AdapterPtr)) (w : World)
    (hnodup : (entries.map Prod.snd).Nodup)
    (hlive : ∀ e ∈ entries, ∃ x, Map.find? w.adapters e.2 = some x ∧
      x.plugin.isSome = true ∧ x.info.path = e.1)
    (hret : (PluginManager.notifyAdapters beh localeStr entries w).1 = Except.ok ()) :
    localeEvents (PluginManager.notifyAdapters beh localeStr entries w).2.trace =
      localeEvents w.trace ++ entries.map fun e => Event.uiLocaleChanged e.1 localeStr := by
  induction entries generalizing w with
  | nil => simp [PluginManager.notifyAdapters, M.pure_run]
  | cons e rest ih =>
      obtain ⟨x, hx, hp, hpath⟩ := hlive e (List.mem_cons_self _ _)
      have hev := adapter_notifyLocaleChanged_events beh e.2 localeStr x w hx hp
      have ho1 := (keepsOthers_adapter_notifyLocaleChanged beh e.2 localeStr).run w
      unfold PluginManager.notifyAdapters at hret ⊢
      rw [M.bind_run] at hret ⊢
      rcases h1 : PluginAdapter.notifyLocaleChanged beh e.2 localeStr w with ⟨r1, v1⟩
      try rw [h1] at hret
      try rw [h1] at hev
      try rw [h1] at ho1
      try rw [h1]
      cases r1 with
      | error e1 => cases hret
      | ok u1 =>
          have ht2 := (keepsTrace_processUnload Event.inner_isUiLocaleChanged e.2).run v1
          have ho2 := (keepsOthers_processUnload e.2).run v1
          simp only at hret ⊢
          rw [M.bind_run] at hret ⊢
          rcases h2 : PluginManager.processUnload e.2 v1 with ⟨r2, v2⟩
          try rw [h2] at hret
          try rw [h2] at ht2
          try rw [h2] at ho2
          try rw [h2]
          cases r2 with
          | error e2 => cases hret
          | ok u2 =>
              simp only at hret ⊢
              have hnd : e.2 ∉ rest.map Prod.snd ∧ (rest.map Prod.snd).Nodup :=
                List.nodup_cons.mp hnodup
              have hlive2 : ∀ e' ∈ rest, ∃ y, Map.find? v2.adapters e'.2 = some y ∧
                  y.plugin.isSome = true ∧ y.info.path = e'.1 := by
                intro e' he'
                obtain ⟨y, hy, hyp, hypath⟩ := hlive e' (List.mem_cons_of_mem _ he')
                have hne : e'.2 ≠ e.2 := by
                  intro heq
                  exact hnd.1 (heq ▸ List.mem_map_of_mem Prod.snd he')
                have hcore := (ho2 e'.2 hne).trans (ho1 e'.2 hne)
                rw [hy] at hcore
                rcases hy2 : Map.find? v2.adapters e'.2 with _ | y2
                · rw [hy2] at hcore; cases hcore
                · rw [hy2] at hcore
                  simp only [Option.map_some', Option.some.injEq, PluginAdapter.core,
                    Prod.mk.injEq] at hcore
                  exact ⟨y2, rfl, by rw [hcore.2.1]; exact hyp, by rw [hcore.1]; exact hypath⟩
              rw [ih v2 hnd.2 hlive2 hret]
              have ht : localeEvents v2.trace = localeEvents v1.trace := ht2
              rw [ht, hev, hpath]
              simp only [List.map_cons, List.append_assoc, List.singleton_append]

theorem ActiveLive.adapters_nodup {w : World} (h : ActiveLive w) :
    (w.manager.activePlugins.map Prod.snd).Nodup := by
  refine List.Nodup.map_on (fun e he e' he' heq => ?_) (List.Nodup.of_map _ h.nodup)
  obtain ⟨x, hx, -, hpath⟩ := h.live e he
  obtain ⟨x', hx', -, hpath'⟩ := h.live e' he'
  rw [heq, hx'] at hx
  cases hx
  exact Prod.ext (hpath.symm.trans hpath') heq

/-- Claim C20 (scenario S6): `PluginManager::notifyLocaleChanged` with a `localeInfo`
object, on a well-formed active map, when it returns: the manager has stored the object,
`uiLocaleChanged` has been called once for every entry of the active map, in the order of
the map, with the `locales.UI` string of the new object or with "en-US" when that is
missing or not a string, and `getUILocale` afterwards gives that same string. -/
theorem locale_broadcast (beh : PluginBehaviour) (locale : JValue) (w : World)
    (hobj : locale.isObject = true) (hact : ActiveLive w)
    (hret : (PluginManager.notifyLocaleChanged beh locale).result w = Except.ok ()) :
    ((PluginManager.notifyLocaleChanged beh locale).exec w).manager.locale = locale ∧
      localeEvents ((PluginManager.notifyLocaleChanged beh locale).exec w).trace =
        localeEvents w.trace ++
          (w.manager.activePlugins.map fun e =>
            Event.uiLocaleChanged e.1 (uiLocaleOf locale)) ∧
      ((PluginManager.notifyLocaleChanged beh locale).exec w).manager.getUILocale =
        uiLocaleOf locale := by
  have hstr : locale.asString = none := by
    cases locale <;> first | rfl | cases hobj
  have hrun : PluginManager.notifyLocaleChanged beh locale w =
      PluginManager.notifyAdapters beh (uiLocaleOf locale) w.manager.activePlugins
        { w with manager := { w.manager with locale := locale } } := by
    unfold PluginManager.notifyLocaleChanged
    simp only [M.bind_run, M.modify, M.get, hstr, Option.getD_none]
    try rfl
  unfold M.result at hret
  unfold M.exec
  rw [hrun] at hret ⊢
  have hloc := (keepsLocale_notifyAdapters beh (uiLocaleOf locale)
    w.manager.activePlugins).run { w with manager := { w.manager with locale := locale } }
  have hloc' : (PluginManager.notifyAdapters beh (uiLocaleOf locale) w.manager.activePlugins
      { w with manager := { w.manager with locale := locale } }).2.manager.locale = locale :=
    hloc
  refine ⟨hloc', ?_, ?_⟩
  · exact notifyAdapters_events beh (uiLocaleOf locale) w.manager.activePlugins _
      hact.adapters_nodup hact.live hret
  · unfold PluginManager.getUILocale
    rw [hloc']
    rfl

theorem locale_broadcast_witness :
    (PluginManager.notifyLocaleChanged demoBehaviour (demoLocaleInfo "fr-FR")).result
        demoWorldPair = Except.ok () ∧
      localeEvents ((PluginManager.notifyLocaleChanged demoBehaviour
        (demoLocaleInfo "fr-FR")).exec demoWorldPair).trace =
        [Event.uiLocaleChanged "/plugins/demo.so" "fr-FR",
          Event.uiLocaleChanged "/plugins/second.so" "fr-FR"] ∧
      ((PluginManager.notifyLocaleChanged demoBehaviour
        (demoLocaleInfo "fr-FR")).exec demoWorldPair).manager.getUILocale = "fr-FR" ∧
      localeEvents ((PluginManager.notifyLocaleChanged demoBehaviour
        (JValue.obj [])).exec demoWorldPair).trace =
        [Event.uiLocaleChanged "/plugins/demo.so" "en-US",
          Event.uiLocaleChanged "/plugins/second.so" "en-US"] :=
  have hact : ActiveLive demoWorldPair :=
    ⟨by decide, fun e he => by
      simp only [demoWorldPair, List.mem_cons, List.mem_singleton, List.not_mem_nil,
        or_false] at he
      rcases he with rfl | rfl
      · exact ⟨demoAdapterA, rfl, rfl, rfl⟩
      · exact ⟨{ info := demoInfoB, plugin := some 2 }, rfl, rfl, rfl⟩⟩
  have h := locale_broadcast demoBehaviour (demoLocaleInfo "fr-FR") demoWorldPair rfl hact rfl
  have h' := locale_broadcast demoBehaviour (JValue.obj []) demoWorldPair rfl hact rfl
  ⟨rfl, h.2.1, h.2.2, h'.2.1⟩

end EventMonitor
namespace EventMonitor

/-! ## Plugins without required services -/

theorem Keeps.apiToIdle {strict : Bool} {α : Type} {m : M α}
    (h : Keeps (apiFrame strict) m) : Keeps idleFrame m :=
  ⟨fun w => by
    show ((m w).2.manager.activePlugins, lifecycle (m w).2.trace) =
      (w.manager.activePlugins, lifecycle w.trace)
    rw [(h.run w).core.manager, (h.run w).core.events]⟩

theorem keepsIdle_update (f : ServiceMonitor → ServiceMonitor) :
    Keeps idleFrame (ServiceMonitor.update f) :=
  Keeps.modify fun _ => rfl

theorem keepsIdle_startMonitor (plugins : List PluginInfo) :
    Keeps idleFrame (ServiceMonitor.startMonitor plugins) := by
  unfold ServiceMonitor.startMonitor
  repeat (first
    | exact Keeps.pure _
    | exact keepsIdle_update _
    | exact Keeps.apiToIdle (keeps_subscribeToMethod _ _ _ _ _ _ : Keeps (apiFrame false) _)
    | apply Keeps.bind
    | intro _
    | dsimp only)

theorem keepsIdle_addServices (services : List String) :
    Keeps idleFrame (ServiceMonitor.addServices services) := by
  induction services with
  | nil => exact Keeps.pure _
  | cons service rest ih =>
      unfold ServiceMonitor.addServices
      repeat (first
        | exact Keeps.get
        | exact ih
        | exact keepsIdle_update _
        | exact Keeps.apiToIdle
            (keeps_subscribeToMethod _ _ _ _ _ _ : Keeps (apiFrame false) _)
        | apply Keeps.bind
        | intro _
        | split
        | dsimp only)

theorem keepsIdle_addPlugins (plugins : List PluginInfo) :
    Keeps idleFrame (ServiceMonitor.addPlugins plugins) := by
  induction plugins with
  | nil => exact Keeps.pure _
  | cons info rest ih =>
      unfold ServiceMonitor.addPlugins ServiceMonitor.addPlugin
      exact Keeps.bind (keepsIdle_addServices _) (fun _ => ih)

theorem Keeps.idleToEmpty {α : Type} {m : M α} (h : Keeps idleFrame m) :
    Keeps emptyFrame m :=
  ⟨fun w hempty =>
    have h' := Prod.mk.inj (h.run w)
    ⟨h'.1.trans hempty, h'.2⟩⟩

theorem keepsEmpty_notifyLocaleChanged (beh : PluginBehaviour) (locale : JValue) :
    Keeps emptyFrame (PluginManager.notifyLocaleChanged beh locale) := by
  constructor
  intro w hempty
  unfold PluginManager.notifyLocaleChanged
  simp only [M.bind_run, M.modify, M.get, hempty, PluginManager.notifyAdapters, M.pure_run]
  try (refine ⟨?_, ?_⟩ <;> first | rfl | trivial)

/-- A locale reply that meets an empty active map: nothing is loaded by it. -/
theorem keepsEmpty_localeCallback (beh : PluginBehaviour) (previousValue value : JValue) :
    Keeps emptyFrame (ServiceMonitor.localeCallback beh previousValue value) := by
  unfold ServiceMonitor.localeCallback
  repeat (first
    | exact Keeps.pure _ | exact Keeps.get
    | exact keepsEmpty_notifyLocaleChanged _ _
    | exact Keeps.idleToEmpty (keepsIdle_addPlugins _)
    | exact Keeps.idleToEmpty (keepsIdle_update _)
    | apply Keeps.bind
    | intro _
    | split
    | dsimp only)

/-- Claim C21, amended: the first locale reply loads no plugin.  After `startMonitor` and
any locale reply, whatever the descriptors and the plugin code, the active map is empty,
no plugin object was made, no `startMonitoring` was called and the manager was not asked to
load anything.  A descriptor with no required service is loaded by `updatePlugins`: its
dependencies count as met, so `loadPlugin` is the call it gets, in every `updatePlugins`
that returns. -/
theorem first_locale_loads_nothing (beh : PluginBehaviour) :
    (∀ (servicePath : String) (bus0 bus : List BusOutcome) (plugins : List PluginInfo)
      (previousValue value : JValue),
      ((ServiceMonitor.localeCallback beh previousValue value).exec
        { (ServiceMonitor.startMonitor plugins).exec (World.init servicePath bus0) with
          bus := bus }).manager.activePlugins = [] ∧
      managerCalls ((ServiceMonitor.localeCallback beh previousValue value).exec
        { (ServiceMonitor.startMonitor plugins).exec (World.init servicePath bus0) with
          bus := bus }).trace = [] ∧
      ∀ path,
        instantiations path ((ServiceMonitor.localeCallback beh previousValue value).exec
          { (ServiceMonitor.startMonitor plugins).exec (World.init servicePath bus0) with
            bus := bus }).trace = 0 ∧
        startMonitorings path ((ServiceMonitor.localeCallback beh previousValue value).exec
          { (ServiceMonitor.startMonitor plugins).exec (World.init servicePath bus0) with
            bus := bus }).trace = 0) ∧
    (∀ (P : PluginInfo) (serviceName : String) (w : World),
      P.requiredServices = [] → P ∈ w.monitor.plugins →
      expectedCall w serviceName P = Event.loadPlugin P.path serviceName ∧
      ((ServiceMonitor.updatePlugins beh serviceName).result w = Except.ok () →
        Event.loadPlugin P.path serviceName ∈
          managerCalls ((ServiceMonitor.updatePlugins beh serviceName).exec w).trace)) := by
  refine ⟨fun servicePath bus0 bus plugins previousValue value => ?_,
    fun P serviceName w hreq hmem => ?_⟩
  · have h0 := Prod.mk.inj
      ((keepsIdle_startMonitor plugins).run (World.init servicePath bus0))
    have hstart : (World.manager { (ServiceMonitor.startMonitor plugins).exec
        (World.init servicePath bus0) with bus := bus }).activePlugins = [] := h0.1
    have h1 := (keepsEmpty_localeCallback beh previousValue value).run _ hstart
    have hlife : lifecycle ((ServiceMonitor.localeCallback beh previousValue value).exec
        { (ServiceMonitor.startMonitor plugins).exec (World.init servicePath bus0) with
          bus := bus }).trace = [] := h1.2.trans h0.2
    refine ⟨h1.1, ?_, fun path => ⟨?_, ?_⟩⟩
    · rw [managerCalls, ← filter_lifecycle _ _ _, hlife]
      · rfl
      · intro e he
        cases e <;> simp_all [Event.isManagerCall, Event.isBusOp]
    · rw [← instantiations_lifecycle, hlife]
      rfl
    · rw [← startMonitorings_lifecycle, hlife]
      rfl
  · have hcall : expectedCall w serviceName P = Event.loadPlugin P.path serviceName := by
      unfold expectedCall
      rw [hreq]
      rfl
    refine ⟨hcall, fun hret => ?_⟩
    have h := (updateEach_calls beh serviceName w.monitor.plugins w).2 hret
    unfold M.exec ServiceMonitor.updatePlugins
    simp only [M.bind_run, M.get]
    rw [h]
    refine List.mem_append_right _ ?_
    rw [← hcall]
    exact List.mem_map_of_mem _ hmem

theorem first_locale_loads_nothing_witness :
    demoWorldZeroLocale.manager.activePlugins = [] ∧
      expectedCall demoWorldZeroLocale "svcA" demoInfoZero =
        Event.loadPlugin "/plugins/zero.so" "svcA" ∧
      Event.loadPlugin "/plugins/zero.so" "svcA" ∈
        managerCalls ((ServiceMonitor.updatePlugins demoBehaviour "svcA").exec
          demoWorldZeroLocale).trace ∧
      Map.find? ((ServiceMonitor.serviceStatusCallback demoBehaviour JValue.null
        (statusReply "svcA" true)).exec demoWorldZeroLocale).manager.activePlugins
        "/plugins/zero.so" = some 1 ∧
      startMonitorings "/plugins/zero.so" ((ServiceMonitor.serviceStatusCallback demoBehaviour
        JValue.null (statusReply "svcA" true)).exec demoWorldZeroLocale).trace = 1 :=
  have h := (first_locale_loads_nothing demoBehaviour).2 demoInfoZero "svcA"
    demoWorldZeroLocale rfl (List.mem_cons_self demoInfoZero [demoInfoA])
  ⟨((first_locale_loads_nothing demoBehaviour).1 "com.webos.service.eventmonitor" [] []
      [demoInfoZero, demoInfoA] JValue.null (demoLocaleReply "en")).1,
    h.1, h.2 rfl, by decide!, by decide!⟩

/-- Claim C21 as stated fails: the descriptor `demoInfoZero` has no required service, the
first locale reply carries a valid `localeInfo` and `localeCallback` returns, and after it
the descriptor has no adapter in the active map and `startMonitoring` was not called. -/
theorem zero_dependencies_counterexample :
    demoInfoZero.requiredServices = [] ∧
      demoInfoZero ∈ demoWorldZeroStarted.monitor.plugins ∧
      ((demoLocaleReply "en").get "settings").get "localeInfo" = JValue.str "en" ∧
      (ServiceMonitor.localeCallback demoBehaviour JValue.null (demoLocaleReply "en")).result
        { demoWorldZeroStarted with bus := [] } = Except.ok () ∧
      Map.find? demoWorldZeroLocale.manager.activePlugins "/plugins/zero.so" = none ∧
      startMonitorings "/plugins/zero.so" demoWorldZeroLocale.trace = 0 :=
  ⟨rfl, List.mem_cons_self demoInfoZero [demoInfoA], rfl, rfl, by decide!, by decide!⟩

end EventMonitor
namespace EventMonitor

/-! ## The lifecycle of an adapter: `pluginLoaded` -/

/-- The call `pluginLoaded(inst)` with an instance calls `startMonitoring` once, whatever
the plugin code does. -/
theorem pluginLoaded_some_starts (beh : PluginBehaviour) (self : AdapterPtr) (p : PluginPtr)
    (x : PluginAdapter) (w : World) (hx : Map.find? w.adapters self = some x) :
    startMonitorings x.info.path ((PluginAdapter.pluginLoaded beh self (some p)).exec w).trace =
      startMonitorings x.info.path w.trace + 1 := by
  have hk : Keeps (apiFrame false)
      (M.tryCatch (PluginAdapter.runPlugin self (beh.startMonitoring x.info.path))
        Err.isException (fun _ => PluginAdapter.unloadPlugin self)) :=
    Keeps.tryCatch (keeps_runPlugin_any _ _) (fun _ => keeps_unloadPlugin _)
  unfold M.exec PluginAdapter.pluginLoaded PluginAdapter.callStartMonitoring
    PluginAdapter.derefPlugin
  simp only [M.bind_run, updateAdapter, hx, Map.find?_insert, if_true, derefAdapter,
    Option.isNone_some, Bool.false_eq_true, if_false, M.pure_run, emit, M.modify]
  have h := (hk.run { w with
    adapters :=
      Map.insert
        (Map.insert w.adapters self { x with plugin := some p, unloadNotified := true }) self
        { x with plugin := some p, unloadNotified := false },
    trace := w.trace ++ [Event.startMonitoring x.info.path] }).core.events
  rw [← startMonitorings_lifecycle, h, startMonitorings_lifecycle]
  unfold startMonitorings
  simp [List.filter_append, Event.isStartMonitoring]

/-- The call `pluginLoaded(null)` on an adapter that is monitoring does nothing. -/
theorem pluginLoaded_none_monitoring (beh : PluginBehaviour) (self : AdapterPtr)
    (x : PluginAdapter) (w : World) (hx : Map.find? w.adapters self = some x)
    (hn : x.unloadNotified = false) :
    PluginAdapter.pluginLoaded beh self none w = (Except.ok (), w) := by
  unfold PluginAdapter.pluginLoaded
  simp only [M.bind_run, derefAdapter, hx, hn, Bool.not_false, if_true, M.pure_run]

/-- Claim C23, amended: `pluginLoaded(inst)` with an instance, on a live adapter, calls
`startMonitoring` once in that same call, whatever the plugin code does.  When the code of
`startMonitoring` neither throws nor calls `unloadPlugin` and no fault occurs, the call
returns with the instance stored and `unloadNotified` cleared, and a following
`pluginLoaded(null)` changes nothing. -/
theorem pluginLoaded_starts_at_once (beh : PluginBehaviour) (self : AdapterPtr)
    (p : PluginPtr) (x : PluginAdapter) (w : World)
    (hx : Map.find? w.adapters self = some x) :
    startMonitorings x.info.path
        ((PluginAdapter.pluginLoaded beh self (some p)).exec w).trace =
      startMonitorings x.info.path w.trace + 1 ∧
    ((beh.startMonitoring x.info.path).NoUnload → (beh.startMonitoring x.info.path).NoThrow →
      (∀ why, (PluginAdapter.pluginLoaded beh self (some p)).result w ≠
        Except.error (Err.fault why)) →
      (PluginAdapter.pluginLoaded beh self (some p)).result w = Except.ok () ∧
      (∃ y, Map.find? ((PluginAdapter.pluginLoaded beh self (some p)).exec w).adapters self =
          some y ∧ y.plugin = some p ∧ y.unloadNotified = false ∧ y.info = x.info) ∧
      PluginAdapter.pluginLoaded beh self none
          ((PluginAdapter.pluginLoaded beh self (some p)).exec w) =
        (Except.ok (), (PluginAdapter.pluginLoaded beh self (some p)).exec w)) := by
  refine ⟨pluginLoaded_some_starts beh self p x w hx, fun h1 h2 hnofault => ?_⟩
  have hrun : PluginAdapter.pluginLoaded beh self (some p) w =
      PluginAdapter.callStartMonitoring beh self
        { w with
          adapters :=
            Map.insert w.adapters self { x with plugin := some p, unloadNotified := true } } := by
    unfold PluginAdapter.pluginLoaded
    simp only [M.bind_run, updateAdapter, hx]
  unfold M.result M.exec at *
  rw [hrun] at hnofault ⊢
  rcases hc : PluginAdapter.callStartMonitoring beh self
      { w with
        adapters :=
          Map.insert w.adapters self { x with plugin := some p, unloadNotified := true } } with
    ⟨res, w'⟩
  rw [hc] at hnofault
  rcases callStartMonitoring_spec beh self _
      { x with plugin := some p, unloadNotified := true } p
      (by simp only [Map.find?_insert, if_true]) rfl h1 h2 res w' hc with
    ⟨why, hf⟩ | ⟨hres, -, -, -, -, -, -, y, hy, hcore, -⟩
  · exact absurd hf (hnofault why)
  · simp only [PluginAdapter.core, Prod.mk.injEq] at hcore
    exact ⟨hres, ⟨y, hy, hcore.2.1, hcore.2.2, hcore.1⟩,
      pluginLoaded_none_monitoring beh self y w' hy hcore.2.2⟩

theorem pluginLoaded_starts_at_once_witness :
    (PluginAdapter.pluginLoaded demoBehaviour 1 (some 1)).result demoWorldFresh =
        Except.ok () ∧
      startMonitorings "/plugins/demo.so"
        ((PluginAdapter.pluginLoaded demoBehaviour 1 (some 1)).exec demoWorldFresh).trace = 1 ∧
      PluginAdapter.pluginLoaded demoBehaviour 1 none
          ((PluginAdapter.pluginLoaded demoBehaviour 1 (some 1)).exec demoWorldFresh) =
        (Except.ok (), (PluginAdapter.pluginLoaded demoBehaviour 1 (some 1)).exec
          demoWorldFresh) :=
  have h := pluginLoaded_starts_at_once demoBehaviour 1 1 { info := demoInfoA }
    demoWorldFresh rfl
  have h2 := h.2 trivial trivial (fun why hf => Except.noConfusion hf)
  ⟨h2.1, h.1, h2.2.2⟩

/-- Claim C23 as stated fails: `pluginLoaded(inst)` on the fresh adapter returns with
`startMonitoring` already called once and `unloadNotified` false, not true. -/
theorem pluginLoaded_counterexample :
    Map.find? demoWorldFresh.adapters 1 = some { info := demoInfoA } ∧
      startMonitorings "/plugins/demo.so" demoWorldFresh.trace = 0 ∧
      (PluginAdapter.pluginLoaded demoBehaviour 1 (some 1)).result demoWorldFresh =
        Except.ok () ∧
      startMonitorings "/plugins/demo.so"
        ((PluginAdapter.pluginLoaded demoBehaviour 1 (some 1)).exec demoWorldFresh).trace = 1 ∧
      (Map.find? ((PluginAdapter.pluginLoaded demoBehaviour 1 (some 1)).exec
        demoWorldFresh).adapters 1).map (fun y => (y.plugin, y.unloadNotified)) =
        some (some 1, false) :=
  ⟨rfl, rfl, rfl, rfl, rfl⟩

end EventMonitor
namespace EventMonitor

/-! ## A method handler that unloads its plugin -/

/-- Claim C24 at a failing input: the adapter at address 1 owns the method `/demo/status`
and its handler calls `unloadPlugin()`.  The response of the handler is sent, but the
`cleanupPlugin` inside `unloadPlugin` has set the owner of the method record to null, so
the `method->plugin->manager` that follows dereferences a null pointer: `processUnload` is
not reached, and the adapter stays in the active map, alive, with `needUnload` set. -/
theorem methodHandler_unload_null_owner :
    (LunaService.findMethod demoWorldM.service "/demo" "status").bind (fun m => m.plugin) =
        some 1 ∧
      (LunaService.methodHandler demoBehaviourHandlerUnload "/demo" "status"
        (JValue.obj [])).result demoWorldM =
          Except.error (Err.fault "null PluginAdapter dereferenced") ∧
      responses ((LunaService.methodHandler demoBehaviourHandlerUnload "/demo" "status"
        (JValue.obj [])).exec demoWorldM).trace =
          [Event.respond (JValue.obj [("returnValue", JValue.bool true)])] ∧
      (LunaService.findMethod ((LunaService.methodHandler demoBehaviourHandlerUnload "/demo"
        "status" (JValue.obj [])).exec demoWorldM).service "/demo" "status").bind
          (fun m => m.plugin) = none ∧
      Map.find? ((LunaService.methodHandler demoBehaviourHandlerUnload "/demo" "status"
        (JValue.obj [])).exec demoWorldM).manager.activePlugins "/plugins/demo.so" = some 1 ∧
      (Map.find? ((LunaService.methodHandler demoBehaviourHandlerUnload "/demo" "status"
        (JValue.obj [])).exec demoWorldM).adapters 1).map (fun y => y.needUnload) =
          some true := by
  refine ⟨rfl, rfl, rfl, rfl, rfl, rfl⟩

end EventMonitor
namespace EventMonitor

/-! ## The resources of an adapter that is destroyed -/

end EventMonitor
namespace EventMonitor

/-! ## The frame of `LunaService::cleanupPlugin` -/

/-- The first loop of `cleanupPlugin` keeps every record that is not owned by the plugin,
in the set and as it is. -/
theorem cleanupSubscriptions_keeps (plugin : Option AdapterPtr) (keys : List SubscribeHandle)
    (w w' : World)
    (hrun : LunaService.cleanupSubscriptions plugin keys w = (Except.ok (), w'))
    (h : SubscribeHandle) (r : SubscriptionInfo)
    (hr : Map.find? w.service.subscriptionInfos h = some r) (hown : r.plugin ≠ plugin) :
    Map.find? w'.service.subscriptionInfos h = some r ∧
      (h ∈ w.service.subscriptions → h ∈ w'.service.subscriptions) := by
  induction keys generalizing w with
  | nil =>
      simp only [LunaService.cleanupSubscriptions, M.pure_run, Prod.mk.injEq, true_and] at hrun
      subst hrun
      exact ⟨hr, fun hm => hm⟩
  | cons key rest ih =>
      unfold LunaService.cleanupSubscriptions at hrun
      simp only [M.bind_run, derefSubscription] at hrun
      rcases hk : Map.find? w.service.subscriptionInfos key with _ | info
      · rw [hk] at hrun
        cases hrun
      · rw [hk] at hrun
        simp only at hrun
        by_cases hp : info.plugin = plugin
        · simp only [hp, if_true, M.bind_run, emit, M.modify, deleteSubscription, hk,
            updateService] at hrun
          have hne : key ≠ h := by
            intro heq
            rw [heq, hr] at hk
            cases hk
            exact hown hp
          obtain ⟨h1, h2⟩ := ih _ hrun
            (by simp only [Map.find?_erase, hne, if_false]; exact hr)
          refine ⟨h1, fun hm => h2 ?_⟩
          exact (Map.mem_eraseKey _ _ _).mpr ⟨hm, fun heq => hne heq.symm⟩
        · simp only [hp, if_false, M.bind_run, M.pure_run] at hrun
          exact ih _ hrun hr

/-- Claim C26: `LunaService::cleanupPlugin(A)` on a sound subscription set returns, and
it is framed to `A`: every subscription record whose owner is not `A`, a null owner
included, is still there unchanged and still in the set if it was; every method key has a
record after the call if and only if it had one before; a method record that is not owned
by `A` is unchanged and one that is owned by `A` has its owner and handler set to null and
its url and schema kept.  The adapters, the manager and the monitor are left alone. -/
theorem cleanupPlugin_framed (a : AdapterPtr) (w : World) (hs : w.service.Sound) :
    ∃ w', LunaService.cleanupPlugin (some a) w = (Except.ok (), w') ∧
      (∀ h r, Map.find? w.service.subscriptionInfos h = some r → r.plugin ≠ some a →
        Map.find? w'.service.subscriptionInfos h = some r ∧
        (h ∈ w.service.subscriptions → h ∈ w'.service.subscriptions)) ∧
      (∀ category name,
        w'.service.findMethod category name =
          (w.service.findMethod category name).map (LunaService.cleanupMethod (some a))) ∧
      (∀ category name m, w.service.findMethod category name = some m →
        m.plugin ≠ some a → w'.service.findMethod category name = some m) ∧
      (∀ category name m, w.service.findMethod category name = some m →
        m.plugin = some a →
        w'.service.findMethod category name =
          some { m with plugin := none, handler := none }) ∧
      w'.adapters = w.adapters ∧ w'.manager = w.manager ∧ w'.monitor = w.monitor := by
  obtain ⟨w0, h0, -, -⟩ := cleanupSubscriptions_total (some a) w.service.subscriptions w
    hs.nodup hs.live hs
  obtain ⟨-, -, -, hcat, had⟩ := cleanupSubscriptions_spec _ _ _ _ h0
  have hrun : LunaService.cleanupPlugin (some a) w =
      (Except.ok (), { w0 with service := LunaService.cleanupMethods (some a) w0.service }) := by
    unfold LunaService.cleanupPlugin
    simp only [M.bind_run, M.get, h0, updateService, M.modify]
  have hk : ApiRel false w _ := (keeps_cleanupPlugin (some a)).of_run hrun
  have hfind : ∀ category name,
      (LunaService.cleanupMethods (some a) w0.service).findMethod category name =
        (w.service.findMethod category name).map (LunaService.cleanupMethod (some a)) := by
    intro category name
    rw [findMethod_cleanupMethods]
    unfold LunaService.findMethod
    rw [hcat]
  refine ⟨_, hrun, fun h r hr hown => ?_, hfind, fun category name m hm hown => ?_,
    fun category name m hm hown => ?_, had, hk.core.manager, hk.core.monitor⟩
  · exact cleanupSubscriptions_keeps (some a) _ w w0 h0 h r hr hown
  · show (LunaService.cleanupMethods (some a) w0.service).findMethod category name = some m
    rw [hfind, hm]
    simp only [Option.map_some', LunaService.cleanupMethod, hown, if_false]
  · show (LunaService.cleanupMethods (some a) w0.service).findMethod category name = _
    rw [hfind, hm]
    simp only [Option.map_some', LunaService.cleanupMethod, hown, if_true]

theorem cleanupPlugin_framed_witness :
    ∃ w', LunaService.cleanupPlugin (some 1) demoWorldBusy = (Except.ok (), w') ∧
      2 ∈ w'.service.subscriptions ∧
      Map.find? w'.service.subscriptionInfos 2 = some demoMonitorRecord ∧
      w'.service.findMethod "/demo" "status" =
        some { demoMethod with plugin := none, handler := none } :=
  match cleanupPlugin_framed 1 demoWorldBusy demoWorldBusy_sound with
  | ⟨w', hrun, hsubs, _, _, howned, _⟩ =>
      ⟨w', hrun,
        (hsubs 2 demoMonitorRecord rfl (fun h => Option.noConfusion h)).2 (by decide),
        (hsubs 2 demoMonitorRecord rfl (fun h => Option.noConfusion h)).1,
        howned "/demo" "status" demoMethod rfl rfl⟩

end EventMonitor
namespace EventMonitor

/-! ## Loading fails: a null instance or an exception of the constructor -/

/-- Claim C27: `PluginManager::loadPlugin` for a descriptor that is not active and not
open, given the outcome of `instantiatePlugin`.  If it returns null, `loadPlugin` returns,
the manager and the loader are as before, `dlclose` was called and the new adapter is
deleted.  If it throws, `loadPlugin` does not return: the exception leaves it, the
manager and the loader are as before and `dlclose` was called, but the new adapter is
still allocated, in no map. -/
theorem loadPlugin_inactive_failure (beh : PluginBehaviour) (info : PluginInfo)
    (service : String) (code : PluginCode Bool) (w : World)
    (hnot : Map.find? w.manager.activePlugins info.path = none)
    (hfree : info.path ∉ w.loader.dlHandle)
    (hctor : beh.instantiatePlugin info.path = Instantiation.runs code)
    (res : Except Err Bool) (w2 : World)
    (hcode : PluginAdapter.runPlugin w.nextAdapter code
      (PluginManager.atInstantiate info service w) = (res, w2)) :
    (res = Except.ok false →
      ∃ w', PluginManager.loadPlugin beh info service w = (Except.ok (), w') ∧
        w'.manager = w.manager ∧ w'.loader = w.loader ∧
        Event.dlclose info.path ∈ w'.trace ∧
        Map.find? w'.adapters w.nextAdapter = none) ∧
    (∀ e, res = Except.error e → e.isException = true →
      ∃ w', PluginManager.loadPlugin beh info service w = (Except.error e, w') ∧
        w'.manager = w.manager ∧ w'.loader = w.loader ∧
        Event.dlclose info.path ∈ w'.trace ∧
        ∃ x, Map.find? w'.adapters w.nextAdapter = some x ∧ x.info = info ∧
          x.plugin = none) := by
  have hk : ApiRel false (PluginManager.atInstantiate info service w) w2 :=
    (keeps_runPlugin_any w.nextAdapter code).of_run hcode
  have hman : w2.manager = w.manager := hk.core.manager
  have hload : w2.loader = w.loader := hk.core.loader
  have hx : ∃ x, Map.find? w2.adapters w.nextAdapter = some x ∧ x.info = info ∧
      x.plugin = none := by
    have h := hk.core.adapters w.nextAdapter
    have h0 : Map.find? (PluginManager.atInstantiate info service w).adapters w.nextAdapter =
        some { info := info } := by
      simp only [PluginManager.atInstantiate, M.exec, M.bind_run, emit, M.modify,
        PluginAdapter.new, Map.find?_insert, if_true]
    rw [h0] at h
    rcases hy : Map.find? w2.adapters w.nextAdapter with _ | y
    · rw [hy] at h
      cases h
    · rw [hy] at h
      simp only [Option.map_some', Option.some.injEq, PluginAdapter.core,
        Prod.mk.injEq] at h
      exact ⟨y, rfl, h.1, h.2.1⟩
  obtain ⟨x, hx, hinfo, hplugin⟩ := hx
  have hpre : PluginManager.atInstantiate info service w =
      { w with
        trace := w.trace ++ [Event.loadPlugin info.path service] ++
          [Event.instantiatePlugin info.path],
        adapters := Map.insert w.adapters w.nextAdapter { info := info },
        nextAdapter := w.nextAdapter + 1 } := by
    simp only [PluginManager.atInstantiate, M.exec, M.bind_run, emit, M.modify,
      PluginAdapter.new]
  rw [hpre] at hcode
  refine ⟨fun hres => ?_, fun e hres he => ?_⟩
  · subst hres
    rcases hl : PluginManager.loadPlugin beh info service w with ⟨r1, w1⟩
    have hrun := hl
    unfold PluginManager.loadPlugin PluginLoader.loadPlugin PluginLoader.unloadPlugin
      PluginAdapter.delete at hrun
    simp only [M.bind_run, emit, M.modify, M.get, hnot, PluginAdapter.new, hctor,
      M.tryCatch, hcode, M.pure_run, Bool.false_eq_true, if_false, List.mem_insert_iff,
      true_or, if_true, derefAdapter, hx, hplugin, Option.isSome_none] at hrun
    cases hrun
    refine ⟨_, rfl, hman, ?_, ?_, ?_⟩
    · show PluginLoader.mk _ = w.loader
      rw [← hload]
      have hf : info.path ∉ w2.loader.dlHandle := hload ▸ hfree
      simp [List.insert, hf]
    · simp
    · simp [Map.find?_erase]
  · subst hres
    rcases hl : PluginManager.loadPlugin beh info service w with ⟨r1, w1⟩
    have hrun := hl
    unfold PluginManager.loadPlugin PluginLoader.loadPlugin at hrun
    simp only [M.bind_run, emit, M.modify, M.get, hnot, PluginAdapter.new, hctor,
      M.tryCatch, hcode, he, if_true, M.raise] at hrun
    cases hrun
    exact ⟨_, rfl, hman, hload, by simp, x, hx, hinfo, hplugin⟩

theorem loadPlugin_inactive_failure_witness :
    ∃ w', PluginManager.loadPlugin demoBehaviourCtorThrows demoInfoA "svcA"
        (World.init "com.webos.service.eventmonitor" []) =
        (Except.error Err.pluginException, w') ∧
      w'.manager = (World.init "com.webos.service.eventmonitor" []).manager ∧
      w'.loader = (World.init "com.webos.service.eventmonitor" []).loader ∧
      Event.dlclose demoInfoA.path ∈ w'.trace ∧
      ∃ x, Map.find? w'.adapters (World.init "com.webos.service.eventmonitor" []).nextAdapter =
        some x ∧ x.info = demoInfoA ∧ x.plugin = none :=
  (loadPlugin_inactive_failure demoBehaviourCtorThrows demoInfoA "svcA" PluginCode.throw
    (World.init "com.webos.service.eventmonitor" []) rfl (by decide) rfl
    (Except.error Err.pluginException) _ rfl).2 Err.pluginException rfl rfl

/-- The exception of a constructor leaves the status callback of the monitor as well:
nothing between `PluginLoader::loadPlugin` and the gateway catches it. -/
theorem ctor_exception_leaves_status_callback :
    (ServiceMonitor.serviceStatusCallback demoBehaviourCtorThrows JValue.null
      (statusReply "svcA" true)).result { demoWorldMonitoring with bus := [] } =
      Except.error Err.pluginException := by
  rfl

end EventMonitor
namespace EventMonitor

/-! ## The destructor of the manager -/

theorem Map.find?_none_of_not_mem_keys {κ V : Type} [DecidableEq κ] (l : List (κ × V))
    (k : κ) (h : k ∉ l.map Prod.fst) : Map.find? l k = none := by
  induction l with
  | nil => rfl
  | cons e rest ih =>
      obtain ⟨k0, v0⟩ := e
      simp only [List.map_cons, List.mem_cons, not_or] at h
      simp only [Map.find?, Ne.symm h.1, if_false]
      exact ih h.2

/-- One iteration of the destructor loop on a well-formed active map: it returns, the
first entry is gone, the others stay, and the map is well formed again. -/
theorem destroyStep_spec (w : World) (first : String × AdapterPtr)
    (rest : List (String × AdapterPtr)) (hw : w.manager.activePlugins = first :: rest)
    (hlive : ActiveLive w) (hs : w.service.Sound) (hb : BusAccepts w) :
    ∃ w', PluginManager.destroyStep first.2 w = (Except.ok (), w') ∧
      w'.manager.activePlugins = rest ∧ ActiveLive w' ∧ w'.service.Sound ∧
      BusAccepts w' := by
  obtain ⟨x, hx, hp, hpath⟩ := hlive.live first (by rw [hw]; exact List.mem_cons_self _ _)
  obtain ⟨w1, h1, hs1, hb1⟩ := unloadPlugin_total first.2 w x hx hs hb
  obtain ⟨⟨y, hy, hny, -, -⟩, -, -, -⟩ := unloadPlugin_effect first.2 w x hx hp w1 h1
  have hk : ApiRel false w w1 := (keeps_unloadPlugin first.2).of_run h1
  have hcore : y.core = x.core := by
    have h := hk.core.adapters first.2
    rw [hy, hx] at h
    simpa using h
  have hyp : y.plugin.isSome = true := by
    have h : y.plugin = x.plugin := congrArg (fun c => c.2.1) hcore
    rw [h]
    exact hp
  have hyi : y.info = x.info := congrArg (fun c => c.1) hcore
  obtain ⟨w2, h2, hs2, -, hb2⟩ := processUnload_total first.2 w1 y hy hny hyp hs1 hb1
  obtain ⟨hact, -, hgone, hothers, -⟩ := processUnload_reaps first.2 w1 y hy hny hyp w2 h2
  have hnd := hlive.nodup
  rw [hw] at hnd
  have hnd2 := List.nodup_cons.mp hnd
  have hrest : w2.manager.activePlugins = rest := by
    rw [hact, hk.core.manager, hw, hyi, hpath]
    obtain ⟨k0, v0⟩ := first
    simp only [Map.erase, if_true]
    exact Map.erase_of_find?_none rest k0 (Map.find?_none_of_not_mem_keys rest k0 hnd2.1)
  refine ⟨w2, ?_, hrest, ⟨?_, ?_⟩, hs2, hb2⟩
  · unfold PluginManager.destroyStep
    simp only [M.bind_run, h1, h2]
  · rw [hrest]
    exact hnd2.2
  · intro e he
    rw [hrest] at he
    obtain ⟨z, hz, hzp, hzpath⟩ := hlive.live e (by rw [hw]; exact List.mem_cons_of_mem _ he)
    have hne : e.2 ≠ first.2 := by
      intro heq
      rw [heq, hx] at hz
      cases hz
      exact hnd2.1 (by rw [← hpath, hzpath]; exact List.mem_map_of_mem Prod.fst he)
    have h3 := hothers e.2 hne
    have h4 := hk.core.adapters e.2
    rw [h4, hz] at h3
    rcases hu : Map.find? w2.adapters e.2 with _ | u
    · rw [hu] at h3
      cases h3
    · rw [hu] at h3
      simp only [Option.map_some', Option.some.injEq] at h3
      refine ⟨u, rfl, ?_, ?_⟩
      · have h : u.plugin = z.plugin := congrArg (fun c => c.2.1) h3
        rw [h]
        exact hzp
      · have h : u.info = z.info := congrArg (fun c => c.1) h3
        rw [h]
        exact hzpath

/-- The destructor loop with enough fuel on a well-formed active map returns with the
map empty. -/
theorem destroy_total (fuel : Nat) (w : World) (hfuel : w.manager.activePlugins.length ≤ fuel)
    (hlive : ActiveLive w) (hs : w.service.Sound) (hb : BusAccepts w) :
    ∃ w', PluginManager.destroy fuel w = (Except.ok (), w') ∧
      w'.manager.activePlugins = [] := by
  induction fuel generalizing w with
  | zero =>
      refine ⟨w, rfl, ?_⟩
      exact List.length_eq_zero.mp (Nat.le_zero.mp hfuel)
  | succ n ih =>
      unfold PluginManager.destroy
      simp only [M.bind_run, M.get]
      rcases hw : w.manager.activePlugins with _ | ⟨first, rest⟩
      · exact ⟨w, rfl, hw⟩
      · obtain ⟨w1, h1, hrest, hlive1, hs1, hb1⟩ := destroyStep_spec w first rest hw hlive hs hb
        obtain ⟨w2, h2, hempty⟩ := ih w1
          (by rw [hrest]; rw [hw] at hfuel; exact Nat.le_of_succ_le_succ hfuel) hlive1 hs1 hb1
        refine ⟨w2, ?_, hempty⟩
        unfold PluginManager.destroyStep at h1
        simp only [M.bind_run] at h1
        rcases hu : PluginAdapter.unloadPlugin first.2 w with ⟨ru, wu⟩
        rw [hu] at h1
        cases ru with
        | error e => cases h1
        | ok _ =>
            simp only at h1
            simp only [M.bind_run, hu, h1]
            exact h2

/-- Claim C28: the loop of `PluginManager::~PluginManager` terminates with an empty
active map.  On a state whose active map is well formed (no path twice, every entry points
to a live adapter with a plugin object, stored under the path of its own descriptor), with
a sound subscription set and a transport that accepts the bus operations, each iteration
(`unloadPlugin` then `processUnload` on the first adapter) returns and leaves a
well-formed map with exactly one entry less, and the loop run with as much fuel as the map
has entries returns with the map empty. -/
theorem destructor_terminates (w : World) (hlive : ActiveLive w) (hs : w.service.Sound)
    (hb : BusAccepts w) :
    (∀ first rest, w.manager.activePlugins = first :: rest →
      ∃ w1, PluginManager.destroyStep first.2 w = (Except.ok (), w1) ∧
        w1.manager.activePlugins = rest ∧
        w1.manager.activePlugins.length + 1 = w.manager.activePlugins.length ∧
        ActiveLive w1) ∧
    ∀ fuel, w.manager.activePlugins.length ≤ fuel →
      ∃ w', PluginManager.destroy fuel w = (Except.ok (), w') ∧
        w'.manager.activePlugins = [] := by
  refine ⟨fun first rest hw => ?_, fun fuel hfuel => destroy_total fuel w hfuel hlive hs hb⟩
  obtain ⟨w1, h1, hrest, hlive1, -, -⟩ := destroyStep_spec w first rest hw hlive hs hb
  exact ⟨w1, h1, hrest, by rw [hrest, hw]; rfl, hlive1⟩

theorem demoWorldPair_activeLive : ActiveLive demoWorldPair :=
  ⟨by decide, fun e he => by
    simp only [demoWorldPair, List.mem_cons, List.mem_singleton, List.not_mem_nil,
      or_false] at he
    rcases he with rfl | rfl
    · exact ⟨_, rfl, rfl, rfl⟩
    · exact ⟨_, rfl, rfl, rfl⟩⟩

theorem demoWorldPair_sound : demoWorldPair.service.Sound :=
  ⟨fun h hh => absurd hh (List.not_mem_nil h), List.nodup_nil,
    fun h hh => absurd hh (List.not_mem_nil h)⟩

theorem destructor_terminates_witness :
    ∃ w', PluginManager.destroy 2 demoWorldPair = (Except.ok (), w') ∧
      w'.manager.activePlugins = [] :=
  (destructor_terminates demoWorldPair demoWorldPair_activeLive demoWorldPair_sound
    (fun o ho => absurd ho (List.not_mem_nil o))).2 2 (by decide)

end EventMonitor
namespace EventMonitor

/-! ## A failing `subscribeToMethod` has already cancelled the old subscription -/

/-- Claim C29: a failing `PluginAdapter::subscribeToMethod` is not atomic.  For an adapter
that holds a live subscription under `id` (handle `h`), a call `subscribeToMethod(id, url,
...)` whose url fails the policy check or is malformed ends with the exception of the
check, and by then the old subscription is cancelled: the adapter's map has no entry for
`id` (the other entries are as before), the gateway's subscription set is the previous set
without `h`, the record of `h` is deleted and `callCancel h` was sent. -/
theorem subscribeToMethod_failure_not_atomic (self : AdapterPtr) (id url : String)
    (params : JValue) (callback : Option SubscribeCallback) (schema : JSchema) (w : World)
    (ad : PluginAdapter) (h : SubscribeHandle) (r : SubscriptionInfo) (e : Err)
    (had : Map.find? w.adapters self = some ad)
    (hid : Map.find? ad.subscriptions id = some h)
    (hmem : h ∈ w.service.subscriptions)
    (hrec : Map.find? w.service.subscriptionInfos h = some r)
    (hfail : (ad.info.containsURI url = Except.ok false ∧
        e = Err.error "Can only subscribe to services that are in required list") ∨
      ad.info.containsURI url = Except.error e) :
    ∃ w', PluginAdapter.subscribeToMethod self id url params callback schema w =
        (Except.error e, w') ∧
      Map.find? w'.adapters self =
        some { ad with subscriptions := Map.erase ad.subscriptions id } ∧
      Map.find? (Map.erase ad.subscriptions id) id = none ∧
      w'.service.subscriptions = Map.eraseKey w.service.subscriptions h ∧
      h ∉ w'.service.subscriptions ∧
      w'.service.subscriptionInfos = Map.erase w.service.subscriptionInfos h ∧
      w'.trace = w.trace ++ [Event.callCancel h] := by
  have h1 := unsubscribeFromMethod_cancel self id w ad h r had hid hmem hrec
  have hnone : Map.find? (Map.erase ad.subscriptions id) id = none := by
    simp [Map.find?_erase]
  have hnot : h ∉ Map.eraseKey w.service.subscriptions h := fun hm =>
    ((Map.mem_eraseKey _ _ _).mp hm).2 rfl
  rcases hl : PluginAdapter.subscribeToMethod self id url params callback schema w with
    ⟨r1, w1⟩
  have hrun := hl
  unfold PluginAdapter.subscribeToMethod at hrun
  rcases hfail with ⟨hf, he⟩ | hf
  · subst he
    simp only [M.bind_run, h1, derefAdapter, Map.find?_insert, if_true, hf, liftExcept,
      M.pure_run, Bool.not_false, M.raise] at hrun
    cases hrun
    exact ⟨_, rfl, by simp only [Map.find?_insert, if_true], hnone, rfl, hnot, rfl, rfl⟩
  · simp only [M.bind_run, h1, derefAdapter, Map.find?_insert, if_true, hf, liftExcept,
      M.raise] at hrun
    cases hrun
    exact ⟨_, rfl, by simp only [Map.find?_insert, if_true], hnone, rfl, hnot, rfl, rfl⟩

theorem subscribeToMethod_failure_not_atomic_witness :
    ∃ w', PluginAdapter.subscribeToMethod 1 "s" ("luna://" ++ "svcB" ++ "/" ++ "x")
          JValue.null none JSchema.AllSchema demoWorldBusy =
        (Except.error (Err.error "Can only subscribe to services that are in required list"),
          w') ∧
      Map.find? w'.adapters 1 =
        some { demoAdapterBusy with subscriptions := Map.erase demoAdapterBusy.subscriptions "s" } ∧
      Map.find? (Map.erase demoAdapterBusy.subscriptions "s") "s" = none ∧
      w'.service.subscriptions = Map.eraseKey demoWorldBusy.service.subscriptions 1 ∧
      1 ∉ w'.service.subscriptions ∧
      w'.service.subscriptionInfos = Map.erase demoWorldBusy.service.subscriptionInfos 1 ∧
      w'.trace = demoWorldBusy.trace ++ [Event.callCancel 1] :=
  subscribeToMethod_failure_not_atomic 1 "s" ("luna://" ++ "svcB" ++ "/" ++ "x") JValue.null
    none JSchema.AllSchema demoWorldBusy demoAdapterBusy 1
    { schema := JSchema.AllSchema, plugin := some 1,
      subscribeCallback := some (SubscribeCallback.plugin 5) }
    (Err.error "Can only subscribe to services that are in required list")
    rfl rfl (by decide) rfl
    (Or.inl ⟨(containsURI_luna demoInfoA "svcB" "x" (by decide) (by decide)).trans
      (congrArg Except.ok (by decide)), rfl⟩)

/-- A malformed url takes the same path: `containsURI` throws after the old subscription
is cancelled. -/
theorem subscribeToMethod_malformed_cancels :
    (PluginAdapter.subscribeToMethod 1 "s" "bogus" JValue.null none
        JSchema.AllSchema).result demoWorldBusy = Except.error (Err.error "Bad luna URL") ∧
      ((PluginAdapter.subscribeToMethod 1 "s" "bogus" JValue.null none
        JSchema.AllSchema).exec demoWorldBusy).service.subscriptions = [2] ∧
      (Map.find? ((PluginAdapter.subscribeToMethod 1 "s" "bogus" JValue.null none
        JSchema.AllSchema).exec demoWorldBusy).adapters 1).map (fun a => a.subscriptions) =
        some [] := by
  refine ⟨?_, ?_, ?_⟩ <;> rfl

end EventMonitor
namespace EventMonitor

/-! ## The weak dependency invariant over the runs of the process -/

namespace KeepsOk

variable {I : World → Prop} {α β : Type}

theorem of_keeps {m : M α} (h : Keeps (invFrame I) m) : KeepsOk I m :=
  ⟨fun w _ w' hi hrun => by
    have h1 := h.run w hi
    rw [hrun] at h1
    exact h1⟩

theorem andThen {m : M α} {f : α → M β} (hm : KeepsOk I m) (hf : ∀ a, KeepsOk I (f a)) :
    KeepsOk I (m >>= f) := by
  constructor
  intro w b w' hi hrun
  rw [M.bind_run] at hrun
  rcases hmw : m w with ⟨r, w1⟩
  rw [hmw] at hrun
  cases r with
  | error e => cases hrun
  | ok a => exact (hf a).run w1 b w' (hm.run w a w1 hi hmw) hrun

end KeepsOk

theorem Keeps.apiToLoop {S : PluginInfo → Prop} {α : Type} {m : M α}
    (h : Keeps (apiFrame false) m) : Keeps (invFrame (LoopInv S)) m :=
  Keeps.viewToLoop (Keeps.apiToView h)

theorem keepsOk_serviceStatusCallback (beh : PluginBehaviour) (previousValue value : JValue) :
    KeepsOk (LoopInv fun _ => True)
      (ServiceMonitor.serviceStatusCallback beh previousValue value) :=
  ⟨fun w _ w' hi hrun => serviceStatusCallback_inv beh previousValue value w w' hi hrun⟩

theorem keepsOk_invokeSubscribeCallback (beh : PluginBehaviour) (plugin : Option AdapterPtr)
    (callback : SubscribeCallback) (previousValue value : JValue) :
    KeepsOk (LoopInv fun _ => True)
      (LunaService.invokeSubscribeCallback beh plugin callback previousValue value) := by
  unfold LunaService.invokeSubscribeCallback
  cases callback with
  | localeCallback => exact KeepsOk.of_keeps (keepsLoop_localeCallback _ _ _ _)
  | serviceStatusCallback => exact keepsOk_serviceStatusCallback _ _ _
  | plugin tag =>
      cases plugin with
      | none => exact KeepsOk.of_keeps (Keeps.raise _)
      | some adapter =>
          exact KeepsOk.of_keeps
            (Keeps.apiToLoop (keeps_runPlugin_any _ _))

theorem keepsLoop_invokeLunaCallback (beh : PluginBehaviour) (plugin : Option AdapterPtr)
    (callback : PluginCallback) (value : JValue) :
    Keeps (invFrame (LoopInv fun _ => True))
      (LunaService.invokeLunaCallback beh plugin callback value) := by
  unfold LunaService.invokeLunaCallback
  cases plugin with
  | none => exact Keeps.raise _
  | some adapter => exact Keeps.apiToLoop (keeps_runPlugin_any _ _)

theorem keepsView_swapPreviousValue (info : SubscribeHandle) (value : JValue) :
    Keeps viewFrame (LunaService.swapPreviousValue info value) := by
  constructor
  intro w
  unfold LunaService.swapPreviousValue
  simp only [M.bind_run, derefSubscription]
  rcases hrec : Map.find? w.service.subscriptionInfos info with _ | r
  · exact viewFrame.refl w
  · simp only [M.bind_run, updateSubscription, hrec, emit, M.modify, M.pure_run]
    exact sameView_of_fields rfl rfl rfl rfl

theorem keepsOk_callResult (beh : PluginBehaviour) (info : SubscribeHandle)
    (message : Message) :
    KeepsOk (LoopInv fun _ => True) (LunaService.callResult beh info message) := by
  unfold LunaService.callResult
  repeat (first
    | exact KeepsOk.of_keeps (Keeps.pure _)
    | exact KeepsOk.of_keeps (Keeps.derefSubscription _)
    | exact KeepsOk.of_keeps (Keeps.viewToLoop (keepsView_swapPreviousValue _ _))
    | exact KeepsOk.of_keeps (Keeps.apiToLoop (keeps_cancelSubscribe _))
    | exact KeepsOk.of_keeps (Keeps.viewToLoop (keepsView_emit _))
    | exact KeepsOk.of_keeps (keepsLoop_invokeLunaCallback _ _ _ _)
    | exact keepsOk_invokeSubscribeCallback _ _ _ _ _
    | exact KeepsOk.of_keeps (keepsLoop_processUnload _ _)
    | apply KeepsOk.andThen
    | intro _
    | split
    | dsimp only)

theorem keepsLoop_timeoutCallback (beh : PluginBehaviour) (self : AdapterPtr)
    (timeoutId : String) :
    Keeps (invFrame (LoopInv fun _ => True))
      (PluginAdapter.timeoutCallback beh self timeoutId) := by
  unfold PluginAdapter.timeoutCallback
  repeat (first
    | exact Keeps.pure _ | exact Keeps.raise _
    | exact Keeps.derefAdapter _
    | exact Keeps.viewToLoop (keepsView_emit _)
    | exact Keeps.apiToLoop (keeps_cancelTimeout _ _)
    | exact Keeps.apiToLoop (keeps_runPlugin_any _ _)
    | exact Keeps.apiToLoop (keeps_unloadPlugin _)
    | exact keepsLoop_processUnload _ _
    | apply Keeps.bind
    | apply Keeps.tryCatch
    | intro _
    | split
    | dsimp only)

theorem keepsLoop_methodHandler (beh : PluginBehaviour) (categoryName methodName : String)
    (payload : JValue) :
    Keeps (invFrame (LoopInv fun _ => True))
      (LunaService.methodHandler beh categoryName methodName payload) := by
  unfold LunaService.methodHandler
  repeat (first
    | exact Keeps.pure _ | exact Keeps.raise _ | exact Keeps.get
    | exact Keeps.viewToLoop (keepsView_emit _)
    | exact Keeps.apiToLoop (keeps_runPlugin_any _ _)
    | exact keepsLoop_processUnload _ _
    | apply Keeps.bind
    | intro _
    | split
    | dsimp only)

/-- A handler of the event loop that returns keeps the invariant of `updatePlugins`. -/
theorem keepsOk_handle (beh : PluginBehaviour) (s : Stimulus) (hs : s.isStartMonitor = false) :
    KeepsOk (LoopInv fun _ => True) (s.handle beh) := by
  cases s with
  | startMonitor plugins => cases hs
  | reply info message =>
      unfold Stimulus.handle LunaService.callResultHandler
      repeat (first
        | exact KeepsOk.of_keeps (Keeps.pure _) | exact KeepsOk.of_keeps Keeps.get
        | exact KeepsOk.of_keeps (Keeps.derefSubscription _)
        | exact keepsOk_callResult _ _ _
        | apply KeepsOk.andThen
        | intro _
        | split)
  | timeout adapter timeoutId =>
      unfold Stimulus.handle
      exact KeepsOk.of_keeps (Keeps.bind (keepsLoop_timeoutCallback _ _ _)
        (fun _ => Keeps.pure _))
  | request category method payload =>
      unfold Stimulus.handle
      exact KeepsOk.of_keeps (Keeps.bind (keepsLoop_methodHandler _ _ _ _)
        (fun _ => Keeps.pure _))

/-- Every state of a run has a well-formed active map whose adapters have all their
required services up or are notified. -/
theorem running_inv (w : World) (h : Running w) : LoopInv (fun _ => True) w := by
  induction h with
  | start servicePath bus plugins hpaths => exact startMonitor_inv servicePath bus plugins hpaths
  | step beh s bus w _ hs hret ih =>
      have h1 : LoopInv (fun _ => True) { w with bus := bus } :=
        ih.shrunk (SameView.toShrunk (sameView_of_fields rfl rfl rfl rfl))
      rcases hrun : s.handle beh { w with bus := bus } with ⟨res, w'⟩
      simp only [M.result, M.exec, hrun] at hret ⊢
      subst hret
      exact (keepsOk_handle beh s hs).run _ _ _ h1 hrun

theorem LoopInv.weakDependencies {w : World} (hi : LoopInv (fun _ => True) w) :
    WeakDependencies w := by
  intro path a ha
  obtain ⟨-, ad, had, -, -, -⟩ := hi.struct.entries path a ha
  refine ⟨ad, had, ?_⟩
  rcases hi.tended path a ad ha had trivial with h | h
  · exact Or.inl (fun s hs => List.all_eq_true.mp h s hs)
  · exact Or.inr h

/-- Claim C30: the weak dependency invariant.  In every state of a run of the process in
which every handler so far has returned without error, every adapter in the active map of
the manager is live and has all the required services of its descriptor mapped to up in
the service-status map, or has its `unloadNotified` flag set; no active adapter is both
monitoring (`unloadNotified` false) and missing a required service.  In particular this
holds in the state after a server-status callback that has returned without error, called
directly or through the reply handler of the gateway. -/
theorem weak_dependency_invariant (w : World) (h : Running w) :
    WeakDependencies w ∧
    (∀ path a ad, Map.find? w.manager.activePlugins path = some a →
      Map.find? w.adapters a = some ad →
      ¬ (ad.unloadNotified = false ∧ ∃ s ∈ ad.info.requiredServices, w.isUp s = false)) ∧
    (∀ beh previousValue value bus,
      (ServiceMonitor.serviceStatusCallback beh previousValue value).result
        { w with bus := bus } = Except.ok () →
      WeakDependencies ((ServiceMonitor.serviceStatusCallback beh previousValue value).exec
        { w with bus := bus })) ∧
    ∀ beh info reply bus,
      (LunaService.callResultHandler beh info (Message.payload reply)).result
        { w with bus := bus } = Except.ok true →
      WeakDependencies ((LunaService.callResultHandler beh info (Message.payload reply)).exec
        { w with bus := bus }) := by
  have hi := running_inv w h
  refine ⟨hi.weakDependencies, ?_, ?_, ?_⟩
  · intro path a ad ha had ⟨hn, s, hs, hdown⟩
    obtain ⟨ad', had', hor⟩ := hi.weakDependencies path a ha
    rw [had] at had'
    cases had'
    rcases hor with hup | hnot
    · rw [hup s hs] at hdown
      cases hdown
    · rw [hnot] at hn
      cases hn
  · intro beh previousValue value bus hret
    have h1 : LoopInv (fun _ => True) { w with bus := bus } :=
      hi.shrunk (SameView.toShrunk (sameView_of_fields rfl rfl rfl rfl))
    rcases hrun : ServiceMonitor.serviceStatusCallback beh previousValue value
      { w with bus := bus } with ⟨res, w'⟩
    simp only [M.result, M.exec, hrun] at hret ⊢
    subst hret
    exact (serviceStatusCallback_inv beh previousValue value _ w' h1 hrun).weakDependencies
  · intro beh info reply bus hret
    have hstep : Running ((Stimulus.handle beh (Stimulus.reply info
        (Message.payload reply))).exec { w with bus := bus }) := by
      refine Running.step beh _ bus w h rfl ?_
      unfold Stimulus.handle
      simp only [M.result, M.bind_run] at hret ⊢
      rcases hrun : LunaService.callResultHandler beh info (Message.payload reply)
        { w with bus := bus } with ⟨res, w'⟩
      rw [hrun] at hret
      simp only at hret
      subst hret
      rfl
    have hsame : (Stimulus.handle beh (Stimulus.reply info
        (Message.payload reply))).exec { w with bus := bus } =
        (LunaService.callResultHandler beh info (Message.payload reply)).exec
          { w with bus := bus } := by
      unfold Stimulus.handle
      simp only [M.exec, M.bind_run]
      rcases hrun : LunaService.callResultHandler beh info (Message.payload reply)
        { w with bus := bus } with ⟨res, w'⟩
      cases res <;> rfl
    rw [← hsame]
    exact (running_inv _ hstep).weakDependencies

theorem demoRunLoaded_running : Running demoRunLoaded :=
  Running.step demoBehaviour _ [] demoRunLocale
    (Running.step demoBehaviour _ [] demoWorldStarted
      (Running.start "com.webos.service.eventmonitor" [] [demoInfoA] (by decide)) rfl rfl)
    rfl rfl

theorem weak_dependency_invariant_witness :
    Running demoRunLoaded ∧ demoRunLoaded.manager.activePlugins = [("/plugins/demo.so", 1)] ∧
      WeakDependencies demoRunLoaded :=
  ⟨demoRunLoaded_running, by decide!,
    (weak_dependency_invariant demoRunLoaded demoRunLoaded_running).1⟩

end EventMonitor
namespace EventMonitor

/-! ## `startMonitoring` is not called twice in a row: the invariant -/

theorem Event.isPhaseOf_not_busOp (q : String) (e : Event) (h : e.isPhaseOf q = true) :
    e.isBusOp = false := by
  cases e <;> first | rfl | cases h

theorem phases_of_lifecycle {t t' : List Event} (h : lifecycle t' = lifecycle t) (q : String) :
    phases q t' = phases q t := by
  unfold phases
  rw [← filter_lifecycle _ (Event.isPhaseOf_not_busOp q) t',
    ← filter_lifecycle _ (Event.isPhaseOf_not_busOp q) t, h]

theorem phases_append_of_not (q : String) (t : List Event) (e : Event)
    (h : e.isPhaseOf q = false) : phases q (t ++ [e]) = phases q t := by
  simp [phases, List.filter_append, h]

theorem phases_append_of (q : String) (t : List Event) (e : Event)
    (h : e.isPhaseOf q = true) : phases q (t ++ [e]) = phases q t ++ [e] := by
  simp [phases, List.filter_append, h]

theorem NotStarted.append (l : List Event) (e : Event) (he : e.isStart = false) :
    NotStarted (l ++ [e]) := by
  intro e' h
  rw [List.getLast?_append_of_ne_nil _ (List.cons_ne_nil e [])] at h
  simp only [List.getLast?_singleton, Option.some.injEq] at h
  rw [← h]
  exact he

theorem chain_append_of_notStart (l : List Event) (e : Event)
    (h : List.Chain' (fun a b => (a.isStart && b.isStart) = false) l)
    (he : e.isStart = false) :
    List.Chain' (fun a b => (a.isStart && b.isStart) = false) (l ++ [e]) := by
  refine List.Chain'.append h (List.chain'_singleton e) ?_
  intro x _ y hy
  simp only [List.head?_cons, Option.mem_def, Option.some.injEq] at hy
  rw [← hy, he, Bool.and_false]

theorem chain_append_of_notStarted (l : List Event) (e : Event)
    (h : List.Chain' (fun a b => (a.isStart && b.isStart) = false) l)
    (hl : NotStarted l) :
    List.Chain' (fun a b => (a.isStart && b.isStart) = false) (l ++ [e]) := by
  refine List.Chain'.append h (List.chain'_singleton e) ?_
  intro x hx y _
  rw [hl x hx, Bool.false_and]

/-- The invariant is kept by whatever adds nothing to the active map and records no
phase event. -/
theorem StartInv.ofWaned {w w' : World} (hi : StartInv w) (h : Waned w w') : StartInv w' where
  bound := fun q a ha => lt_of_lt_of_le (hi.bound q a (h.active q a ha)) h.nextAdapter
  own := fun q a x' ha hx' => by
    have ha0 := h.active q a ha
    obtain ⟨x, hx, hc⟩ := h.adapters a x' hx' (hi.bound q a ha0)
    have h1 : x.info = x'.info := congrArg (fun c => c.1) hc
    rw [← h1]
    exact hi.own q a x ha0 hx
  ready := fun q a x' ha hx' hn => by
    have ha0 := h.active q a ha
    obtain ⟨x, hx, hc⟩ := h.adapters a x' hx' (hi.bound q a ha0)
    have h1 : x.unloadNotified = x'.unloadNotified := congrArg (fun c => c.2.2) hc
    rw [h.phases q]
    exact hi.ready q a x ha0 hx (h1.trans hn)
  chain := fun q => by
    rw [h.phases q]
    exact hi.chain q

theorem Keeps.wanedToStart {α : Type} {m : M α} (h : Keeps wanedFrame m) :
    Keeps (invFrame StartInv) m :=
  Keeps.mono (fun _ _ hr hi => hi.ofWaned hr) h

theorem ApiRel.toWaned {strict : Bool} {w w' : World} (h : ApiRel strict w w') :
    Waned w w' where
  active := fun q a ha => by rw [← h.core.manager]; exact ha
  nextAdapter := le_of_eq h.core.nextAdapter.symm
  adapters := fun b x' hx' _ => by
    have h1 := h.core.adapters b
    rw [hx'] at h1
    rcases hx : Map.find? w.adapters b with _ | x
    · rw [hx] at h1
      cases h1
    · rw [hx] at h1
      simp only [Option.map_some', Option.some.injEq] at h1
      exact ⟨x, rfl, h1.symm⟩
  phases := phases_of_lifecycle h.core.events

theorem Keeps.apiToWaned {α : Type} {m : M α} (h : Keeps (apiFrame false) m) :
    Keeps wanedFrame m :=
  Keeps.mono (fun _ _ hr => ApiRel.toWaned hr) h

/-- A step that leaves the active map, the allocator, the adapters and the trace alone. -/
theorem keepsWaned_silent (f : World → World)
    (h1 : ∀ w, (f w).manager.activePlugins = w.manager.activePlugins)
    (h2 : ∀ w, (f w).nextAdapter = w.nextAdapter) (h3 : ∀ w, (f w).adapters = w.adapters)
    (h4 : ∀ w, (f w).trace = w.trace) : Keeps wanedFrame (M.modify f) := by
  refine Keeps.modify fun w => ?_
  exact ⟨fun q a ha => by rw [← h1]; exact ha, le_of_eq (h2 w).symm,
    fun b x' hx' _ => ⟨x', by rw [← h3]; exact hx', rfl⟩, fun q => by rw [h4]⟩

theorem keepsWaned_emit (e : Event) (he : ∀ q, e.isPhaseOf q = false) :
    Keeps wanedFrame (emit e) := by
  refine Keeps.modify fun w => ?_
  exact ⟨fun _ _ ha => ha, le_refl _, fun b x' hx' _ => ⟨x', hx', rfl⟩,
    fun q => phases_append_of_not q w.trace e (he q)⟩

theorem keepsWaned_eraseActive (path : String) :
    Keeps wanedFrame (M.modify fun w => { w with manager := { w.manager with
      activePlugins := Map.erase w.manager.activePlugins path } }) := by
  refine Keeps.modify fun w => ?_
  refine ⟨fun q a ha => ?_, le_refl _, fun b x' hx' _ => ⟨x', hx', rfl⟩, fun q => rfl⟩
  simp only [Map.find?_erase] at ha
  split at ha
  · cases ha
  · exact ha

theorem keepsWaned_delete (b : AdapterPtr) : Keeps wanedFrame (PluginAdapter.delete b) := by
  have herase : Keeps wanedFrame
      (M.modify fun w => { w with adapters := Map.erase w.adapters b }) := by
    refine Keeps.modify fun w => ?_
    refine ⟨fun _ _ ha => ha, le_refl _, fun c x' hx' _ => ?_, fun q => rfl⟩
    simp only [Map.find?_erase] at hx'
    split at hx'
    · cases hx'
    · exact ⟨x', hx', rfl⟩
  unfold PluginAdapter.delete
  repeat (first
    | exact Keeps.pure _
    | exact Keeps.derefAdapter _
    | exact keepsWaned_emit _ (fun _ => rfl)
    | exact herase
    | apply Keeps.bind
    | intro _
    | split
    | dsimp only)

theorem keepsWaned_loader_unloadPlugin (info : PluginInfo) :
    Keeps wanedFrame (PluginLoader.unloadPlugin info) := by
  unfold PluginLoader.unloadPlugin
  repeat (first
    | exact Keeps.pure _ | exact Keeps.get
    | exact keepsWaned_emit _ (fun _ => rfl)
    | exact keepsWaned_silent _ (fun _ => rfl) (fun _ => rfl) (fun _ => rfl) (fun _ => rfl)
    | apply Keeps.bind
    | intro _
    | split
    | dsimp only)

theorem keepsWaned_processUnload (adapter : AdapterPtr) :
    Keeps wanedFrame (PluginManager.processUnload adapter) := by
  unfold PluginManager.processUnload
  repeat (first
    | exact Keeps.pure _ | exact Keeps.raise _ | exact Keeps.get
    | exact Keeps.derefAdapter _
    | exact Keeps.apiToWaned (keeps_unloadPlugin _)
    | exact keepsWaned_delete _
    | exact keepsWaned_loader_unloadPlugin _
    | exact keepsWaned_eraseActive _
    | apply Keeps.bind
    | intro _
    | split
    | dsimp only)

theorem keepsWaned_new (info : PluginInfo) : Keeps wanedFrame (PluginAdapter.new info) := by
  constructor
  intro w
  refine ⟨fun _ _ ha => ha, Nat.le_succ _, fun b x' hx' hlt => ?_, fun q => rfl⟩
  have hne : w.nextAdapter ≠ b := fun h => absurd hlt (by rw [h]; exact lt_irrefl _)
  simp only [PluginAdapter.new, Map.find?_insert, if_neg hne] at hx'
  exact ⟨x', hx', rfl⟩

/-! ## `startMonitoring` is not called twice in a row: the manager -/

theorem NotStarted.afterEvent {q : String} {t : List Event} (h : NotStarted (phases q t))
    (e : Event) (he : e.isStart = false) : NotStarted (phases q (t ++ [e])) := by
  by_cases hq : e.isPhaseOf q = true
  · rw [phases_append_of q t e hq]
    exact NotStarted.append _ e he
  · rw [phases_append_of_not q t e (by simpa using hq)]
    exact h

theorem NoDoubleStart.afterNonStart {t : List Event} (h : NoDoubleStart t) (e : Event)
    (he : e.isStart = false) : NoDoubleStart (t ++ [e]) := by
  intro q
  by_cases hq : e.isPhaseOf q = true
  · rw [phases_append_of q t e hq]
    exact chain_append_of_notStart _ e (h q) he
  · rw [phases_append_of_not q t e (by simpa using hq)]
    exact h q

/-- Recording an event that is not a `startMonitoring` keeps the invariant. -/
theorem StartInv.recorded {w : World} (hi : StartInv w) (e : Event) (he : e.isStart = false) :
    StartInv { w with trace := w.trace ++ [e] } where
  bound := hi.bound
  own := hi.own
  ready := fun q a x ha hx hn => (hi.ready q a x ha hx hn).afterEvent e he
  chain := hi.chain.afterNonStart e he

theorem keepsStart_emit (e : Event) (he : e.isStart = false) :
    Keeps (invFrame StartInv) (emit e) :=
  Keeps.modify fun _ hi => hi.recorded e he

theorem FreshStart.stillFresh {a : AdapterPtr} {info : PluginInfo} {w w' : World}
    (hi : FreshStart a info w) (h : Waned w w') : FreshStart a info w' where
  inv := hi.inv.ofWaned h
  lt := lt_of_lt_of_le hi.lt h.nextAdapter
  unused := fun q hq => hi.unused q (h.active q a hq)
  fresh := fun x' hx' => by
    obtain ⟨x, hx, hc⟩ := h.adapters a x' hx' hi.lt
    obtain ⟨h1, h2⟩ := hi.fresh x hx
    have e1 : x.info = x'.info := congrArg (fun c => c.1) hc
    have e2 : x.unloadNotified = x'.unloadNotified := congrArg (fun c => c.2.2) hc
    exact ⟨e1 ▸ h1, e2 ▸ h2⟩

theorem Keeps.wanedToFreshStart {a : AdapterPtr} {info : PluginInfo} {α : Type} {m : M α}
    (h : Keeps wanedFrame m) : Keeps (invFrame (FreshStart a info)) m :=
  Keeps.mono (fun _ _ hr hi => hi.stillFresh hr) h

theorem keepsFreshStart_emit (a : AdapterPtr) (info : PluginInfo) (e : Event)
    (he : e.isStart = false) : Keeps (invFrame (FreshStart a info)) (emit e) :=
  Keeps.modify fun _ hi => ⟨hi.inv.recorded e he, hi.lt, hi.unused, hi.fresh⟩

/-- The loader keeps the invariant of a fresh adapter. -/
theorem keepsFreshStart_loader_loadPlugin (a : AdapterPtr) (info : PluginInfo)
    (beh : PluginBehaviour) (info0 : PluginInfo) (manager : AdapterPtr) :
    Keeps (invFrame (FreshStart a info)) (PluginLoader.loadPlugin beh info0 manager) := by
  unfold PluginLoader.loadPlugin
  repeat (first
    | exact Keeps.pure _ | exact Keeps.raise _ | exact Keeps.get
    | exact keepsFreshStart_emit _ _ _ rfl
    | exact Keeps.wanedToFreshStart
        (keepsWaned_silent _ (fun _ => rfl) (fun _ => rfl) (fun _ => rfl) (fun _ => rfl))
    | exact Keeps.wanedToFreshStart (Keeps.apiToWaned (keeps_runPlugin_any _ _))
    | apply Keeps.bind
    | apply Keeps.tryCatch
    | intro _
    | split
    | dsimp only)

/-- When the loader returns, the last phase event of the library is the construction of
the object. -/
theorem loader_loadPlugin_notStarted (beh : PluginBehaviour) (info : PluginInfo)
    (manager : AdapterPtr) (w : World) (r : Option PluginPtr) (w' : World)
    (hrun : PluginLoader.loadPlugin beh info manager w = (Except.ok r, w')) :
    NotStarted (phases info.path w'.trace) := by
  unfold PluginLoader.loadPlugin at hrun
  rcases hc : beh.instantiatePlugin info.path with _ | _ | code
  · simp only [hc, M.raise] at hrun
    cases hrun
  · simp only [hc, M.bind_run, emit, M.modify, M.raise] at hrun
    cases hrun
  · simp only [hc, M.bind_run, emit, M.modify] at hrun
    rcases hg : PluginAdapter.runPlugin manager code
      { w with trace := w.trace ++ [Event.instantiatePlugin info.path] } with ⟨res, w1⟩
    have hk : ApiRel false _ w1 := (keeps_runPlugin_any manager code).of_run hg
    have hph : NotStarted (phases info.path w1.trace) := by
      rw [phases_of_lifecycle hk.core.events info.path,
        phases_append_of _ _ _ (by simp [Event.isPhaseOf])]
      exact NotStarted.append _ _ rfl
    unfold M.tryCatch at hrun
    rw [hg] at hrun
    cases res with
    | error e =>
        by_cases he : e.isException = true
        · simp only [he, if_true, M.bind_run, emit, M.modify, M.raise] at hrun
          cases hrun
        · simp only [he] at hrun
          cases hrun
    | ok made =>
        cases made with
        | true =>
            simp only [M.bind_run, M.modify, M.get, if_true, M.pure_run] at hrun
            cases hrun
            exact hph
        | false =>
            simp only [M.bind_run, M.modify, Bool.false_eq_true, if_false, M.pure_run] at hrun
            cases hrun
            exact hph

/-- The call of `startMonitoring` on an adapter of the active map whose library has no
`startMonitoring` as its last phase event keeps the invariant. -/
theorem callStartMonitoring_start (beh : PluginBehaviour) (self : AdapterPtr) (q : String)
    (w : World) (hi : StartInv w) (ha : Map.find? w.manager.activePlugins q = some self)
    (hready : NotStarted (phases q w.trace)) :
    StartInv (PluginAdapter.callStartMonitoring beh self w).2 := by
  unfold PluginAdapter.callStartMonitoring PluginAdapter.derefPlugin
  simp only [M.bind_run, updateAdapter, derefAdapter]
  rcases hx : Map.find? w.adapters self with _ | x
  · exact hi
  · simp only [Map.find?_insert, if_true]
    have hpath : x.info.path = q := hi.own q self x ha hx
    have h1 : StartInv { w with
        adapters :=
          Map.insert w.adapters self { x with unloadNotified := false } } :=
      { bound := hi.bound
        own := fun q' a' x' ha' hx' => by
          simp only [Map.find?_insert] at hx'
          split at hx'
          · rename_i heq
            cases hx'
            subst heq
            exact hi.own q' self x ha' hx
          · exact hi.own q' a' x' ha' hx'
        ready := fun q' a' x' ha' hx' hn => by
          simp only [Map.find?_insert] at hx'
          split at hx'
          · cases hx'
            cases hn
          · exact hi.ready q' a' x' ha' hx' hn
        chain := hi.chain }
    by_cases hp : x.plugin.isNone = true
    · simp only [hp, if_true, M.raise]
      exact h1
    · simp only [hp, Bool.false_eq_true, if_false, M.pure_run, M.bind_run, emit, M.modify]
      have h2 : StartInv { w with
          adapters :=
            Map.insert w.adapters self { x with unloadNotified := false },
          trace := w.trace ++ [Event.startMonitoring x.info.path] } :=
        { bound := hi.bound
          own := h1.own
          ready := fun q' a' x' ha' hx' hn => by
            have hx0 := hx'
            simp only [Map.find?_insert] at hx'
            split at hx'
            · cases hx'
              cases hn
            · rename_i hne
              have hq : q ≠ q' := by
                intro heq
                subst heq
                rw [ha] at ha'
                cases ha'
                exact hne rfl
              have hnot : (Event.startMonitoring x.info.path).isPhaseOf q' = false := by
                simp [Event.isPhaseOf, hpath, hq]
              show NotStarted (phases q' (w.trace ++ [Event.startMonitoring x.info.path]))
              rw [phases_append_of_not q' _ _ hnot]
              exact hi.ready q' a' x' ha' hx' hn
          chain := fun q' => by
            show List.Chain' _ (phases q' (w.trace ++ [Event.startMonitoring x.info.path]))
            by_cases hq : q = q'
            · subst hq
              rw [phases_append_of q _ _ (by simp [Event.isPhaseOf, hpath])]
              exact chain_append_of_notStarted _ _ (hi.chain q) hready
            · rw [phases_append_of_not q' _ _ (by simp [Event.isPhaseOf, hpath, hq])]
              exact hi.chain q' }
      have hk : Keeps (invFrame StartInv)
          (M.tryCatch (PluginAdapter.runPlugin self (beh.startMonitoring x.info.path))
            Err.isException (fun _ => PluginAdapter.unloadPlugin self)) :=
        Keeps.tryCatch (Keeps.wanedToStart (Keeps.apiToWaned (keeps_runPlugin_any _ _)))
          (fun _ => Keeps.wanedToStart (Keeps.apiToWaned (keeps_unloadPlugin _)))
      exact hk.run _ h2

/-! ## `startMonitoring` is not called twice in a row: `loadPlugin` and the unload notice -/

/-- The call `pluginLoaded(nullptr)` on an adapter of the active map keeps the
invariant. -/
theorem pluginLoaded_none_start (beh : PluginBehaviour) (self : AdapterPtr) (q : String)
    (w : World) (hi : StartInv w) (ha : Map.find? w.manager.activePlugins q = some self) :
    StartInv (PluginAdapter.pluginLoaded beh self none w).2 := by
  unfold PluginAdapter.pluginLoaded
  simp only [M.bind_run, derefAdapter]
  rcases hx : Map.find? w.adapters self with _ | x
  · exact hi
  · simp only
    by_cases hn : x.unloadNotified = true
    · simp only [hn, Bool.not_true, Bool.false_eq_true, if_false]
      exact callStartMonitoring_start beh self q w hi ha (hi.ready q self x ha hx hn)
    · have hn' : x.unloadNotified = false := by simpa using hn
      simp only [hn', Bool.not_false, if_true, M.pure_run]
      exact hi

/-- What follows the recording of `stopMonitoring` in `notifyPluginShouldUnload`. -/
theorem keepsWaned_afterStop (beh : PluginBehaviour) (self : AdapterPtr)
    (path service : String) :
    Keeps wanedFrame (do
      let result ← M.tryCatch (PluginAdapter.runPlugin self (beh.stopMonitoring path service))
        Err.isException (fun _ => pure UnloadResult.UNLOAD_OK)
      if result = UnloadResult.UNLOAD_OK then
        PluginAdapter.unloadPlugin self
      else
        pure ()) := by
  repeat (first
    | exact Keeps.pure _
    | exact Keeps.apiToWaned (keeps_runPlugin_any _ _)
    | exact Keeps.apiToWaned (keeps_unloadPlugin _)
    | apply Keeps.bind
    | apply Keeps.tryCatch
    | intro _
    | split
    | dsimp only)

/-- The method `PluginAdapter::notifyPluginShouldUnload` keeps the invariant: the flag is
set together with the recording of `stopMonitoring`. -/
theorem keepsStart_adapter_notifyPluginShouldUnload (beh : PluginBehaviour)
    (self : AdapterPtr) (service : String) :
    Keeps (invFrame StartInv) (PluginAdapter.notifyPluginShouldUnload beh self service) := by
  constructor
  intro w hi
  unfold PluginAdapter.notifyPluginShouldUnload
  simp only [M.bind_run, derefAdapter]
  rcases hx : Map.find? w.adapters self with _ | x
  · exact hi
  · simp only
    by_cases hp : x.plugin.isNone = true
    · simp only [hp, if_true, M.pure_run]
      exact hi
    · simp only [hp, Bool.false_eq_true, if_false, M.bind_run, updateAdapter, hx, emit,
        M.modify]
      have h1 : StartInv { w with
          adapters :=
            Map.insert w.adapters self { x with unloadNotified := true },
          trace := w.trace ++ [Event.stopMonitoring x.info.path service] } :=
        { bound := hi.bound
          own := fun q' a' x' ha' hx' => by
            simp only [Map.find?_insert] at hx'
            split at hx'
            · rename_i heq
              cases hx'
              subst heq
              exact hi.own q' self x ha' hx
            · exact hi.own q' a' x' ha' hx'
          ready := fun q' a' x' ha' hx' hn => by
            show NotStarted (phases q' (w.trace ++ [Event.stopMonitoring x.info.path service]))
            simp only [Map.find?_insert] at hx'
            split at hx'
            · rename_i heq
              subst heq
              have hpath : x.info.path = q' := hi.own q' self x ha' hx
              rw [phases_append_of q' _ _ (by simp [Event.isPhaseOf, hpath])]
              exact NotStarted.append _ _ rfl
            · exact (hi.ready q' a' x' ha' hx' hn).afterEvent _ rfl
          chain := hi.chain.afterNonStart _ rfl }
      exact (Keeps.wanedToStart (keepsWaned_afterStop beh self x.info.path service)).run _ h1

/-- A fresh adapter that enters the active map under the path of its descriptor. -/
theorem FreshStart.entered {a : AdapterPtr} {info : PluginInfo} {w : World}
    (hi : FreshStart a info w) :
    StartInv { w with manager := { w.manager with
      activePlugins := Map.insert w.manager.activePlugins info.path a } } where
  bound := fun q b hb => by
    simp only [Map.find?_insert] at hb
    split at hb
    · cases hb
      exact hi.lt
    · exact hi.inv.bound q b hb
  own := fun q b x hb hx => by
    simp only [Map.find?_insert] at hb
    split at hb
    · rename_i heq
      cases hb
      rw [← heq, (hi.fresh x hx).1]
    · exact hi.inv.own q b x hb hx
  ready := fun q b x hb hx hn => by
    simp only [Map.find?_insert] at hb
    split at hb
    · cases hb
      rw [(hi.fresh x hx).2] at hn
      cases hn
    · exact hi.inv.ready q b x hb hx hn
  chain := hi.inv.chain

/-- The method `PluginManager::loadPlugin` keeps the invariant. -/
theorem keepsStart_loadPlugin (beh : PluginBehaviour) (info : PluginInfo) (service : String) :
    Keeps (invFrame StartInv) (PluginManager.loadPlugin beh info service) := by
  constructor
  intro w hi
  have h0 : StartInv { w with trace := w.trace ++ [Event.loadPlugin info.path service] } :=
    hi.recorded _ rfl
  unfold PluginManager.loadPlugin
  simp only [M.bind_run, emit, M.modify, M.get]
  rcases hact : Map.find? w.manager.activePlugins info.path with _ | adapter
  · simp only [PluginAdapter.new, M.bind_run]
    have hf : FreshStart w.nextAdapter info { w with
        trace := w.trace ++ [Event.loadPlugin info.path service],
        adapters :=
          Map.insert w.adapters w.nextAdapter { info := info },
        nextAdapter := w.nextAdapter + 1 } :=
      { inv := h0.ofWaned ((keepsWaned_new info).run _)
        lt := Nat.lt_succ_self _
        unused := fun q hq => absurd (hi.bound q _ hq) (lt_irrefl _)
        fresh := fun x hx => by
          simp only [Map.find?_insert, if_true, Option.some.injEq] at hx
          subst hx
          exact ⟨rfl, rfl⟩ }
    rcases hl : PluginLoader.loadPlugin beh info w.nextAdapter { w with
        trace := w.trace ++ [Event.loadPlugin info.path service],
        adapters :=
          Map.insert w.adapters w.nextAdapter { info := info },
        nextAdapter := w.nextAdapter + 1 } with ⟨res, w2⟩
    have hf2 : FreshStart w.nextAdapter info w2 := by
      have h := (keepsFreshStart_loader_loadPlugin w.nextAdapter info beh info
        w.nextAdapter).run _ hf
      rw [hl] at h
      exact h
    cases res with
    | error e => exact hf2.inv
    | ok plugin =>
        have hns := loader_loadPlugin_notStarted beh info w.nextAdapter _ plugin w2 hl
        cases plugin with
        | none =>
            simp only
            have hk : Keeps (invFrame StartInv) (PluginLoader.unloadPlugin info >>= fun _ =>
                PluginAdapter.delete w.nextAdapter) :=
              Keeps.wanedToStart (Keeps.bind (keepsWaned_loader_unloadPlugin _)
                (fun _ => keepsWaned_delete _))
            exact hk.run _ hf2.inv
        | some p =>
            simp only [M.bind_run, M.modify]
            have h3 := hf2.entered
            unfold PluginAdapter.pluginLoaded
            simp only [M.bind_run, updateAdapter]
            rcases hx : Map.find? w2.adapters w.nextAdapter with _ | x
            · exact h3
            · simp only
              have h4 : StartInv { w2 with
                  manager := { w2.manager with
                    activePlugins :=
                      Map.insert w2.manager.activePlugins info.path w.nextAdapter },
                  adapters :=
                    Map.insert w2.adapters w.nextAdapter
                      { x with plugin := some p, unloadNotified := true } } :=
                { bound := h3.bound
                  own := fun q' a' x' ha' hx' => by
                    simp only [Map.find?_insert] at hx'
                    split at hx'
                    · rename_i heq
                      cases hx'
                      subst heq
                      exact h3.own q' w.nextAdapter x ha' hx
                    · exact h3.own q' a' x' ha' hx'
                  ready := fun q' a' x' ha' hx' hn => by
                    simp only [Map.find?_insert] at hx'
                    split at hx'
                    · rename_i heq
                      subst heq
                      simp only [Map.find?_insert] at ha'
                      split at ha'
                      · rename_i hq
                        rw [← hq]
                        exact hns
                      · exact absurd ha' (hf2.unused q')
                    · exact h3.ready q' a' x' ha' hx' hn
                  chain := h3.chain }
              rcases hc : PluginAdapter.callStartMonitoring beh w.nextAdapter { w2 with
                  manager := { w2.manager with
                    activePlugins :=
                      Map.insert w2.manager.activePlugins info.path w.nextAdapter },
                  adapters :=
                    Map.insert w2.adapters w.nextAdapter
                      { x with plugin := some p, unloadNotified := true } } with ⟨r5, w5⟩
              have h5 : StartInv w5 := by
                have h := callStartMonitoring_start beh w.nextAdapter info.path _ h4
                  (by simp only [Map.find?_insert, if_true]) hns
                rw [hc] at h
                exact h
              cases r5 with
              | error e => exact h5
              | ok _ => exact (Keeps.wanedToStart (keepsWaned_processUnload _)).run _ h5
  · simp only [M.bind_run]
    rcases hc : PluginAdapter.pluginLoaded beh adapter none
      { w with trace := w.trace ++ [Event.loadPlugin info.path service] } with ⟨r1, w1⟩
    have h1 : StartInv w1 := by
      have h := pluginLoaded_none_start beh adapter info.path _ h0 hact
      rw [hc] at h
      exact h
    cases r1 with
    | error e => exact h1
    | ok _ => exact (Keeps.wanedToStart (keepsWaned_processUnload _)).run _ h1

/-! ## `startMonitoring` is not called twice in a row: the callbacks -/

theorem keepsStart_notifyPluginShouldUnload (beh : PluginBehaviour) (info : PluginInfo)
    (service : String) :
    Keeps (invFrame StartInv) (PluginManager.notifyPluginShouldUnload beh info service) := by
  unfold PluginManager.notifyPluginShouldUnload
  repeat (first
    | exact Keeps.pure _ | exact Keeps.raise _ | exact Keeps.get
    | exact keepsStart_emit _ rfl
    | exact keepsStart_adapter_notifyPluginShouldUnload _ _ _
    | exact Keeps.wanedToStart (keepsWaned_processUnload _)
    | apply Keeps.bind
    | intro _
    | split
    | dsimp only)

theorem keepsWaned_adapter_notifyLocaleChanged (beh : PluginBehaviour) (self : AdapterPtr)
    (locale : String) :
    Keeps wanedFrame (PluginAdapter.notifyLocaleChanged beh self locale) := by
  unfold PluginAdapter.notifyLocaleChanged
  repeat (first
    | exact Keeps.pure _ | exact Keeps.raise _ | exact Keeps.get
    | exact Keeps.derefAdapter _
    | exact keepsWaned_emit _ (fun _ => rfl)
    | exact Keeps.apiToWaned (keeps_runPlugin_any _ _)
    | exact Keeps.apiToWaned (keeps_unloadPlugin _)
    | apply Keeps.bind
    | apply Keeps.tryCatch
    | intro _
    | split
    | dsimp only)

theorem keepsWaned_notifyAdapters (beh : PluginBehaviour) (localeStr : String)
    (entries : List (String × AdapterPtr)) :
    Keeps wanedFrame (PluginManager.notifyAdapters beh localeStr entries) := by
  induction entries with
  | nil => exact Keeps.pure _
  | cons entry rest ih =>
      unfold PluginManager.notifyAdapters
      repeat (first
        | exact ih
        | exact keepsWaned_adapter_notifyLocaleChanged _ _ _
        | exact keepsWaned_processUnload _
        | apply Keeps.bind
        | intro _)

theorem keepsWaned_notifyLocaleChanged (beh : PluginBehaviour) (locale : JValue) :
    Keeps wanedFrame (PluginManager.notifyLocaleChanged beh locale) := by
  unfold PluginManager.notifyLocaleChanged
  repeat (first
    | exact Keeps.get
    | exact keepsWaned_notifyAdapters _ _ _
    | exact keepsWaned_silent _ (fun _ => rfl) (fun _ => rfl) (fun _ => rfl) (fun _ => rfl)
    | apply Keeps.bind
    | intro _
    | dsimp only)

theorem keepsWaned_update (f : ServiceMonitor → ServiceMonitor) :
    Keeps wanedFrame (ServiceMonitor.update f) :=
  keepsWaned_silent _ (fun _ => rfl) (fun _ => rfl) (fun _ => rfl) (fun _ => rfl)

theorem keepsWaned_startMonitor (plugins : List PluginInfo) :
    Keeps wanedFrame (ServiceMonitor.startMonitor plugins) := by
  unfold ServiceMonitor.startMonitor
  repeat (first
    | exact Keeps.pure _
    | exact keepsWaned_update _
    | exact Keeps.apiToWaned (keeps_subscribeToMethod _ _ _ _ _ _)
    | apply Keeps.bind
    | intro _
    | dsimp only)

theorem keepsWaned_addServices (services : List String) :
    Keeps wanedFrame (ServiceMonitor.addServices services) := by
  induction services with
  | nil => exact Keeps.pure _
  | cons service rest ih =>
      unfold ServiceMonitor.addServices
      repeat (first
        | exact Keeps.get
        | exact ih
        | exact keepsWaned_update _
        | exact Keeps.apiToWaned (keeps_subscribeToMethod _ _ _ _ _ _)
        | apply Keeps.bind
        | intro _
        | split
        | dsimp only)

theorem keepsWaned_addPlugins (plugins : List PluginInfo) :
    Keeps wanedFrame (ServiceMonitor.addPlugins plugins) := by
  induction plugins with
  | nil => exact Keeps.pure _
  | cons info rest ih =>
      unfold ServiceMonitor.addPlugins ServiceMonitor.addPlugin
      exact Keeps.bind (keepsWaned_addServices _) (fun _ => ih)

theorem keepsWaned_localeCallback (beh : PluginBehaviour) (previousValue value : JValue) :
    Keeps wanedFrame (ServiceMonitor.localeCallback beh previousValue value) := by
  unfold ServiceMonitor.localeCallback
  repeat (first
    | exact Keeps.pure _ | exact Keeps.get
    | exact keepsWaned_notifyLocaleChanged _ _
    | exact keepsWaned_addPlugins _
    | exact keepsWaned_update _
    | apply Keeps.bind
    | intro _
    | split
    | dsimp only)

theorem keepsWaned_dependenciesMet (services : List String) :
    Keeps wanedFrame (ServiceMonitor.dependenciesMet services) := by
  induction services with
  | nil => exact Keeps.pure _
  | cons service rest ih =>
      unfold ServiceMonitor.dependenciesMet ServiceMonitor.serviceStatusAt
      repeat (first
        | exact Keeps.pure _ | exact Keeps.get
        | exact ih
        | exact keepsWaned_update _
        | apply Keeps.bind
        | intro _
        | split
        | dsimp only)

theorem keepsStart_updateEach (beh : PluginBehaviour) (serviceName : String)
    (plugins : List PluginInfo) :
    Keeps (invFrame StartInv) (ServiceMonitor.updateEach beh serviceName plugins) := by
  induction plugins with
  | nil => exact Keeps.pure _
  | cons plugin rest ih =>
      unfold ServiceMonitor.updateEach
      repeat (first
        | exact ih
        | exact Keeps.wanedToStart (keepsWaned_dependenciesMet _)
        | exact keepsStart_loadPlugin _ _ _
        | exact keepsStart_notifyPluginShouldUnload _ _ _
        | apply Keeps.bind
        | intro _
        | split
        | dsimp only)

theorem keepsStart_serviceStatusCallback (beh : PluginBehaviour)
    (previousValue value : JValue) :
    Keeps (invFrame StartInv)
      (ServiceMonitor.serviceStatusCallback beh previousValue value) := by
  unfold ServiceMonitor.serviceStatusCallback ServiceMonitor.updatePlugins
  repeat (first
    | exact Keeps.pure _ | exact Keeps.get | exact Keeps.raise _
    | exact keepsStart_updateEach _ _ _
    | exact Keeps.wanedToStart (keepsWaned_update _)
    | apply Keeps.bind
    | intro _
    | split
    | dsimp only)

theorem keepsStart_invokeSubscribeCallback (beh : PluginBehaviour)
    (plugin : Option AdapterPtr) (callback : SubscribeCallback)
    (previousValue value : JValue) :
    Keeps (invFrame StartInv)
      (LunaService.invokeSubscribeCallback beh plugin callback previousValue value) := by
  unfold LunaService.invokeSubscribeCallback
  repeat (first
    | exact Keeps.raise _
    | exact Keeps.wanedToStart (keepsWaned_localeCallback _ _ _)
    | exact keepsStart_serviceStatusCallback _ _ _
    | exact Keeps.wanedToStart (Keeps.apiToWaned (keeps_runPlugin_any _ _))
    | split)

theorem keepsWaned_invokeLunaCallback (beh : PluginBehaviour) (plugin : Option AdapterPtr)
    (callback : PluginCallback) (value : JValue) :
    Keeps wanedFrame (LunaService.invokeLunaCallback beh plugin callback value) := by
  unfold LunaService.invokeLunaCallback
  repeat (first
    | exact Keeps.raise _
    | exact Keeps.apiToWaned (keeps_runPlugin_any _ _)
    | split)

theorem keepsWaned_swapPreviousValue (info : SubscribeHandle) (value : JValue) :
    Keeps wanedFrame (LunaService.swapPreviousValue info value) := by
  constructor
  intro w
  unfold LunaService.swapPreviousValue
  simp only [M.bind_run, derefSubscription]
  rcases hrec : Map.find? w.service.subscriptionInfos info with _ | r
  · exact wanedFrame.refl w
  · simp only [M.bind_run, updateSubscription, hrec, emit, M.modify, M.pure_run]
    exact ⟨fun _ _ ha => ha, le_refl _, fun b x' hx' _ => ⟨x', hx', rfl⟩,
      fun q => phases_append_of_not q w.trace _ rfl⟩

theorem keepsStart_callResult (beh : PluginBehaviour) (info : SubscribeHandle)
    (message : Message) :
    Keeps (invFrame StartInv) (LunaService.callResult beh info message) := by
  unfold LunaService.callResult
  repeat (first
    | exact Keeps.pure _
    | exact Keeps.derefSubscription _
    | exact Keeps.wanedToStart (keepsWaned_swapPreviousValue _ _)
    | exact Keeps.wanedToStart (Keeps.apiToWaned (keeps_cancelSubscribe _))
    | exact keepsStart_emit _ rfl
    | exact Keeps.wanedToStart (keepsWaned_invokeLunaCallback _ _ _ _)
    | exact keepsStart_invokeSubscribeCallback _ _ _ _ _
    | exact Keeps.wanedToStart (keepsWaned_processUnload _)
    | apply Keeps.bind
    | intro _
    | split
    | dsimp only)

theorem keepsWaned_timeoutCallback (beh : PluginBehaviour) (self : AdapterPtr)
    (timeoutId : String) :
    Keeps wanedFrame (PluginAdapter.timeoutCallback beh self timeoutId) := by
  unfold PluginAdapter.timeoutCallback
  repeat (first
    | exact Keeps.pure _ | exact Keeps.raise _
    | exact Keeps.derefAdapter _
    | exact keepsWaned_emit _ (fun _ => rfl)
    | exact Keeps.apiToWaned (keeps_cancelTimeout _ _)
    | exact Keeps.apiToWaned (keeps_runPlugin_any _ _)
    | exact Keeps.apiToWaned (keeps_unloadPlugin _)
    | exact keepsWaned_processUnload _
    | apply Keeps.bind
    | apply Keeps.tryCatch
    | intro _
    | split
    | dsimp only)

theorem keepsWaned_methodHandler (beh : PluginBehaviour) (categoryName methodName : String)
    (payload : JValue) :
    Keeps wanedFrame (LunaService.methodHandler beh categoryName methodName payload) := by
  unfold LunaService.methodHandler
  repeat (first
    | exact Keeps.pure _ | exact Keeps.raise _ | exact Keeps.get
    | exact keepsWaned_emit _ (fun _ => rfl)
    | exact Keeps.apiToWaned (keeps_runPlugin_any _ _)
    | exact keepsWaned_processUnload _
    | apply Keeps.bind
    | intro _
    | split
    | dsimp only)

/-- Every handler of the event loop keeps the invariant, whether it returns or throws. -/
theorem keepsStart_handle (beh : PluginBehaviour) (s : Stimulus) :
    Keeps (invFrame StartInv) (s.handle beh) := by
  cases s with
  | startMonitor plugins => exact Keeps.wanedToStart (keepsWaned_startMonitor plugins)
  | reply info message =>
      unfold Stimulus.handle LunaService.callResultHandler
      repeat (first
        | exact Keeps.pure _ | exact Keeps.get
        | exact Keeps.derefSubscription _
        | exact keepsStart_callResult _ _ _
        | apply Keeps.bind
        | intro _
        | split)
  | timeout adapter timeoutId =>
      unfold Stimulus.handle
      exact Keeps.bind (Keeps.wanedToStart (keepsWaned_timeoutCallback _ _ _))
        (fun _ => Keeps.pure _)
  | request category method payload =>
      unfold Stimulus.handle
      exact Keeps.bind (Keeps.wanedToStart (keepsWaned_methodHandler _ _ _ _))
        (fun _ => Keeps.pure _)

theorem runAll_startInv (stimuli : List (PluginBehaviour × Stimulus)) (w : World)
    (hinv : StartInv w) : StartInv (runAll stimuli w) := by
  induction stimuli generalizing w with
  | nil => exact hinv
  | cons s rest ih =>
      obtain ⟨beh, s⟩ := s
      exact ih _ ((keepsStart_handle beh s).run w hinv)

theorem StartInv.atInit (servicePath : String) (bus : List BusOutcome) :
    StartInv (World.init servicePath bus) where
  bound := fun q a ha => by cases ha
  own := fun q a x ha _ => by cases ha
  ready := fun q a x ha _ _ => by cases ha
  chain := fun q => List.chain'_nil

/-! ## `loadPlugin` on a descriptor that is active -/

theorem Event.inner_isInstantiate (q : String) : Event.Inner (Event.isInstantiate q) :=
  ⟨fun e he => (by cases e <;> first | rfl | cases he), fun _ => rfl, fun _ => rfl⟩

theorem Event.inner_isStartMonitoring (q : String) :
    Event.Inner (Event.isStartMonitoring q) :=
  ⟨fun e he => (by cases e <;> first | rfl | cases he), fun _ => rfl, fun _ => rfl⟩

theorem ApiRel.toMade {strict : Bool} {w w' : World} (h : ApiRel strict w w') :
    NothingMade w w' where
  active := fun q a ha => by rw [← h.core.manager]; exact ha
  nextAdapter := h.core.nextAdapter
  nextPlugin := h.core.nextPlugin
  made := fun q => by
    unfold instantiations
    rw [← filter_lifecycle _ (Event.inner_isInstantiate q).busOp w'.trace,
      ← filter_lifecycle _ (Event.inner_isInstantiate q).busOp w.trace, h.core.events]

theorem Keeps.apiToMade {α : Type} {m : M α} (h : Keeps (apiFrame false) m) :
    Keeps madeFrame m :=
  Keeps.mono (fun _ _ hr => ApiRel.toMade hr) h

theorem keepsMade_emit (e : Event) (he : ∀ q, e.isInstantiate q = false) :
    Keeps madeFrame (emit e) := by
  refine Keeps.modify fun w => ?_
  refine ⟨fun _ _ ha => ha, rfl, rfl, fun q => ?_⟩
  show ((w.trace ++ [e]).filter (Event.isInstantiate q)).length = _
  simp [List.filter_append, he q, instantiations]

theorem keepsMade_updateAdapter (a : AdapterPtr) (f : PluginAdapter → PluginAdapter) :
    Keeps madeFrame (updateAdapter a f) := by
  constructor
  intro w
  unfold updateAdapter
  split
  · exact ⟨fun _ _ ha => ha, rfl, rfl, fun _ => rfl⟩
  · exact madeFrame.refl w

theorem keepsMade_eraseActive (path : String) :
    Keeps madeFrame (M.modify fun w => { w with manager := { w.manager with
      activePlugins := Map.erase w.manager.activePlugins path } }) := by
  refine Keeps.modify fun w => ?_
  refine ⟨fun q a ha => ?_, rfl, rfl, fun _ => rfl⟩
  simp only [Map.find?_erase] at ha
  split at ha
  · cases ha
  · exact ha

theorem keepsMade_silent (f : World → World)
    (h1 : ∀ w, (f w).manager.activePlugins = w.manager.activePlugins)
    (h2 : ∀ w, (f w).nextAdapter = w.nextAdapter) (h3 : ∀ w, (f w).nextPlugin = w.nextPlugin)
    (h4 : ∀ w, (f w).trace = w.trace) : Keeps madeFrame (M.modify f) := by
  refine Keeps.modify fun w => ?_
  exact ⟨fun q a ha => by rw [← h1]; exact ha, h2 w, h3 w, fun q => by rw [h4]⟩

theorem keepsMade_processUnload (adapter : AdapterPtr) :
    Keeps madeFrame (PluginManager.processUnload adapter) := by
  unfold PluginManager.processUnload PluginAdapter.delete PluginLoader.unloadPlugin
  repeat (first
    | exact Keeps.pure _ | exact Keeps.raise _ | exact Keeps.get
    | exact Keeps.derefAdapter _
    | exact Keeps.apiToMade (keeps_unloadPlugin _)
    | exact keepsMade_emit _ (fun _ => rfl)
    | exact keepsMade_eraseActive _
    | exact keepsMade_silent _ (fun _ => rfl) (fun _ => rfl) (fun _ => rfl) (fun _ => rfl)
    | apply Keeps.bind
    | intro _
    | split
    | dsimp only)

theorem keepsMade_pluginLoaded_none (beh : PluginBehaviour) (self : AdapterPtr) :
    Keeps madeFrame (PluginAdapter.pluginLoaded beh self none) := by
  unfold PluginAdapter.pluginLoaded PluginAdapter.callStartMonitoring
    PluginAdapter.derefPlugin
  repeat (first
    | exact Keeps.pure _ | exact Keeps.raise _ | exact Keeps.get
    | exact Keeps.derefAdapter _
    | exact keepsMade_updateAdapter _ _
    | exact keepsMade_emit _ (fun _ => rfl)
    | exact Keeps.apiToMade (keeps_runPlugin_any _ _)
    | exact Keeps.apiToMade (keeps_unloadPlugin _)
    | apply Keeps.bind
    | apply Keeps.tryCatch
    | intro _
    | split
    | dsimp only)

/-- The method `PluginManager::loadPlugin` on a descriptor that is active makes no
adapter and no plugin object, and adds no entry to the active map. -/
theorem loadPlugin_active_made (beh : PluginBehaviour) (info : PluginInfo) (service : String)
    (w : World) (adapter : AdapterPtr)
    (hact : Map.find? w.manager.activePlugins info.path = some adapter) :
    NothingMade w ((PluginManager.loadPlugin beh info service).exec w) := by
  unfold PluginManager.loadPlugin M.exec
  simp only [M.bind_run, emit, M.modify, M.get, hact]
  have hk : Keeps madeFrame (PluginAdapter.pluginLoaded beh adapter none >>= fun _ =>
      PluginManager.processUnload adapter) :=
    Keeps.bind (keepsMade_pluginLoaded_none _ _) (fun _ => keepsMade_processUnload _)
  have h0 : NothingMade w { w with trace := w.trace ++ [Event.loadPlugin info.path service] } :=
    (keepsMade_emit (Event.loadPlugin info.path service) (fun _ => rfl)).run w
  exact madeFrame.trans _ _ _ h0 (hk.run _)

/-- The method `PluginManager::loadPlugin` on a descriptor that is active calls
`startMonitoring` once if the adapter is notified, and not at all if it is not. -/
theorem loadPlugin_active_starts (beh : PluginBehaviour) (info : PluginInfo)
    (service : String) (w : World) (adapter : AdapterPtr) (x : PluginAdapter)
    (hact : Map.find? w.manager.activePlugins info.path = some adapter)
    (hx : Map.find? w.adapters adapter = some x) (hp : x.plugin.isSome = true)
    (hpath : x.info.path = info.path) :
    startMonitorings info.path ((PluginManager.loadPlugin beh info service).exec w).trace =
      startMonitorings info.path w.trace + (if x.unloadNotified = true then 1 else 0) := by
  have hpn : x.plugin.isNone = false := by
    cases h : x.plugin with
    | none => rw [h] at hp; cases hp
    | some _ => rfl
  have htail : Keeps (traceFrame (Event.isStartMonitoring info.path))
      (PluginManager.processUnload adapter) :=
    keepsTrace_processUnload (Event.inner_isStartMonitoring _) _
  unfold PluginManager.loadPlugin M.exec PluginAdapter.pluginLoaded
  simp only [M.bind_run, emit, M.modify, M.get, hact, derefAdapter, hx]
  by_cases hn : x.unloadNotified = true
  · simp only [hn, Bool.not_true, Bool.false_eq_true, if_false, if_true]
    unfold PluginAdapter.callStartMonitoring PluginAdapter.derefPlugin
    simp only [M.bind_run, updateAdapter, hx, derefAdapter, Map.find?_insert, if_true, hpn,
      Bool.false_eq_true, if_false, M.pure_run, emit, M.modify]
    have hk : Keeps (traceFrame (Event.isStartMonitoring info.path))
        (M.tryCatch (PluginAdapter.runPlugin adapter (beh.startMonitoring x.info.path))
          Err.isException (fun _ => PluginAdapter.unloadPlugin adapter) >>= fun _ =>
          PluginManager.processUnload adapter) :=
      Keeps.bind (Keeps.tryCatch
        (Keeps.apiToTrace (Event.inner_isStartMonitoring _) (keeps_runPlugin_any _ _))
        (fun _ => Keeps.apiToTrace (Event.inner_isStartMonitoring _) (keeps_unloadPlugin _)))
        (fun _ => htail)
    have h1 := hk.run { w with
      adapters :=
        Map.insert w.adapters adapter { x with unloadNotified := false },
      trace := w.trace ++ [Event.loadPlugin info.path service] ++
        [Event.startMonitoring x.info.path] }
    simp only [M.bind_run] at h1
    unfold startMonitorings
    rw [show ∀ w1 w2 : World, (traceFrame (Event.isStartMonitoring info.path)).rel w1 w2 =
      (w2.trace.filter (Event.isStartMonitoring info.path) =
        w1.trace.filter (Event.isStartMonitoring info.path)) from fun _ _ => rfl] at h1
    rw [h1]
    simp [List.filter_append, Event.isStartMonitoring, hpath]
  · have hn' : x.unloadNotified = false := by simpa using hn
    simp only [hn', Bool.not_false, if_true, M.pure_run, Bool.false_eq_true, if_false,
      Nat.add_zero]
    have h1 := htail.run { w with trace := w.trace ++ [Event.loadPlugin info.path service] }
    unfold startMonitorings
    rw [show ∀ w1 w2 : World, (traceFrame (Event.isStartMonitoring info.path)).rel w1 w2 =
      (w2.trace.filter (Event.isStartMonitoring info.path) =
        w1.trace.filter (Event.isStartMonitoring info.path)) from fun _ _ => rfl] at h1
    rw [h1]
    simp [List.filter_append, Event.isStartMonitoring]

/-- The method `PluginManager::loadPlugin` on a descriptor whose adapter is monitoring
and has no unload pending returns and changes nothing; only the ghost event of the call
is recorded. -/
theorem loadPlugin_monitoring_noop (beh : PluginBehaviour) (info : PluginInfo)
    (service : String) (w : World) (adapter : AdapterPtr) (x : PluginAdapter)
    (hact : Map.find? w.manager.activePlugins info.path = some adapter)
    (hx : Map.find? w.adapters adapter = some x)
    (hn : x.unloadNotified = false) (hu : x.needUnload = false) :
    PluginManager.loadPlugin beh info service w =
      (Except.ok (), { w with trace := w.trace ++ [Event.loadPlugin info.path service] }) := by
  unfold PluginManager.loadPlugin PluginAdapter.pluginLoaded PluginManager.processUnload
  simp only [M.bind_run, emit, M.modify, M.get, hact, derefAdapter, hx, hn, hu,
    Bool.not_false, if_true, M.pure_run]

/-- Claim C22: `PluginManager::loadPlugin` on a descriptor that is already active, whose
adapter is live and carries a plugin object.  It never makes a second adapter or a second
plugin object: the allocators stand where they stood, no `instantiatePlugin` is recorded
and no entry is added to the active map, which has one entry per path.  It calls
`startMonitoring` on the existing object once if the flag `unloadNotified` of the adapter
was set, and not at all if it was not.  On an adapter that is monitoring, with no unload
pending, it returns and changes nothing but the ghost event of the call.  And over all
sequences of events from the start of the process, whether the handlers return or throw,
no two `startMonitoring` calls are adjacent among the phase events of a library: between
two of them there is a `stopMonitoring`, or the construction of a new object. -/
theorem loadPlugin_active_restarts_once (beh : PluginBehaviour) (info : PluginInfo)
    (service : String) (w : World) (adapter : AdapterPtr) (x : PluginAdapter)
    (hact : Map.find? w.manager.activePlugins info.path = some adapter)
    (hx : Map.find? w.adapters adapter = some x) (hp : x.plugin.isSome = true)
    (hpath : x.info.path = info.path) :
    NothingMade w ((PluginManager.loadPlugin beh info service).exec w) ∧
    startMonitorings info.path ((PluginManager.loadPlugin beh info service).exec w).trace =
      startMonitorings info.path w.trace + (if x.unloadNotified = true then 1 else 0) ∧
    (x.unloadNotified = false → x.needUnload = false →
      PluginManager.loadPlugin beh info service w =
        (Except.ok (),
          { w with trace := w.trace ++ [Event.loadPlugin info.path service] })) ∧
    ∀ (stimuli : List (PluginBehaviour × Stimulus)) (servicePath : String)
      (bus : List BusOutcome),
      NoDoubleStart (runAll stimuli (World.init servicePath bus)).trace :=
  ⟨loadPlugin_active_made beh info service w adapter hact,
    loadPlugin_active_starts beh info service w adapter x hact hx hp hpath,
    loadPlugin_monitoring_noop beh info service w adapter x hact hx,
    fun stimuli servicePath bus =>
      (runAll_startInv stimuli _ (StartInv.atInit servicePath bus)).chain⟩

theorem loadPlugin_active_restarts_once_witness :
    Map.find? demoWorldNotified.manager.activePlugins demoInfoA.path = some 1 ∧
    startMonitorings demoInfoA.path
        ((PluginManager.loadPlugin demoBehaviour demoInfoA "svcA").exec demoWorldNotified).trace =
      startMonitorings demoInfoA.path demoWorldNotified.trace + 1 ∧
    ((PluginManager.loadPlugin demoBehaviour demoInfoA "svcA").exec
      demoWorldNotified).nextAdapter = demoWorldNotified.nextAdapter :=
  ⟨rfl,
    (loadPlugin_active_restarts_once demoBehaviour demoInfoA "svcA" demoWorldNotified 1
      demoAdapterNotified rfl rfl rfl rfl).2.1,
    (loadPlugin_active_restarts_once demoBehaviour demoInfoA "svcA" demoWorldNotified 1
      demoAdapterNotified rfl rfl rfl rfl).1.nextAdapter⟩

end EventMonitor
